import Mathlib

/-!
# ginko: a BinkP mailer

A shallow embedding of the frame codec (`frame/io.go`, `frame/frame.go`) and of
the FTN address package (`ftn/address.go`), with the properties checked
against them.

Conventions of the embedding.

* A Go `byte` is a natural number below 256; a Go `string` and a `[]byte` are
  lists of bytes.  `str` turns an ASCII literal into its bytes.
* A Go `int` and `int64` are mathematical integers together with the bound
  `InInt64` where the range matters; `uint32` is a natural number below `2^32`.
* A `time.Time` built by `time.Unix(s, 0)` is represented by its Unix second
  `s` (`Time.Unix` gives `s` back); the zero `time.Time` is `zeroTime`.
* An `io.Reader` is the list of bytes still to be read; an `io.Writer` is the
  list of bytes written so far and never fails.
-/

namespace Ginko

/-! ## The Go library functions used by the code -/

/-- Bytes of an ASCII string literal. -/
def str (s : String) : List Nat := s.data.map Char.toNat

/-- The range of the Go types `int` (64-bit platforms) and `int64`. -/
def InInt64 (i : Int) : Prop := -(2 : Int) ^ 63 ≤ i ∧ i < (2 : Int) ^ 63

instance (i : Int) : Decidable (InInt64 i) := by unfold InInt64; infer_instance

/-- The ASCII white space of Go: tab, newline, vertical tab, form feed,
carriage return and space. -/
def isAsciiSpace (b : Nat) : Bool :=
  b == 9 || b == 10 || b == 11 || b == 12 || b == 13 || b == 32

/-- Two-byte UTF-8 encodings of white space: U+0085 and U+00A0. -/
def isSpace2 (a b : Nat) : Bool :=
  a == 0xC2 && (b == 0x85 || b == 0xA0)

/-- Three-byte UTF-8 encodings of white space: U+1680, U+2000..U+200A, U+2028,
U+2029, U+202F, U+205F and U+3000. -/
def isSpace3 (a b c : Nat) : Bool :=
  (a == 0xE1 && b == 0x9A && c == 0x80) ||
  (a == 0xE2 && b == 0x80 && ((0x80 ≤ c && c ≤ 0x8A) || c == 0xA8 || c == 0xA9 || c == 0xAF)) ||
  (a == 0xE2 && b == 0x81 && c == 0x9F) ||
  (a == 0xE3 && b == 0x80 && c == 0x80)

/-- Width in bytes of the white-space rune (`unicode.IsSpace`) encoded at the
head of `s`; 0 when `s` does not start with one. -/
def spaceLen : List Nat → Nat
  | [] => 0
  | a :: t =>
    if isAsciiSpace a then 1 else
    match t with
    | [] => 0
    | b :: t1 =>
      if isSpace2 a b then 2 else
      match t1 with
      | [] => 0
      | c :: _ => if isSpace3 a b c then 3 else 0

/-- Width in bytes of the white-space rune encoded at the end of a string,
given the string reversed; 0 when it does not end with one. -/
def spaceLenRev : List Nat → Nat
  | [] => 0
  | c :: t =>
    if isAsciiSpace c then 1 else
    match t with
    | [] => 0
    | b :: t1 =>
      if isSpace2 b c then 2 else
      match t1 with
      | [] => 0
      | a :: _ => if isSpace3 a b c then 3 else 0

/-- Removal of leading white space, one rune at a time. -/
def trimLeftSpace : Nat → List Nat → List Nat
  | 0, s => s
  | fuel + 1, s => if spaceLen s = 0 then s else trimLeftSpace fuel (s.drop (spaceLen s))

/-- Removal of trailing white space, on the reversed string. -/
def trimRevSpace : Nat → List Nat → List Nat
  | 0, r => r
  | fuel + 1, r => if spaceLenRev r = 0 then r else trimRevSpace fuel (r.drop (spaceLenRev r))

/-- Go `strings.TrimSpace`: the string without leading and trailing white
space as defined by Unicode. -/
def TrimSpace (s : List Nat) : List Nat :=
  let l := trimLeftSpace s.length s
  (trimRevSpace l.length l.reverse).reverse

/-- Go `strings.TrimRight(s, "\x00")`: the string without trailing NUL bytes. -/
def TrimRightNul (s : List Nat) : List Nat :=
  (s.reverse.dropWhile (fun b => b == 0)).reverse

/-- The fields collected so far, with the current field closed when non-empty. -/
def flushField (cur : List Nat) (rest : List (List Nat)) : List (List Nat) :=
  if cur = [] then rest else cur :: rest

/-- Scanner of `strings.Fields`: `skip` bytes of a white-space rune remain to be
passed over, `cur` is the field being collected. -/
def fieldsGo : Nat → List Nat → List Nat → List (List Nat)
  | _, cur, [] => flushField cur []
  | skip + 1, cur, _ :: t => fieldsGo skip cur t
  | 0, cur, b :: t =>
    if spaceLen (b :: t) = 0 then fieldsGo 0 (cur ++ [b]) t
    else flushField cur (fieldsGo (spaceLen (b :: t) - 1) [] t)

/-- Go `strings.Fields`: the maximal runs of bytes between white-space runes. -/
def Fields (s : List Nat) : List (List Nat) := fieldsGo 0 [] s

/-- Whether a white-space rune is encoded somewhere in `s`. -/
def containsSpace : List Nat → Bool
  | [] => false
  | b :: t => spaceLen (b :: t) != 0 || containsSpace t

/-- A token: a non-empty string that holds no white space. -/
def tokenOk (t : List Nat) : Bool := t != [] && !containsSpace t

/-- The tokens separated by single spaces. -/
def unwords : List (List Nat) → List Nat
  | [] => []
  | [t] => t
  | t :: ts => t ++ 32 :: unwords ts

/-- Go `strings.HasPrefix`. -/
def HasPrefix (s prefx : List Nat) : Bool := prefx.isPrefixOf s

/-- Position of the first occurrence of `sep` in `s`, counted from `i`. -/
def indexFrom (sep : List Nat) : List Nat → Nat → Option Nat
  | [], i => if sep = [] then some i else none
  | b :: t, i => if sep.isPrefixOf (b :: t) then some i else indexFrom sep t (i + 1)

/-- Go `strings.Index`: `none` stands for -1. -/
def Index (s sep : List Nat) : Option Nat := indexFrom sep s 0

/-- Decimal digits of `n`, most significant first, in front of `acc`. -/
def formatNatAux : Nat → Nat → List Nat → List Nat
  | 0, _, acc => acc
  | fuel + 1, n, acc =>
    if n < 10 then (48 + n) :: acc
    else formatNatAux fuel (n / 10) ((48 + n % 10) :: acc)

/-- Decimal rendering of a natural number. -/
def formatNat (n : Nat) : List Nat := formatNatAux (n + 1) n []

/-- Go `%d` and `%v` of an integer: decimal digits, `-` in front of a negative
number. -/
def formatInt (i : Int) : List Nat :=
  if i < 0 then 45 :: formatNat (-i).toNat else formatNat i.toNat

/-- Value of a digit of base `base` (decimal digits, then letters in either
case), `none` for any other byte. -/
def digitVal (base b : Nat) : Option Nat :=
  if 48 ≤ b ∧ b ≤ 57 then (if b - 48 < base then some (b - 48) else none)
  else if 97 ≤ b ∧ b ≤ 122 then (if b - 97 + 10 < base then some (b - 97 + 10) else none)
  else if 65 ≤ b ∧ b ≤ 90 then (if b - 65 + 10 < base then some (b - 65 + 10) else none)
  else none

/-- Value of a run of digits read after the value `acc`; `none` when a byte is
not a digit of the base. -/
def parseDigits (base : Nat) : List Nat → Nat → Option Nat
  | [], acc => some acc
  | b :: t, acc =>
    match digitVal base b with
    | none => none
    | some d => parseDigits base t (acc * base + d)

/-- Go `strconv.ParseUint(s, base, bits)` for an explicit base: at least one
digit, no sign, no prefix, no underscore, value below `2^bits`. -/
def ParseUint (s : List Nat) (base bits : Nat) : Option Nat :=
  if s = [] then none else
  match parseDigits base s 0 with
  | none => none
  | some v => if v < 2 ^ bits then some v else none

/-- Go `strconv.ParseInt(s, 10, 64)`: an optional sign, then at least one
decimal digit, the value within the 64-bit signed range. -/
def ParseInt (s : List Nat) : Option Int :=
  match s with
  | [] => none
  | c :: t =>
    if c = 43 then
      match ParseUint t 10 64 with
      | none => none
      | some v => if v < 2 ^ 63 then some (v : Int) else none
    else if c = 45 then
      match ParseUint t 10 64 with
      | none => none
      | some v => if v ≤ 2 ^ 63 then some (-(v : Int)) else none
    else
      match ParseUint (c :: t) 10 64 with
      | none => none
      | some v => if v < 2 ^ 63 then some (v : Int) else none

/-- Go `strconv.Atoi` on a 64-bit platform. -/
def Atoi (s : List Nat) : Option Int := ParseInt s

/-! ## Package ftn: addresses -/

namespace ftn

/-- A "5-dimensional" FTN address. -/
structure Address where
  zone : Int
  net : Int
  node : Int
  point : Int
  domain : List Nat
deriving DecidableEq, Repr

/-- Errors of `ParseAddress`, by the segment that is malformed. -/
inductive AddrError
  | invalidZone
  | invalidNet
  | invalidNode
  | invalidPoint
  | invalidDomain
deriving DecidableEq, Repr

/-- Returns an empty Address. -/
def emptyAddress : Address := ⟨0, 0, 0, 0, []⟩

/-- The "2-dimensional" representation `net/node`. -/
def Address.String2d (a : Address) : List Nat :=
  formatInt a.net ++ str "/" ++ formatInt a.node

/-- The "3-dimensional" representation: the zone and `:` in front when the
zone is not 0. -/
def Address.String3d (a : Address) : List Nat :=
  (if a.zone ≠ 0 then formatInt a.zone ++ str ":" else []) ++ a.String2d

/-- The "4-dimensional" representation: `.` and the point behind when the
point is not 0. -/
def Address.String4d (a : Address) : List Nat :=
  a.String3d ++ (if a.point ≠ 0 then str "." ++ formatInt a.point else [])

/-- The "5-dimensional" representation: `@` and the domain behind when the
domain is not empty. -/
def Address.String (a : Address) : List Nat :=
  a.String4d ++ (if a.domain ≠ [] then str "@" ++ a.domain else [])

/-- Splits a string on `sep`: the token before `sep`, the rest after it, and
whether `sep` occurred. -/
def splitOn (s sep : List Nat) : List Nat × List Nat × Bool :=
  match Index s sep with
  | some index => (s.take index, s.drop (index + 1), true)
  | none => (s, [], false)

/-- Parses the string representation of an address; returns the empty address
and an error when it is malformed. -/
def ParseAddress (address : List Nat) : Address × Option AddrError :=
  let addr := TrimSpace address
  let z := splitOn addr (str ":")
  let zoneStr := z.1
  let hasZone := z.2.2
  let addr1 := if !hasZone then zoneStr else z.2.1
  let n := splitOn addr1 (str "/")
  let netStr := n.1
  let addr2 := n.2.1
  let p := splitOn addr2 (str ".")
  let hasPoint := p.2.2
  let d := if !hasPoint then splitOn p.1 (str "@") else splitOn p.2.1 (str "@")
  let nodeStr := if !hasPoint then d.1 else p.1
  let pointStr := if !hasPoint then p.2.1 else d.1
  let domain := d.2.1
  let hasDomain := d.2.2
  match (if hasZone then Atoi zoneStr else some 0) with
  | none => (emptyAddress, some .invalidZone)
  | some zone =>
    match Atoi netStr with
    | none => (emptyAddress, some .invalidNet)
    | some net =>
      match Atoi nodeStr with
      | none => (emptyAddress, some .invalidNode)
      | some node =>
        match (if hasPoint then Atoi pointStr else some 0) with
        | none => (emptyAddress, some .invalidPoint)
        | some point =>
          if hasDomain && domain == [] then (emptyAddress, some .invalidDomain)
          else (⟨zone, net, node, point, domain⟩, none)

end ftn

/-! ## Package frame: the frame codec -/

namespace frame

/-- Protocol-defined constants for frame types. -/
def CmdNUL : Nat := 0
/-- Opcode of M_ADR. -/
def CmdADR : Nat := 1
/-- Opcode of M_PWD. -/
def CmdPWD : Nat := 2
/-- Opcode of M_FILE. -/
def CmdFILE : Nat := 3
/-- Opcode of M_OK. -/
def CmdOK : Nat := 4
/-- Opcode of M_EOB. -/
def CmdEOB : Nat := 5
/-- Opcode of M_GOT. -/
def CmdGOT : Nat := 6
/-- Opcode of M_ERR. -/
def CmdERR : Nat := 7
/-- Opcode of M_BSY. -/
def CmdBSY : Nat := 8
/-- Opcode of M_GET. -/
def CmdGET : Nat := 9
/-- Opcode of M_SKIP. -/
def CmdSKIP : Nat := 10
/-- One past the last opcode. -/
def maxCmds : Nat := 11

/-- Largest payload length of a frame. -/
def MaxFrameSize : Nat := 32767

/-- Unix second of the zero value of `time.Time` (January 1, year 1, UTC). -/
def zeroTime : Int := -62135596800

/-- The frames: uninterpreted data and the command kinds.  Time stamps are
Unix seconds. -/
inductive Frame
  | Data (data : List Nat)
  | NullCmd (text : List Nat)
  | OptCmd (options : List (List Nat))
  | AddressCmd (addrs : List ftn.Address)
  | PasswdCmd (Password : List Nat)
  | FileCmd (FileName : List Nat) (Size : Int) (TimeStamp : Int) (Offset : Int) (CRC : Nat)
      (ExtraOpts : List (List Nat))
  | OkCmd (text : List Nat)
  | EOBCmd
  | GotCmd (FileName : List Nat) (Size : Int) (TimeStamp : Int)
  | ErrorCmd (text : List Nat)
  | BusyCmd (text : List Nat)
  | GetCmd (FileName : List Nat) (Size : Int) (TimeStamp : Int) (Offset : Int)
  | SkipCmd (FileName : List Nat) (Size : Int) (TimeStamp : Int)
deriving DecidableEq, Repr

/-- What is wrong with the positional fields of FILE, GOT, GET or SKIP. -/
inductive ParamError
  | wrongNumberOfFields
  | size
  | timeStamp
  | offset
deriving DecidableEq, Repr

/-- Errors of the codec.  `panic` is not a returned error: it stands for a
run-time panic of the Go code (an index or slice bound out of range). -/
inductive FrameError
  | EOF
  | ErrUnexpectedEOF
  | emptyFrame
  | invalidCommand (commandType : Nat)
  | address (e : ftn.AddrError)
  | fileDecode (e : ParamError)
  | gotDecode (e : ParamError)
  | getDecode (e : ParamError)
  | skipDecode (e : ParamError)
  | dataTooLong (length : Nat)
  | cmdTooLong (length : Nat)
  | panic
deriving DecidableEq, Repr

deriving instance DecidableEq for Except

/-- Go `io.ReadFull` on a reader holding the bytes `reader`: exactly `n` bytes
and the reader behind them, or an error once the reader is drained. -/
def ReadFull (reader : List Nat) (n : Nat) : Except FrameError (List Nat) × List Nat :=
  if n = 0 then (.ok [], reader)
  else if reader = [] then (.error .EOF, [])
  else if reader.length < n then (.error .ErrUnexpectedEOF, [])
  else (.ok (reader.take n), reader.drop n)

/-- Converts the text of a command frame into a string: NUL bytes at the end
are stripped, then the white space around it. -/
def dataToString (data : List Nat) : List Nat :=
  TrimSpace (TrimRightNul data)

/-- Decodes an M_NUL command; an "OPT" packet is returned specially. -/
def decodeNullCmd (data : List Nat) : Except FrameError Frame :=
  let text := dataToString data
  if HasPrefix text (str "OPT ") then
    match Fields text with
    | [] => .error .panic
    | _ :: options => .ok (.OptCmd options)
  else .ok (.NullCmd text)

/-- The loop of `decodeAddressCmd`: every address string is parsed, the first
failure is returned. -/
def parseAddrs : List (List Nat) → Except FrameError (List ftn.Address)
  | [] => .ok []
  | addrStr :: rest =>
    match ftn.ParseAddress addrStr with
    | (_, some err) => .error (.address err)
    | (addr, none) =>
      match parseAddrs rest with
      | .error err => .error err
      | .ok addrs => .ok (addr :: addrs)

/-- Decodes an M_ADR command. -/
def decodeAddressCmd (data : List Nat) : Except FrameError Frame :=
  let s := dataToString data
  let addrStrs := Fields s
  match parseAddrs addrStrs with
  | .error err => .error err
  | .ok addrs => .ok (.AddressCmd addrs)

/-- Decodes basic file identification parameters that have already been
extracted into fields: (name, size, time stamp).  (The Go function also takes
the whole text, for its error messages only.) -/
def decodeFileIDParamFields (fields : List (List Nat)) :
    Except ParamError (List Nat × Int × Int) :=
  if fields.length ≠ 3 then .error .wrongNumberOfFields else
  let fileName := fields.getD 0 []
  match ParseInt (fields.getD 1 []) with
  | none => .error .size
  | some size =>
    match ParseInt (fields.getD 2 []) with
    | none => .error .timeStamp
    | some unixSecs => .ok (fileName, size, unixSecs)

/-- Decodes basic file identification parameters. -/
def decodeFileIDParams (data : List Nat) : Except ParamError (List Nat × Int × Int) :=
  let s := dataToString data
  let fields := Fields s
  decodeFileIDParamFields fields

/-- Decodes file transfer parameters that have already been extracted into
fields: (name, size, time stamp, offset). -/
def decodeFileTransferParamFields (fields : List (List Nat)) :
    Except ParamError (List Nat × Int × Int × Int) :=
  if fields.length ≠ 4 then .error .wrongNumberOfFields else
  match decodeFileIDParamFields (fields.take 3) with
  | .error err => .error err
  | .ok (fileName, size, timeStamp) =>
    match ParseInt (fields.getD 3 []) with
    | none => .error .offset
    | some offset => .ok (fileName, size, timeStamp, offset)

/-- Decodes file transfer parameters. -/
def decodeFileTransferParams (data : List Nat) :
    Except ParamError (List Nat × Int × Int × Int) :=
  let s := dataToString data
  let fields := Fields s
  decodeFileTransferParamFields fields

/-- One step of the loop over the trailing fields of FILE: a field that parses
as a base-16 `uint32` replaces the CRC, any other is appended to the options. -/
def fileOptStep (st : Nat × List (List Nat)) (opt : List Nat) : Nat × List (List Nat) :=
  match ParseUint opt 16 32 with
  | some maybeCrc => (maybeCrc % 2 ^ 32, st.2)
  | none => (st.1, st.2 ++ [opt])

/-- Decodes all file parameters, including optional CRC and other arguments. -/
def decodeFileParams (data : List Nat) :
    Except FrameError (List Nat × Int × Int × Int × Nat × List (List Nat)) :=
  let s := dataToString data
  let fields := Fields s
  match decodeFileTransferParamFields (fields.take (min 4 fields.length)) with
  | .error err => .error (.fileDecode err)
  | .ok (fileName, size, timeStamp, offset) =>
    if fields.length < 4 then .error .panic else
    let r := (fields.drop 4).foldl fileOptStep (0, [])
    .ok (fileName, size, timeStamp, offset, r.1, r.2)

/-- Decodes an M_FILE command. -/
def decodeFileCmd (data : List Nat) : Except FrameError Frame :=
  match decodeFileParams data with
  | .error err => .error err
  | .ok (fileName, size, timeStamp, offset, crc, extraOpts) =>
    .ok (.FileCmd fileName size timeStamp offset crc extraOpts)

/-- Decodes an M_GOT command. -/
def decodeGotCmd (data : List Nat) : Except FrameError Frame :=
  match decodeFileIDParams data with
  | .error err => .error (.gotDecode err)
  | .ok (fileName, size, timeStamp) => .ok (.GotCmd fileName size timeStamp)

/-- Decodes an M_GET command. -/
def decodeGetCmd (data : List Nat) : Except FrameError Frame :=
  match decodeFileTransferParams data with
  | .error err => .error (.getDecode err)
  | .ok (fileName, size, timeStamp, offset) => .ok (.GetCmd fileName size timeStamp offset)

/-- Decodes an M_SKIP command. -/
def decodeSkipCmd (data : List Nat) : Except FrameError Frame :=
  match decodeFileIDParams data with
  | .error err => .error (.skipDecode err)
  | .ok (fileName, size, timeStamp) => .ok (.SkipCmd fileName size timeStamp)

/-- Actually decodes frames.  The frame type is inspected and a structure of
the appropriate type is created and returned.  For GET and SKIP the code
returns the zero value of the structure. -/
def decodeFrame (header : Nat × Nat) (data : List Nat) : Except FrameError Frame :=
  let frameType := header.1 >>> 7
  if frameType = 0 then .ok (.Data data) else
  match data with
  | [] => .error .panic
  | commandType :: data =>
    if commandType = CmdNUL then decodeNullCmd data
    else if commandType = CmdADR then decodeAddressCmd data
    else if commandType = CmdPWD then .ok (.PasswdCmd (dataToString data))
    else if commandType = CmdFILE then decodeFileCmd data
    else if commandType = CmdOK then .ok (.OkCmd (dataToString data))
    else if commandType = CmdEOB then .ok .EOBCmd
    else if commandType = CmdGOT then decodeGotCmd data
    else if commandType = CmdERR then .ok (.ErrorCmd (dataToString data))
    else if commandType = CmdBSY then .ok (.BusyCmd (dataToString data))
    else if commandType = CmdGET then .ok (.GetCmd [] 0 zeroTime 0)
    else if commandType = CmdSKIP then .ok (.SkipCmd [] 0 zeroTime)
    else .error (.invalidCommand commandType)

/-- Payload length carried by a header: the low 15 bits, big-endian. -/
def headerLength (header : Nat × Nat) : Nat :=
  ((header.1 &&& 0x7F) <<< 8) ||| header.2

/-- Read takes raw frame bytes from `reader` and returns a decoded frame,
together with the reader behind the bytes consumed. -/
def Read (reader : List Nat) : Except FrameError Frame × List Nat :=
  match ReadFull reader 2 with
  | (.error err, reader1) => (.error err, reader1)
  | (.ok hdr, reader1) =>
    let header : Nat × Nat := (hdr.getD 0 0, hdr.getD 1 0)
    let length := headerLength header
    if length = 0 then (.error .emptyFrame, reader1) else
    match ReadFull reader1 length with
    | (.error err, reader2) => (.error err, reader2)
    | (.ok data, reader2) => (decodeFrame header data, reader2)

/-- Go conversion `byte(x)` of a non-negative integer. -/
def byte (x : Nat) : Nat := x % 256

/-- The header of an empty frame. -/
def emptyHeader : Nat × Nat := (0, 0)

/-- Header of a data frame of `length` bytes. -/
def encodeDataHeader (length : Nat) : Except FrameError (Nat × Nat) :=
  if length > MaxFrameSize then .error (.dataTooLong length)
  else .ok (byte (length >>> 8), byte length)

/-- Header of a command frame of `length` bytes. -/
def encodeCmdHeader (length : Nat) : Except FrameError (Nat × Nat) :=
  if length > MaxFrameSize then .error (.cmdTooLong length)
  else .ok (byte (length >>> 8) ||| 0x80, byte length)

/-- A new buffer with space for a frame header at the front. -/
def makeFrameBuffer : List Nat := [emptyHeader.1, emptyHeader.2]

/-- Creates a header for the given bytes, writes it into the (reserved)
beginning of them, and writes them out. -/
def copyCmdOut (frameBytes : List Nat) (out : List Nat) : Option FrameError × List Nat :=
  match encodeCmdHeader (frameBytes.length - 2) with
  | .error err => (some err, out)
  | .ok header => (none, out ++ ([header.1, header.2] ++ frameBytes.drop 2))

/-- The bytes `WriteBytes` collects before the header is filled in: the space
for the header, the opcode and the text of the command.  (Not defined for a
data frame, which has no such buffer.) -/
def cmdBuffer : Frame → List Nat
  | .Data _ => []
  | .NullCmd text => makeFrameBuffer ++ [CmdNUL] ++ text
  | .OptCmd options =>
    options.foldl (fun b option => b ++ str " " ++ option) (makeFrameBuffer ++ [CmdNUL] ++ str "OPT")
  | .AddressCmd addrs =>
    (addrs.foldl (fun (st : List Nat × List Nat) addr => (st.1 ++ st.2 ++ addr.String, str " "))
      (makeFrameBuffer ++ [CmdADR], [])).1
  | .PasswdCmd Password => makeFrameBuffer ++ [CmdPWD] ++ Password
  | .FileCmd FileName Size TimeStamp Offset CRC ExtraOpts =>
    let b := makeFrameBuffer ++ [CmdFILE] ++ FileName ++
      (str " " ++ formatInt Size ++ str " " ++ formatInt TimeStamp ++ str " " ++ formatInt Offset)
    if CRC ≠ 0 then b ++ (str " " ++ formatNat CRC)
    else
      (ExtraOpts.foldl (fun (st : List Nat × List Nat) extraOpt => (st.1 ++ st.2 ++ extraOpt, str " "))
        (b, [])).1
  | .OkCmd text => makeFrameBuffer ++ [CmdOK] ++ text
  | .EOBCmd => makeFrameBuffer ++ [CmdEOB]
  | .GotCmd FileName Size TimeStamp =>
    makeFrameBuffer ++ [CmdGOT] ++ FileName ++ (str " " ++ formatInt Size ++ str " " ++ formatInt TimeStamp)
  | .ErrorCmd text => makeFrameBuffer ++ [CmdERR] ++ text
  | .BusyCmd text => makeFrameBuffer ++ [CmdBSY] ++ text
  | .GetCmd FileName Size TimeStamp Offset =>
    makeFrameBuffer ++ [CmdGET] ++ FileName ++
      (str " " ++ formatInt Size ++ str " " ++ formatInt TimeStamp ++ str " " ++ formatInt Offset)
  | .SkipCmd FileName Size TimeStamp =>
    makeFrameBuffer ++ [CmdSKIP] ++ FileName ++ (str " " ++ formatInt Size ++ str " " ++ formatInt TimeStamp)

/-- WriteBytes encodes a frame into the writer `out`: the error returned, if
any, and the writer afterwards. -/
def WriteBytes (f : Frame) (out : List Nat) : Option FrameError × List Nat :=
  match f with
  | .Data data =>
    match encodeDataHeader data.length with
    | .error err => (some err, out)
    | .ok header => (none, (out ++ [header.1, header.2]) ++ data)
  | c => copyCmdOut (cmdBuffer c) out

/-- The payload of a frame on the wire: the bytes of a data frame, and for a
command the opcode followed by the text. -/
def payload : Frame → List Nat
  | .Data data => data
  | c => (cmdBuffer c).drop 2

/-- The bytes on the wire after the frames `fs` are written one after the
other into an empty writer (a frame that fails to encode writes nothing). -/
def encodeAll (fs : List Frame) : List Nat :=
  fs.foldl (fun out f => (WriteBytes f out).2) []

/-- Reads `n` times from `reader`: the results in order and the reader left. -/
def readN : Nat → List Nat → List (Except FrameError Frame) × List Nat
  | 0, reader => ([], reader)
  | n + 1, reader =>
    let r := Read reader
    let rs := readN n r.2
    (r.1 :: rs.1, rs.2)

/-- The CRC the specification gives to the trailing fields of FILE: the value
of the last one that parses as a base-16 unsigned 32-bit integer, 0 when none
does. -/
def specCrc (trailing : List (List Nat)) : Nat :=
  match (trailing.filterMap (fun opt => ParseUint opt 16 32)).getLast? with
  | some v => v
  | none => 0

/-- The option flags the specification gives to the trailing fields of FILE:
those that do not parse as a base-16 unsigned 32-bit integer, in their order. -/
def specExtraOpts (trailing : List (List Nat)) : List (List Nat) :=
  trailing.filter (fun opt => (ParseUint opt 16 32).isNone)

/-- An address that `ParseAddress` reads back from its rendering: fields in
the range of `int`, a domain without `:`, `.` and white space. -/
def addressOk (a : ftn.Address) : Bool :=
  decide (InInt64 a.zone) && decide (InInt64 a.net) && decide (InInt64 a.node) &&
    decide (InInt64 a.point) && !a.domain.contains 58 && !a.domain.contains 46 &&
    !containsSpace a.domain

/-- The frames for which writing and reading back is shown to give the frame
again: data frames that are not empty; NUL whose stripped text does not begin
with `OPT `; OPT with at least one option, the options being tokens and the
last not ending in a NUL byte; ADR with addresses that read back, the last
domain not ending in a NUL byte; PWD, OK, EOB, ERR and BSY; FILE without CRC
and options, and GOT, the file name being a token and the numbers in the range
of `int64`.  GET, SKIP and FILE with a CRC or options are left out. -/
def roundTrips : Frame → Bool
  | .Data data => decide (1 ≤ data.length)
  | .NullCmd text => !HasPrefix (dataToString text) (str "OPT ")
  | .OptCmd options =>
    options != [] && options.all tokenOk && (cmdBuffer (.OptCmd options)).getLast? != some 0
  | .AddressCmd addrs =>
    addrs.all addressOk && (cmdBuffer (.AddressCmd addrs)).getLast? != some 0
  | .PasswdCmd _ => true
  | .FileCmd FileName Size TimeStamp Offset CRC ExtraOpts =>
    tokenOk FileName && decide (InInt64 Size) && decide (InInt64 TimeStamp) &&
      decide (InInt64 Offset) && CRC == 0 && ExtraOpts == []
  | .OkCmd _ => true
  | .EOBCmd => true
  | .GotCmd FileName Size TimeStamp =>
    tokenOk FileName && decide (InInt64 Size) && decide (InInt64 TimeStamp)
  | .ErrorCmd _ => true
  | .BusyCmd _ => true
  | .GetCmd _ _ _ _ => false
  | .SkipCmd _ _ _ => false

/-- The frame with the text of NUL, PWD, OK, ERR and BSY normalised the way
`Read` does it: NUL bytes at the end stripped, then the white space around. -/
def normalize : Frame → Frame
  | .NullCmd text => .NullCmd (dataToString text)
  | .PasswdCmd Password => .PasswdCmd (dataToString Password)
  | .OkCmd text => .OkCmd (dataToString text)
  | .ErrorCmd text => .ErrorCmd (dataToString text)
  | .BusyCmd text => .BusyCmd (dataToString text)
  | f => f

end frame

namespace ftn

/-- The rendering of an address as the specification words it: the zone and
`:` when the zone is not 0, then net, `/`, node, then `.` and the point when
the point is not 0, then `@` and the domain when the domain is not empty. -/
def specString (a : Address) : List Nat :=
  List.flatten
    [ if a.zone = 0 then [] else formatInt a.zone ++ [58],
      formatInt a.net, [47], formatInt a.node,
      if a.point = 0 then [] else 46 :: formatInt a.point,
      if a.domain = [] then [] else 64 :: a.domain ]

end ftn

namespace ftn

/-- The part of `s` in front of the first `c` (all of `s` when `c` does not
occur). -/
def before (c : Nat) (s : List Nat) : List Nat := s.takeWhile (fun b => b != c)

/-- The part of `s` behind the first `c` (empty when `c` does not occur). -/
def after (c : Nat) (s : List Nat) : List Nat := (s.dropWhile (fun b => b != c)).drop 1

/-- A decimal integer as text: an optional sign `+` or `-`, then at least one
decimal digit. -/
def isDecimalInteger (s : List Nat) : Bool :=
  match s with
  | [] => false
  | c :: t =>
    if c = 43 ∨ c = 45 then t != [] && t.all (fun b => decide (48 ≤ b ∧ b ≤ 57))
    else (c :: t).all (fun b => decide (48 ≤ b ∧ b ≤ 57))

/-- The segments of an address text as the specification describes them: the
zone in front of the first `:`, the net in front of the first `/` behind it,
the node up to the first `.`, or up to the first `@` when there is no `.`, the
point between that `.` and the first `@` behind it, the domain behind that
`@`. -/
structure Segments where
  hasZone : Bool
  zone : List Nat
  net : List Nat
  hasPoint : Bool
  node : List Nat
  point : List Nat
  hasDomain : Bool
  domain : List Nat

/-- The segments of the stripped text `t`. -/
def specSegments (t : List Nat) : Segments :=
  let hasZone := decide (58 ∈ t)
  let r1 := if hasZone then after 58 t else t
  let r2 := after 47 r1
  let hasPoint := decide (46 ∈ r2)
  let tail := if hasPoint then after 46 r2 else r2
  { hasZone := hasZone
    zone := before 58 t
    net := before 47 r1
    hasPoint := hasPoint
    node := if hasPoint then before 46 r2 else before 64 r2
    point := if hasPoint then before 64 tail else []
    hasDomain := decide (64 ∈ tail)
    domain := after 64 tail }

end ftn

/-! ## More of the Go library: letter case, splitting, hexadecimal -/

/-- Lower case of an ASCII letter; any other byte is left as it is. -/
def lowerByte (b : Nat) : Nat := if 65 ≤ b ∧ b ≤ 90 then b + 32 else b

/-- Go `strings.ToLower` on ASCII text.  Bytes from 0x80 on are left as they
are; Go maps the runes they encode to runes that are not ASCII either, apart
from U+0130 and U+212A, which become `i` and `k`. -/
def ToLower (s : List Nat) : List Nat := s.map lowerByte

/-- Go `strings.Split(s, sep)` for a separator of one byte: the strings
between the separators, one more than there are separators. -/
def Split (s : List Nat) (sep : Nat) : List (List Nat) :=
  match s with
  | [] => [[]]
  | b :: t =>
    if b = sep then [] :: Split t sep
    else
      match Split t sep with
      | [] => [[b]]
      | field :: fields => (b :: field) :: fields

/-- The digit of `hextable = "0123456789abcdef"` for a value below 16. -/
def hexDigit (n : Nat) : Nat := if n < 10 then 48 + n else 87 + n

/-- Go `hex.EncodeToString`: two lower-case hexadecimal digits per byte. -/
def EncodeToString (src : List Nat) : List Nat :=
  src.flatMap (fun b => [hexDigit (b >>> 4), hexDigit (b &&& 0x0f)])

/-- Value of a hexadecimal digit in either case, `none` for any other byte. -/
def fromHexChar (c : Nat) : Option Nat :=
  if 48 ≤ c ∧ c ≤ 57 then some (c - 48)
  else if 97 ≤ c ∧ c ≤ 102 then some (c - 97 + 10)
  else if 65 ≤ c ∧ c ≤ 70 then some (c - 65 + 10)
  else none

/-- Go `hex.DecodeString`: `none` stands for the error returned for a byte
that is not a hexadecimal digit or for an odd length. -/
def DecodeString : List Nat → Option (List Nat)
  | [] => some []
  | [_] => none
  | p :: q :: t =>
    match fromHexChar p, fromHexChar q with
    | some a, some b =>
      match DecodeString t with
      | some rest => some (((a <<< 4) ||| b) :: rest)
      | none => none
    | _, _ => none

/-- A well-formed hexadecimal string: an even number of hexadecimal digits. -/
def isHexString (s : List Nat) : Bool :=
  s.length % 2 == 0 && s.all (fun c => (fromHexChar c).isSome)

/-! ## Package auth: CRAM -/

namespace auth

/-- The hash functions an HMAC can be built on. -/
inductive Hash
  | md5
  | sha1
  | sha256
deriving DecidableEq, Repr

/-- Returns the hash named by `hashStr`; `none` stands for the error
"Unknown hash type". -/
def hashNew (hashStr : List Nat) : Option Hash :=
  if ToLower hashStr = str "md5" then some .md5
  else if ToLower hashStr = str "sha1" then some .sha1
  else if ToLower hashStr = str "sha256" then some .sha256
  else none

/-- GenerateResponse takes a challenge, a password, and a hash type and
generates a response of the given type; `none` stands for the error of
`hashNew`.  `mac h key message` is the HMAC of the Go library. -/
def GenerateResponse (mac : Hash → List Nat → List Nat → List Nat)
    (hashStr challenge password : List Nat) : Option (List Nat) :=
  match hashNew hashStr with
  | none => none
  | some h => some (EncodeToString (mac h password challenge))

/-- ChallengeToString returns a hex-encoded string representing the given
challenge bytes. -/
def ChallengeToString (challenge : List Nat) : List Nat := EncodeToString challenge

/-- DecodeChallenge decodes the hex-string challenge into bytes. -/
def DecodeChallenge (challenge : List Nat) : Option (List Nat) := DecodeString challenge

/-- ValidateResponse returns true if and only if `response` is a successful
reply to the given challenge and password.  `hmac.Equal` is equality of the
byte strings. -/
def ValidateResponse (mac : Hash → List Nat → List Nat → List Nat)
    (hashStr challenge response password : List Nat) : Bool :=
  match hashNew hashStr with
  | none => false
  | some h =>
    let expectedMAC := mac h password challenge
    match DecodeString response with
    | none => false
    | some responseMAC => decide (responseMAC = expectedMAC)

end auth

/-! ## Package config -/

namespace config

/-- A configured link: the peer address and the shared password.  (The spools
and the poll interval of the Go structure play no part here.) -/
structure Link where
  Address : ftn.Address
  Password : List Nat
deriving DecidableEq, Repr

/-- A configured network this node has joined. -/
structure Net where
  Name : List Nat
  Address : ftn.Address
  Links : List Link

/-- The system's configuration; `Links` is the map from peer address to
link. -/
structure Config where
  Admin : List Nat
  System : List Nat
  Location : List Nat
  Nets : List Net
  Links : ftn.Address → Option Link

/-- The addresses of the configured networks. -/
def Config.Addresses (c : Config) : List ftn.Address := c.Nets.map (fun net => net.Address)

end config

/-! ## Package session -/

namespace frame

/-- NewChallenge creates an OptCmd frame with the given challenge in the
appropriate format. -/
def NewChallenge (hash value : List Nat) : Frame :=
  .OptCmd [str "CRAM-" ++ hash ++ str "-" ++ value]

/-- NewPassword creates a PasswdCmd with the given password. -/
def NewPassword (passwd : List Nat) : Frame := .PasswdCmd passwd

/-- NewNull creates a new NUL command frame with the specified text. -/
def NewNull (text : List Nat) : Frame := .NullCmd text

/-- NewAddress creates an AddressCmd populated with the given addresses. -/
def NewAddress (addresses : List ftn.Address) : Frame := .AddressCmd addresses

/-- NewOk creates a new OkCmd with the given text. -/
def NewOk (text : List Nat) : Frame := .OkCmd text

/-- NewErrorCmd returns a new ErrorCmd with the given text. -/
def NewErrorCmd (text : List Nat) : Frame := .ErrorCmd text

end frame

namespace session

/-- The state functions of the session: those of the listener
(`receiver.start`, `waitForAddress`, `waitForPasswd`), those of the dialer
(`sender.start`, `senderWaitForAddress`, `sendResponse`, `waitForOk`),
`transfer.Start` and the states of the router.  The Go value `nil` is `none`
of `Option State`. -/
inductive State
  | receiverStart
  | waitForAddress
  | waitForPasswd
  | senderStart
  | senderWaitForAddress
  | sendResponse
  | waitForOk
  | transferStart
  | router
  | routeXmitr
  | routeRecvr
deriving DecidableEq, Repr

/-- The errors a state function ends the session with, by their message. -/
inductive SessionError
  | sendingInitialFrames
  | waitingForAddress
  | unlinkedSession
  | receivedERR (f : frame.Frame)
  | receivedBUSY (f : frame.Frame)
  | weirdFrame (f : frame.Frame)
  | waitingForPassword
  | emptyPassword
  | cleartextPassword
  | malformedResponse (password : List Nat)
  | validationFailed
  | writeOkFailed
  | unexpectedFrame (f : frame.Frame)
  | malformedChallenge (text : List Nat)
  | challengeDecodeFailed (text : List Nat)
  | generateResponseFailed
  | writePwdFailed
  | waitingForChallenge
  | routerWaitingForFrame
  | panic
deriving DecidableEq, Repr

/-- A session.  Of the context only whether it is cancelled is kept
(`ctxDone`).  A channel written by the session is the list of values sent on
it so far: `urgentErr`, `writeFrames` (where `none` is the request to flush),
`RecvrFrames` and `XmitrFrames`. -/
structure Session where
  Config : config.Config
  Link : Option config.Link
  RemoteAddrs : List ftn.Address
  HashStr : List Nat
  Challenge : List Nat
  ctxDone : Bool
  urgentErr : List frame.Frame
  writeFrames : List (Option frame.Frame)
  RecvrFrames : List frame.Frame
  XmitrFrames : List frame.Frame

/-- What the `select` of a state function of the handshake received: the
cancellation of the context, or a value from `ReadFrames` (the frame, `none`
for `nil`, and whether the channel was open). -/
inductive Select
  | ctxDone
  | readFrames (f : Option frame.Frame) (ok : Bool)
deriving DecidableEq, Repr

/-- What the `select` of a state function of the router received: as in the
handshake, or one of the done signals of the receiver and the transmitter. -/
inductive RouterSelect
  | ctxDone
  | readFrames (f : Option frame.Frame) (ok : Bool)
  | recvrDone
  | xmitrDone
deriving DecidableEq, Repr

/-- What a state function returns, with the session as it leaves it: the next
state (`none` for `nil`) and the error. -/
structure Result where
  s : Session
  next : Option State
  err : Option SessionError

/-- NewSession constructs a new session: no link, hash MD5, no challenge, a
live context and nothing sent yet. -/
def NewSession (config : config.Config) : Session :=
  { Config := config, Link := none, RemoteAddrs := [], HashStr := str "MD5", Challenge := [],
    ctxDone := false, urgentErr := [], writeFrames := [], RecvrFrames := [], XmitrFrames := [] }

/-- WriteFrame writes a frame into the session's writer; with a cancelled
context nothing is sent and the result is false. -/
def Session.WriteFrame (s : Session) (f : frame.Frame) : Session × Bool :=
  if s.ctxDone then (s, false)
  else ({ s with writeFrames := s.writeFrames ++ [some f] }, true)

/-- FlushWriter sends the out-of-band flush message to the writer. -/
def Session.FlushWriter (s : Session) : Session × Bool :=
  if s.ctxDone then (s, false)
  else ({ s with writeFrames := s.writeFrames ++ [none] }, true)

/-- WriteFrames writes a sequence of frames into the session's writer, up to
the first that fails. -/
def Session.WriteFrames (s : Session) : List frame.Frame → Session × Bool
  | [] => (s, true)
  | f :: frames =>
    match s.WriteFrame f with
    | (s1, false) => (s1, false)
    | (s1, true) => Session.WriteFrames s1 frames

/-- WriteSyncFrames synchronously writes and flushes a sequence of frames. -/
def Session.WriteSyncFrames (s : Session) (frames : List frame.Frame) : Session × Bool :=
  match s.WriteFrames frames with
  | (s1, false) => (s1, false)
  | (s1, true) => s1.FlushWriter

/-- WriteSyncFrame synchronously writes and flushes a frame. -/
def Session.WriteSyncFrame (s : Session) (f : frame.Frame) : Session × Bool :=
  match s.WriteFrame f with
  | (s1, false) => (s1, false)
  | (s1, true) => s1.FlushWriter

/-- SendErrorCmd sends an ErrorCmd to the writer on the urgent channel; with
a cancelled context nothing is sent and the result is false. -/
def Session.SendErrorCmd (s : Session) (text : List Nat) : Session × Bool :=
  if s.ctxDone then (s, false)
  else ({ s with urgentErr := s.urgentErr ++ [frame.NewErrorCmd text] }, true)

/-- End ends a session. -/
def End (s : Session) (err : Option SessionError) : Result :=
  { s := s, next := none, err := err }

/-- The loop of LinkAddresses: the first address with a configured link. -/
def findLink (c : config.Config) : List ftn.Address → Option config.Link
  | [] => none
  | addr :: addrs =>
    match c.Links addr with
    | some link => some link
    | none => findLink c addrs

/-- LinkAddresses looks for a link related to the given addresses and sets the
`Link` member appropriately if it finds one.  It returns the link or nil. -/
def Session.LinkAddresses (s : Session) (addrs : List ftn.Address) :
    Session × Option config.Link :=
  let s1 := { s with RemoteAddrs := addrs }
  match findLink s1.Config s1.RemoteAddrs with
  | some link => ({ s1 with Link := some link }, some link)
  | none => (s1, none)

end session

/-! ## Package receiver: the listener -/

namespace receiver

open session

/-- The first state of the listener: the challenge (from
`auth.GenerateChallenge`) is kept and the opening frames are written; `now` is
the formatted time of day. -/
def start (challenge now : List Nat) (s : Session) : Result :=
  let s1 := { s with Challenge := challenge }
  match s1.WriteSyncFrames
      [frame.NewChallenge (str "MD5") (auth.ChallengeToString s1.Challenge),
        frame.NewNull (str "SYS " ++ s1.Config.System),
        frame.NewNull (str "ZYZ " ++ s1.Config.Admin),
        frame.NewNull (str "LOC " ++ s1.Config.Location),
        frame.NewNull (str "VER ginko/0.0.1/OpenBSD/x86_64 binkp/1.0"),
        frame.NewNull (str "TIME " ++ now),
        frame.NewAddress s1.Config.Addresses] with
  | (s2, false) => End s2 (some .sendingInitialFrames)
  | (s2, true) => { s := s2, next := some .waitForAddress, err := none }

/-- Decides on a PWD text: anything but a valid CRAM response is answered with
an ERR frame and ends the session. -/
def checkPasswd (mac : auth.Hash → List Nat → List Nat → List Nat) (s : Session)
    (password : List Nat) : Result :=
  if password = str "-" then
    End (s.SendErrorCmd (str "Empty passwords are unsupported")).1 (some .emptyPassword)
  else if !HasPrefix password (str "CRAM-") then
    End (s.SendErrorCmd (str "Cleartext passwords are unsupported")).1 (some .cleartextPassword)
  else
    let fields := Split password 45
    if fields.length ≠ 3 then
      End (s.SendErrorCmd (str "Malformed challenge response")).1
        (some (.malformedResponse password))
    else
      let hashStr := fields.getD 1 []
      let response := fields.getD 2 []
      match s.Link with
      | none => { s := s, next := none, err := some .panic }
      | some link =>
        if !auth.ValidateResponse mac hashStr s.Challenge response link.Password then
          End (s.SendErrorCmd (str "Invalid password")).1 (some .validationFailed)
        else
          match s.WriteSyncFrame (frame.NewOk (str "secure")) with
          | (s1, false) => End s1 (some .writeOkFailed)
          | (s1, true) => { s := s1, next := some .transferStart, err := none }

/-- The listener waits for the ADR frame of the peer. -/
def waitForAddress (sel : Select) (s : Session) : Result :=
  match sel with
  | .ctxDone => End s none
  | .readFrames none _ => End s (some .waitingForAddress)
  | .readFrames (some f) ok =>
    if s.ctxDone || !ok then End s (some .waitingForAddress)
    else
      match f with
      | .AddressCmd addrs =>
        match s.LinkAddresses addrs with
        | (s1, none) => End s1 (some .unlinkedSession)
        | (s1, some _) => { s := s1, next := some .waitForPasswd, err := none }
      | .ErrorCmd _ => End s (some (.receivedERR f))
      | .BusyCmd _ => End s (some (.receivedBUSY f))
      | .NullCmd _ => { s := s, next := some .waitForAddress, err := none }
      | .OptCmd _ => { s := s, next := some .waitForAddress, err := none }
      | _ => End (s.SendErrorCmd (str "Invalid received frame")).1 (some (.weirdFrame f))

/-- The listener waits for the PWD frame of the peer. -/
def waitForPasswd (mac : auth.Hash → List Nat → List Nat → List Nat) (sel : Select)
    (s : Session) : Result :=
  match sel with
  | .ctxDone => End s none
  | .readFrames none _ => End s (some .waitingForPassword)
  | .readFrames (some f) ok =>
    if s.ctxDone || !ok then End s (some .waitingForPassword)
    else
      match f with
      | .PasswdCmd Password => checkPasswd mac s Password
      | .ErrorCmd _ => End s (some (.receivedERR f))
      | .BusyCmd _ => End s (some (.receivedBUSY f))
      | .NullCmd _ => { s := s, next := some .waitForPasswd, err := none }
      | .OptCmd _ => { s := s, next := some .waitForPasswd, err := none }
      | _ => End (s.SendErrorCmd (str "Invalid received frame")).1 (some (.weirdFrame f))

/-- The loop of `Session.Run` from a waiting state of the listener, one
`select` per turn, up to `transfer.Start`: it stops at an error, at `nil`, at
`transfer.Start`, or in the state that waits when the inputs are used up. -/
def runWait (mac : auth.Hash → List Nat → List Nat → List Nat) :
    List Select → State → Session → Result
  | [], st, s => { s := s, next := some st, err := none }
  | sel :: sels, .waitForAddress, s =>
    match waitForAddress sel s with
    | { s := s1, next := some st, err := none } => runWait mac sels st s1
    | r => r
  | sel :: sels, .waitForPasswd, s =>
    match waitForPasswd mac sel s with
    | { s := s1, next := some st, err := none } => runWait mac sels st s1
    | r => r
  | _ :: _, st, s => { s := s, next := some st, err := none }

/-- The listener from its first state. -/
def Run (mac : auth.Hash → List Nat → List Nat → List Nat) (challenge now : List Nat)
    (sels : List Select) (s : Session) : Result :=
  match start challenge now s with
  | { s := s1, next := some st, err := none } => runWait mac sels st s1
  | r => r

end receiver

/-! ## Package sender: the dialer -/

namespace sender

open session

/-- The first state of the dialer: the opening frames are written. -/
def start (now : List Nat) (s : Session) : Result :=
  match s.WriteSyncFrames
      [frame.NewNull (str "SYS " ++ s.Config.System),
        frame.NewNull (str "ZYZ " ++ s.Config.Admin),
        frame.NewNull (str "LOC " ++ s.Config.Location),
        frame.NewNull (str "VER ginko/0.0.1/OpenBSD/x86_64 binkp/1.0"),
        frame.NewNull (str "TIME " ++ now),
        frame.NewAddress s.Config.Addresses] with
  | (s1, false) => End s1 (some .sendingInitialFrames)
  | (s1, true) => { s := s1, next := some .senderWaitForAddress, err := none }

/-- Keeps the hash name and the challenge of the option `CRAM-hash-hex`. -/
def saveChallenge (text : List Nat) (s : Session) : Result :=
  let fields := Split text 45
  if fields.length ≠ 3 then
    End (s.SendErrorCmd (str "Malformed challenge")).1 (some (.malformedChallenge text))
  else
    let s1 := { s with HashStr := fields.getD 1 [] }
    match auth.DecodeChallenge (fields.getD 2 []) with
    | none =>
      End (s1.SendErrorCmd (str "Challenge decode failed")).1 (some (.challengeDecodeFailed text))
    | some challenge =>
      { s := { s1 with Challenge := challenge }, next := some .senderWaitForAddress, err := none }

/-- The loop over the options of an OPT frame: the first that begins with
`CRAM-` is saved as the challenge. -/
def findChallenge (s : Session) : List (List Nat) → Result
  | [] => { s := s, next := some .senderWaitForAddress, err := none }
  | text :: options =>
    if HasPrefix text (str "CRAM-") then saveChallenge text s
    else findChallenge s options

/-- The dialer waits for the ADR frame of the peer. -/
def senderWaitForAddress (sel : Select) (s : Session) : Result :=
  match sel with
  | .ctxDone => End s none
  | .readFrames none _ => End s (some .waitingForAddress)
  | .readFrames (some f) ok =>
    if s.ctxDone || !ok then End s (some .waitingForAddress)
    else
      match f with
      | .AddressCmd addrs =>
        match s.LinkAddresses addrs with
        | (s1, none) => End s1 (some .unlinkedSession)
        | (s1, some _) => { s := s1, next := some .sendResponse, err := none }
      | .ErrorCmd _ => End s (some (.receivedERR f))
      | .BusyCmd _ => End s (some (.receivedBUSY f))
      | .NullCmd _ => { s := s, next := some .senderWaitForAddress, err := none }
      | .OptCmd options => findChallenge s options
      | _ => End (s.SendErrorCmd (str "Unexpected frame received")).1 (some (.unexpectedFrame f))

/-- The dialer answers the challenge with a PWD frame. -/
def sendResponse (mac : auth.Hash → List Nat → List Nat → List Nat) (s : Session) : Result :=
  match s.Link with
  | none => { s := s, next := none, err := some .panic }
  | some link =>
    match auth.GenerateResponse mac s.HashStr s.Challenge link.Password with
    | none =>
      End (s.SendErrorCmd (str "Challenge response generation failed")).1
        (some .generateResponseFailed)
    | some response =>
      match s.WriteSyncFrame
          (frame.NewPassword (str "CRAM-" ++ s.HashStr ++ str "-" ++ response)) with
      | (s1, false) => End s1 (some .writePwdFailed)
      | (s1, true) => { s := s1, next := some .waitForOk, err := none }

/-- The dialer waits for the OK frame of the peer. -/
def waitForOk (sel : Select) (s : Session) : Result :=
  match sel with
  | .ctxDone => End s none
  | .readFrames none _ => End s (some .waitingForChallenge)
  | .readFrames (some f) ok =>
    if s.ctxDone || !ok then End s (some .waitingForChallenge)
    else
      match f with
      | .OkCmd _ => { s := s, next := some .transferStart, err := none }
      | .ErrorCmd _ => End s (some (.receivedERR f))
      | .BusyCmd _ => End s (some (.receivedBUSY f))
      | .NullCmd _ => { s := s, next := some .waitForOk, err := none }
      | .OptCmd _ => { s := s, next := some .waitForOk, err := none }
      | _ => End (s.SendErrorCmd (str "Unexpected frame received")).1 (some (.unexpectedFrame f))

end sender

/-! ## Package transfer: the router -/

namespace transfer

open session

/-- The router ends. -/
def routerEnd (s : Session) (err : Option SessionError) : Result :=
  { s := s, next := none, err := err }

/-- The router while the receiver and the transmitter are both active. -/
def router (sel : RouterSelect) (s : Session) : Result :=
  match sel with
  | .ctxDone => routerEnd s none
  | .recvrDone => { s := s, next := some .routeXmitr, err := none }
  | .xmitrDone => { s := s, next := some .routeRecvr, err := none }
  | .readFrames none _ => routerEnd s (some .routerWaitingForFrame)
  | .readFrames (some f) ok =>
    if s.ctxDone || !ok then routerEnd s (some .routerWaitingForFrame)
    else
      match f with
      | .FileCmd _ _ _ _ _ _ =>
        { s := { s with RecvrFrames := s.RecvrFrames ++ [f] }, next := some .router, err := none }
      | .BusyCmd _ => { s := s, next := some .router, err := none }
      | .ErrorCmd _ => { s := s, next := some .router, err := none }
      | .EOBCmd =>
        { s := { s with RecvrFrames := s.RecvrFrames ++ [f] }, next := some .router, err := none }
      | .Data _ =>
        { s := { s with RecvrFrames := s.RecvrFrames ++ [f] }, next := some .router, err := none }
      | .NullCmd _ => { s := s, next := some .router, err := none }
      | .OptCmd _ => { s := s, next := some .router, err := none }
      | .GetCmd _ _ _ _ =>
        { s := { s with XmitrFrames := s.XmitrFrames ++ [f] }, next := some .router, err := none }
      | .GotCmd _ _ _ =>
        { s := { s with XmitrFrames := s.XmitrFrames ++ [f] }, next := some .router, err := none }
      | .SkipCmd _ _ _ =>
        { s := { s with XmitrFrames := s.XmitrFrames ++ [f] }, next := some .router, err := none }
      | _ => routerEnd (s.SendErrorCmd (str "Invalid received frame")).1 (some (.weirdFrame f))

end transfer

namespace receiver

/-- The PWD texts the specification has the listener accept for the challenge
`challenge` and the link password `password`: not `-`, beginning with `CRAM-`,
split by `-` into exactly the three fields `CRAM`, a hash name and a response,
the response being valid for the challenge and the password. -/
def specAccepts (mac : auth.Hash → List Nat → List Nat → List Nat)
    (challenge password p : List Nat) : Prop :=
  p ≠ str "-" ∧ HasPrefix p (str "CRAM-") = true ∧
    ∃ h resp, Split p 45 = [str "CRAM", h, resp] ∧
      auth.ValidateResponse mac h challenge resp password = true

/-- The informational frames of the handshake: NUL and OPT. -/
def isInformational : frame.Frame → Bool
  | .NullCmd _ => true
  | .OptCmd _ => true
  | _ => false

/-- Whether a frame is an ADR frame. -/
def isAddress : frame.Frame → Bool
  | .AddressCmd _ => true
  | _ => false

/-- The frames a peer sends, as the values the `select` of a state function
receives from the open channel. -/
def received (fs : List frame.Frame) : List session.Select :=
  fs.map (fun g => .readFrames (some g) true)

end receiver

namespace transfer

/-- Where the specification has the router send an inbound frame while the
receiver and the transmitter are both active. -/
inductive Route
  | toReceiver
  | toTransmitter
  | dropped
  | rejected
deriving DecidableEq, Repr

/-- The dispatch rules of the specification: FILE, EOB and Data to the
receiver; GET, GOT and SKIP to the transmitter; NUL, OPT, BSY and ERR to
neither; any other kind is rejected. -/
def specRoute : frame.Frame → Route
  | .FileCmd _ _ _ _ _ _ => .toReceiver
  | .EOBCmd => .toReceiver
  | .Data _ => .toReceiver
  | .GetCmd _ _ _ _ => .toTransmitter
  | .GotCmd _ _ _ => .toTransmitter
  | .SkipCmd _ _ _ => .toTransmitter
  | .NullCmd _ => .dropped
  | .OptCmd _ => .dropped
  | .BusyCmd _ => .dropped
  | .ErrorCmd _ => .dropped
  | .AddressCmd _ => .rejected
  | .PasswdCmd _ => .rejected
  | .OkCmd _ => .rejected

end transfer

/-! ## Package spool: the maildir-style spool

The spool directory is modelled by the files it holds under its three
sub-directories.  A file holds the bytes of a payload or a queue: the JSON text
that `SaveQueue` writes for a list of spool keys is taken to be read back by
`ReadQueue` as that list.  Only the failures that the state of the directory
decides are modelled (a missing or an existing file); failures of the disk
(a short write, a failed sync) are not.  `uniqueName()` is a parameter of the
functions that call it. -/

namespace spool

/-- FileKey uniquely identifies a file: it consists of a name, size and
timestamp (seconds since the Unix epoch). -/
structure FileKey where
  FileName : List Nat
  Size : Int
  TimeStamp : Int
deriving DecidableEq, Repr

/-- NewFileKey; the time stamp is given by its Unix second. -/
def NewFileKey (name : List Nat) (size : Int) (timeStamp : Int) : FileKey :=
  { FileName := name, Size := size, TimeStamp := timeStamp }

/-- SpoolKey identifies a file in the spool.  It contains a FileKey and a
Name, which is the maildir name of the actual spooled file.  This record is
what is stored in the queue. -/
structure SpoolKey where
  Name : List Nat
  SpoolTime : Int
  FileKey : FileKey
deriving DecidableEq, Repr

/-- Equal compares a file key with the file key of a spool key. -/
def FileKey.Equal (k : FileKey) (other : SpoolKey) : Bool := decide (k = other.FileKey)

/-- ToFileKey returns the FileKey associated with a SpoolKey. -/
def SpoolKey.ToFileKey (k : SpoolKey) : spool.FileKey := k.FileKey

/-- What a file of the spool holds. -/
inductive File
  | data (bytes : List Nat)
  | queue (q : List SpoolKey)
deriving DecidableEq, Repr

/-- The files under the base directory of a spool: the file, if there is one,
under a sub-directory and a name. -/
def Files : Type := List Nat → List Nat → Option File

/-- The errors of the spool that the state of the directory decides. -/
inductive SpoolError
  | notExist
  | exist
  | unmarshal
deriving DecidableEq, Repr

/-- The files with the file under `dir`, `name` replaced (or removed). -/
def Files.set (fs : Files) (dir name : List Nat) (f : Option File) : Files :=
  fun d n => if d = dir ∧ n = name then f else fs d n

/-- Go `os.Remove` of a file. -/
def osRemove (fs : Files) (dir name : List Nat) : Files × Option SpoolError :=
  match fs dir name with
  | none => (fs, some .notExist)
  | some _ => (fs.set dir name none, none)

/-- Go `os.Link`: a new name for an existing file; it fails when the old name
is missing or the new name exists. -/
def osLink (fs : Files) (oldDir oldName newDir newName : List Nat) :
    Files × Option SpoolError :=
  match fs oldDir oldName with
  | none => (fs, some .notExist)
  | some f =>
    match fs newDir newName with
    | some _ => (fs, some .exist)
    | none => (fs.set newDir newName (some f), none)

/-- Go `os.Rename`: the file takes the new name, replacing a file that has it. -/
def osRename (fs : Files) (oldDir oldName newDir newName : List Nat) :
    Files × Option SpoolError :=
  match fs oldDir oldName with
  | none => (fs, some .notExist)
  | some f => ((fs.set oldDir oldName none).set newDir newName (some f), none)

/-- Go `os.OpenFile` with `O_WRONLY|O_CREATE|O_EXCL`, followed by the writes
that give the file its content. -/
def createExcl (fs : Files) (dir name : List Nat) (f : File) : Files × Option SpoolError :=
  match fs dir name with
  | some _ => (fs, some .exist)
  | none => (fs.set dir name (some f), none)

/-- The function `openMutex`: the file `Mutex` of the directory is created when
it is missing.  The process id written into it, and truncated again by
`closeMutex`, is not modelled: nothing reads it. -/
def openMutex (fs : Files) (dir : List Nat) : Files :=
  match fs dir (str "Mutex") with
  | none => fs.set dir (str "Mutex") (some (.data []))
  | some _ => fs

/-- ReadQueue reads a queue from the given file; a missing file is created
empty and an empty file is the empty queue.  A payload that is not empty is
taken not to be the JSON text of a queue. -/
def ReadQueue (fs : Files) (dir name : List Nat) : Files × Except SpoolError (List SpoolKey) :=
  match fs dir name with
  | none => (fs.set dir name (some (.data [])), .ok [])
  | some (.data []) => (fs, .ok [])
  | some (.data (_ :: _)) => (fs, .error .unmarshal)
  | some (.queue q) => (fs, .ok q)

/-- SaveQueue writes a queue to the given file: into a new file of `tmp`
named by `uniq`, which is then renamed. -/
def SaveQueue (fs : Files) (uniq dir name : List Nat) (queue : List SpoolKey) :
    Files × Option SpoolError :=
  let tmpQueueName := uniq ++ str ".Queue"
  match createExcl fs (str "tmp") tmpQueueName (.queue queue) with
  | (fs1, some err) => (fs1, some err)
  | (fs1, none) =>
    match osRename fs1 (str "tmp") tmpQueueName dir name with
    | (fs2, some err) => ((osRemove fs2 (str "tmp") tmpQueueName).1, some err)
    | (fs2, none) => (fs2, none)

/-- Publish takes a spool key and "publishes" it into the maildir's "new"
directory and work queue. -/
def Publish (fs : Files) (uniq : List Nat) (spoolKey : SpoolKey) : Files × Option SpoolError :=
  let fs1 := (osRemove fs (str "new") spoolKey.Name).1
  let fs2 := (osLink fs1 (str "tmp") spoolKey.Name (str "new") spoolKey.Name).1
  let fs3 := openMutex fs2 (str "new")
  match ReadQueue fs3 (str "new") (str "Queue") with
  | (fs4, .error err) => (fs4, some err)
  | (fs4, .ok queue) =>
    match SaveQueue fs4 uniq (str "new") (str "Queue") (queue ++ [spoolKey]) with
    | (fs5, some err) => (fs5, some err)
    | (fs5, none) =>
      match osRemove fs5 (str "tmp") spoolKey.Name with
      | (fs6, some err) => (fs6, some err)
      | (fs6, none) => (fs6, none)

/-- Abort deletes the tmp file associated with the given SpoolKey. -/
def Abort (fs : Files) (key : SpoolKey) : Files := (osRemove fs (str "tmp") key.Name).1

/-- Consume atomically takes a published queue and moves it to a new
directory. -/
def Consume (fs : Files) (fromDir fromName toDir toName : List Nat) :
    Files × Option SpoolError :=
  let fs1 := openMutex fs fromDir
  match osRename fs1 fromDir fromName toDir toName with
  | (fs2, some err) => (fs2, some err)
  | (fs2, none) => (fs2, none)

/-- The loop of `ConcatQueues` over the incoming entries: the payload is
moved from `new` to `cur` and the entry appended; an entry whose payload
cannot be moved is skipped. -/
def moveEntries (fs : Files) (queue : List SpoolKey) : List SpoolKey → Files × List SpoolKey
  | [] => (fs, queue)
  | entry :: newQueue =>
    match osRename fs (str "new") entry.Name (str "cur") entry.Name with
    | (fs1, some _) => moveEntries fs1 queue newQueue
    | (fs1, none) => moveEntries fs1 (queue ++ [entry]) newQueue

/-- ConcatQueues concatenates any existing queue with the incoming queue. -/
def ConcatQueues (fs : Files) (uniq toDir inName name : List Nat) : Files × Option SpoolError :=
  match ReadQueue fs toDir name with
  | (fs1, .error err) => (fs1, some err)
  | (fs1, .ok queue) =>
    match ReadQueue fs1 toDir inName with
    | (fs2, .error err) => (fs2, some err)
    | (fs2, .ok newQueue) =>
      match SaveQueue (moveEntries fs2 queue newQueue).1 uniq toDir (str "Staging")
          (moveEntries fs2 queue newQueue).2 with
      | (fs4, some err) => ((osRemove fs4 toDir (str "Staging")).1, some err)
      | (fs4, none) =>
        match osRename (osRemove fs4 toDir inName).1 toDir (str "Staging") toDir name with
        | (fs6, some err) => ((osRemove fs6 toDir (str "Staging")).1, some err)
        | (fs6, none) => (fs6, none)

/-- ConsumeAndConcatQueues takes two queues and combines them. -/
def ConsumeAndConcatQueues (fs : Files) (uniq fromDir fromName toDir toName : List Nat) :
    Files × Option SpoolError :=
  match Consume fs fromDir fromName toDir (str "Incoming") with
  | (fs1, some err) => if err = .notExist then (fs1, none) else (fs1, some err)
  | (fs1, none) => ConcatQueues fs1 uniq toDir (str "Incoming") toName

/-- Remove deletes a file from the spool. -/
def Remove (fs : Files) (dir : List Nat) (key : SpoolKey) : Files × Option SpoolError :=
  osRemove fs dir key.Name

end spool

namespace frame

/-- NewFileCmd creates a FILE command without CRC and option flags. -/
def NewFileCmd (fileName : List Nat) (size timeStamp offset : Int) : Frame :=
  .FileCmd fileName size timeStamp offset 0 []

/-- NewGot creates a GOT command. -/
def NewGot (fileName : List Nat) (size timeStamp : Int) : Frame :=
  .GotCmd fileName size timeStamp

/-- NewEOB creates an EOB command. -/
def NewEOB : Frame := .EOBCmd

end frame

/-! ## Package transfer: descriptors, the receiver and the transmitter -/

namespace transfer

open session

/-- A transfer descriptor.  The spool and the spool key are set together (by
`fileRecvRequested` and `xferDescrFromSpoolKey`), so `spoolKey` is `none`
while both are nil; `spoolFile` tells whether the spool file is open. -/
structure xferDescr where
  FileKey : spool.FileKey
  offset : Int
  spoolKey : Option spool.SpoolKey
  spoolFile : Bool
deriving DecidableEq, Repr

/-- The FILE command of a descriptor. -/
def xferDescr.fileCmd (d : xferDescr) : frame.Frame :=
  frame.NewFileCmd d.FileKey.FileName d.FileKey.Size d.FileKey.TimeStamp d.offset

/-- NewXferDescr makes the descriptor of a received FILE command. -/
def NewXferDescr (fileCmd : frame.Frame) : Option xferDescr :=
  match fileCmd with
  | .FileCmd FileName Size TimeStamp Offset _ _ =>
    some { FileKey := spool.NewFileKey FileName Size TimeStamp, offset := Offset,
           spoolKey := none, spoolFile := false }
  | _ => none

/-- The file key named by a GET, GOT or SKIP frame; `none` stands for the
panic on any other frame. -/
def makeKeyFromQueueingFrame (f : frame.Frame) : Option spool.FileKey :=
  match f with
  | .GetCmd FileName Size TimeStamp _ => some (spool.NewFileKey FileName Size TimeStamp)
  | .GotCmd FileName Size TimeStamp => some (spool.NewFileKey FileName Size TimeStamp)
  | .SkipCmd FileName Size TimeStamp => some (spool.NewFileKey FileName Size TimeStamp)
  | _ => none

/-- The errors of the receiver and of the transmitter; `panic` stands for a
nil dereference or an index out of range. -/
inductive TransferError
  | sync
  | close
  | spool (e : spool.SpoolError)
  | internalServerError
  | writingGOT
  | panic
  | waitingForFile
  | weirdFrame (f : frame.Frame)
  | tempFile
  | waitingForFileData
  | writingReceiveFile
  | nilRequest
  | readError
deriving DecidableEq, Repr

/-- The descriptor gives up: the spool file is closed and the tmp file
removed; `none` stands for the panic on a nil spool key. -/
def xferDescr.abort (d : xferDescr) (fs : spool.Files) : Option spool.Files :=
  match d.spoolKey with
  | none => none
  | some key => some (spool.Abort fs key)

/-- The descriptor publishes its file.  `syncOk` and `closeOk` tell whether
`Sync` and `Close` of the open spool file succeed; on a file that is not open
`Sync` fails. -/
def xferDescr.publish (d : xferDescr) (syncOk closeOk : Bool) (fs : spool.Files)
    (uniq : List Nat) : spool.Files × Option TransferError :=
  if !(d.spoolFile && syncOk) then
    match d.abort fs with
    | none => (fs, some .panic)
    | some fs1 => (fs1, some .sync)
  else if !closeOk then
    match d.abort fs with
    | none => (fs, some .panic)
    | some fs1 => (fs1, some .close)
  else
    match d.spoolKey with
    | none => (fs, some .panic)
    | some key =>
      match spool.Publish fs uniq key with
      | (fs1, some err) => (fs1, some (.spool err))
      | (fs1, none) => (fs1, none)

/-- The states of the receiver. -/
inductive recvrState
  | waitForFile
  | recvFileData
  | gotFile
deriving DecidableEq, Repr

/-- The receiver: the session, the request in progress and the files of the
in-spool of the link. -/
structure recvrSession where
  session : Session
  request : Option xferDescr
  files : spool.Files

/-- What a state function of the receiver returns. -/
structure recvrResult where
  s : recvrSession
  next : Option recvrState
  err : Option TransferError

/-- The receiver ends. -/
def recvEnd (s : recvrSession) (err : Option TransferError) : recvrResult :=
  { s := s, next := none, err := err }

/-- The receiver ends on an internal error, which the peer is told. -/
def recvError (s : recvrSession) : recvrResult :=
  recvEnd { s with session := (s.session.SendErrorCmd (str "internal server error")).1 }
    (some .internalServerError)

/-- The state of the receiver in which the file is complete: it is published
and the peer is sent GOT.  A panic (no request, or a request without its
spool key) ends the receiver at once, with nothing sent. -/
def gotFile (syncOk closeOk : Bool) (uniq : List Nat) (s : recvrSession) : recvrResult :=
  match s.request with
  | none => { s := s, next := none, err := some .panic }
  | some descr =>
    match descr.publish syncOk closeOk s.files uniq with
    | (fs, some .panic) =>
      { s := { s with request := none, files := fs }, next := none, err := some .panic }
    | (fs, some _) => recvError { s with request := none, files := fs }
    | (fs, none) =>
      match s.session.WriteSyncFrame
          (frame.NewGot descr.FileKey.FileName descr.FileKey.Size descr.FileKey.TimeStamp) with
      | (sess, false) =>
        recvEnd { session := sess, request := none, files := fs } (some .writingGOT)
      | (sess, true) =>
        { s := { session := sess, request := none, files := fs }, next := some .waitForFile,
          err := none }

/-- The status of a queue entry. -/
inductive queueStatus
  | queuePending
  | queueSkipped
  | queueDone
deriving DecidableEq, Repr

/-- An entry of the lookup table of the transmitter. -/
structure queueEntry where
  spoolKey : spool.SpoolKey
  status : queueStatus
deriving DecidableEq, Repr

/-- The request in progress of the transmitter, which is a pointer: nil, the
descriptor at the head of `active`, or a descriptor that has left `active`.
(The code only ever assigns `s.active[0]` to it, and `active` only loses
descriptors or gains new ones at its end: a request that is in `active` is at
its head.) -/
inductive Request
  | nil
  | head
  | left (d : xferDescr)
deriving DecidableEq, Repr

/-- The transmitter: the session, the files of the out-spool of the link, the
lookup table, the queue as loaded, the active descriptors, the number of
pending entries and the request in progress. -/
structure xmitrSession where
  session : Session
  files : spool.Files
  lookup : spool.FileKey → Option queueEntry
  queue : List spool.SpoolKey
  active : List xferDescr
  pending : Int
  request : Request

/-- The descriptor that `request` points at. -/
def xmitrSession.requestDescr (s : xmitrSession) : Option xferDescr :=
  match s.request with
  | .nil => none
  | .head => s.active.head?
  | .left d => some d

/-- A change made to the descriptor that `request` points at. -/
def xmitrSession.updateRequest (s : xmitrSession) (f : xferDescr → xferDescr) : xmitrSession :=
  match s.request, s.active with
  | .head, d :: active => { s with active := f d :: active }
  | .left d, _ => { s with request := .left (f d) }
  | _, _ => s

/-- The request once the descriptors of the file `key` have left `active`: a
request at the head of `active` stays there unless it is for this file. -/
def requestAfterRemove (key : spool.FileKey) (active : List xferDescr) (request : Request) :
    Request :=
  match request, active with
  | .head, d :: _ =>
    match d.spoolKey with
    | some k => if key.Equal k then .left d else .head
    | none => .head
  | r, _ => r

/-- The transmitter before its queue is loaded. -/
def makeXmitrSession (outSpool : spool.Files) (s : Session) : xmitrSession :=
  { session := s, files := outSpool, lookup := fun _ => none, queue := [], active := [],
    pending := 0, request := .nil }

/-- The descriptor of a queue entry at an offset. -/
def xferDescrFromSpoolKey (key : spool.SpoolKey) (offset : Int) : xferDescr :=
  { FileKey := key.ToFileKey, offset := offset, spoolKey := some key, spoolFile := false }

/-- The lookup table with the entry of `key` replaced. -/
def setEntry (lookup : spool.FileKey → Option queueEntry) (key : spool.FileKey)
    (e : queueEntry) : spool.FileKey → Option queueEntry :=
  fun k => if k = key then some e else lookup k

/-- The loop of `loadQueue` over the entries read. -/
def loadEntries : List spool.SpoolKey → xmitrSession → xmitrSession
  | [], s => s
  | entry :: queue, s =>
    loadEntries queue
      { s with
        queue := s.queue ++ [entry]
        lookup := setEntry s.lookup entry.ToFileKey { spoolKey := entry, status := .queuePending }
        active := s.active ++ [xferDescrFromSpoolKey entry 0] }

/-- The transmitter loads its queue: the published queue is taken over into
`cur` and read. -/
def xmitrSession.loadQueue (s : xmitrSession) (uniq : List Nat) :
    xmitrSession × Option spool.SpoolError :=
  match spool.ConsumeAndConcatQueues s.files uniq (str "new") (str "Queue") (str "cur")
      (str "Queue") with
  | (fs1, some err) => ({ s with files := fs1 }, some err)
  | (fs1, none) =>
    match spool.ReadQueue fs1 (str "cur") (str "Queue") with
    | (fs2, .error err) => ({ s with files := fs2 }, some err)
    | (fs2, .ok queue) =>
      (loadEntries queue
        { s with files := fs2, pending := queue.length, queue := [], active := [] }, none)

/-- The active descriptors without those of the file `key`; `none` stands for
the panic on a descriptor without spool key. -/
def removeFromActive (key : spool.FileKey) : List xferDescr → Option (List xferDescr)
  | [] => some []
  | entry :: active =>
    match entry.spoolKey with
    | none => none
    | some k =>
      match removeFromActive key active with
      | none => none
      | some newActive => if key.Equal k then some newActive else some (entry :: newActive)

/-- The peer asks for the file `key` from `offset`. -/
def xmitrSession.get (s : xmitrSession) (key : spool.FileKey) (offset : Int) :
    Option xmitrSession :=
  match s.lookup key with
  | none => some s
  | some qEntry =>
    match removeFromActive key s.active with
    | none => none
    | some newActive =>
      some { s with
        lookup := setEntry s.lookup key { qEntry with status := .queuePending }
        active := newActive ++ [xferDescrFromSpoolKey qEntry.spoolKey offset]
        request := .head }

/-- The peer has got the file `key`: the entry is done and the spooled file
removed. -/
def xmitrSession.got (s : xmitrSession) (key : spool.FileKey) : Option xmitrSession :=
  match s.lookup key with
  | none => some s
  | some qEntry =>
    match removeFromActive key s.active with
    | none => none
    | some newActive =>
      some { s with
        lookup := setEntry s.lookup key { qEntry with status := .queueDone }
        files := (spool.Remove s.files (str "cur") qEntry.spoolKey).1
        active := newActive
        request := requestAfterRemove key s.active s.request
        pending := s.pending - 1 }

/-- The peer skips the file `key`. -/
def xmitrSession.skip (s : xmitrSession) (key : spool.FileKey) : Option xmitrSession :=
  match s.lookup key with
  | none => some s
  | some qEntry =>
    match removeFromActive key s.active with
    | none => none
    | some newActive =>
      some { s with
        lookup := setEntry s.lookup key { qEntry with status := .queueSkipped }
        active := newActive
        request := requestAfterRemove key s.active s.request
        pending := s.pending - 1 }

/-- The queue that is left: the entries of the loaded queue that are not
done are saved as `cur/Queue`. -/
def xmitrSession.put (s : xmitrSession) (uniq : List Nat) :
    xmitrSession × Option spool.SpoolError :=
  let newQueue := s.queue.filter (fun v =>
    match s.lookup v.FileKey with
    | none => false
    | some qEntry => qEntry.status != .queueDone)
  match spool.SaveQueue s.files uniq (str "cur") (str "Queue") newQueue with
  | (fs, err) => ({ s with files := fs }, err)

/-- What the transmitter does with a frame from its channel, in
`xmitWaitForRequest` and in the loop of `xmitSend`; `none` stands for the
panic on a frame that is not GET, GOT or SKIP. -/
def xmitrSession.queueing (s : xmitrSession) (f : frame.Frame) : Option xmitrSession :=
  match makeKeyFromQueueingFrame f with
  | none => none
  | some key =>
    match f with
    | .GetCmd _ _ _ Offset => s.get key Offset
    | .GotCmd _ _ _ => s.got key
    | .SkipCmd _ _ _ => s.skip key
    | _ => none

/-- The frames of the channel handled one after the other. -/
def xmitrSession.queueingAll (s : xmitrSession) : List frame.Frame → Option xmitrSession
  | [] => some s
  | f :: fs =>
    match s.queueing f with
    | none => none
    | some s1 => s1.queueingAll fs

/-- The last state of the transmitter: EOB is written and the queue saved. -/
def xmitEnd (uniq : List Nat) (s : xmitrSession) : xmitrSession :=
  ({ s with session := (s.session.WriteSyncFrame frame.NewEOB).1 }.put uniq).1

end transfer

/-! ## The spool: crashes, queues and payloads, as the claims speak of them -/

namespace spool

/-- The files after a crash of `Publish` that came once the first `n` of its
seven file operations were done: the removal from `new`, the link, the
mutex, the reading of the queue (which creates a missing queue file), the
temporary queue file, its renaming to `new/Queue`, the removal from `tmp`.
With `n = 7` these are the files that `Publish` leaves. -/
def publishCrash (n : Nat) (fs : Files) (uniq : List Nat) (spoolKey : SpoolKey) : Files :=
  let fs1 := (osRemove fs (str "new") spoolKey.Name).1
  let fs2 := (osLink fs1 (str "tmp") spoolKey.Name (str "new") spoolKey.Name).1
  let fs3 := openMutex fs2 (str "new")
  match n with
  | 0 => fs
  | 1 => fs1
  | 2 => fs2
  | 3 => fs3
  | m + 4 =>
    match ReadQueue fs3 (str "new") (str "Queue") with
    | (fs4, .error _) => fs4
    | (fs4, .ok queue) =>
      if m = 0 then fs4 else
      match createExcl fs4 (str "tmp") (uniq ++ str ".Queue") (.queue (queue ++ [spoolKey])) with
      | (fs5, some _) => fs5
      | (fs5, none) =>
        if m = 1 then fs5 else
        match osRename fs5 (str "tmp") (uniq ++ str ".Queue") (str "new") (str "Queue") with
        | (fs6, some _) => (osRemove fs6 (str "tmp") (uniq ++ str ".Queue")).1
        | (fs6, none) => if m = 2 then fs6 else (osRemove fs6 (str "tmp") spoolKey.Name).1

/-- The keys listed by the queue file under `dir` and `name`; none when the
file is missing or is no queue. -/
def listed (fs : Files) (dir name : List Nat) : List SpoolKey :=
  match fs dir name with
  | some (.queue q) => q
  | _ => []

/-- Whether the payload of a key is present in `new` or in `cur`. -/
def payloadPresent (fs : Files) (e : SpoolKey) : Bool :=
  (fs (str "new") e.Name).isSome || (fs (str "cur") e.Name).isSome

/-- No queue of the spool (`new/Queue`, `cur/Queue`, `cur/Incoming`,
`cur/Staging`) lists a key whose payload is absent from `new` and `cur`. -/
def noDangling (fs : Files) : Prop :=
  ∀ e, (e ∈ listed fs (str "new") (str "Queue") ∨ e ∈ listed fs (str "cur") (str "Queue") ∨
      e ∈ listed fs (str "cur") (str "Incoming") ∨ e ∈ listed fs (str "cur") (str "Staging")) →
    payloadPresent fs e = true

/-- Successive calls of `Publish`, each with the unique name it draws, up to
the first that fails. -/
def publishAll : Files → List (List Nat × SpoolKey) → Files × Option SpoolError
  | fs, [] => (fs, none)
  | fs, (uniq, k) :: rest =>
    match Publish fs uniq k with
    | (fs1, some err) => (fs1, some err)
    | (fs1, none) => publishAll fs1 rest

end spool

namespace transfer

/-- The status a GET, GOT or SKIP frame gives to the file it names. -/
def statusOf : frame.Frame → queueStatus
  | .GotCmd _ _ _ => .queueDone
  | .SkipCmd _ _ _ => .queueSkipped
  | _ => .queuePending

/-- The status of the file `key` after the frames `evs`, as the specification
has it: that of the last frame that names the file, pending when none does. -/
def specStatus (key : spool.FileKey) (evs : List frame.Frame) : queueStatus :=
  evs.foldl (fun st f => if makeKeyFromQueueingFrame f = some key then statusOf f else st)
    .queuePending

/-- The residual queue of the specification: the entries of the loaded queue,
in their order, whose file is not done. -/
def specResidual (queue : List spool.SpoolKey) (evs : List frame.Frame) : List spool.SpoolKey :=
  queue.filter (fun v => specStatus v.FileKey evs != .queueDone)

end transfer

/-! ## Unique names and the log text of a password -/

/-- Hexadecimal digits of `n` in lower case, most significant first, in front
of `acc`. -/
def formatHexAux : Nat → Nat → List Nat → List Nat
  | 0, _, acc => acc
  | fuel + 1, n, acc =>
    if n < 16 then hexDigit n :: acc
    else formatHexAux fuel (n / 16) (hexDigit (n % 16) :: acc)

/-- Go `%x` of an unsigned integer. -/
def formatHex (n : Nat) : List Nat := formatHexAux (n + 1) n []

namespace spool

/-- The unique name of a spool file.  The variables of the package are
arguments: `pid`, `hostname` and `startSeqNo`, which `init` sets once for the
process; so is what a call takes from its environment: the sequence number
`seqNo` received from `seqC`, the random text `r` returned by `cryptoRand`, and
the values `unix` of `now.Unix()` and `unixNano` of `now.UnixNano()`. -/
def uniqueName (pid : Int) (hostname : List Nat) (startSeqNo : Nat) (seqNo : Nat)
    (r : List Nat) (unix unixNano : Int) : List Nat :=
  formatInt unix ++ str ".X" ++ formatHex startSeqNo ++ str "R" ++ r ++ str "M" ++
    formatInt (Int.tdiv unixNano 1000) ++ str "P" ++ formatInt pid ++ str "Q" ++
    formatNat seqNo ++ str "." ++ hostname

end spool

namespace frame

/-- The text of a PWD command in logs: a CRAM response is shown, any other
password is not. -/
def PasswdCmd.String (Password : List Nat) : List Nat :=
  if HasPrefix Password (str "CRAM-") then str "PWD: " ++ Password
  else str "PWD: (password)"

end frame

/-! ## Package transfer: the states of the receiver -/

/-- Go arithmetic on `int64` wraps around. -/
def wrapInt64 (i : Int) : Int := (i + 2 ^ 63) % 2 ^ 64 - 2 ^ 63

namespace spool

/-- The bytes of a file after `data` is written at the offset `off`: a file
that ends before `off` is filled up with zero bytes; nothing is written for no
data. -/
def writeAt (content data : List Nat) (off : Nat) : List Nat :=
  if data = [] then content
  else content.take off ++ List.replicate (off - content.length) 0 ++ data ++
    content.drop (off + data.length)

/-- Go `WriteAt` on the open file of `dir/name`, written through its directory
entry.  It fails for a negative offset, where the bytes would end behind the
largest offset of a file, and when the disk does not take the bytes
(`diskOk`).  A file that has left the directory is written without a change of
the directory; the text of a queue file is not modelled, a write into one is
reported as failed. -/
def osWriteAt (fs : Files) (dir name data : List Nat) (off : Int) (diskOk : Bool) :
    Files × Bool :=
  if off < 0 ∨ off + data.length ≥ 2 ^ 63 ∨ diskOk = false then (fs, false)
  else
    match fs dir name with
    | some (.data content) =>
      (fs.set dir name (some (.data (writeAt content data off.toNat))), true)
    | some (.queue _) => (fs, false)
    | none => (fs, true)

/-- TempFileFor creates a new file in the spool's `tmp` directory to store
incoming data.  `tmpName` is the first of the unique names under which the
file could be opened (it is created when missing and kept when present),
`none` when all of the 1000 attempts failed; `now` is the clock. -/
def TempFileFor (fs : Files) (tmpName : Option (List Nat)) (now : Int) (fileKey : FileKey) :
    Files × Option SpoolKey :=
  match tmpName with
  | none => (fs, none)
  | some name =>
    match fs (str "tmp") name with
    | none => (fs.set (str "tmp") name (some (.data [])), some ⟨name, now, fileKey⟩)
    | some _ => (fs, some ⟨name, now, fileKey⟩)

end spool

namespace transfer

open session

/-- The transfer is complete when the offset has reached the size. -/
def xferDescr.xferComplete (d : xferDescr) : Bool := decide (d.offset ≥ d.FileKey.Size)

/-- The offset moves on by `n` bytes. -/
def xferDescr.incrOffset (d : xferDescr) (n : Nat) : xferDescr :=
  { d with offset := wrapInt64 (d.offset + n) }

/-- The spool file is closed: a closed file is of no more use than none. -/
def xferDescr.close (d : xferDescr) : xferDescr := { d with spoolFile := false }

/-- The duplicate check of the receiver, a stub. -/
def hasFile (_ : xferDescr) : Bool := false

/-- A FILE command was received: the request is kept and its temporary file
created.  Without a link the code dereferences nil. -/
def fileRecvRequested (tmpName : Option (List Nat)) (now : Int) (s : recvrSession)
    (request : xferDescr) : recvrResult :=
  let s1 := { s with request := some request }
  if hasFile request then { s := s1, next := some .gotFile, err := none }
  else
    match s1.session.Link with
    | none => { s := s1, next := none, err := some .panic }
    | some _ =>
      match spool.TempFileFor s1.files tmpName now request.FileKey with
      | (fs, none) => recvEnd { s1 with files := fs } (some .tempFile)
      | (fs, some spoolKey) =>
        { s := { s1 with
            files := fs
            request := some { request with spoolFile := true, spoolKey := some spoolKey } }
          next := some .recvFileData
          err := none }

/-- The state of the receiver between two files; `sel` is what the `select`
received, with the channel `RecvrFrames` in the place of `ReadFrames`. -/
def waitForFile (tmpName : Option (List Nat)) (now : Int) (sel : Select) (s : recvrSession) :
    recvrResult :=
  match sel with
  | .ctxDone => recvEnd s none
  | .readFrames none _ => recvEnd s (some .waitingForFile)
  | .readFrames (some f) ok =>
    if s.session.ctxDone || !ok then recvEnd s (some .waitingForFile)
    else
      match f with
      | .FileCmd _ _ _ _ _ _ =>
        match NewXferDescr f with
        | none => { s := s, next := none, err := some .panic }
        | some request => fileRecvRequested tmpName now s request
      | .EOBCmd => recvEnd s none
      | .Data _ => { s := s, next := some .waitForFile, err := none }
      | _ =>
        recvEnd { s with session := (s.session.SendErrorCmd (str "Invalid received frame")).1 }
          (some (.weirdFrame f))

/-- A data frame of the file in progress is written at the offset of the
descriptor, which moves on; with the size reached the receiver goes on to
`gotFile`.  The spool file is written under its name in `tmp`: a descriptor has
an open file only together with its spool key. -/
def recvDataFrame (diskOk : Bool) (s : recvrSession) (data : List Nat) : recvrResult :=
  match s.request with
  | none => { s := s, next := none, err := some .panic }
  | some descr =>
    let w : spool.Files × Bool :=
      match descr.spoolFile, descr.spoolKey with
      | true, some key => spool.osWriteAt s.files (str "tmp") key.Name data descr.offset diskOk
      | _, _ => (s.files, false)
    if !w.2 then
      match descr.abort w.1 with
      | none => { s := { s with files := w.1 }, next := none, err := some .panic }
      | some fs =>
        recvEnd { s with files := fs, request := some descr.close } (some .writingReceiveFile)
    else
      let descr1 := descr.incrOffset data.length
      if !descr1.xferComplete then
        { s := { s with files := w.1, request := some descr1 }, next := some .recvFileData,
          err := none }
      else
        { s := { s with files := w.1, request := some descr1 }, next := some .gotFile,
          err := none }

/-- The state of the receiver within a file. -/
def recvFileData (tmpName : Option (List Nat)) (now : Int) (diskOk : Bool) (sel : Select)
    (s : recvrSession) : recvrResult :=
  match sel with
  | .ctxDone => recvEnd s none
  | .readFrames none _ => recvEnd s (some .waitingForFileData)
  | .readFrames (some f) ok =>
    if s.session.ctxDone || !ok then recvEnd s (some .waitingForFileData)
    else
      match f with
      | .Data data => recvDataFrame diskOk s data
      | .FileCmd _ _ _ _ _ _ =>
        match s.request with
        | none => { s := s, next := none, err := some .panic }
        | some descr =>
          match descr.abort s.files, NewXferDescr f with
          | some fs, some request =>
            fileRecvRequested tmpName now { s with files := fs, request := none } request
          | _, _ => { s := s, next := none, err := some .panic }
      | _ =>
        recvEnd { s with session := (s.session.SendErrorCmd (str "Invalid received frame")).1 }
          (some (.weirdFrame f))

/-- The loop of `runRecvr` in the state `recvFileData` over data frames taken
from the channel, up to the frame after which the state changes. -/
def recvData (tmpName : Option (List Nat)) (now : Int) (diskOk : Bool) :
    List (List Nat) → recvrSession → recvrResult
  | [], s => { s := s, next := some .recvFileData, err := none }
  | data :: frames, s =>
    match recvFileData tmpName now diskOk (.readFrames (some (.Data data)) true) s with
    | { s := s1, next := some .recvFileData, err := none } =>
      recvData tmpName now diskOk frames s1
    | r => r

end transfer

/-! ## Package transfer: the states of the transmitter -/

namespace frame

/-- ReadDataFrameFrom reads data from a file and copies it into a Data frame:
up to `MaxFrameSize` bytes of what the reader `r` still holds, none at the end
of the file, which is no error.  `none` is a file that cannot be read (nil or
closed): the error of the read is returned.  The parameter `offset` of the Go
function is not used. -/
def ReadDataFrameFrom (r : Option (List Nat)) : Option Frame :=
  match r with
  | none => none
  | some bytes => some (.Data (bytes.take MaxFrameSize))

/-- The length of a data frame; no other frame has one. -/
def Frame.Length : Frame → Nat
  | .Data data => data.length
  | _ => 0

end frame

namespace transfer

open session

/-- The states of the transmitter. -/
inductive xmitrState
  | startXmitr
  | xmitSendNextRequest
  | xmitWaitForRequest
  | xmitSend
  | xmitEnd
deriving DecidableEq, Repr

/-- What a state function of the transmitter returns. -/
structure xmitrResult where
  s : xmitrSession
  next : Option xmitrState
  err : Option TransferError

/-- What a `select` in the loop of `xmitSend` found: the cancellation of the
context, a value from `XmitrFrames` (the frame, `none` for `nil`, and whether
the channel was open), or nothing ready (`default`). -/
inductive XmitrSelect
  | ctxDone
  | xmitrFrames (f : Option frame.Frame) (ok : Bool)
  | default
deriving DecidableEq, Repr

/-- The descriptor opens its spool file in `cur` and seeks to its offset,
which fails for a missing file and for a negative offset; `none` stands for the
panic on a descriptor without spool key. -/
def xferDescr.open (d : xferDescr) (fs : spool.Files) : Option (xferDescr × Bool) :=
  match d.spoolKey with
  | none => none
  | some key =>
    match fs (str "cur") key.Name with
    | none => some (d, false)
    | some _ => if d.offset < 0 then some (d, false) else some ({ d with spoolFile := true }, true)

/-- The open spool file of a descriptor as a reader: the bytes from the
offset on, the position that `open` seeks and that moves on with every read as
the offset does.  The file is read through its directory entry in `cur`;
`none` is a file that cannot be read: not open, gone from the directory, or a
queue file, whose text is not modelled. -/
def xferDescr.reader (d : xferDescr) (fs : spool.Files) : Option (List Nat) :=
  match d.spoolFile, d.spoolKey with
  | true, some key =>
    match fs (str "cur") key.Name with
    | some (.data content) => some (content.drop d.offset.toNat)
    | _ => none
  | _, _ => none

/-- The first state of the transmitter: the queue is loaded. -/
def startXmitr (uniq : List Nat) (s : xmitrSession) : xmitrResult :=
  match s.loadQueue uniq with
  | (s1, some err) => { s := s1, next := some .xmitEnd, err := some (.spool err) }
  | (s1, none) => { s := s1, next := some .xmitSendNextRequest, err := none }

/-- The request is finished: its file is closed and the head of `active`
dropped. -/
def xmitFinishRequest (s : xmitrSession) : xmitrSession :=
  let s1 := s.updateRequest xferDescr.close
  match s1.active with
  | [] => s1
  | d :: active =>
    { s1 with
      active := active
      request := match s1.request with
        | .head => .left d
        | r => r }

/-- The next request is the head of `active`; without pending entries the
transmitter ends, without active descriptors it waits. -/
def xmitSendNextRequest (s : xmitrSession) : xmitrResult :=
  if s.pending ≤ 0 then { s := s, next := some .xmitEnd, err := none }
  else if s.active.length = 0 then { s := s, next := some .xmitWaitForRequest, err := none }
  else { s := { s with request := .head }, next := some .xmitSend, err := none }

/-- The transmitter waits for a GET, GOT or SKIP of the peer; `sel` is what
the `select` received, with the channel `XmitrFrames` in the place of
`ReadFrames`. -/
def xmitWaitForRequest (sel : Select) (s : xmitrSession) : xmitrResult :=
  match sel with
  | .ctxDone => { s := s, next := some .xmitEnd, err := none }
  | .readFrames none _ => { s := s, next := some .xmitEnd, err := none }
  | .readFrames (some f) ok =>
    if s.session.ctxDone || !ok then { s := s, next := some .xmitEnd, err := none }
    else
      match s.queueing f with
      | none => { s := s, next := none, err := some .panic }
      | some s1 => { s := s1, next := some .xmitSend, err := none }

/-- Where the loop of `xmitSend` is when the events given are used up: still
running, or left with the result of `xmitSend` and the events not used. -/
inductive LoopOutcome
  | running (s : xmitrSession)
  | returned (r : xmitrResult) (rest : List XmitrSelect)

/-- The condition of the loop of `xmitSend`: with the request complete the
loop is left, the writer flushed and `xmitSend` returns (`some`); else the
loop goes on (`none`). -/
def sendLoopDone (s : xmitrSession) : Option xmitrResult :=
  match s.requestDescr with
  | none => some { s := s, next := none, err := some .panic }
  | some d =>
    if d.xferComplete then
      some { s := { s with session := s.session.FlushWriter.1 },
             next := some .xmitSendNextRequest, err := none }
    else none

/-- What comes of one turn of the loop of `xmitSend`: the loop goes on, or
`xmitSend` returns. -/
inductive Turn
  | goesOn (s : xmitrSession)
  | returns (r : xmitrResult)

/-- One turn of the loop of `xmitSend`, by what its `select` finds: a GET, GOT
or SKIP is handled, and ends the loop when it names the file of the request;
with nothing ready the next bytes of the file are sent in a data frame, whether
the writer takes it or not. -/
def sendTurn (sel : XmitrSelect) (s : xmitrSession) : Turn :=
  match sel with
  | .ctxDone => .returns { s := s, next := some .xmitEnd, err := none }
  | .xmitrFrames none _ => .returns { s := s, next := some .xmitEnd, err := none }
  | .xmitrFrames (some f) ok =>
    if s.session.ctxDone || !ok then .returns { s := s, next := some .xmitEnd, err := none }
    else
      match makeKeyFromQueueingFrame f, s.queueing f with
      | some key, some s1 =>
        match s1.requestDescr with
        | none => .returns { s := s1, next := none, err := some .panic }
        | some d1 =>
          match d1.spoolKey with
          | none => .returns { s := s1, next := none, err := some .panic }
          | some k =>
            if key.Equal k then
              .returns { s := s1, next := some .xmitSendNextRequest, err := none }
            else .goesOn s1
      | _, _ => .returns { s := s, next := none, err := some .panic }
  | .default =>
    match s.requestDescr with
    | none => .returns { s := s, next := none, err := some .panic }
    | some d =>
      match frame.ReadDataFrameFrom (d.reader s.files) with
      | none => .returns { s := s, next := some .xmitEnd, err := some .readError }
      | some dataFrame =>
        let s1 := s.updateRequest (fun d => d.incrOffset dataFrame.Length)
        .goesOn { s1 with session := (s1.session.WriteFrame dataFrame).1 }

/-- The loop of `xmitSend`, one `select` for every turn: it goes on while the
request is not complete. -/
def sendLoop : List XmitrSelect → xmitrSession → LoopOutcome
  | [], s =>
    match sendLoopDone s with
    | some r => .returned r []
    | none => .running s
  | sel :: rest, s =>
    match sendLoopDone s with
    | some r => .returned r (sel :: rest)
    | none =>
      match sendTurn sel s with
      | .returns r => .returned r rest
      | .goesOn s1 => sendLoop rest s1

/-- The transmitter sends the file of the request: the FILE frame, then the
data.  When `xmitSend` returns the request is finished (`defer`). -/
def xmitSend (evs : List XmitrSelect) (s : xmitrSession) : LoopOutcome :=
  match s.requestDescr with
  | none => .returned { s := s, next := none, err := some .nilRequest } evs
  | some d =>
    match d.open s.files with
    | none => .returned { s := s, next := none, err := some .panic } evs
    | some (_, false) =>
      match s.got d.FileKey with
      | none => .returned { s := s, next := none, err := some .panic } evs
      | some s1 =>
        .returned { s := xmitFinishRequest s1, next := some .xmitSendNextRequest, err := none } evs
    | some (d1, true) =>
      let s1 := s.updateRequest (fun _ => d1)
      match s1.session.WriteFrame d1.fileCmd with
      | (sess, false) =>
        .returned { s := xmitFinishRequest { s1 with session := sess },
                    next := some .xmitSendNextRequest, err := none } evs
      | (sess, true) =>
        match sendLoop evs { s1 with session := sess } with
        | .running s2 => .running s2
        | .returned r rest =>
          match r.err with
          | some .panic => .returned r rest
          | _ => .returned { r with s := xmitFinishRequest r.s } rest

/-- The last state of the transmitter, with its result. -/
def xmitEndState (uniq : List Nat) (s : xmitrSession) : xmitrResult :=
  { s := xmitEnd uniq s, next := none, err := none }

/-- The loop of `runXmitr` from a state, for at most `fuel` state functions:
it ends with the first error or with no next state.  `evs` is what the
`select`s find one after the other (a `select` that waits finds nothing with
`default`); `u1` and `u2` are the unique names drawn by `loadQueue` and `put`.
`none` is returned when the events are used up within the loop of `xmitSend`;
when they are used up in `xmitWaitForRequest`, or with the fuel, the result
names the state that comes next. -/
def runXmitr (u1 u2 : List Nat) :
    Nat → xmitrState → List XmitrSelect → xmitrSession → Option xmitrResult
  | 0, st, _, s => some { s := s, next := some st, err := none }
  | fuel + 1, st, evs, s =>
    let go (r : xmitrResult) (rest : List XmitrSelect) : Option xmitrResult :=
      match r.err, r.next with
      | some _, _ => some r
      | none, none => some r
      | none, some st1 => runXmitr u1 u2 fuel st1 rest r.s
    match st with
    | .startXmitr => go (startXmitr u1 s) evs
    | .xmitSendNextRequest => go (xmitSendNextRequest s) evs
    | .xmitWaitForRequest =>
      match evs with
      | [] => some { s := s, next := some .xmitWaitForRequest, err := none }
      | .ctxDone :: rest => go (xmitWaitForRequest .ctxDone s) rest
      | .xmitrFrames f ok :: rest => go (xmitWaitForRequest (.readFrames f ok) s) rest
      | .default :: rest => go { s := s, next := some .xmitWaitForRequest, err := none } rest
    | .xmitSend =>
      match xmitSend evs s with
      | .running _ => none
      | .returned r rest => go r rest
    | .xmitEnd => go (xmitEndState u2 s) evs

end transfer

/-! ## The receiver and the transmitter, as the claims speak of them -/

namespace transfer

/-- The bytes of a file after data frames are written one behind the other
from the offset `off`: each frame at `off` plus the lengths of the frames
before it. -/
def specWritten (content : List Nat) (off : Nat) : List (List Nat) → List Nat
  | [] => content
  | data :: frames => specWritten (spool.writeAt content data off) (off + data.length) frames

/-- The sum of the lengths of data frames. -/
def totalLength (frames : List (List Nat)) : Nat := (frames.map List.length).sum

/-- The number of files in the lookup table whose status is pending; the keys
of the table are the file keys of the queue that was loaded. -/
def pendingFiles (s : xmitrSession) : Nat :=
  ((s.queue.map (fun k => k.ToFileKey)).dedup.filter (fun k =>
    (s.lookup k).map (fun e => e.status) == some .queuePending)).length

end transfer

/-! ## Properties of the frame header and of `Read` -/

namespace frame

theorem headerLength_eq (a b : Nat) (hb : b < 256) :
    headerLength (a, b) = (a % 128) * 256 + b := by
  unfold headerLength
  have h1 : a &&& 0x7F = a % 128 := Nat.and_pow_two_sub_one_eq_mod a 7
  have h2 : (2 : Nat) ^ 8 * (a % 128) + b = 2 ^ 8 * (a % 128) ||| b :=
    Nat.mul_add_lt_is_or (by omega) (a % 128)
  simp only [h1, Nat.shiftLeft_eq]
  rw [Nat.mul_comm, ← h2]

theorem or_high_bit : ∀ x, x < 128 → (x ||| 0x80) = x + 128 := by decide

theorem encodeDataHeader_ok (L : Nat) (h : L ≤ 32767) :
    encodeDataHeader L = .ok (L / 256, L % 256) := by
  unfold encodeDataHeader MaxFrameSize byte
  rw [if_neg (by omega), Nat.shiftRight_eq_div_pow]
  have : L / 2 ^ 8 % 256 = L / 256 := by norm_num; omega
  rw [this]

theorem encodeCmdHeader_ok (L : Nat) (h : L ≤ 32767) :
    encodeCmdHeader L = .ok (L / 256 + 128, L % 256) := by
  unfold encodeCmdHeader MaxFrameSize byte
  rw [if_neg (by omega), Nat.shiftRight_eq_div_pow]
  have : L / 2 ^ 8 % 256 = L / 256 := by norm_num; omega
  rw [this, or_high_bit _ (by omega)]

theorem headerLength_data (L : Nat) (h : L ≤ 32767) :
    headerLength (L / 256, L % 256) = L := by
  rw [headerLength_eq _ _ (by omega)]; omega

theorem headerLength_cmd (L : Nat) (h : L ≤ 32767) :
    headerLength (L / 256 + 128, L % 256) = L := by
  rw [headerLength_eq _ _ (by omega)]; omega

theorem ReadFull_ok (reader : List Nat) (n : Nat) (h0 : n ≠ 0) (h : n ≤ reader.length) :
    ReadFull reader n = (.ok (reader.take n), reader.drop n) := by
  have hne : reader ≠ [] := by
    intro e; subst e; simp at h; exact h0 h
  unfold ReadFull
  rw [if_neg h0, if_neg hne, if_neg (by omega)]

theorem ReadFull_short (reader : List Nat) (n : Nat) (h : reader.length < n) :
    ReadFull reader n = (.error (if reader = [] then .EOF else .ErrUnexpectedEOF), []) := by
  unfold ReadFull
  rw [if_neg (by omega)]
  by_cases hne : reader = []
  · rw [if_pos hne, if_pos hne]
  · rw [if_neg hne, if_pos h, if_neg hne]

theorem Read_cons (h0 h1 : Nat) (rest : List Nat) :
    Read (h0 :: h1 :: rest) =
      if headerLength (h0, h1) = 0 then (.error .emptyFrame, rest) else
      match ReadFull rest (headerLength (h0, h1)) with
      | (.error err, reader2) => (.error err, reader2)
      | (.ok data, reader2) => (decodeFrame (h0, h1) data, reader2) := by
  unfold Read
  rw [ReadFull_ok _ 2 (by omega) (by simp)]
  rfl

/-- With the whole payload present, `Read` decodes the first `2 + L` bytes
and leaves the reader behind them. -/
theorem Read_full (h0 h1 : Nat) (rest : List Nat)
    (hL : 1 ≤ headerLength (h0, h1)) (hlen : headerLength (h0, h1) ≤ rest.length) :
    Read (h0 :: h1 :: rest) =
      (decodeFrame (h0, h1) (rest.take (headerLength (h0, h1))),
        rest.drop (headerLength (h0, h1))) := by
  rw [Read_cons, if_neg (by omega), ReadFull_ok _ _ (by omega) hlen]

/-- With part of the payload missing, `Read` fails on the short read. -/
theorem Read_short (h0 h1 : Nat) (rest : List Nat)
    (hlen : rest.length < headerLength (h0, h1)) :
    Read (h0 :: h1 :: rest) =
      (.error (if rest = [] then .EOF else .ErrUnexpectedEOF), []) := by
  rw [Read_cons, if_neg (by omega), ReadFull_short _ _ hlen]

theorem decodeFrame_data (h0 h1 : Nat) (data : List Nat) (h : h0 < 128) :
    decodeFrame (h0, h1) data = .ok (.Data data) := by
  unfold decodeFrame
  have : h0 >>> 7 = 0 := by rw [Nat.shiftRight_eq_div_pow]; norm_num; omega
  simp [this]

theorem decodeFrame_cmd (h0 h1 op : Nat) (data : List Nat) (h : 128 ≤ h0) :
    decodeFrame (h0, h1) (op :: data) =
      if op = CmdNUL then decodeNullCmd data
      else if op = CmdADR then decodeAddressCmd data
      else if op = CmdPWD then .ok (.PasswdCmd (dataToString data))
      else if op = CmdFILE then decodeFileCmd data
      else if op = CmdOK then .ok (.OkCmd (dataToString data))
      else if op = CmdEOB then .ok .EOBCmd
      else if op = CmdGOT then decodeGotCmd data
      else if op = CmdERR then .ok (.ErrorCmd (dataToString data))
      else if op = CmdBSY then .ok (.BusyCmd (dataToString data))
      else if op = CmdGET then .ok (.GetCmd [] 0 zeroTime 0)
      else if op = CmdSKIP then .ok (.SkipCmd [] 0 zeroTime)
      else .error (.invalidCommand op) := by
  unfold decodeFrame
  have : h0 >>> 7 ≠ 0 := by
    rw [Nat.shiftRight_eq_div_pow]
    have : 1 ≤ h0 / 2 ^ 7 := by
      rw [Nat.le_div_iff_mul_le (by norm_num)]; omega
    omega
  simp only [this, if_false]

/-- The writer after a data frame of at most 32767 bytes is written. -/
theorem WriteBytes_data (data out : List Nat) (h : data.length ≤ 32767) :
    WriteBytes (.Data data) out =
      (none, out ++ (data.length / 256 :: data.length % 256 :: data)) := by
  simp [WriteBytes, encodeDataHeader_ok _ h]

/-- Reading back a data frame of 1 to 32767 bytes followed by anything. -/
theorem Read_data (data rest : List Nat) (h1 : 1 ≤ data.length) (h : data.length ≤ 32767) :
    Read (data.length / 256 :: data.length % 256 :: (data ++ rest)) =
      (.ok (.Data data), rest) := by
  have hl := headerLength_data _ h
  rw [Read_full _ _ _ (by omega) (by rw [hl]; simp), hl, decodeFrame_data _ _ _ (by omega)]
  simp

theorem encodeAll_foldl (ds : List (List Nat)) (hds : ∀ d ∈ ds, d.length ≤ 32767) :
    ∀ out : List Nat,
      (ds.map Frame.Data).foldl (fun out f => (WriteBytes f out).2) out =
        out ++ (ds.map (fun d => d.length / 256 :: d.length % 256 :: d)).flatten := by
  induction ds with
  | nil => intro out; simp
  | cons d ds ih =>
    intro out
    have hd := hds d (by simp)
    simp only [List.map_cons, List.foldl_cons, List.flatten_cons]
    rw [WriteBytes_data _ _ hd, ih (fun x hx => hds x (by simp [hx]))]
    simp

theorem readN_data (ds : List (List Nat))
    (hds : ∀ d ∈ ds, 1 ≤ d.length ∧ d.length ≤ 32767) (rest : List Nat) :
    readN ds.length ((ds.map (fun d => d.length / 256 :: d.length % 256 :: d)).flatten ++ rest) =
      (ds.map (fun d => .ok (.Data d)), rest) := by
  induction ds with
  | nil => simp [readN]
  | cons d ds ih =>
    have hd := hds d (by simp)
    simp only [List.map_cons, List.flatten_cons, List.length_cons, readN, List.cons_append,
      List.append_assoc]
    rw [Read_data _ _ hd.1 hd.2, ih (fun x hx => hds x (by simp [hx]))]

/-- C2: when the first two bytes carry a length L >= 1 in their low 15 bits and
at least 2+L bytes are present, `Read` decodes the L bytes behind the header
and leaves exactly the bytes behind the first 2+L in the reader; hence reading
repeatedly from the concatenated encodings of data frames of 1 to 32767 bytes
returns these frames in order, each with exactly its own bytes, and drains the
reader. -/
theorem Read_consumes_exactly_one_frame (h0 h1 : Nat) (rest : List Nat)
    (ds : List (List Nat))
    (hL : 1 ≤ headerLength (h0, h1)) (hlen : headerLength (h0, h1) ≤ rest.length)
    (hds : ∀ d ∈ ds, 1 ≤ d.length ∧ d.length ≤ 32767) :
    (Read (h0 :: h1 :: rest)).2 = rest.drop (headerLength (h0, h1)) ∧
    (Read (h0 :: h1 :: rest)).1 = decodeFrame (h0, h1) (rest.take (headerLength (h0, h1))) ∧
    (h0 :: h1 :: rest).length - (Read (h0 :: h1 :: rest)).2.length = 2 + headerLength (h0, h1) ∧
    readN ds.length (encodeAll (ds.map Frame.Data)) =
      (ds.map (fun d => .ok (.Data d)), []) := by
  rw [Read_full _ _ _ hL hlen]
  refine ⟨rfl, rfl, ?_, ?_⟩
  · simp; omega
  · unfold encodeAll
    rw [encodeAll_foldl _ (fun d hd => (hds d hd).2)]
    have := readN_data ds hds []
    simpa using this

theorem Read_consumes_exactly_one_frame_witness :
    (Read (0 :: 5 :: (str "Hello" ++ [0, 1, 7]))).2
        = (str "Hello" ++ [0, 1, 7]).drop (headerLength (0, 5)) ∧
    (Read (0 :: 5 :: (str "Hello" ++ [0, 1, 7]))).1
        = decodeFrame (0, 5) ((str "Hello" ++ [0, 1, 7]).take (headerLength (0, 5))) ∧
    (0 :: 5 :: (str "Hello" ++ [0, 1, 7])).length
        - (Read (0 :: 5 :: (str "Hello" ++ [0, 1, 7]))).2.length = 2 + headerLength (0, 5) ∧
    readN [str "Hello", [7]].length (encodeAll ([str "Hello", [7]].map Frame.Data)) =
      ([str "Hello", [7]].map (fun d => .ok (.Data d)), []) :=
  Read_consumes_exactly_one_frame 0 5 (str "Hello" ++ [0, 1, 7]) [str "Hello", [7]]
    (by decide) (by decide) (by decide)

/-- C3: for every length L with 1 <= L <= 32767 both header encoders succeed
with bytes `h` such that `((h[0] & 0x7F) << 8) | h[1] = L`; the top bit of
`h[0]` is clear in the data header and set in the command header; and the
length (`headerLength`) and frame type (`h[0] >> 7`) that `Read` and
`decodeFrame` extract from `h` are L and that type. -/
theorem header_carries_length_and_type (L : Nat) (h1 : 1 ≤ L) (h2 : L ≤ 32767) :
    ∃ hd hc : Nat × Nat,
      encodeDataHeader L = .ok hd ∧ encodeCmdHeader L = .ok hc ∧
      hd.1 < 256 ∧ hd.2 < 256 ∧ hc.1 < 256 ∧ hc.2 < 256 ∧
      ((hd.1 &&& 0x7F) <<< 8) ||| hd.2 = L ∧ hd.1 &&& 0x80 = 0 ∧
      ((hc.1 &&& 0x7F) <<< 8) ||| hc.2 = L ∧ hc.1 &&& 0x80 = 0x80 ∧
      headerLength hd = L ∧ hd.1 >>> 7 = 0 ∧
      headerLength hc = L ∧ hc.1 >>> 7 = 1 ∧
      (∀ data rest : List Nat, data.length = L →
        Read (hd.1 :: hd.2 :: (data ++ rest)) = (.ok (.Data data), rest)) ∧
      (∀ data rest : List Nat, data.length = L →
        Read (hc.1 :: hc.2 :: (data ++ rest)) = (decodeFrame hc data, rest)) := by
  have hbits : ∀ x, x < 128 →
      x &&& 0x80 = 0 ∧ (x + 128) &&& 0x80 = 0x80 ∧ x >>> 7 = 0 ∧ (x + 128) >>> 7 = 1 := by
    decide
  obtain ⟨b1, b2, b3, b4⟩ := hbits (L / 256) (by omega)
  have hd := headerLength_data L h2
  have hc := headerLength_cmd L h2
  refine ⟨(L / 256, L % 256), (L / 256 + 128, L % 256), encodeDataHeader_ok L h2,
    encodeCmdHeader_ok L h2, by simp only; omega, by simp only; omega, by simp only; omega,
    by simp only; omega, hd, b1, hc, b2, hd, b3, hc, b4, ?_, ?_⟩
  · intro data rest hlen
    subst hlen
    exact Read_data data rest h1 h2
  · intro data rest hlen
    simp only
    rw [Read_full _ _ _ (by omega) (by rw [hc]; simp [hlen]), hc]
    simp [← hlen]

theorem header_carries_length_and_type_witness :
    ∃ hd hc : Nat × Nat,
      encodeDataHeader 300 = .ok hd ∧ encodeCmdHeader 300 = .ok hc ∧
      hd.1 < 256 ∧ hd.2 < 256 ∧ hc.1 < 256 ∧ hc.2 < 256 ∧
      ((hd.1 &&& 0x7F) <<< 8) ||| hd.2 = 300 ∧ hd.1 &&& 0x80 = 0 ∧
      ((hc.1 &&& 0x7F) <<< 8) ||| hc.2 = 300 ∧ hc.1 &&& 0x80 = 0x80 ∧
      headerLength hd = 300 ∧ hd.1 >>> 7 = 0 ∧
      headerLength hc = 300 ∧ hc.1 >>> 7 = 1 ∧
      (∀ data rest : List Nat, data.length = 300 →
        Read (hd.1 :: hd.2 :: (data ++ rest)) = (.ok (.Data data), rest)) ∧
      (∀ data rest : List Nat, data.length = 300 →
        Read (hc.1 :: hc.2 :: (data ++ rest)) = (decodeFrame hc data, rest)) :=
  header_carries_length_and_type 300 (by decide) (by decide)

/-- C4: whatever follows the header bytes 0x00 0x00 or 0x80 0x00 (length field
0), `Read` returns the error "invalid empty frame" and no frame. -/
theorem Read_rejects_empty_frame (rest : List Nat) :
    Read (0x00 :: 0x00 :: rest) = (.error .emptyFrame, rest) ∧
    Read (0x80 :: 0x00 :: rest) = (.error .emptyFrame, rest) := by
  constructor <;> rw [Read_cons] <;> rfl

/-- C5: a command frame (top header bit set, length L >= 1) whose first payload
byte is an opcode in 11..255 is never decoded: `Read` returns the error
"invalid command frame type" when the L payload bytes are present, and the
error of the short read when they are not. -/
theorem Read_rejects_unknown_opcode (h0 h1 op : Nat) (rest : List Nat)
    (hcmd : 128 ≤ h0) (hL : 1 ≤ headerLength (h0, h1))
    (hlo : 11 ≤ op) (hhi : op ≤ 255) :
    (Read (h0 :: h1 :: op :: rest)).1 =
      .error (if headerLength (h0, h1) ≤ (op :: rest).length then .invalidCommand op
        else .ErrUnexpectedEOF) := by
  by_cases hlen : headerLength (h0, h1) ≤ (op :: rest).length
  · rw [Read_full _ _ _ hL hlen, if_pos hlen]
    obtain ⟨n, hn⟩ : ∃ n, headerLength (h0, h1) = n + 1 := ⟨headerLength (h0, h1) - 1, by omega⟩
    rw [hn, List.take_succ_cons, decodeFrame_cmd _ _ _ _ hcmd]
    simp only [CmdNUL, CmdADR, CmdPWD, CmdFILE, CmdOK, CmdEOB, CmdGOT, CmdERR, CmdBSY,
      CmdGET, CmdSKIP]
    rw [if_neg (by omega), if_neg (by omega), if_neg (by omega), if_neg (by omega),
      if_neg (by omega), if_neg (by omega), if_neg (by omega), if_neg (by omega),
      if_neg (by omega), if_neg (by omega), if_neg (by omega)]
  · rw [Read_short _ _ _ (by omega), if_neg hlen]
    simp

theorem Read_rejects_unknown_opcode_witness :
    (Read (0x80 :: 1 :: 200 :: [])).1 =
      .error (if headerLength (0x80, 1) ≤ (200 :: ([] : List Nat)).length then .invalidCommand 200
        else .ErrUnexpectedEOF) :=
  Read_rejects_unknown_opcode 0x80 1 200 [] (by decide) (by decide) (by decide) (by decide)

theorem payload_cmd_length (f : Frame) (h : ∀ d, f ≠ .Data d) :
    WriteBytes f = copyCmdOut (cmdBuffer f) ∧ payload f = (cmdBuffer f).drop 2 := by
  cases f <;> first | exact absurd rfl (h _) | exact ⟨rfl, rfl⟩

/-- C6: a data frame of more than 32767 bytes and a command frame whose payload
(opcode byte plus text) is longer than 32767 bytes are not encoded:
`WriteBytes` returns an error and the writer holds what it held before. -/
theorem WriteBytes_rejects_oversize (f : Frame) (out : List Nat)
    (h : MaxFrameSize < (payload f).length) :
    WriteBytes f out =
      (some (match f with
        | .Data _ => .dataTooLong (payload f).length
        | _ => .cmdTooLong (payload f).length), out) := by
  by_cases hd : ∃ d, f = .Data d
  · obtain ⟨d, rfl⟩ := hd
    simp only [payload] at h ⊢
    simp [WriteBytes, encodeDataHeader, h]
  · have hd2 : ∀ d, f ≠ .Data d := fun d e => hd ⟨d, e⟩
    obtain ⟨e1, e2⟩ := payload_cmd_length f hd2
    rw [e1]
    rw [e2] at h
    have hl : (cmdBuffer f).length - 2 = (payload f).length := by rw [e2]; simp
    unfold copyCmdOut encodeCmdHeader
    rw [hl, if_pos (by rw [e2]; exact h)]
    cases f <;> first | exact absurd rfl (hd2 _) | rfl

theorem WriteBytes_rejects_oversize_witness :
    WriteBytes (.PasswdCmd (List.replicate 32767 65)) [1, 2] =
      (some (.cmdTooLong (payload (.PasswdCmd (List.replicate 32767 65))).length), [1, 2]) :=
  WriteBytes_rejects_oversize (.PasswdCmd (List.replicate 32767 65)) [1, 2]
    (by
      simp only [payload, cmdBuffer, makeFrameBuffer, MaxFrameSize, List.length_drop,
        List.length_append, List.length_cons, List.length_nil, List.length_replicate]
      decide)

end frame

namespace ftn

/-- C10: `String()` is the concatenation of the decimal zone and `:` (only when
the zone is not 0), the decimal net, `/`, the decimal node, `.` and the decimal
point (only when the point is not 0) and `@` and the domain (only when the
domain is not empty); in particular the address parsed from a text whose point
is `.0` renders without the point. -/
theorem String_eq_specString (a : Address) :
    a.String = specString a ∧
    (ParseAddress (str "21:100/198.0@fsxnet")).2 = none ∧
    (ParseAddress (str "21:100/198.0@fsxnet")).1.String = str "21:100/198@fsxnet" ∧
    (ParseAddress (str "21:100/198.0")).2 = none ∧
    (ParseAddress (str "21:100/198.0")).1.String = str "21:100/198" := by
  refine ⟨?_, by decide, by decide, by decide, by decide⟩
  unfold Address.String Address.String4d Address.String3d Address.String2d specString
  by_cases hz : a.zone = 0 <;> by_cases hp : a.point = 0 <;> by_cases hd : a.domain = [] <;>
    simp [hz, hp, hd, str]

end ftn

namespace frame

/-- C8 (evaluation of the code): a GET frame carrying `foo.txt 1234 100 2` and a
SKIP frame carrying `foo.txt 1234 100` are read as the zero values of `GetCmd`
and `SkipCmd`, although `decodeGetCmd` and `decodeSkipCmd`, which `decodeFrame`
does not call, decode these payloads to the field values they carry. -/
theorem Read_get_skip_drops_fields :
    Read ([0x80, 19, 9] ++ str "foo.txt 1234 100 2") = (.ok (.GetCmd [] 0 zeroTime 0), []) ∧
    decodeGetCmd (str "foo.txt 1234 100 2") = .ok (.GetCmd (str "foo.txt") 1234 100 2) ∧
    Read ([0x80, 17, 10] ++ str "foo.txt 1234 100") = (.ok (.SkipCmd [] 0 zeroTime), []) ∧
    decodeSkipCmd (str "foo.txt 1234 100") = .ok (.SkipCmd (str "foo.txt") 1234 100) := by
  refine ⟨by decide, by decide, by decide, by decide⟩

theorem ParseUint_lt (s : List Nat) (base bits v : Nat) (h : ParseUint s base bits = some v) :
    v < 2 ^ bits := by
  unfold ParseUint at h
  split at h
  · simp at h
  · split at h
    · simp at h
    · split at h
      · simp at h; omega
      · simp at h

theorem fileOptStep_foldl (trailing : List (List Nat)) :
    ∀ (crc : Nat) (opts : List (List Nat)),
      trailing.foldl fileOptStep (crc, opts) =
        ((match (trailing.filterMap (fun opt => ParseUint opt 16 32)).getLast? with
          | some v => v
          | none => crc), opts ++ specExtraOpts trailing) := by
  induction trailing with
  | nil => intro crc opts; simp [specExtraOpts]
  | cons opt rest ih =>
    intro crc opts
    rw [List.foldl_cons]
    cases hp : ParseUint opt 16 32 with
    | none =>
      have hs : fileOptStep (crc, opts) opt = (crc, opts ++ [opt]) := by
        simp [fileOptStep, hp]
      rw [hs, ih]
      simp [specExtraOpts, List.filterMap_cons, List.filter_cons, hp]
    | some v =>
      have hv : v < 4294967296 := by
        have := ParseUint_lt _ _ _ _ hp
        simpa using this
      have hs : fileOptStep (crc, opts) opt = (v, opts) := by
        simp [fileOptStep, hp, Nat.mod_eq_of_lt hv]
      rw [hs, ih]
      simp only [specExtraOpts, List.filterMap_cons, List.filter_cons, hp, Option.isNone_some,
        Bool.false_eq_true, if_false]
      cases hl : (List.filterMap (fun opt => ParseUint opt 16 32) rest).getLast? with
      | none =>
        rw [List.getLast?_eq_none_iff] at hl
        simp [hl]
      | some w =>
        have : (v :: List.filterMap (fun opt => ParseUint opt 16 32) rest).getLast? = some w := by
          cases hr : List.filterMap (fun opt => ParseUint opt 16 32) rest with
          | nil => rw [hr] at hl; simp at hl
          | cons x xs => rw [hr] at hl; rw [List.getLast?_cons_cons]; exact hl
        rw [this]

/-- What `decodeFileCmd` returns, by the fields of the stripped payload. -/
theorem decodeFileCmd_eq (data : List Nat) :
    decodeFileCmd data =
      match Fields (dataToString data) with
      | name :: f2 :: f3 :: f4 :: trailing =>
        (match ParseInt f2 with
        | none => .error (.fileDecode .size)
        | some size =>
          match ParseInt f3 with
          | none => .error (.fileDecode .timeStamp)
          | some ts =>
            match ParseInt f4 with
            | none => .error (.fileDecode .offset)
            | some off =>
              .ok (.FileCmd name size ts off (specCrc trailing) (specExtraOpts trailing)))
      | _ => .error (.fileDecode .wrongNumberOfFields) := by
  unfold decodeFileCmd decodeFileParams
  dsimp only
  generalize Fields (dataToString data) = fs
  rcases fs with _ | ⟨name, _ | ⟨f2, _ | ⟨f3, _ | ⟨f4, trailing⟩⟩⟩⟩
  · simp [decodeFileTransferParamFields]
  · simp [decodeFileTransferParamFields]
  · simp [decodeFileTransferParamFields]
  · simp [decodeFileTransferParamFields]
  · have hmin : min 4 (name :: f2 :: f3 :: f4 :: trailing).length = 4 := by simp
    simp only [hmin, List.take_succ_cons, List.take_zero]
    simp only [decodeFileTransferParamFields, decodeFileIDParamFields, List.length_cons,
      List.length_nil, List.take_succ_cons, List.take_zero]
    simp only [List.getD_cons_succ, List.getD_cons_zero]
    cases h2 : ParseInt f2 with
    | none => simp
    | some size =>
      cases h3 : ParseInt f3 with
      | none => simp
      | some ts =>
        cases h4 : ParseInt f4 with
        | none => simp
        | some off =>
          have hlt : ¬ (trailing.length + 1 + 1 + 1 + 1 < 4) := by omega
          simp only [List.drop_succ_cons, List.drop_zero, fileOptStep_foldl, specCrc,
            List.nil_append, if_neg hlt]
          rfl

/-- C7: for every FILE command payload, when the stripped payload has at least
four white-space separated fields of which the 2nd, 3rd and 4th are decimal
integers (as `strconv.ParseInt` reads them in base 10: an optional sign and
decimal digits, within the signed 64-bit range of the fields they fill), `Read`
returns a `FileCmd` with FileName = field 1, Size = field 2, TimeStamp = the
Unix time of field 3, Offset = field 4, CRC = the value of the last trailing
field that parses as a base-16 unsigned 32-bit integer (0 when none does) and
ExtraOpts = the trailing fields that do not parse so, in their order; in every
other case `Read` returns a FILE decode error and no frame. -/
theorem Read_file_cmd (h0 h1 : Nat) (data rest : List Nat)
    (hcmd : 128 ≤ h0) (hL : headerLength (h0, h1) = data.length + 1) :
    (∀ (name f2 f3 f4 : List Nat) (trailing : List (List Nat)) (size ts off : Int),
      Fields (dataToString data) = name :: f2 :: f3 :: f4 :: trailing →
      ParseInt f2 = some size → ParseInt f3 = some ts → ParseInt f4 = some off →
      Read (h0 :: h1 :: CmdFILE :: (data ++ rest)) =
        (.ok (.FileCmd name size ts off (specCrc trailing) (specExtraOpts trailing)), rest)) ∧
    ((¬ ∃ (name f2 f3 f4 : List Nat) (trailing : List (List Nat)) (size ts off : Int),
        Fields (dataToString data) = name :: f2 :: f3 :: f4 :: trailing ∧
        ParseInt f2 = some size ∧ ParseInt f3 = some ts ∧ ParseInt f4 = some off) →
      ∃ e, Read (h0 :: h1 :: CmdFILE :: (data ++ rest)) = (.error (.fileDecode e), rest)) := by
  have hread : Read (h0 :: h1 :: CmdFILE :: (data ++ rest)) = (decodeFileCmd data, rest) := by
    rw [Read_full _ _ _ (by omega) (by rw [hL]; simp), hL, List.take_succ_cons,
      decodeFrame_cmd _ _ _ _ hcmd]
    simp [CmdFILE, CmdNUL, CmdADR, CmdPWD]
  rw [hread, decodeFileCmd_eq]
  constructor
  · intro name f2 f3 f4 trailing size ts off hf h2 h3 h4
    rw [hf]
    simp only [h2, h3, h4]
  · intro hno
    rcases hf : Fields (dataToString data) with _ | ⟨name, _ | ⟨f2, _ | ⟨f3, _ | ⟨f4, trailing⟩⟩⟩⟩
    · exact ⟨_, rfl⟩
    · exact ⟨_, rfl⟩
    · exact ⟨_, rfl⟩
    · exact ⟨_, rfl⟩
    · simp only
      cases h2 : ParseInt f2 with
      | none => exact ⟨_, rfl⟩
      | some size =>
        cases h3 : ParseInt f3 with
        | none => exact ⟨_, rfl⟩
        | some ts =>
          cases h4 : ParseInt f4 with
          | none => exact ⟨_, rfl⟩
          | some off => exact absurd ⟨name, f2, f3, f4, trailing, size, ts, off, hf, h2, h3, h4⟩ hno

theorem Read_file_cmd_witness :
    Read (0x80 :: 32 :: CmdFILE :: (str "foo.txt 1234 100 2 deadf00d BZ2" ++ [7])) =
      (.ok (.FileCmd (str "foo.txt") 1234 100 2 (specCrc [str "deadf00d", str "BZ2"])
        (specExtraOpts [str "deadf00d", str "BZ2"])), [7]) :=
  (Read_file_cmd 0x80 32 (str "foo.txt 1234 100 2 deadf00d BZ2") [7] (by decide) (by decide)).1
    (str "foo.txt") (str "1234") (str "100") (str "2") [str "deadf00d", str "BZ2"] 1234 100 2
    (by decide) (by decide) (by decide) (by decide)

end frame

/-! ## Decimal rendering and parsing -/

theorem formatNatAux_acc : ∀ (fuel n : Nat) (acc : List Nat), n < fuel →
    formatNatAux fuel n acc = formatNatAux fuel n [] ++ acc := by
  intro fuel
  induction fuel with
  | zero => intro n acc h; omega
  | succ f ih =>
    intro n acc h
    unfold formatNatAux
    by_cases h10 : n < 10
    · simp [h10]
    · rw [if_neg h10, if_neg h10, ih (n / 10) _ (by omega), ih (n / 10) [48 + n % 10] (by omega)]
      simp

theorem formatNatAux_fuel : ∀ (f1 f2 n : Nat) (acc : List Nat), n < f1 → n < f2 →
    formatNatAux f1 n acc = formatNatAux f2 n acc := by
  intro f1
  induction f1 with
  | zero => intro f2 n acc h; omega
  | succ f ih =>
    intro f2 n acc h1 h2
    cases f2 with
    | zero => omega
    | succ g =>
      unfold formatNatAux
      by_cases h10 : n < 10
      · simp [h10]
      · rw [if_neg h10, if_neg h10]
        exact ih g (n / 10) _ (by omega) (by omega)

theorem formatNat_lt (n : Nat) (h : n < 10) : formatNat n = [48 + n] := by
  simp [formatNat, formatNatAux, h]

theorem formatNat_ge (n : Nat) (h : 10 ≤ n) :
    formatNat n = formatNat (n / 10) ++ [48 + n % 10] := by
  unfold formatNat
  rw [formatNatAux, if_neg (by omega), formatNatAux_acc _ _ _ (by omega)]
  rw [formatNatAux_fuel n (n / 10 + 1) (n / 10) [] (by omega) (by omega)]

theorem parseDigits_append (base : Nat) (xs ys : List Nat) :
    ∀ acc, parseDigits base (xs ++ ys) acc =
      (parseDigits base xs acc).bind (parseDigits base ys) := by
  induction xs with
  | nil => intro acc; rfl
  | cons x xs ih =>
    intro acc
    simp only [List.cons_append, parseDigits]
    cases digitVal base x with
    | none => rfl
    | some d => exact ih _

theorem digitVal_ten (d : Nat) (h : d < 10) : digitVal 10 (48 + d) = some d := by
  unfold digitVal
  rw [if_pos (by omega), if_pos (by omega)]
  congr 1
  omega

theorem parseDigits_formatNat (n : Nat) : parseDigits 10 (formatNat n) 0 = some n := by
  induction n using Nat.strong_induction_on with
  | _ n ih =>
    by_cases h : n < 10
    · rw [formatNat_lt n h]
      simp [parseDigits, digitVal_ten n h]
    · rw [formatNat_ge n (by omega), parseDigits_append, ih (n / 10) (by omega)]
      simp only [Option.bind, parseDigits, digitVal_ten (n % 10) (by omega)]
      congr 1
      omega

/-- A byte that is a decimal digit. -/
theorem formatNat_digits (n : Nat) : ∀ b ∈ formatNat n, 48 ≤ b ∧ b ≤ 57 := by
  induction n using Nat.strong_induction_on with
  | _ n ih =>
    by_cases h : n < 10
    · rw [formatNat_lt n h]
      intro b hb
      simp at hb
      omega
    · rw [formatNat_ge n (by omega)]
      intro b hb
      rw [List.mem_append] at hb
      rcases hb with hb | hb
      · exact ih (n / 10) (by omega) b hb
      · simp at hb
        omega

theorem formatNat_ne_nil (n : Nat) : formatNat n ≠ [] := by
  by_cases h : n < 10
  · rw [formatNat_lt n h]; simp
  · rw [formatNat_ge n (by omega)]; simp

theorem ParseUint_formatNat (n bits : Nat) (h : n < 2 ^ bits) :
    ParseUint (formatNat n) 10 bits = some n := by
  unfold ParseUint
  rw [if_neg (formatNat_ne_nil n), parseDigits_formatNat]
  simp [h]

theorem formatInt_bytes (i : Int) : ∀ b ∈ formatInt i, b = 45 ∨ (48 ≤ b ∧ b ≤ 57) := by
  intro b hb
  unfold formatInt at hb
  split at hb
  · rw [List.mem_cons] at hb
    rcases hb with hb | hb
    · exact Or.inl hb
    · exact Or.inr (formatNat_digits _ b hb)
  · exact Or.inr (formatNat_digits _ b hb)

theorem formatInt_ne_nil (i : Int) : formatInt i ≠ [] := by
  unfold formatInt
  split
  · simp
  · exact formatNat_ne_nil _

theorem ParseInt_formatInt (i : Int) (h : InInt64 i) : ParseInt (formatInt i) = some i := by
  obtain ⟨hlo, hhi⟩ := h
  unfold formatInt
  by_cases hneg : i < 0
  · rw [if_pos hneg]
    have hb : (-i).toNat < 2 ^ 64 := by omega
    simp only [ParseInt]
    have hle : (-i).toNat ≤ 2 ^ 63 := by omega
    have hval : -(((-i).toNat : Nat) : Int) = i := by omega
    rw [if_pos trivial, ParseUint_formatNat _ _ hb]
    simp only
    rw [if_pos hle, hval]
    rfl
  · rw [if_neg hneg]
    have hb : i.toNat < 2 ^ 64 := by omega
    have hlt : i.toNat < 2 ^ 63 := by omega
    have hval : ((i.toNat : Nat) : Int) = i := by omega
    have hp := ParseUint_formatNat _ _ hb
    have hd := formatNat_digits i.toNat
    cases hf : formatNat i.toNat with
    | nil => exact absurd hf (formatNat_ne_nil _)
    | cons c t =>
      rw [hf] at hp hd
      have hc := hd c (by simp)
      simp only [ParseInt]
      rw [if_neg (by omega), if_neg (by omega), hp]
      simp only
      rw [if_pos hlt, hval]

theorem Atoi_formatInt (i : Int) (h : InInt64 i) : Atoi (formatInt i) = some i :=
  ParseInt_formatInt i h

/-! ## White space -/

theorem spaceLen_plain (b : Nat) (t : List Nat) (h1 : isAsciiSpace b = false) (h2 : b < 128) :
    spaceLen (b :: t) = 0 := by
  have e2 : ∀ x, isSpace2 b x = false := by
    intro x; simp [isSpace2]; omega
  have e3 : ∀ x y, isSpace3 b x y = false := by
    intro x y
    simp only [isSpace3, Bool.or_eq_false_iff, Bool.and_eq_false_iff, beq_eq_false_iff_ne]
    refine ⟨⟨⟨?_, ?_⟩, ?_⟩, ?_⟩ <;> left <;> left <;> omega
  rcases t with _ | ⟨x, _ | ⟨y, t⟩⟩ <;> simp [spaceLen, h1, e2, e3]

theorem containsSpace_suffix (xs ys : List Nat) (h : containsSpace (xs ++ ys) = false) :
    containsSpace ys = false := by
  induction xs with
  | nil => exact h
  | cons x xs ih =>
    simp only [List.cons_append, containsSpace, Bool.or_eq_false_iff] at h
    exact ih h.2

theorem spaceLen_of_containsSpace (s : List Nat) (h : containsSpace s = false) :
    spaceLen s = 0 := by
  cases s with
  | nil => rfl
  | cons b t =>
    simp only [containsSpace, Bool.or_eq_false_iff, bne_eq_false_iff_eq] at h
    exact h.1

theorem containsSpace_plain_append (p d : List Nat)
    (hp : ∀ b ∈ p, isAsciiSpace b = false ∧ b < 128) :
    containsSpace (p ++ d) = containsSpace d := by
  induction p with
  | nil => rfl
  | cons b p ih =>
    have hb := hp b (by simp)
    have ih2 := ih (fun x hx => hp x (by simp [hx]))
    rw [List.cons_append, containsSpace, spaceLen_plain b _ hb.1 hb.2, ih2]
    rfl

theorem trimLeftSpace_id (fuel : Nat) (s : List Nat) (h : spaceLen s = 0) :
    trimLeftSpace fuel s = s := by
  cases fuel with
  | zero => rfl
  | succ f => simp [trimLeftSpace, h]

theorem trimRevSpace_id (fuel : Nat) (r : List Nat) (h : spaceLenRev r = 0) :
    trimRevSpace fuel r = r := by
  cases fuel with
  | zero => rfl
  | succ f => simp [trimRevSpace, h]

theorem spaceLen_one (c : Nat) (h : spaceLen [c] = 0) : isAsciiSpace c = false := by
  unfold spaceLen at h
  by_cases hc : isAsciiSpace c = true
  · simp [hc] at h
  · simpa using hc

theorem spaceLen_two (b c : Nat) (h : spaceLen [b, c] = 0) : isSpace2 b c = false := by
  unfold spaceLen at h
  by_cases hb : isAsciiSpace b = true
  · simp [hb] at h
  · by_cases h2 : isSpace2 b c = true
    · simp [hb, h2] at h
    · simpa using h2

theorem spaceLen_three (a b c : Nat) (t : List Nat) (h : spaceLen (a :: b :: c :: t) = 0) :
    isSpace3 a b c = false := by
  unfold spaceLen at h
  by_cases ha : isAsciiSpace a = true
  · simp [ha] at h
  · by_cases h2 : isSpace2 a b = true
    · simp [ha, h2] at h
    · by_cases h3 : isSpace3 a b c = true
      · simp [ha, h2, h3] at h
      · simpa using h3

/-- A string that holds no white space does not end with white space. -/
theorem spaceLenRev_reverse (s : List Nat) (h : containsSpace s = false) :
    spaceLenRev s.reverse = 0 := by
  have hsuf : ∀ xs ys, s = xs ++ ys → spaceLen ys = 0 := by
    intro xs ys e
    rw [e] at h
    exact spaceLen_of_containsSpace _ (containsSpace_suffix _ _ h)
  rcases hr : s.reverse with _ | ⟨c, _ | ⟨b, _ | ⟨a, t⟩⟩⟩
  · rfl
  · have e : s = [] ++ [c] := by
      have := congrArg List.reverse hr; simpa using this
    have h1 := spaceLen_one c (hsuf _ _ e)
    simp [spaceLenRev, h1]
  · have e : s = [b] ++ [c] := by
      have := congrArg List.reverse hr; simpa using this
    have h1 := spaceLen_one c (hsuf [b] [c] e)
    have h2 := spaceLen_two b c (hsuf [] [b, c] e)
    simp [spaceLenRev, h1, h2]
  · have e : s = t.reverse ++ [a, b, c] := by
      have := congrArg List.reverse hr; simpa using this
    have h1 := spaceLen_one c (hsuf (t.reverse ++ [a, b]) [c] (by rw [e]; simp))
    have h2 := spaceLen_two b c (hsuf (t.reverse ++ [a]) [b, c] (by rw [e]; simp))
    have h3 := spaceLen_three a b c [] (hsuf t.reverse [a, b, c] e)
    simp [spaceLenRev, h1, h2, h3]

theorem TrimSpace_id (s : List Nat) (h : containsSpace s = false) : TrimSpace s = s := by
  unfold TrimSpace
  simp only
  rw [trimLeftSpace_id _ _ (spaceLen_of_containsSpace s h),
    trimRevSpace_id _ _ (spaceLenRev_reverse s h), List.reverse_reverse]

/-! ## Splitting on a separator byte -/

theorem indexFrom_found (c : Nat) (pre post : List Nat) (h : c ∉ pre) :
    ∀ i, indexFrom [c] (pre ++ c :: post) i = some (i + pre.length) := by
  induction pre with
  | nil => intro i; simp [indexFrom]
  | cons b pre ih =>
    intro i
    have hb : c ≠ b := fun e => h (by simp [e])
    have hp : c ∉ pre := fun e => h (by simp [e])
    rw [List.cons_append, indexFrom, if_neg (by simp [hb]), ih hp]
    simp; omega

theorem indexFrom_none (c : Nat) (s : List Nat) (h : c ∉ s) :
    ∀ i, indexFrom [c] s i = none := by
  induction s with
  | nil => intro i; simp [indexFrom]
  | cons b s ih =>
    intro i
    have hb : c ≠ b := fun e => h (by simp [e])
    have hp : c ∉ s := fun e => h (by simp [e])
    rw [indexFrom, if_neg (by simp [hb]), ih hp]

namespace ftn

theorem splitOn_found (c : Nat) (pre post : List Nat) (h : c ∉ pre) :
    splitOn (pre ++ c :: post) [c] = (pre, post, true) := by
  unfold splitOn Index
  rw [indexFrom_found c pre post h]
  simp

theorem splitOn_none (c : Nat) (s : List Nat) (h : c ∉ s) :
    splitOn s [c] = (s, [], false) := by
  unfold splitOn Index
  rw [indexFrom_none c s h]

theorem formatInt_not_mem (i : Int) (c : Nat) (h1 : c ≠ 45) (h2 : c < 48 ∨ 57 < c) :
    c ∉ formatInt i := by
  intro hc
  rcases formatInt_bytes i c hc with e | e
  · exact h1 e
  · omega

theorem formatInt_plain (i : Int) : ∀ b ∈ formatInt i, isAsciiSpace b = false ∧ b < 128 := by
  intro b hb
  rcases formatInt_bytes i b hb with e | e
  · subst e; decide
  · refine ⟨?_, by omega⟩
    simp [isAsciiSpace]; omega

theorem String_containsSpace (a : Address) (hs : containsSpace a.domain = false) :
    containsSpace a.String = false := by
  have hplain : ∀ p : List Nat, (∀ b ∈ p, isAsciiSpace b = false ∧ b < 128) →
      containsSpace (p ++ a.domain) = false := by
    intro p hp
    rw [containsSpace_plain_append p _ hp, hs]
  have happ : ∀ x y : List Nat, (∀ b ∈ x, isAsciiSpace b = false ∧ b < 128) →
      (∀ b ∈ y, isAsciiSpace b = false ∧ b < 128) →
      ∀ b ∈ x ++ y, isAsciiSpace b = false ∧ b < 128 := by
    intro x y hx hy b hb
    rw [List.mem_append] at hb
    exact hb.elim (hx b) (hy b)
  have hnil : ∀ b ∈ ([] : List Nat), isAsciiSpace b = false ∧ b < 128 := by
    intro b hb; simp at hb
  have h4 : ∀ b ∈ a.String4d, isAsciiSpace b = false ∧ b < 128 := by
    unfold Address.String4d Address.String3d Address.String2d
    refine happ _ _ (happ _ _ ?_ (happ _ _ (happ _ _ (formatInt_plain _) (by decide))
      (formatInt_plain _))) ?_
    · split
      · exact happ _ _ (formatInt_plain _) (by decide)
      · exact hnil
    · split
      · exact happ _ _ (by decide) (formatInt_plain _)
      · exact hnil
  unfold Address.String
  by_cases hd : a.domain = []
  · rw [if_neg (by simpa using hd)]
    have := hplain a.String4d h4
    rw [hd] at this
    exact this
  · rw [if_pos hd, ← List.append_assoc]
    apply hplain
    intro b hb
    rw [List.mem_append] at hb
    rcases hb with hb | hb
    · exact h4 b hb
    · revert b; decide

/-- Parsing the rendering of an address gives the address back, for fields in
the range of `int` and a domain without `:`, `.` and white space. -/
theorem parse_of_render (a : Address)
    (hz : InInt64 a.zone) (hn : InInt64 a.net) (hd : InInt64 a.node) (hp : InInt64 a.point)
    (hcolon : 58 ∉ a.domain) (hdot : 46 ∉ a.domain) (hs : containsSpace a.domain = false) :
    ParseAddress a.String = (a, none) := by
  have hm : ∀ (i : Int), 58 ∉ formatInt i ∧ 47 ∉ formatInt i ∧ 46 ∉ formatInt i ∧
      64 ∉ formatInt i := fun i =>
    ⟨formatInt_not_mem i 58 (by decide) (by decide), formatInt_not_mem i 47 (by decide) (by decide),
      formatInt_not_mem i 46 (by decide) (by decide), formatInt_not_mem i 64 (by decide) (by decide)⟩
  unfold ParseAddress
  rw [TrimSpace_id _ (String_containsSpace a hs)]
  obtain ⟨z, n, d, p, dom⟩ := a
  simp only at hz hn hd hp hcolon hdot hs ⊢
  have e58 : str ":" = [58] := rfl
  have e47 : str "/" = [47] := rfl
  have e46 : str "." = [46] := rfl
  have e64 : str "@" = [64] := rfl
  simp only [Address.String, Address.String4d, Address.String3d, Address.String2d, e58, e47, e46,
    e64]
  by_cases hz0 : z = 0 <;> by_cases hp0 : p = 0 <;> by_cases hd0 : dom = []
  all_goals
    simp only [hz0, hp0, hd0, ne_eq, not_true_eq_false, not_false_eq_true, if_true, if_false,
      List.append_assoc, List.append_nil, List.nil_append, List.singleton_append,
      List.cons_append]
    simp [splitOn_found, splitOn_none, (hm _).1, (hm _).2.1, (hm _).2.2.1, (hm _).2.2.2,
      hcolon, hdot, Atoi_formatInt, hz, hn, hd, hp, hz0, hp0, hd0]

/-- C9: for every address with non-negative zone, net, node and point (Go
`int` values) and a domain, possibly empty, that contains none of `:`, `/`,
`.`, `@` and no white space, `ParseAddress(a.String())` succeeds and returns
exactly `a`. -/
theorem ParseAddress_String (a : Address)
    (hz : 0 ≤ a.zone ∧ InInt64 a.zone) (hn : 0 ≤ a.net ∧ InInt64 a.net)
    (hd : 0 ≤ a.node ∧ InInt64 a.node) (hp : 0 ≤ a.point ∧ InInt64 a.point)
    (hdom : ∀ b ∈ a.domain, b ≠ 58 ∧ b ≠ 47 ∧ b ≠ 46 ∧ b ≠ 64)
    (hs : containsSpace a.domain = false) :
    ParseAddress a.String = (a, none) :=
  parse_of_render a hz.2 hn.2 hd.2 hp.2
    (fun h => (hdom 58 h).1 rfl) (fun h => (hdom 46 h).2.2.1 rfl) hs

theorem ParseAddress_String_witness :
    ParseAddress (Address.mk 21 100 198 1 (str "fsxnet")).String =
      (Address.mk 21 100 198 1 (str "fsxnet"), none) :=
  ParseAddress_String (Address.mk 21 100 198 1 (str "fsxnet"))
    (by decide) (by decide) (by decide) (by decide) (by decide) (by decide)

end ftn

/-! ## Fields and trimming of space-separated tokens -/

theorem isSpace2_low_left (x c : Nat) (hx : x < 128) : isSpace2 x c = false := by
  simp [isSpace2]; omega

theorem isSpace2_low_right (a x : Nat) (hx : x < 128) : isSpace2 a x = false := by
  simp [isSpace2]; omega

theorem isSpace3_low_left (x b c : Nat) (hx : x < 128) : isSpace3 x b c = false := by
  simp only [isSpace3, Bool.or_eq_false_iff, Bool.and_eq_false_iff, beq_eq_false_iff_ne]
  refine ⟨⟨⟨?_, ?_⟩, ?_⟩, ?_⟩ <;> left <;> left <;> omega

theorem isSpace3_low_mid (a x c : Nat) (hx : x < 128) : isSpace3 a x c = false := by
  simp only [isSpace3, Bool.or_eq_false_iff, Bool.and_eq_false_iff, beq_eq_false_iff_ne]
  refine ⟨⟨⟨?_, ?_⟩, ?_⟩, ?_⟩ <;> left <;> right <;> omega

theorem isSpace3_low_right (a b x : Nat) (hx : x < 128) : isSpace3 a b x = false := by
  simp only [isSpace3, Bool.or_eq_false_iff, Bool.and_eq_false_iff, beq_eq_false_iff_ne,
    Bool.decide_and, decide_eq_false_iff_not]
  refine ⟨⟨⟨?_, ?_⟩, ?_⟩, ?_⟩
  · right; omega
  · right
    refine ⟨⟨⟨?_, ?_⟩, ?_⟩, ?_⟩
    · left; simp; omega
    · omega
    · omega
    · omega
  · right; omega
  · right; omega

/-- In front of an ASCII byte (or of nothing) a white-space rune lies within
the string it starts in. -/
theorem spaceLen_append_low (u v : List Nat) (hu : u ≠ [])
    (hv : ∀ x ∈ v.head?, x < 128) : spaceLen (u ++ v) = spaceLen u := by
  rcases v with _ | ⟨x, v⟩
  · simp
  · have hx : x < 128 := hv x (by simp)
    rcases u with _ | ⟨a, _ | ⟨b, _ | ⟨c, t⟩⟩⟩
    · exact absurd rfl hu
    · rcases v with _ | ⟨y, v⟩ <;>
        simp [spaceLen, isSpace2_low_right a x hx, isSpace3_low_mid a x _ hx]
    · simp [spaceLen, isSpace3_low_right a b x hx]
    · simp [spaceLen]

theorem tokenOk_iff (t : List Nat) : tokenOk t = true ↔ t ≠ [] ∧ containsSpace t = false := by
  simp [tokenOk]

theorem fieldsGo_token (tok : List Nat) (hs : containsSpace tok = false) (rest : List Nat)
    (hrest : ∀ x ∈ rest.head?, x < 128) :
    ∀ cur, fieldsGo 0 cur (tok ++ rest) = fieldsGo 0 (cur ++ tok) rest := by
  induction tok with
  | nil => intro cur; simp
  | cons b t ih =>
    intro cur
    have h0 : spaceLen (b :: (t ++ rest)) = 0 := by
      rw [← List.cons_append, spaceLen_append_low _ _ (by simp) hrest]
      exact spaceLen_of_containsSpace _ hs
    have ht : containsSpace t = false := containsSpace_suffix [b] t hs
    rw [List.cons_append, fieldsGo, if_pos h0, ih ht]
    simp

theorem fieldsGo_space (cur rest : List Nat) :
    fieldsGo 0 cur (32 :: rest) = flushField cur (fieldsGo 0 [] rest) := by
  have h : spaceLen (32 :: rest) = 1 := by simp [spaceLen, isAsciiSpace]
  rw [fieldsGo, if_neg (by omega), h]

theorem unwords_cons_cons (t t2 : List Nat) (ts : List (List Nat)) :
    unwords (t :: t2 :: ts) = t ++ 32 :: unwords (t2 :: ts) := rfl

/-- The fields of tokens separated by single spaces are the tokens. -/
theorem Fields_unwords (ts : List (List Nat)) (h : ∀ t ∈ ts, tokenOk t = true) :
    Fields (unwords ts) = ts := by
  induction ts with
  | nil => rfl
  | cons t ts ih =>
    obtain ⟨hne, hs⟩ := (tokenOk_iff t).1 (h t (by simp))
    have ih2 := ih (fun x hx => h x (by simp [hx]))
    cases ts with
    | nil =>
      have := fieldsGo_token t hs [] (by simp) []
      simp only [List.append_nil, List.nil_append] at this
      simp [Fields, unwords, this, fieldsGo, flushField, hne]
    | cons t2 ts =>
      rw [unwords_cons_cons]
      unfold Fields at ih2 ⊢
      rw [fieldsGo_token t hs _ (by simp), fieldsGo_space, ih2]
      simp [flushField, hne]

theorem unwords_ne_nil (ts : List (List Nat)) (hts : ts ≠ [])
    (h : ∀ t ∈ ts, tokenOk t = true) : unwords ts ≠ [] := by
  rcases ts with _ | ⟨t, _ | ⟨t2, ts⟩⟩
  · exact absurd rfl hts
  · exact ((tokenOk_iff t).1 (h t (by simp))).1
  · rw [unwords_cons_cons]; simp

theorem spaceLen_unwords (ts : List (List Nat)) (h : ∀ t ∈ ts, tokenOk t = true) :
    spaceLen (unwords ts) = 0 := by
  rcases ts with _ | ⟨t, _ | ⟨t2, ts⟩⟩
  · rfl
  · exact spaceLen_of_containsSpace _ ((tokenOk_iff t).1 (h t (by simp))).2
  · obtain ⟨hne, hs⟩ := (tokenOk_iff t).1 (h t (by simp))
    rw [unwords_cons_cons, spaceLen_append_low _ _ hne (by simp)]
    exact spaceLen_of_containsSpace _ hs

/-- A token behind an ASCII byte (or behind nothing) does not end with white
space. -/
theorem spaceLenRev_token (tok : List Nat) (hne : tok ≠ []) (hs : containsSpace tok = false)
    (pre : List Nat) (hpre : ∀ x ∈ pre.getLast?, x < 128) :
    spaceLenRev (pre ++ tok).reverse = 0 := by
  have hsuf : ∀ xs ys, tok = xs ++ ys → spaceLen ys = 0 := by
    intro xs ys e
    rw [e] at hs
    exact spaceLen_of_containsSpace _ (containsSpace_suffix _ _ hs)
  have hhead : ∀ x ∈ pre.reverse.head?, x < 128 := by
    intro x hx
    rw [List.head?_reverse] at hx
    exact hpre x hx
  rw [List.reverse_append]
  rcases hr : tok.reverse with _ | ⟨c, _ | ⟨b, _ | ⟨a, t⟩⟩⟩
  · have : tok = [] := by simpa using hr
    exact absurd this hne
  · have e : tok = [] ++ [c] := by
      have := congrArg List.reverse hr; simpa using this
    have h1 := spaceLen_one c (hsuf _ _ e)
    rcases hp : pre.reverse with _ | ⟨x, _ | ⟨y, p⟩⟩
    · simp [spaceLenRev, h1]
    · have hx : x < 128 := hhead x (by simp [hp])
      simp [spaceLenRev, h1, isSpace2_low_left x c hx]
    · have hx : x < 128 := hhead x (by simp [hp])
      simp [spaceLenRev, h1, isSpace2_low_left x c hx, isSpace3_low_mid y x c hx]
  · have e : tok = [b] ++ [c] := by
      have := congrArg List.reverse hr; simpa using this
    have h1 := spaceLen_one c (hsuf [b] [c] e)
    have h2 := spaceLen_two b c (hsuf [] [b, c] e)
    rcases hp : pre.reverse with _ | ⟨x, p⟩
    · simp [spaceLenRev, h1, h2]
    · have hx : x < 128 := hhead x (by simp [hp])
      simp [spaceLenRev, h1, h2, isSpace3_low_left x b c hx]
  · have e : tok = t.reverse ++ [a, b, c] := by
      have := congrArg List.reverse hr; simpa using this
    have h1 := spaceLen_one c (hsuf (t.reverse ++ [a, b]) [c] (by rw [e]; simp))
    have h2 := spaceLen_two b c (hsuf (t.reverse ++ [a]) [b, c] (by rw [e]; simp))
    have h3 := spaceLen_three a b c [] (hsuf t.reverse [a, b, c] e)
    simp [spaceLenRev, h1, h2, h3]

theorem unwords_split_last (ts : List (List Nat)) (hts : ts ≠ []) :
    ∃ pre, unwords ts = pre ++ ts.getLast hts ∧ ∀ x ∈ pre.getLast?, x < 128 := by
  induction ts with
  | nil => exact absurd rfl hts
  | cons t ts ih =>
    cases ts with
    | nil => exact ⟨[], by simp [unwords], by simp⟩
    | cons t2 ts =>
      obtain ⟨pre, he, hp⟩ := ih (by simp)
      refine ⟨t ++ 32 :: pre, ?_, ?_⟩
      · rw [unwords_cons_cons, he]
        simp
      · intro x hx
        rcases pre with _ | ⟨y, pre⟩
        · simp at hx; omega
        · apply hp x
          rw [List.getLast?_append_of_ne_nil _ (by simp)] at hx
          have : (32 :: y :: pre).getLast? = (y :: pre).getLast? := by
            simp [List.getLast?_cons_cons]
          rw [this] at hx
          exact hx

theorem spaceLenRev_unwords (ts : List (List Nat)) (h : ∀ t ∈ ts, tokenOk t = true) :
    spaceLenRev (unwords ts).reverse = 0 := by
  by_cases hts : ts = []
  · subst hts; rfl
  · obtain ⟨pre, he, hp⟩ := unwords_split_last ts hts
    obtain ⟨hne, hs⟩ := (tokenOk_iff _).1 (h _ (List.getLast_mem hts))
    rw [he]
    exact spaceLenRev_token _ hne hs pre hp

theorem TrimSpace_unwords (ts : List (List Nat)) (h : ∀ t ∈ ts, tokenOk t = true) :
    TrimSpace (unwords ts) = unwords ts := by
  unfold TrimSpace
  simp only
  rw [trimLeftSpace_id _ _ (spaceLen_unwords ts h),
    trimRevSpace_id _ _ (spaceLenRev_unwords ts h), List.reverse_reverse]

theorem TrimRightNul_id (s : List Nat) (h : s.getLast? ≠ some 0) : TrimRightNul s = s := by
  unfold TrimRightNul
  rcases hr : s.reverse with _ | ⟨c, r⟩
  · have : s = [] := by simpa using hr
    simp [this]
  · have hs : s = r.reverse ++ [c] := by
      have := congrArg List.reverse hr; simpa using this
    have hc : c ≠ 0 := by
      intro e
      apply h
      rw [hs, e]
      simp
    rw [List.dropWhile_cons]
    simp [hc, hs]

theorem unwords_cons (t : List Nat) (ts : List (List Nat)) :
    unwords (t :: ts) = t ++ (ts.map (fun x => 32 :: x)).flatten := by
  induction ts generalizing t with
  | nil => simp [unwords]
  | cons t2 ts ih => rw [unwords_cons_cons, ih t2]; simp

theorem formatInt_tokenOk (i : Int) : tokenOk (formatInt i) = true := by
  rw [tokenOk_iff]
  refine ⟨formatInt_ne_nil i, ?_⟩
  have := containsSpace_plain_append (formatInt i) [] (ftn.formatInt_plain i)
  simpa [containsSpace] using this

theorem formatInt_getLast (i : Int) : (formatInt i).getLast? ≠ some 0 := by
  intro h
  have hm : 0 ∈ formatInt i := List.mem_of_getLast?_eq_some h
  rcases formatInt_bytes i 0 hm with e | e <;> omega

namespace frame

theorem foldl_opt (options : List (List Nat)) : ∀ init : List Nat,
    options.foldl (fun b option => b ++ str " " ++ option) init =
      init ++ (options.map (fun x => 32 :: x)).flatten := by
  induction options with
  | nil => intro init; simp
  | cons o os ih =>
    intro init
    rw [List.foldl_cons, ih]
    simp [str]

theorem cmdBuffer_opt (options : List (List Nat)) :
    cmdBuffer (.OptCmd options) = 0 :: 0 :: CmdNUL :: unwords (str "OPT" :: options) := by
  simp only [cmdBuffer, foldl_opt, unwords_cons, makeFrameBuffer, emptyHeader]
  simp

theorem foldl_sep (ss : List (List Nat)) : ∀ init : List Nat,
    (ss.foldl (fun (st : List Nat × List Nat) s => (st.1 ++ st.2 ++ s, str " "))
      (init, str " ")).1 = init ++ (ss.map (fun x => 32 :: x)).flatten := by
  induction ss with
  | nil => intro init; simp
  | cons s ss ih =>
    intro init
    rw [List.foldl_cons]
    simp only
    rw [ih]
    simp [str]

theorem foldl_addr (addrs : List ftn.Address) (init : List Nat) :
    (addrs.foldl (fun (st : List Nat × List Nat) addr => (st.1 ++ st.2 ++ addr.String, str " "))
      (init, [])).1 = init ++ unwords (addrs.map ftn.Address.String) := by
  have hmap : ∀ (st : List Nat × List Nat) (l : List ftn.Address),
      l.foldl (fun (st : List Nat × List Nat) addr => (st.1 ++ st.2 ++ addr.String, str " ")) st =
      (l.map ftn.Address.String).foldl
        (fun (st : List Nat × List Nat) s => (st.1 ++ st.2 ++ s, str " ")) st := by
    intro st l
    induction l generalizing st with
    | nil => rfl
    | cons a l ih => simp only [List.foldl_cons, List.map_cons, ih]
  cases addrs with
  | nil => simp [unwords]
  | cons a as =>
    rw [List.foldl_cons]
    simp only [List.append_nil]
    rw [hmap, foldl_sep, List.map_cons, unwords_cons]
    simp

theorem cmdBuffer_addr (addrs : List ftn.Address) :
    cmdBuffer (.AddressCmd addrs) =
      0 :: 0 :: CmdADR :: unwords (addrs.map ftn.Address.String) := by
  simp only [cmdBuffer, foldl_addr, makeFrameBuffer, emptyHeader]
  simp

theorem cmdBuffer_file (FileName : List Nat) (Size TimeStamp Offset : Int) :
    cmdBuffer (.FileCmd FileName Size TimeStamp Offset 0 []) =
      0 :: 0 :: CmdFILE ::
        unwords [FileName, formatInt Size, formatInt TimeStamp, formatInt Offset] := by
  simp [cmdBuffer, makeFrameBuffer, emptyHeader, unwords, str]

theorem cmdBuffer_got (FileName : List Nat) (Size TimeStamp : Int) :
    cmdBuffer (.GotCmd FileName Size TimeStamp) =
      0 :: 0 :: CmdGOT :: unwords [FileName, formatInt Size, formatInt TimeStamp] := by
  simp [cmdBuffer, makeFrameBuffer, emptyHeader, unwords, str]

/-- Writing a command whose opcode and text fit in a frame, and reading it
back, comes down to decoding the opcode and the text. -/
theorem Read_WriteBytes_cmd (F : Frame) (hF : ∀ d, F ≠ .Data d) (op : Nat) (text rest : List Nat)
    (hb : cmdBuffer F = 0 :: 0 :: op :: text) (hlen : text.length + 1 ≤ 32767) :
    (WriteBytes F []).1 = none ∧
    Read ((WriteBytes F []).2 ++ rest) =
      (decodeFrame ((text.length + 1) / 256 + 128, (text.length + 1) % 256) (op :: text),
        rest) := by
  rw [(payload_cmd_length F hF).1]
  unfold copyCmdOut
  have hl : (cmdBuffer F).length - 2 = text.length + 1 := by rw [hb]; simp
  rw [hl, encodeCmdHeader_ok _ hlen, hb]
  refine ⟨rfl, ?_⟩
  have hh := headerLength_cmd _ hlen
  simp only [List.nil_append, List.drop_succ_cons, List.drop_zero, List.cons_append]
  rw [Read_full _ _ _ (by omega) (by rw [hh]; simp), hh]
  simp

theorem dataToString_unwords (ts : List (List Nat)) (h : ∀ t ∈ ts, tokenOk t = true)
    (hl : (unwords ts).getLast? ≠ some 0) : dataToString (unwords ts) = unwords ts := by
  unfold dataToString
  rw [TrimRightNul_id _ hl, TrimSpace_unwords ts h]

theorem addressOk_iff (a : ftn.Address) : addressOk a = true ↔
    (InInt64 a.zone ∧ InInt64 a.net ∧ InInt64 a.node ∧ InInt64 a.point) ∧
      58 ∉ a.domain ∧ 46 ∉ a.domain ∧ containsSpace a.domain = false := by
  simp [addressOk, and_assoc]

theorem String_tokenOk (a : ftn.Address) (h : addressOk a = true) :
    tokenOk a.String = true := by
  obtain ⟨-, -, -, hs⟩ := (addressOk_iff a).1 h
  rw [tokenOk_iff]
  refine ⟨?_, ftn.String_containsSpace a hs⟩
  have := formatInt_ne_nil a.net
  simp [ftn.Address.String, ftn.Address.String4d, ftn.Address.String3d, ftn.Address.String2d,
    this]

theorem parseAddrs_String (addrs : List ftn.Address) (h : ∀ a ∈ addrs, addressOk a = true) :
    parseAddrs (addrs.map ftn.Address.String) = .ok addrs := by
  induction addrs with
  | nil => rfl
  | cons a as ih =>
    obtain ⟨⟨hz, hn, hd, hp⟩, h58, h46, hs⟩ := (addressOk_iff a).1 (h a (by simp))
    simp only [List.map_cons, parseAddrs]
    rw [ftn.parse_of_render a hz hn hd hp h58 h46 hs,
      ih (fun x hx => h x (by simp [hx]))]

theorem decodeAddressCmd_unwords (addrs : List ftn.Address)
    (h : ∀ a ∈ addrs, addressOk a = true)
    (hl : (unwords (addrs.map ftn.Address.String)).getLast? ≠ some 0) :
    decodeAddressCmd (unwords (addrs.map ftn.Address.String)) = .ok (.AddressCmd addrs) := by
  have htok : ∀ t ∈ addrs.map ftn.Address.String, tokenOk t = true := by
    intro t ht
    rw [List.mem_map] at ht
    obtain ⟨a, ha, rfl⟩ := ht
    exact String_tokenOk a (h a ha)
  unfold decodeAddressCmd
  simp only
  rw [dataToString_unwords _ htok hl, Fields_unwords _ htok, parseAddrs_String addrs h]

theorem decodeNullCmd_opt (options : List (List Nat)) (hne : options ≠ [])
    (h : ∀ t ∈ options, tokenOk t = true)
    (hl : (unwords (str "OPT" :: options)).getLast? ≠ some 0) :
    decodeNullCmd (unwords (str "OPT" :: options)) = .ok (.OptCmd options) := by
  have htok : ∀ t ∈ str "OPT" :: options, tokenOk t = true := by
    intro t ht
    rw [List.mem_cons] at ht
    rcases ht with rfl | ht
    · decide
    · exact h t ht
  have hpre : HasPrefix (unwords (str "OPT" :: options)) (str "OPT ") = true := by
    cases options with
    | nil => exact absurd rfl hne
    | cons o os =>
      rw [unwords_cons_cons]
      simp [HasPrefix, str]
  unfold decodeNullCmd
  simp only
  rw [dataToString_unwords _ htok hl, if_pos hpre, Fields_unwords _ htok]

theorem getLast_unwords_formatInt (pre : List (List Nat)) (i : Int) :
    (unwords (pre ++ [formatInt i])).getLast? ≠ some 0 := by
  obtain ⟨p, he, -⟩ := unwords_split_last (pre ++ [formatInt i]) (by simp)
  rw [he, List.getLast_append_singleton,
    List.getLast?_append_of_ne_nil _ (formatInt_ne_nil i)]
  exact formatInt_getLast i

theorem decodeFileCmd_unwords (name : List Nat) (size ts off : Int)
    (hn : tokenOk name = true) (h1 : InInt64 size) (h2 : InInt64 ts) (h3 : InInt64 off) :
    decodeFileCmd (unwords [name, formatInt size, formatInt ts, formatInt off]) =
      .ok (.FileCmd name size ts off 0 []) := by
  have htok : ∀ t ∈ [name, formatInt size, formatInt ts, formatInt off], tokenOk t = true := by
    intro t ht
    simp only [List.mem_cons, List.mem_singleton, List.mem_nil_iff, or_false] at ht
    rcases ht with rfl | rfl | rfl | rfl
    · exact hn
    · exact formatInt_tokenOk _
    · exact formatInt_tokenOk _
    · exact formatInt_tokenOk _
  have hl := getLast_unwords_formatInt [name, formatInt size, formatInt ts] off
  rw [decodeFileCmd_eq, dataToString_unwords _ htok hl, Fields_unwords _ htok]
  simp only [ParseInt_formatInt _ h1, ParseInt_formatInt _ h2, ParseInt_formatInt _ h3]
  rfl

theorem decodeGotCmd_unwords (name : List Nat) (size ts : Int)
    (hn : tokenOk name = true) (h1 : InInt64 size) (h2 : InInt64 ts) :
    decodeGotCmd (unwords [name, formatInt size, formatInt ts]) =
      .ok (.GotCmd name size ts) := by
  have htok : ∀ t ∈ [name, formatInt size, formatInt ts], tokenOk t = true := by
    intro t ht
    simp only [List.mem_cons, List.mem_singleton, List.mem_nil_iff, or_false] at ht
    rcases ht with rfl | rfl | rfl
    · exact hn
    · exact formatInt_tokenOk _
    · exact formatInt_tokenOk _
  have hl := getLast_unwords_formatInt [name, formatInt size] ts
  unfold decodeGotCmd decodeFileIDParams
  simp only
  rw [dataToString_unwords _ htok hl, Fields_unwords _ htok]
  simp [decodeFileIDParamFields, ParseInt_formatInt _ h1, ParseInt_formatInt _ h2]

theorem getLast_buffer (op : Nat) (text : List Nat) (hne : text ≠ [])
    (h : (0 :: 0 :: op :: text).getLast? ≠ some 0) : text.getLast? ≠ some 0 := by
  have e : (0 :: 0 :: op :: text) = [0, 0, op] ++ text := rfl
  rw [e, List.getLast?_append_of_ne_nil _ hne] at h
  exact h

/-- C1 (amended): for every frame admitted by `roundTrips` whose payload fits
in 32767 bytes, `WriteBytes` succeeds and `Read` applied to the bytes written
(whatever follows them) succeeds, consumes exactly these bytes and returns a
frame of the same kind with the same field values, the text of NUL, PWD, OK,
ERR and BSY being normalised by `dataToString`. -/
theorem Read_WriteBytes_roundtrip (F : Frame) (rest : List Nat)
    (hv : roundTrips F = true) (hlen : (payload F).length ≤ MaxFrameSize) :
    (WriteBytes F []).1 = none ∧
    Read ((WriteBytes F []).2 ++ rest) = (.ok (normalize F), rest) := by
  unfold MaxFrameSize at hlen
  cases F with
  | Data data =>
    simp only [roundTrips, decide_eq_true_eq] at hv
    simp only [payload] at hlen
    rw [WriteBytes_data _ _ hlen]
    exact ⟨rfl, by simpa using Read_data data rest hv hlen⟩
  | NullCmd text =>
    have hb : cmdBuffer (.NullCmd text) = 0 :: 0 :: CmdNUL :: text := rfl
    have hl : text.length + 1 ≤ 32767 := by simpa [payload, hb] using hlen
    obtain ⟨e1, e2⟩ := Read_WriteBytes_cmd _ (by simp) _ _ rest hb hl
    refine ⟨e1, ?_⟩
    rw [e2, decodeFrame_cmd _ _ _ _ (by omega), if_pos rfl]
    simp only [roundTrips, Bool.not_eq_true'] at hv
    simp [decodeNullCmd, hv, normalize]
  | OptCmd options =>
    have hb := cmdBuffer_opt options
    have hl : (unwords (str "OPT" :: options)).length + 1 ≤ 32767 := by
      simpa [payload, hb] using hlen
    obtain ⟨e1, e2⟩ := Read_WriteBytes_cmd _ (by simp) _ _ rest hb hl
    refine ⟨e1, ?_⟩
    rw [e2, decodeFrame_cmd _ _ _ _ (by omega), if_pos rfl]
    simp only [roundTrips, Bool.and_eq_true, bne_iff_ne, ne_eq, List.all_eq_true] at hv
    obtain ⟨⟨hne, htok⟩, hlast⟩ := hv
    rw [hb] at hlast
    have hlast2 := getLast_buffer _ _ (by rw [unwords_cons]; simp [str]) hlast
    rw [decodeNullCmd_opt options hne htok hlast2]
    rfl
  | AddressCmd addrs =>
    have hb := cmdBuffer_addr addrs
    have hl : (unwords (addrs.map ftn.Address.String)).length + 1 ≤ 32767 := by
      simpa [payload, hb] using hlen
    obtain ⟨e1, e2⟩ := Read_WriteBytes_cmd _ (by simp) _ _ rest hb hl
    refine ⟨e1, ?_⟩
    rw [e2, decodeFrame_cmd _ _ _ _ (by omega), if_neg (by decide), if_pos rfl]
    simp only [roundTrips, Bool.and_eq_true, bne_iff_ne, ne_eq, List.all_eq_true] at hv
    obtain ⟨hok, hlast⟩ := hv
    rw [hb] at hlast
    have hlast2 : (unwords (addrs.map ftn.Address.String)).getLast? ≠ some 0 := by
      by_cases hne : unwords (addrs.map ftn.Address.String) = []
      · rw [hne]; simp
      · exact getLast_buffer _ _ hne hlast
    rw [decodeAddressCmd_unwords addrs hok hlast2]
    rfl
  | PasswdCmd pw =>
    have hb : cmdBuffer (.PasswdCmd pw) = 0 :: 0 :: CmdPWD :: pw := rfl
    have hl : pw.length + 1 ≤ 32767 := by simpa [payload, hb] using hlen
    obtain ⟨e1, e2⟩ := Read_WriteBytes_cmd _ (by simp) _ _ rest hb hl
    refine ⟨e1, ?_⟩
    rw [e2, decodeFrame_cmd _ _ _ _ (by omega)]
    rfl
  | FileCmd name size ts off crc opts =>
    simp only [roundTrips, Bool.and_eq_true, decide_eq_true_eq, beq_iff_eq] at hv
    obtain ⟨⟨⟨⟨⟨hn, h1⟩, h2⟩, h3⟩, hc⟩, ho⟩ := hv
    subst hc ho
    have hb := cmdBuffer_file name size ts off
    have hl : (unwords [name, formatInt size, formatInt ts, formatInt off]).length + 1
        ≤ 32767 := by
      simpa [payload, hb] using hlen
    obtain ⟨e1, e2⟩ := Read_WriteBytes_cmd _ (by simp) _ _ rest hb hl
    refine ⟨e1, ?_⟩
    rw [e2, decodeFrame_cmd _ _ _ _ (by omega), if_neg (by decide), if_neg (by decide),
      if_neg (by decide), if_pos rfl, decodeFileCmd_unwords name size ts off hn h1 h2 h3]
    rfl
  | OkCmd text =>
    have hb : cmdBuffer (.OkCmd text) = 0 :: 0 :: CmdOK :: text := rfl
    have hl : text.length + 1 ≤ 32767 := by simpa [payload, hb] using hlen
    obtain ⟨e1, e2⟩ := Read_WriteBytes_cmd _ (by simp) _ _ rest hb hl
    refine ⟨e1, ?_⟩
    rw [e2, decodeFrame_cmd _ _ _ _ (by omega)]
    rfl
  | EOBCmd =>
    have hb : cmdBuffer .EOBCmd = 0 :: 0 :: CmdEOB :: [] := rfl
    obtain ⟨e1, e2⟩ := Read_WriteBytes_cmd _ (by simp) _ _ rest hb (by simp)
    refine ⟨e1, ?_⟩
    rw [e2, decodeFrame_cmd _ _ _ _ (by simp)]
    rfl
  | GotCmd name size ts =>
    simp only [roundTrips, Bool.and_eq_true, decide_eq_true_eq] at hv
    obtain ⟨⟨hn, h1⟩, h2⟩ := hv
    have hb := cmdBuffer_got name size ts
    have hl : (unwords [name, formatInt size, formatInt ts]).length + 1 ≤ 32767 := by
      simpa [payload, hb] using hlen
    obtain ⟨e1, e2⟩ := Read_WriteBytes_cmd _ (by simp) _ _ rest hb hl
    refine ⟨e1, ?_⟩
    rw [e2, decodeFrame_cmd _ _ _ _ (by omega), if_neg (by decide), if_neg (by decide),
      if_neg (by decide), if_neg (by decide), if_neg (by decide), if_neg (by decide),
      if_pos rfl, decodeGotCmd_unwords name size ts hn h1 h2]
    rfl
  | ErrorCmd text =>
    have hb : cmdBuffer (.ErrorCmd text) = 0 :: 0 :: CmdERR :: text := rfl
    have hl : text.length + 1 ≤ 32767 := by simpa [payload, hb] using hlen
    obtain ⟨e1, e2⟩ := Read_WriteBytes_cmd _ (by simp) _ _ rest hb hl
    refine ⟨e1, ?_⟩
    rw [e2, decodeFrame_cmd _ _ _ _ (by omega)]
    rfl
  | BusyCmd text =>
    have hb : cmdBuffer (.BusyCmd text) = 0 :: 0 :: CmdBSY :: text := rfl
    have hl : text.length + 1 ≤ 32767 := by simpa [payload, hb] using hlen
    obtain ⟨e1, e2⟩ := Read_WriteBytes_cmd _ (by simp) _ _ rest hb hl
    refine ⟨e1, ?_⟩
    rw [e2, decodeFrame_cmd _ _ _ _ (by omega)]
    rfl
  | GetCmd name size ts off => simp [roundTrips] at hv
  | SkipCmd name size ts => simp [roundTrips] at hv

theorem Read_WriteBytes_roundtrip_witness :
    (WriteBytes (.AddressCmd [⟨21, 1, 100, 0, str "fsxnet"⟩, ⟨0, 100, 198, 2, []⟩]) []).1 = none ∧
    Read ((WriteBytes (.AddressCmd [⟨21, 1, 100, 0, str "fsxnet"⟩, ⟨0, 100, 198, 2, []⟩]) []).2
        ++ [0, 1, 65]) =
      (.ok (normalize (.AddressCmd [⟨21, 1, 100, 0, str "fsxnet"⟩, ⟨0, 100, 198, 2, []⟩])),
        [0, 1, 65]) :=
  Read_WriteBytes_roundtrip (.AddressCmd [⟨21, 1, 100, 0, str "fsxnet"⟩, ⟨0, 100, 198, 2, []⟩])
    [0, 1, 65] (by decide) (by decide)

/-- C1 (as stated, refuted): the NUL frame with text `OPT x` is written
without error and read back as an OPT frame with the option `x`, not as a NUL
frame; and the OPT frame without options is read back as the NUL frame with
text `OPT`. -/
theorem roundtrip_changes_kind_of_OPT_text :
    (WriteBytes (.NullCmd (str "OPT x")) []).1 = none ∧
    Read (WriteBytes (.NullCmd (str "OPT x")) []).2 = (.ok (.OptCmd [str "x"]), []) ∧
    (WriteBytes (.OptCmd []) []).1 = none ∧
    Read (WriteBytes (.OptCmd []) []).2 = (.ok (.NullCmd (str "OPT")), []) := by
  refine ⟨by decide, by decide, by decide, by decide⟩

end frame

namespace ftn

/-! ## Segments of an address text -/

theorem before_cons_ne (c b : Nat) (s : List Nat) (hb : b ≠ c) :
    before c (b :: s) = b :: before c s := by
  simp [before, List.takeWhile_cons, hb]

theorem after_cons_ne (c b : Nat) (s : List Nat) (hb : b ≠ c) :
    after c (b :: s) = after c s := by
  simp [after, List.dropWhile_cons, hb]

theorem indexFrom_before (c : Nat) (s : List Nat) (h : c ∈ s) :
    ∃ post, s = before c s ++ c :: post ∧ after c s = post ∧ c ∉ before c s := by
  induction s with
  | nil => simp at h
  | cons b s ih =>
    by_cases hb : b = c
    · subst hb
      exact ⟨s, by simp [before], by simp [after], by simp [before]⟩
    · have hc : c ∈ s := by
        rcases List.mem_cons.1 h with e | e
        · exact absurd e.symm hb
        · exact e
      obtain ⟨post, h1, h2, h3⟩ := ih hc
      rw [before_cons_ne c b s hb, after_cons_ne c b s hb]
      refine ⟨post, ?_, h2, ?_⟩
      · rw [List.cons_append, ← h1]
      · rw [List.mem_cons, not_or]
        exact ⟨fun e => hb e.symm, h3⟩

theorem before_not_mem (c : Nat) (s : List Nat) (h : c ∉ s) :
    before c s = s ∧ after c s = [] := by
  induction s with
  | nil => simp [before, after]
  | cons b s ih =>
    have hb : b ≠ c := fun e => h (by simp [e])
    have hs : c ∉ s := fun e => h (by simp [e])
    obtain ⟨h1, h2⟩ := ih hs
    rw [before_cons_ne c b s hb, after_cons_ne c b s hb, h1, h2]
    exact ⟨rfl, rfl⟩

/-- The split of the code is the split into the parts in front of and behind
the first separator. -/
theorem splitOn_eq (c : Nat) (s : List Nat) :
    splitOn s [c] = (before c s, after c s, decide (c ∈ s)) := by
  by_cases h : c ∈ s
  · obtain ⟨post, h1, h2, h3⟩ := indexFrom_before c s h
    have := splitOn_found c (before c s) post h3
    rw [← h1] at this
    rw [this, h2]
    simp [h]
  · obtain ⟨h1, h2⟩ := before_not_mem c s h
    rw [splitOn_none c s h, h1, h2]
    simp [h]

/-- What `ParseAddress` returns, by the segments of the stripped text. -/
theorem ParseAddress_segments (address : List Nat) :
    ParseAddress address =
      match (if (specSegments (TrimSpace address)).hasZone
          then Atoi (specSegments (TrimSpace address)).zone else some 0) with
      | none => (emptyAddress, some .invalidZone)
      | some zone =>
        match Atoi (specSegments (TrimSpace address)).net with
        | none => (emptyAddress, some .invalidNet)
        | some net =>
          match Atoi (specSegments (TrimSpace address)).node with
          | none => (emptyAddress, some .invalidNode)
          | some node =>
            match (if (specSegments (TrimSpace address)).hasPoint
                then Atoi (specSegments (TrimSpace address)).point else some 0) with
            | none => (emptyAddress, some .invalidPoint)
            | some point =>
              if (specSegments (TrimSpace address)).hasDomain
                  && (specSegments (TrimSpace address)).domain == [] then
                (emptyAddress, some .invalidDomain)
              else (⟨zone, net, node, point, (specSegments (TrimSpace address)).domain⟩, none) := by
  have e58 : str ":" = [58] := rfl
  have e47 : str "/" = [47] := rfl
  have e46 : str "." = [46] := rfl
  have e64 : str "@" = [64] := rfl
  unfold ParseAddress specSegments
  simp only [e58, e47, e46, e64, splitOn_eq]
  generalize TrimSpace address = t
  by_cases hz : 58 ∈ t
  · by_cases hp : 46 ∈ after 47 (after 58 t)
    · simp [hz, hp]
    · simp [hz, hp, (before_not_mem 46 _ hp).1]
  · have hb := (before_not_mem 58 t hz).1
    by_cases hp : 46 ∈ after 47 t
    · simp [hz, hp, hb]
    · simp [hz, hp, hb, (before_not_mem 46 _ hp).1]

theorem digitVal_ten_digit (b d : Nat) (h : digitVal 10 b = some d) : 48 ≤ b ∧ b ≤ 57 := by
  unfold digitVal at h
  by_cases h1 : 48 ≤ b ∧ b ≤ 57
  · exact h1
  · rw [if_neg h1] at h
    by_cases h2 : 97 ≤ b ∧ b ≤ 122
    · rw [if_pos h2, if_neg (by omega)] at h
      exact absurd h (by simp)
    · rw [if_neg h2] at h
      by_cases h3 : 65 ≤ b ∧ b ≤ 90
      · rw [if_pos h3, if_neg (by omega)] at h
        exact absurd h (by simp)
      · rw [if_neg h3] at h
        exact absurd h (by simp)

theorem parseDigits_digits (s : List Nat) : ∀ acc v, parseDigits 10 s acc = some v →
    s.all (fun b => decide (48 ≤ b ∧ b ≤ 57)) = true := by
  induction s with
  | nil => intro acc v _; rfl
  | cons b s ih =>
    intro acc v h
    rw [parseDigits] at h
    cases hd : digitVal 10 b with
    | none => rw [hd] at h; exact absurd h (by simp)
    | some d =>
      rw [hd] at h
      have hb := digitVal_ten_digit b d hd
      rw [List.all_cons, ih _ _ h]
      simp [hb]

theorem ParseUint_digits (s : List Nat) (bits v : Nat) (h : ParseUint s 10 bits = some v) :
    s ≠ [] ∧ s.all (fun b => decide (48 ≤ b ∧ b ≤ 57)) = true := by
  unfold ParseUint at h
  by_cases hs : s = []
  · rw [if_pos hs] at h; exact absurd h (by simp)
  · rw [if_neg hs] at h
    cases hp : parseDigits 10 s 0 with
    | none => rw [hp] at h; exact absurd h (by simp)
    | some w => exact ⟨hs, parseDigits_digits s 0 w hp⟩

/-- What `strconv.Atoi` accepts is a decimal integer, and the value is
negative only behind a `-` sign. -/
theorem Atoi_some (s : List Nat) (v : Int) (h : Atoi s = some v) :
    isDecimalInteger s = true ∧ (v < 0 → s.head? = some 45) := by
  unfold Atoi ParseInt at h
  cases s with
  | nil => exact absurd h (by simp)
  | cons c t =>
    simp only at h
    by_cases h43 : c = 43
    · rw [if_pos h43] at h
      cases hp : ParseUint t 10 64 with
      | none => rw [hp] at h; exact absurd h (by simp)
      | some w =>
        obtain ⟨h1, h2⟩ := ParseUint_digits t 64 w hp
        rw [hp] at h
        simp only at h
        constructor
        · simpa [isDecimalInteger, h43, h1] using h2
        · intro hv
          by_cases hw : w < 2 ^ 63
          · rw [if_pos hw] at h
            have : (w : Int) = v := by simpa using h
            omega
          · rw [if_neg hw] at h; exact absurd h (by simp)
    · rw [if_neg h43] at h
      by_cases h45 : c = 45
      · rw [if_pos h45] at h
        cases hp : ParseUint t 10 64 with
        | none => rw [hp] at h; exact absurd h (by simp)
        | some w =>
          obtain ⟨h1, h2⟩ := ParseUint_digits t 64 w hp
          exact ⟨by simpa [isDecimalInteger, h45, h1] using h2, fun _ => by simp [h45]⟩
      · rw [if_neg h45] at h
        cases hp : ParseUint (c :: t) 10 64 with
        | none => rw [hp] at h; exact absurd h (by simp)
        | some w =>
          obtain ⟨h1, h2⟩ := ParseUint_digits (c :: t) 64 w hp
          rw [hp] at h
          simp only at h
          constructor
          · simp only [isDecimalInteger, h43, h45, or_self, if_false]
            exact h2
          · intro hv
            by_cases hw : w < 2 ^ 63
            · rw [if_pos hw] at h
              have : (w : Int) = v := by simpa using h
              omega
            · rw [if_neg hw] at h; exact absurd h (by simp)

theorem Atoi_none (s : List Nat) (h : isDecimalInteger s = false) : Atoi s = none := by
  cases ha : Atoi s with
  | none => rfl
  | some v =>
    have := (Atoi_some s v ha).1
    rw [h] at this
    exact absurd this (by simp)

theorem mem_trimLeftSpace (c : Nat) : ∀ (fuel : Nat) (s : List Nat),
    c ∈ trimLeftSpace fuel s → c ∈ s := by
  intro fuel
  induction fuel with
  | zero => intro s h; exact h
  | succ f ih =>
    intro s h
    unfold trimLeftSpace at h
    split at h
    · exact h
    · exact List.mem_of_mem_drop (ih _ h)

theorem mem_trimRevSpace (c : Nat) : ∀ (fuel : Nat) (s : List Nat),
    c ∈ trimRevSpace fuel s → c ∈ s := by
  intro fuel
  induction fuel with
  | zero => intro s h; exact h
  | succ f ih =>
    intro s h
    unfold trimRevSpace at h
    split at h
    · exact h
    · exact List.mem_of_mem_drop (ih _ h)

theorem mem_TrimSpace (c : Nat) (s : List Nat) (h : c ∈ TrimSpace s) : c ∈ s := by
  unfold TrimSpace at h
  simp only [List.mem_reverse] at h
  have := mem_trimRevSpace c _ _ h
  rw [List.mem_reverse] at this
  exact mem_trimLeftSpace c _ _ this

/-- C11 (amended): for all non-negative zone, net and node in the range of
`int` and every non-empty domain that contains no `@`, no `.` and no white
space, `ParseAddress` applied to the text `zone:net/node@domain` succeeds and
returns the address (zone, net, node, 0, domain). -/
theorem ParseAddress_zone_net_node_domain (zone net node : Int) (domain : List Nat)
    (hz : 0 ≤ zone ∧ InInt64 zone) (hn : 0 ≤ net ∧ InInt64 net)
    (hd : 0 ≤ node ∧ InInt64 node)
    (hne : domain ≠ []) (_hat : 64 ∉ domain) (hdot : 46 ∉ domain)
    (hs : containsSpace domain = false) :
    ParseAddress (formatInt zone ++ str ":" ++ formatInt net ++ str "/" ++ formatInt node ++
        str "@" ++ domain) = (⟨zone, net, node, 0, domain⟩, none) := by
  have hm : ∀ (i : Int), 58 ∉ formatInt i ∧ 47 ∉ formatInt i ∧ 46 ∉ formatInt i ∧
      64 ∉ formatInt i := fun i =>
    ⟨formatInt_not_mem i 58 (by decide) (by decide), formatInt_not_mem i 47 (by decide) (by decide),
      formatInt_not_mem i 46 (by decide) (by decide), formatInt_not_mem i 64 (by decide) (by decide)⟩
  have hplain : ∀ b ∈ formatInt zone ++ str ":" ++ formatInt net ++ str "/" ++ formatInt node ++
      str "@", isAsciiSpace b = false ∧ b < 128 := by
    intro b hb
    simp only [List.mem_append] at hb
    rcases hb with ((((hb | hb) | hb) | hb) | hb) | hb
    · exact formatInt_plain _ b hb
    · revert b; decide
    · exact formatInt_plain _ b hb
    · revert b; decide
    · exact formatInt_plain _ b hb
    · revert b; decide
  have hsp : containsSpace (formatInt zone ++ str ":" ++ formatInt net ++ str "/" ++
      formatInt node ++ str "@" ++ domain) = false := by
    rw [containsSpace_plain_append _ _ hplain, hs]
  unfold ParseAddress
  rw [TrimSpace_id _ hsp]
  have e58 : str ":" = [58] := rfl
  have e47 : str "/" = [47] := rfl
  have e46 : str "." = [46] := rfl
  have e64 : str "@" = [64] := rfl
  simp only [e58, e47, e46, e64, List.append_assoc, List.singleton_append, List.cons_append,
    List.nil_append]
  simp [splitOn_found, splitOn_none, (hm _).1, (hm _).2.1, (hm _).2.2.1, (hm _).2.2.2,
    hdot, Atoi_formatInt, hz.2, hn.2, hd.2, hne]

theorem ParseAddress_zone_net_node_domain_witness :
    ParseAddress (formatInt 21 ++ str ":" ++ formatInt 1 ++ str "/" ++ formatInt 100 ++
        str "@" ++ str "fsxnet") = (⟨21, 1, 100, 0, str "fsxnet"⟩, none) :=
  ParseAddress_zone_net_node_domain 21 1 100 (str "fsxnet") (by decide) (by decide) (by decide)
    (by decide) (by decide) (by decide) (by decide)

/-- C11 (as stated, refuted): the domain `fidonet.org` is non-empty and holds
no `@` and no white space, yet the text `1:2/3@fidonet.org` is rejected: the
text is split at the `.` of the domain before the `@` is looked for. -/
theorem ParseAddress_rejects_dotted_domain :
    ParseAddress (str "1:2/3@fidonet.org") = (emptyAddress, some .invalidNode) := by
  decide

/-- C12: `ParseAddress` returns an error together with the empty address for
every input in which the zone segment (when `:` is present), the net segment,
the node segment or the point segment (when `.` is present) is empty or is not
a decimal integer, or in which `@` is followed by an empty domain; and for
every input without `/`. -/
theorem ParseAddress_rejects_malformed (address : List Nat)
    (h : ((specSegments (TrimSpace address)).hasZone = true ∧
          isDecimalInteger (specSegments (TrimSpace address)).zone = false) ∨
        isDecimalInteger (specSegments (TrimSpace address)).net = false ∨
        isDecimalInteger (specSegments (TrimSpace address)).node = false ∨
        ((specSegments (TrimSpace address)).hasPoint = true ∧
          isDecimalInteger (specSegments (TrimSpace address)).point = false) ∨
        ((specSegments (TrimSpace address)).hasDomain = true ∧
          (specSegments (TrimSpace address)).domain = []) ∨
        47 ∉ address) :
    ∃ e, ParseAddress address = (emptyAddress, some e) := by
  have hslash : 47 ∉ address → isDecimalInteger (specSegments (TrimSpace address)).node = false := by
    intro hno
    have hno2 : 47 ∉ TrimSpace address := fun hm => hno (mem_TrimSpace 47 _ hm)
    have hr1 : 47 ∉ (if decide (58 ∈ TrimSpace address) = true then after 58 (TrimSpace address)
        else TrimSpace address) := by
      split
      · intro hm
        unfold after at hm
        exact hno2 ((List.dropWhile_suffix _).subset (List.mem_of_mem_drop hm))
      · exact hno2
    have hr2 := (before_not_mem 47 _ hr1).2
    simp only [specSegments, hr2]
    decide
  rw [ParseAddress_segments]
  generalize specSegments (TrimSpace address) = g at h hslash ⊢
  have hnode : isDecimalInteger g.node = false → ∀ z n, ∃ e,
      (match Atoi g.node with
        | none => (emptyAddress, some AddrError.invalidNode)
        | some node =>
          match (if g.hasPoint then Atoi g.point else some 0) with
          | none => (emptyAddress, some AddrError.invalidPoint)
          | some point =>
            if g.hasDomain && g.domain == [] then (emptyAddress, some AddrError.invalidDomain)
            else ((⟨z, n, node, point, g.domain⟩ : Address), none)) = (emptyAddress, some e) := by
    intro hd z n
    rw [Atoi_none _ hd]
    exact ⟨_, rfl⟩
  cases hz : (if g.hasZone then Atoi g.zone else some 0) with
  | none => exact ⟨_, rfl⟩
  | some zone =>
    cases hn : Atoi g.net with
    | none => exact ⟨_, rfl⟩
    | some net =>
      simp only
      cases hd : Atoi g.node with
      | none => exact ⟨_, rfl⟩
      | some node =>
        cases hp : (if g.hasPoint then Atoi g.point else some 0) with
        | none => exact ⟨_, rfl⟩
        | some point =>
          simp only
          rcases h with ⟨h1, h2⟩ | h | h | ⟨h1, h2⟩ | ⟨h1, h2⟩ | h
          · rw [h1, if_pos rfl, Atoi_none _ h2] at hz
            exact absurd hz (by simp)
          · rw [Atoi_none _ h] at hn
            exact absurd hn (by simp)
          · rw [Atoi_none _ h] at hd
            exact absurd hd (by simp)
          · rw [h1, if_pos rfl, Atoi_none _ h2] at hp
            exact absurd hp (by simp)
          · rw [if_pos (by simp [h1, h2])]
            exact ⟨_, rfl⟩
          · rw [Atoi_none _ (hslash h)] at hd
            exact absurd hd (by simp)

theorem ParseAddress_rejects_malformed_witness :
    ∃ e, ParseAddress (str "21:100/.0@fsxnet") = (emptyAddress, some e) :=
  ParseAddress_rejects_malformed (str "21:100/.0@fsxnet") (by decide)

/-- C13 (amended): for every input on which `ParseAddress` succeeds, each of
zone, net, node and point is non-negative unless its segment begins with the
sign `-`; a leading `+` or `-` is read as the sign of the number, not
rejected. -/
theorem ParseAddress_negative_only_with_minus (address : List Nat) (a : Address)
    (h : ParseAddress address = (a, none)) :
    ((specSegments (TrimSpace address)).zone.head? ≠ some 45 → 0 ≤ a.zone) ∧
    ((specSegments (TrimSpace address)).net.head? ≠ some 45 → 0 ≤ a.net) ∧
    ((specSegments (TrimSpace address)).node.head? ≠ some 45 → 0 ≤ a.node) ∧
    ((specSegments (TrimSpace address)).point.head? ≠ some 45 → 0 ≤ a.point) := by
  rw [ParseAddress_segments] at h
  generalize specSegments (TrimSpace address) = g at h ⊢
  have hnn : ∀ (s : List Nat) (v : Int), Atoi s = some v → s.head? ≠ some 45 → 0 ≤ v := by
    intro s v hv hs
    by_contra hneg
    exact hs ((Atoi_some s v hv).2 (by omega))
  cases hz : (if g.hasZone then Atoi g.zone else some 0) with
  | none => rw [hz] at h; simp at h
  | some zone =>
    cases hn : Atoi g.net with
    | none => rw [hz, hn] at h; simp at h
    | some net =>
      cases hd : Atoi g.node with
      | none => rw [hz, hn, hd] at h; simp at h
      | some node =>
        cases hp : (if g.hasPoint then Atoi g.point else some 0) with
        | none => rw [hz, hn, hd, hp] at h; simp at h
        | some point =>
          rw [hz, hn, hd, hp] at h
          simp only at h
          split at h
          · simp at h
          · have ha : a = ⟨zone, net, node, point, g.domain⟩ := by
              have := congrArg Prod.fst h
              exact this.symm
            subst ha
            refine ⟨?_, hnn _ _ hn, hnn _ _ hd, ?_⟩
            · intro hs
              by_cases hz2 : g.hasZone = true
              · rw [if_pos hz2] at hz
                exact hnn _ _ hz hs
              · rw [if_neg hz2] at hz
                have : (0 : Int) = zone := by simpa using hz
                simp [← this]
            · intro hs
              by_cases hp2 : g.hasPoint = true
              · rw [if_pos hp2] at hp
                exact hnn _ _ hp hs
              · rw [if_neg hp2] at hp
                have : (0 : Int) = point := by simpa using hp
                simp [← this]

theorem ParseAddress_negative_only_with_minus_witness :
    ((specSegments (TrimSpace (str "21:100/198.1@fsx-net"))).zone.head? ≠ some 45 →
      0 ≤ (Address.mk 21 100 198 1 (str "fsx-net")).zone) ∧
    ((specSegments (TrimSpace (str "21:100/198.1@fsx-net"))).net.head? ≠ some 45 →
      0 ≤ (Address.mk 21 100 198 1 (str "fsx-net")).net) ∧
    ((specSegments (TrimSpace (str "21:100/198.1@fsx-net"))).node.head? ≠ some 45 →
      0 ≤ (Address.mk 21 100 198 1 (str "fsx-net")).node) ∧
    ((specSegments (TrimSpace (str "21:100/198.1@fsx-net"))).point.head? ≠ some 45 →
      0 ≤ (Address.mk 21 100 198 1 (str "fsx-net")).point) :=
  ParseAddress_negative_only_with_minus (str "21:100/198.1@fsx-net")
    (Address.mk 21 100 198 1 (str "fsx-net")) (by decide)

/-- C13 (as stated, refuted): the texts `-1:2/3` and `1:+2/3.-4` are accepted;
the first gives the zone -1, the second the net 2 and the point -4. -/
theorem ParseAddress_accepts_signs :
    ParseAddress (str "-1:2/3") = (⟨-1, 2, 3, 0, []⟩, none) ∧
    ParseAddress (str "1:+2/3.-4") = (⟨1, 2, 3, -4, []⟩, none) := by
  decide

end ftn

/-! ## Hexadecimal strings -/

set_option maxRecDepth 100000 in
theorem hex_pair : ∀ b, b < 256 →
    fromHexChar (hexDigit (b >>> 4)) = some (b >>> 4) ∧
    fromHexChar (hexDigit (b &&& 0x0f)) = some (b &&& 0x0f) ∧
    ((b >>> 4) <<< 4) ||| (b &&& 0x0f) = b ∧
    (48 ≤ hexDigit (b >>> 4) ∧ hexDigit (b >>> 4) ≤ 102) ∧
    (48 ≤ hexDigit (b &&& 0x0f) ∧ hexDigit (b &&& 0x0f) ≤ 102) := by
  decide

theorem EncodeToString_cons (b : Nat) (src : List Nat) :
    EncodeToString (b :: src) =
      hexDigit (b >>> 4) :: hexDigit (b &&& 0x0f) :: EncodeToString src := by
  simp [EncodeToString, List.flatMap_cons]

theorem DecodeString_EncodeToString (src : List Nat) (h : ∀ b ∈ src, b < 256) :
    DecodeString (EncodeToString src) = some src := by
  induction src with
  | nil => rfl
  | cons b src ih =>
    obtain ⟨h1, h2, h3, -, -⟩ := hex_pair b (h b (by simp))
    have ih2 := ih (fun x hx => h x (by simp [hx]))
    rw [EncodeToString_cons, DecodeString, h1, h2]
    simp only [ih2, h3]

theorem isHexString_cons_cons (p q : Nat) (t : List Nat) :
    isHexString (p :: q :: t) =
      ((fromHexChar p).isSome && (fromHexChar q).isSome && isHexString t) := by
  simp only [isHexString, List.length_cons, List.all_cons]
  have : (t.length + 1 + 1) % 2 = t.length % 2 := by omega
  rw [this]
  cases (fromHexChar p).isSome <;> cases (fromHexChar q).isSome <;>
    cases (t.length % 2 == 0) <;> simp

theorem DecodeString_isSome_aux : ∀ (n : Nat) (s : List Nat), s.length = n →
    (DecodeString s).isSome = isHexString s := by
  intro n
  induction n using Nat.strong_induction_on with
  | _ n ih =>
    intro s hn
    rcases s with _ | ⟨p, _ | ⟨q, t⟩⟩
    · rfl
    · simp [DecodeString, isHexString]
    · rw [isHexString_cons_cons, ← ih t.length (by simp at hn; omega) t rfl]
      simp only [DecodeString]
      cases fromHexChar p <;> cases fromHexChar q <;> cases DecodeString t <;> simp

/-- `hex.DecodeString` succeeds exactly on the well-formed hexadecimal
strings. -/
theorem DecodeString_isSome (s : List Nat) : (DecodeString s).isSome = isHexString s :=
  DecodeString_isSome_aux s.length s rfl

/-- The bytes of a hexadecimal rendering are digits and lower-case letters. -/
theorem EncodeToString_bytes (src : List Nat) (h : ∀ b ∈ src, b < 256) :
    ∀ c ∈ EncodeToString src, 48 ≤ c ∧ c ≤ 102 := by
  induction src with
  | nil => intro c hc; simp [EncodeToString] at hc
  | cons b src ih =>
    obtain ⟨-, -, -, h4, h5⟩ := hex_pair b (h b (by simp))
    intro c hc
    rw [EncodeToString_cons, List.mem_cons, List.mem_cons] at hc
    rcases hc with rfl | rfl | hc
    · exact h4
    · exact h5
    · exact ih (fun x hx => h x (by simp [hx])) c hc

theorem EncodeToString_length (src : List Nat) :
    (EncodeToString src).length = 2 * src.length := by
  induction src with
  | nil => rfl
  | cons b src ih => rw [EncodeToString_cons]; simp [ih]; omega

namespace auth

theorem hashNew_some (hashStr : List Nat) (k : Hash) :
    hashNew hashStr = some k ↔
      (ToLower hashStr = str "md5" ∧ k = .md5) ∨ (ToLower hashStr = str "sha1" ∧ k = .sha1) ∨
        (ToLower hashStr = str "sha256" ∧ k = .sha256) := by
  have d12 : str "md5" ≠ str "sha1" := by decide
  have d13 : str "md5" ≠ str "sha256" := by decide
  have d23 : str "sha1" ≠ str "sha256" := by decide
  unfold hashNew
  constructor
  · intro h
    by_cases h1 : ToLower hashStr = str "md5"
    · rw [if_pos h1] at h
      exact Or.inl ⟨h1, (Option.some.inj h).symm⟩
    · rw [if_neg h1] at h
      by_cases h2 : ToLower hashStr = str "sha1"
      · rw [if_pos h2] at h
        exact Or.inr (Or.inl ⟨h2, (Option.some.inj h).symm⟩)
      · rw [if_neg h2] at h
        by_cases h3 : ToLower hashStr = str "sha256"
        · rw [if_pos h3] at h
          exact Or.inr (Or.inr ⟨h3, (Option.some.inj h).symm⟩)
        · rw [if_neg h3] at h
          exact absurd h (by simp)
  · rintro (⟨h, rfl⟩ | ⟨h, rfl⟩ | ⟨h, rfl⟩)
    · rw [if_pos h]
    · rw [if_neg (by rw [h]; exact d12.symm), if_pos h]
    · rw [if_neg (by rw [h]; exact d13.symm), if_neg (by rw [h]; exact d23.symm), if_pos h]

/-- C14: for every hash name equal to md5, sha1 or sha256 in any letter case,
every challenge and every password, `GenerateResponse` succeeds and
`ValidateResponse` accepts the response it returns (for any HMAC whose output
is a string of bytes). -/
theorem ValidateResponse_GenerateResponse (mac : Hash → List Nat → List Nat → List Nat)
    (hashStr challenge password : List Nat)
    (hmac : ∀ h k m, ∀ b ∈ mac h k m, b < 256)
    (hh : ToLower hashStr = str "md5" ∨ ToLower hashStr = str "sha1" ∨
      ToLower hashStr = str "sha256") :
    ∃ response, GenerateResponse mac hashStr challenge password = some response ∧
      ValidateResponse mac hashStr challenge response password = true := by
  have hk : ∃ k, hashNew hashStr = some k := by
    rcases hh with h | h | h
    · exact ⟨.md5, (hashNew_some _ _).2 (Or.inl ⟨h, rfl⟩)⟩
    · exact ⟨.sha1, (hashNew_some _ _).2 (Or.inr (Or.inl ⟨h, rfl⟩))⟩
    · exact ⟨.sha256, (hashNew_some _ _).2 (Or.inr (Or.inr ⟨h, rfl⟩))⟩
  obtain ⟨k, hk⟩ := hk
  refine ⟨EncodeToString (mac k password challenge), ?_, ?_⟩
  · simp [GenerateResponse, hk]
  · simp [ValidateResponse, hk, DecodeString_EncodeToString _ (hmac k password challenge)]

theorem ValidateResponse_GenerateResponse_witness :
    ∃ response, GenerateResponse (fun _ _ _ => [7, 0, 255]) (str "Sha256") [1, 2] (str "pw")
        = some response ∧
      ValidateResponse (fun _ _ _ => [7, 0, 255]) (str "Sha256") [1, 2] response (str "pw")
        = true :=
  ValidateResponse_GenerateResponse (fun _ _ _ => [7, 0, 255]) (str "Sha256") [1, 2] (str "pw")
    (fun _ _ _ => by simp) (by decide)

/-- C15: `ValidateResponse` is true if and only if the hash name is md5, sha1
or sha256 in any letter case, the response is a well-formed hexadecimal string
and it decodes to exactly the HMAC of the challenge under the password; for an
unknown hash name and for a response that is not valid hex it returns false
(it is a total function: there is nothing in it to fail). -/
theorem ValidateResponse_iff (mac : Hash → List Nat → List Nat → List Nat)
    (hashStr challenge response password : List Nat) :
    (ValidateResponse mac hashStr challenge response password = true ↔
      ∃ k, ((ToLower hashStr = str "md5" ∧ k = Hash.md5) ∨
          (ToLower hashStr = str "sha1" ∧ k = Hash.sha1) ∨
          (ToLower hashStr = str "sha256" ∧ k = Hash.sha256)) ∧
        isHexString response = true ∧
        DecodeString response = some (mac k password challenge)) ∧
    ((ToLower hashStr ≠ str "md5" ∧ ToLower hashStr ≠ str "sha1" ∧
        ToLower hashStr ≠ str "sha256") →
      ValidateResponse mac hashStr challenge response password = false) ∧
    (isHexString response = false →
      ValidateResponse mac hashStr challenge response password = false) := by
  refine ⟨?_, ?_, ?_⟩
  · constructor
    · intro h
      unfold ValidateResponse at h
      cases hk : hashNew hashStr with
      | none => rw [hk] at h; simp at h
      | some k =>
        rw [hk] at h
        simp only at h
        cases hd : DecodeString response with
        | none => rw [hd] at h; simp at h
        | some r =>
          rw [hd] at h
          simp only [decide_eq_true_eq] at h
          refine ⟨k, (hashNew_some _ _).1 hk, ?_, by rw [h]⟩
          rw [← DecodeString_isSome, hd]
          rfl
    · rintro ⟨k, hk, -, hd⟩
      have := (hashNew_some _ _).2 hk
      simp [ValidateResponse, this, hd]
  · rintro ⟨h1, h2, h3⟩
    simp [ValidateResponse, hashNew, h1, h2, h3]
  · intro h
    have hd : DecodeString response = none := by
      have := DecodeString_isSome response
      rw [h] at this
      simpa using this
    unfold ValidateResponse
    cases hashNew hashStr with
    | none => rfl
    | some k => simp [hd]

end auth

/-! ## The handshake -/

theorem Split_cons_sep (t : List Nat) (sep : Nat) : Split (sep :: t) sep = [] :: Split t sep := by
  rw [Split, if_pos rfl]

theorem Split_ne_nil (s : List Nat) (sep : Nat) : Split s sep ≠ [] := by
  induction s with
  | nil => simp [Split]
  | cons b t ih =>
    rw [Split]
    split
    · simp
    · split <;> simp

theorem Split_cons_ne (b : Nat) (t : List Nat) (sep : Nat) (h : b ≠ sep) :
    Split (b :: t) sep = (b :: (Split t sep).headD []) :: (Split t sep).tail := by
  rw [Split, if_neg h]
  cases hs : Split t sep with
  | nil => exact absurd hs (Split_ne_nil t sep)
  | cons f fs => rfl

theorem Split_append (a b : List Nat) (sep : Nat) (h : sep ∉ a) :
    Split (a ++ sep :: b) sep = a :: Split b sep := by
  induction a with
  | nil => exact Split_cons_sep b sep
  | cons x a ih =>
    have hx : x ≠ sep := fun e => h (by simp [e])
    have ha : sep ∉ a := fun e => h (by simp [e])
    rw [List.cons_append, Split_cons_ne _ _ _ hx, ih ha]
    rfl

theorem Split_not_mem (a : List Nat) (sep : Nat) (h : sep ∉ a) : Split a sep = [a] := by
  induction a with
  | nil => rfl
  | cons x a ih =>
    have hx : x ≠ sep := fun e => h (by simp [e])
    have ha : sep ∉ a := fun e => h (by simp [e])
    rw [Split_cons_ne _ _ _ hx, ih ha]
    rfl

theorem HasPrefix_iff (s p : List Nat) : HasPrefix s p = true ↔ ∃ rest, s = p ++ rest := by
  unfold HasPrefix
  rw [List.isPrefixOf_iff_prefix]
  constructor
  · rintro ⟨t, ht⟩; exact ⟨t, ht.symm⟩
  · rintro ⟨t, ht⟩; exact ⟨t, ht.symm⟩

theorem Split_CRAM (p : List Nat) (h : HasPrefix p (str "CRAM-") = true) :
    ∃ rest, p = str "CRAM-" ++ rest ∧ Split p 45 = str "CRAM" :: Split rest 45 := by
  obtain ⟨rest, rfl⟩ := (HasPrefix_iff _ _).1 h
  refine ⟨rest, rfl, ?_⟩
  have : str "CRAM-" ++ rest = str "CRAM" ++ 45 :: rest := rfl
  rw [this, Split_append _ _ _ (by decide)]

namespace session

theorem SendErrorCmd_live (s : Session) (text : List Nat) (h : s.ctxDone = false) :
    s.SendErrorCmd text =
      ({ s with urgentErr := s.urgentErr ++ [frame.Frame.ErrorCmd text] }, true) := by
  simp [Session.SendErrorCmd, h, frame.NewErrorCmd]

theorem WriteSyncFrame_live (s : Session) (f : frame.Frame) (h : s.ctxDone = false) :
    s.WriteSyncFrame f = ({ s with writeFrames := s.writeFrames ++ [some f, none] }, true) := by
  simp [Session.WriteSyncFrame, Session.WriteFrame, Session.FlushWriter, h]

end session

namespace receiver

open session

theorem checkPasswd_empty (mac : auth.Hash → List Nat → List Nat → List Nat) (s : Session)
    (p : List Nat) (hctx : s.ctxDone = false) (h1 : p = str "-") :
    checkPasswd mac s p =
      { s := { s with urgentErr := s.urgentErr ++ [.ErrorCmd (str "Empty passwords are unsupported")] },
        next := none, err := some .emptyPassword } := by
  unfold checkPasswd
  rw [if_pos h1, SendErrorCmd_live _ _ hctx]
  rfl

theorem checkPasswd_cleartext (mac : auth.Hash → List Nat → List Nat → List Nat) (s : Session)
    (p : List Nat) (hctx : s.ctxDone = false) (h1 : p ≠ str "-")
    (h2 : HasPrefix p (str "CRAM-") = false) :
    checkPasswd mac s p =
      { s := { s with urgentErr :=
          s.urgentErr ++ [.ErrorCmd (str "Cleartext passwords are unsupported")] },
        next := none, err := some .cleartextPassword } := by
  unfold checkPasswd
  rw [if_neg h1, if_pos (by simp [h2]), SendErrorCmd_live _ _ hctx]
  rfl

theorem checkPasswd_malformed (mac : auth.Hash → List Nat → List Nat → List Nat) (s : Session)
    (p : List Nat) (hctx : s.ctxDone = false) (h1 : p ≠ str "-")
    (h2 : HasPrefix p (str "CRAM-") = true) (h3 : (Split p 45).length ≠ 3) :
    checkPasswd mac s p =
      { s := { s with urgentErr := s.urgentErr ++ [.ErrorCmd (str "Malformed challenge response")] },
        next := none, err := some (.malformedResponse p) } := by
  unfold checkPasswd
  rw [if_neg h1, if_neg (by simp [h2])]
  simp only
  rw [if_pos h3, SendErrorCmd_live _ _ hctx]
  rfl

theorem checkPasswd_fields (mac : auth.Hash → List Nat → List Nat → List Nat) (s : Session)
    (link : config.Link) (p c hs resp : List Nat) (hctx : s.ctxDone = false)
    (hlink : s.Link = some link) (h1 : p ≠ str "-")
    (h2 : HasPrefix p (str "CRAM-") = true) (h3 : Split p 45 = [c, hs, resp]) :
    checkPasswd mac s p =
      if auth.ValidateResponse mac hs s.Challenge resp link.Password = true then
        { s := { s with writeFrames := s.writeFrames ++ [some (.OkCmd (str "secure")), none] },
          next := some .transferStart, err := none }
      else
        { s := { s with urgentErr := s.urgentErr ++ [.ErrorCmd (str "Invalid password")] },
          next := none, err := some .validationFailed } := by
  have hl : ¬ ((Split p 45).length ≠ 3) := by rw [h3]; simp
  have e1 : (Split p 45).getD 1 [] = hs := by rw [h3]; rfl
  have e2 : (Split p 45).getD 2 [] = resp := by rw [h3]; rfl
  unfold checkPasswd
  rw [if_neg h1, if_neg (by simp [h2])]
  simp only
  rw [if_neg hl, e1, e2]
  by_cases hv : auth.ValidateResponse mac hs s.Challenge resp link.Password = true
  · rw [if_pos hv]
    simp only [hlink, hv, Bool.not_true, Bool.false_eq_true, if_false,
      WriteSyncFrame_live _ _ hctx]
    rfl
  · rw [if_neg hv]
    simp only [hlink, hv, Bool.not_eq_true', Bool.not_false, if_true,
      SendErrorCmd_live _ _ hctx]
    have hv' : auth.ValidateResponse mac hs s.Challenge resp link.Password = false := by
      simpa using hv
    simp [hv', End]

/-- The PWD texts `checkPasswd` accepts, and what it does with the others. -/
theorem checkPasswd_cases (mac : auth.Hash → List Nat → List Nat → List Nat) (s : Session)
    (link : config.Link) (p : List Nat) (hctx : s.ctxDone = false) (hlink : s.Link = some link) :
    (p ≠ str "-" ∧ HasPrefix p (str "CRAM-") = true ∧
      (∃ h resp, Split p 45 = [str "CRAM", h, resp] ∧
        auth.ValidateResponse mac h s.Challenge resp link.Password = true) ∧
      checkPasswd mac s p =
        { s := { s with writeFrames := s.writeFrames ++ [some (.OkCmd (str "secure")), none] },
          next := some .transferStart, err := none }) ∨
    ((¬ (p ≠ str "-" ∧ HasPrefix p (str "CRAM-") = true ∧
        ∃ h resp, Split p 45 = [str "CRAM", h, resp] ∧
          auth.ValidateResponse mac h s.Challenge resp link.Password = true)) ∧
      ∃ text e, checkPasswd mac s p =
        { s := { s with urgentErr := s.urgentErr ++ [.ErrorCmd text] }, next := none,
          err := some e } ∧
        ((p ≠ str "-" ∧ HasPrefix p (str "CRAM-") = true ∧
            ∃ h resp, Split p 45 = [str "CRAM", h, resp]) → text = str "Invalid password")) := by
  by_cases h1 : p = str "-"
  · right
    exact ⟨fun h => h.1 h1, _, _, checkPasswd_empty mac s p hctx h1, fun h => absurd h1 h.1⟩
  · by_cases h2 : HasPrefix p (str "CRAM-") = true
    · obtain ⟨rest, -, hsplit⟩ := Split_CRAM p h2
      by_cases h3 : (Split p 45).length ≠ 3
      · right
        have hno : ¬ ∃ h resp, Split p 45 = [str "CRAM", h, resp] := by
          rintro ⟨h, resp, e⟩
          rw [e] at h3
          exact h3 rfl
        exact ⟨fun h => hno (let ⟨a, b, c, _⟩ := h.2.2; ⟨a, b, c⟩), _, _,
          checkPasswd_malformed mac s p hctx h1 h2 h3, fun h => absurd h.2.2 hno⟩
      · have h3' : (Split p 45).length = 3 := by simpa using h3
        obtain ⟨hs, resp, hfields⟩ : ∃ hs resp, Split p 45 = [str "CRAM", hs, resp] := by
          rw [hsplit] at h3' ⊢
          rcases hr : Split rest 45 with _ | ⟨a, _ | ⟨b, _ | ⟨c, t⟩⟩⟩
          · rw [hr] at h3'; simp at h3'
          · rw [hr] at h3'; simp at h3'
          · exact ⟨a, b, rfl⟩
          · rw [hr] at h3'; simp at h3'
        have hc := checkPasswd_fields mac s link p _ hs resp hctx hlink h1 h2 hfields
        by_cases hv : auth.ValidateResponse mac hs s.Challenge resp link.Password = true
        · left
          rw [if_pos hv] at hc
          exact ⟨h1, h2, ⟨hs, resp, hfields, hv⟩, hc⟩
        · right
          rw [if_neg hv] at hc
          refine ⟨?_, _, _, hc, fun _ => rfl⟩
          rintro ⟨-, -, a, b, e, hv2⟩
          rw [hfields] at e
          have e1 : hs = a := by simpa using (List.cons.inj (List.cons.inj e).2).1
          have e2 : resp = b := by
            simpa using (List.cons.inj (List.cons.inj (List.cons.inj e).2).2).1
          subst e1 e2
          exact hv hv2
    · right
      exact ⟨fun h => h2 h.2.1, _, _,
        checkPasswd_cleartext mac s p hctx h1 (by simpa using h2), fun h => absurd h.2.1 h2⟩

/-- C16: with a live context and the link password known, `checkPasswd` moves
to `transfer.Start`, writing the OK frame `secure` and a flush and nothing on
the urgent channel, if and only if the PWD text is not `-`, begins with
`CRAM-`, splits on `-` into exactly three fields CRAM, h, r and
`ValidateResponse(h, C, r, P)` is true; in every other case it sends one ERR
frame, writes no OK frame and ends the session with an error, the ERR text
being `Invalid password` when only the validation fails. -/
theorem checkPasswd_accepts_iff (mac : auth.Hash → List Nat → List Nat → List Nat)
    (s : Session) (link : config.Link) (p : List Nat)
    (hctx : s.ctxDone = false) (hlink : s.Link = some link) :
    ((checkPasswd mac s p).next = some .transferStart ↔
      specAccepts mac s.Challenge link.Password p) ∧
    (specAccepts mac s.Challenge link.Password p →
      (checkPasswd mac s p).err = none ∧
      (checkPasswd mac s p).s.writeFrames =
        s.writeFrames ++ [some (.OkCmd (str "secure")), none] ∧
      (checkPasswd mac s p).s.urgentErr = s.urgentErr) ∧
    (¬ specAccepts mac s.Challenge link.Password p →
      (checkPasswd mac s p).next = none ∧ (checkPasswd mac s p).err ≠ none ∧
      (∃ text, (checkPasswd mac s p).s.urgentErr = s.urgentErr ++ [.ErrorCmd text]) ∧
      (checkPasswd mac s p).s.writeFrames = s.writeFrames) ∧
    ((p ≠ str "-" ∧ HasPrefix p (str "CRAM-") = true ∧
        ∃ h resp, Split p 45 = [str "CRAM", h, resp] ∧
          auth.ValidateResponse mac h s.Challenge resp link.Password = false) →
      (checkPasswd mac s p).s.urgentErr = s.urgentErr ++ [.ErrorCmd (str "Invalid password")]) := by
  rcases checkPasswd_cases mac s link p hctx hlink with ⟨h1, h2, h3, he⟩ | ⟨hno, text, e, he, ht⟩
  · have hacc : specAccepts mac s.Challenge link.Password p := ⟨h1, h2, h3⟩
    refine ⟨⟨fun _ => hacc, fun _ => by rw [he]⟩, fun _ => by rw [he]; exact ⟨rfl, rfl, rfl⟩,
      fun h => absurd hacc h, ?_⟩
    rintro ⟨-, -, a, b, hs, hv⟩
    obtain ⟨a2, b2, hs2, hv2⟩ := h3
    rw [hs] at hs2
    have e1 : a = a2 := by simpa using (List.cons.inj (List.cons.inj hs2).2).1
    have e2 : b = b2 := by
      simpa using (List.cons.inj (List.cons.inj (List.cons.inj hs2).2).2).1
    subst e1 e2
    rw [hv] at hv2
    exact absurd hv2 (by simp)
  · have hno2 : ¬ specAccepts mac s.Challenge link.Password p := hno
    refine ⟨⟨fun h => ?_, fun h => absurd h hno2⟩, fun h => absurd h hno2,
      fun _ => by rw [he]; exact ⟨rfl, by simp, ⟨text, rfl⟩, rfl⟩, ?_⟩
    · rw [he] at h
      exact absurd h (by simp)
    · rintro ⟨h1, h2, a, b, hs, -⟩
      rw [he, ht ⟨h1, h2, a, b, hs⟩]

theorem checkPasswd_accepts_iff_witness :
    (((checkPasswd (fun _ _ _ => [171]) { NewSession ⟨[], [], [], [], fun _ => none⟩ with
          Link := some ⟨⟨21, 1, 100, 0, []⟩, str "pw"⟩ } (str "CRAM-MD5-ab")).next
        = some .transferStart ↔
      specAccepts (fun _ _ _ => [171])
        ({ NewSession ⟨[], [], [], [], fun _ => none⟩ with
          Link := some ⟨⟨21, 1, 100, 0, []⟩, str "pw"⟩ } : Session).Challenge
        (config.Link.mk ⟨21, 1, 100, 0, []⟩ (str "pw")).Password (str "CRAM-MD5-ab"))) :=
  (checkPasswd_accepts_iff (fun _ _ _ => [171])
    { NewSession ⟨[], [], [], [], fun _ => none⟩ with
      Link := some ⟨⟨21, 1, 100, 0, []⟩, str "pw"⟩ }
    ⟨⟨21, 1, 100, 0, []⟩, str "pw"⟩ (str "CRAM-MD5-ab") rfl rfl).1

end receiver

namespace session

theorem LinkAddresses_eq (s : Session) (addrs : List ftn.Address) :
    s.LinkAddresses addrs =
      match findLink s.Config addrs with
      | some link => ({ s with RemoteAddrs := addrs, Link := some link }, some link)
      | none => ({ s with RemoteAddrs := addrs }, none) := by
  cases h : findLink s.Config addrs <;> simp [Session.LinkAddresses, h]

end session

namespace receiver

open session

theorem waitForAddress_ADR (s : Session) (addrs : List ftn.Address) (hctx : s.ctxDone = false) :
    waitForAddress (.readFrames (some (.AddressCmd addrs)) true) s =
      match findLink s.Config addrs with
      | some link =>
        { s := { s with RemoteAddrs := addrs, Link := some link }, next := some .waitForPasswd,
          err := none }
      | none =>
        { s := { s with RemoteAddrs := addrs }, next := none, err := some .unlinkedSession } := by
  simp only [waitForAddress, hctx, Bool.not_true, Bool.or_self, Bool.false_eq_true, if_false,
    LinkAddresses_eq]
  cases findLink s.Config addrs <;> rfl

end receiver

namespace sender

open session

theorem senderWaitForAddress_ADR (s : Session) (addrs : List ftn.Address)
    (hctx : s.ctxDone = false) :
    senderWaitForAddress (.readFrames (some (.AddressCmd addrs)) true) s =
      match findLink s.Config addrs with
      | some link =>
        { s := { s with RemoteAddrs := addrs, Link := some link }, next := some .sendResponse,
          err := none }
      | none =>
        { s := { s with RemoteAddrs := addrs }, next := none, err := some .unlinkedSession } := by
  simp only [senderWaitForAddress, hctx, Bool.not_true, Bool.or_self, Bool.false_eq_true,
    if_false, LinkAddresses_eq]
  cases findLink s.Config addrs <;> rfl

/-- C19 (evaluation of the code): with the one link 21:1/100@fsxnet configured
and a live context, the ADR frame naming 21:1/999@fsxnet ends the session of
the listener and of the dialer with the error "Unlinked session" and nothing
is sent on the urgent channel or written; a PWD frame received in the same
state is answered with an ERR frame. -/
theorem unlinked_ADR_sends_no_ERR :
    (receiver.waitForAddress
        (.readFrames (some (.AddressCmd [⟨21, 1, 999, 0, str "fsxnet"⟩])) true)
        (NewSession ⟨[], [], [], [], fun a =>
          if a = ⟨21, 1, 100, 0, str "fsxnet"⟩ then some ⟨a, str "pw"⟩ else none⟩)).err
      = some .unlinkedSession ∧
    (receiver.waitForAddress
        (.readFrames (some (.AddressCmd [⟨21, 1, 999, 0, str "fsxnet"⟩])) true)
        (NewSession ⟨[], [], [], [], fun a =>
          if a = ⟨21, 1, 100, 0, str "fsxnet"⟩ then some ⟨a, str "pw"⟩ else none⟩)).next
      = none ∧
    (receiver.waitForAddress
        (.readFrames (some (.AddressCmd [⟨21, 1, 999, 0, str "fsxnet"⟩])) true)
        (NewSession ⟨[], [], [], [], fun a =>
          if a = ⟨21, 1, 100, 0, str "fsxnet"⟩ then some ⟨a, str "pw"⟩ else none⟩)).s.urgentErr
      = [] ∧
    (receiver.waitForAddress
        (.readFrames (some (.AddressCmd [⟨21, 1, 999, 0, str "fsxnet"⟩])) true)
        (NewSession ⟨[], [], [], [], fun a =>
          if a = ⟨21, 1, 100, 0, str "fsxnet"⟩ then some ⟨a, str "pw"⟩ else none⟩)).s.writeFrames
      = [] ∧
    (senderWaitForAddress
        (.readFrames (some (.AddressCmd [⟨21, 1, 999, 0, str "fsxnet"⟩])) true)
        (NewSession ⟨[], [], [], [], fun a =>
          if a = ⟨21, 1, 100, 0, str "fsxnet"⟩ then some ⟨a, str "pw"⟩ else none⟩)).err
      = some .unlinkedSession ∧
    (senderWaitForAddress
        (.readFrames (some (.AddressCmd [⟨21, 1, 999, 0, str "fsxnet"⟩])) true)
        (NewSession ⟨[], [], [], [], fun a =>
          if a = ⟨21, 1, 100, 0, str "fsxnet"⟩ then some ⟨a, str "pw"⟩ else none⟩)).s.urgentErr
      = [] ∧
    (receiver.waitForAddress (.readFrames (some (.PasswdCmd (str "x"))) true)
        (NewSession ⟨[], [], [], [], fun a =>
          if a = ⟨21, 1, 100, 0, str "fsxnet"⟩ then some ⟨a, str "pw"⟩ else none⟩)).s.urgentErr
      = [.ErrorCmd (str "Invalid received frame")] := by
  refine ⟨by decide, by decide, by decide, by decide, by decide, by decide, by decide⟩

end sender

namespace transfer

open session

/-- C20: in the both-active state of the router, with a live context, an
inbound FILE, EOB or Data frame is added to the receiver channel and only
there, an inbound GET, GOT or SKIP frame to the transmitter channel and only
there, in both cases the router going on in the same state; an inbound NUL,
OPT, BSY or ERR frame changes nothing and the router goes on in the same
state; an inbound ADR, PWD or OK frame makes the router send the ERR frame
`Invalid received frame` and end with an error. -/
theorem router_dispatch (s : Session) (f : frame.Frame) (hctx : s.ctxDone = false) :
    router (.readFrames (some f) true) s =
      match specRoute f with
      | .toReceiver =>
        { s := { s with RecvrFrames := s.RecvrFrames ++ [f] }, next := some .router, err := none }
      | .toTransmitter =>
        { s := { s with XmitrFrames := s.XmitrFrames ++ [f] }, next := some .router, err := none }
      | .dropped => { s := s, next := some .router, err := none }
      | .rejected =>
        { s := { s with urgentErr := s.urgentErr ++ [.ErrorCmd (str "Invalid received frame")] },
          next := none, err := some (.weirdFrame f) } := by
  cases f <;>
    simp [router, specRoute, hctx, routerEnd, SendErrorCmd_live _ _ hctx]

theorem router_dispatch_witness :
    router (.readFrames (some (.GotCmd (str "a") 1 2)) true)
        (NewSession ⟨[], [], [], [], fun _ => none⟩) =
      match specRoute (.GotCmd (str "a") 1 2) with
      | .toReceiver =>
        { s := { NewSession ⟨[], [], [], [], fun _ => none⟩ with
            RecvrFrames := (NewSession ⟨[], [], [], [], fun _ => none⟩).RecvrFrames ++
              [.GotCmd (str "a") 1 2] },
          next := some .router, err := none }
      | .toTransmitter =>
        { s := { NewSession ⟨[], [], [], [], fun _ => none⟩ with
            XmitrFrames := (NewSession ⟨[], [], [], [], fun _ => none⟩).XmitrFrames ++
              [.GotCmd (str "a") 1 2] },
          next := some .router, err := none }
      | .dropped =>
        { s := NewSession ⟨[], [], [], [], fun _ => none⟩, next := some .router, err := none }
      | .rejected =>
        { s := { NewSession ⟨[], [], [], [], fun _ => none⟩ with
            urgentErr := (NewSession ⟨[], [], [], [], fun _ => none⟩).urgentErr ++
              [.ErrorCmd (str "Invalid received frame")] },
          next := none, err := some (.weirdFrame (.GotCmd (str "a") 1 2)) } :=
  router_dispatch (NewSession ⟨[], [], [], [], fun _ => none⟩) (.GotCmd (str "a") 1 2) rfl

end transfer

namespace session

theorem WriteFrames_live (fs : List frame.Frame) : ∀ (s : Session), s.ctxDone = false →
    s.WriteFrames fs = ({ s with writeFrames := s.writeFrames ++ fs.map some }, true) := by
  induction fs with
  | nil => intro s _; simp [Session.WriteFrames]
  | cons f fs ih =>
    intro s h
    have e : s.WriteFrame f = ({ s with writeFrames := s.writeFrames ++ [some f] }, true) := by
      simp [Session.WriteFrame, h]
    rw [Session.WriteFrames, e]
    simp only
    rw [ih { s with writeFrames := s.writeFrames ++ [some f] } h]
    simp

theorem WriteSyncFrames_live (s : Session) (h : s.ctxDone = false) (fs : List frame.Frame) :
    s.WriteSyncFrames fs =
      ({ s with writeFrames := s.writeFrames ++ fs.map some ++ [none] }, true) := by
  unfold Session.WriteSyncFrames
  rw [WriteFrames_live fs s h]
  simp [Session.FlushWriter, h]

theorem WriteSyncFrames_cancelled (s : Session) (h : s.ctxDone = true) (f : frame.Frame)
    (fs : List frame.Frame) : s.WriteSyncFrames (f :: fs) = (s, false) := by
  simp [Session.WriteSyncFrames, Session.WriteFrames, Session.WriteFrame, h]

end session

namespace receiver

open session

theorem runWait_cons_addr (mac : auth.Hash → List Nat → List Nat → List Nat) (sel : Select)
    (sels : List Select) (s : Session) :
    runWait mac (sel :: sels) .waitForAddress s =
      if (waitForAddress sel s).err = none ∧ (waitForAddress sel s).next.isSome then
        runWait mac sels ((waitForAddress sel s).next.getD .waitForAddress)
          (waitForAddress sel s).s
      else waitForAddress sel s := by
  rw [runWait]
  generalize waitForAddress sel s = r
  obtain ⟨s1, n, e⟩ := r
  cases n <;> cases e <;> simp

theorem runWait_cons_passwd (mac : auth.Hash → List Nat → List Nat → List Nat) (sel : Select)
    (sels : List Select) (s : Session) :
    runWait mac (sel :: sels) .waitForPasswd s =
      if (waitForPasswd mac sel s).err = none ∧ (waitForPasswd mac sel s).next.isSome then
        runWait mac sels ((waitForPasswd mac sel s).next.getD .waitForPasswd)
          (waitForPasswd mac sel s).s
      else waitForPasswd mac sel s := by
  rw [runWait]
  generalize waitForPasswd mac sel s = r
  obtain ⟨s1, n, e⟩ := r
  cases n <;> cases e <;> simp

theorem runWait_transfer (mac : auth.Hash → List Nat → List Nat → List Nat)
    (sels : List Select) (s : Session) :
    runWait mac sels .transferStart s = { s := s, next := some .transferStart, err := none } := by
  cases sels <;> rfl

/-- What `waitForPasswd` does with a frame from the open channel under a live
context. -/
theorem waitForPasswd_frame (mac : auth.Hash → List Nat → List Nat → List Nat) (s : Session)
    (f : frame.Frame) (hctx : s.ctxDone = false) :
    waitForPasswd mac (.readFrames (some f) true) s =
      match f with
      | .PasswdCmd p => checkPasswd mac s p
      | .ErrorCmd _ => { s := s, next := none, err := some (.receivedERR f) }
      | .BusyCmd _ => { s := s, next := none, err := some (.receivedBUSY f) }
      | .NullCmd _ => { s := s, next := some .waitForPasswd, err := none }
      | .OptCmd _ => { s := s, next := some .waitForPasswd, err := none }
      | _ =>
        { s := { s with urgentErr := s.urgentErr ++ [.ErrorCmd (str "Invalid received frame")] },
          next := none, err := some (.weirdFrame f) } := by
  cases f <;> simp [waitForPasswd, hctx, End, SendErrorCmd_live _ _ hctx]

/-- What `waitForAddress` does with a frame from the open channel under a live
context. -/
theorem waitForAddress_frame (s : Session) (f : frame.Frame) (hctx : s.ctxDone = false) :
    waitForAddress (.readFrames (some f) true) s =
      match f with
      | .AddressCmd addrs =>
        (match findLink s.Config addrs with
        | some link =>
          { s := { s with RemoteAddrs := addrs, Link := some link }, next := some .waitForPasswd,
            err := none }
        | none =>
          { s := { s with RemoteAddrs := addrs }, next := none, err := some .unlinkedSession })
      | .ErrorCmd _ => { s := s, next := none, err := some (.receivedERR f) }
      | .BusyCmd _ => { s := s, next := none, err := some (.receivedBUSY f) }
      | .NullCmd _ => { s := s, next := some .waitForAddress, err := none }
      | .OptCmd _ => { s := s, next := some .waitForAddress, err := none }
      | _ =>
        { s := { s with urgentErr := s.urgentErr ++ [.ErrorCmd (str "Invalid received frame")] },
          next := none, err := some (.weirdFrame f) } := by
  cases f
  case AddressCmd addrs =>
    exact (waitForAddress_ADR s addrs hctx).trans
      (by cases h : findLink s.Config addrs <;> simp [h])
  all_goals simp [waitForAddress, hctx, End, SendErrorCmd_live _ _ hctx]

/-- A select that leaves `waitForAddress` or `waitForPasswd` without an error
and with a next state delivered a frame from the open channel, under a live
context. -/
theorem waitForPasswd_goes_on (mac : auth.Hash → List Nat → List Nat → List Nat) (sel : Select)
    (s : Session)
    (h : (waitForPasswd mac sel s).err = none ∧ (waitForPasswd mac sel s).next.isSome) :
    s.ctxDone = false ∧ ∃ f, sel = .readFrames (some f) true := by
  rcases sel with _ | ⟨_ | f, ok⟩
  · simp [waitForPasswd, End] at h
  · simp [waitForPasswd, End] at h
  · by_cases hc : s.ctxDone = true
    · simp [waitForPasswd, End, hc] at h
    · cases ok
      · simp [waitForPasswd, End] at h
      · exact ⟨by simpa using hc, f, rfl⟩

theorem waitForAddress_goes_on (sel : Select) (s : Session)
    (h : (waitForAddress sel s).err = none ∧ (waitForAddress sel s).next.isSome) :
    s.ctxDone = false ∧ ∃ f, sel = .readFrames (some f) true := by
  rcases sel with _ | ⟨_ | f, ok⟩
  · simp [waitForAddress, End] at h
  · simp [waitForAddress, End] at h
  · by_cases hc : s.ctxDone = true
    · simp [waitForAddress, End, hc] at h
    · cases ok
      · simp [waitForAddress, End] at h
      · exact ⟨by simpa using hc, f, rfl⟩


theorem checkPasswd_next_err (mac : auth.Hash → List Nat → List Nat → List Nat) (s : Session)
    (p : List Nat) (h : (checkPasswd mac s p).next ≠ none) : (checkPasswd mac s p).err = none := by
  revert h
  unfold checkPasswd
  simp only [End]
  split_ifs
  · simp
  · simp
  · simp
  · cases s.Link with
    | none => simp
    | some link =>
      simp only
      split_ifs
      · simp
      · cases hw : s.WriteSyncFrame (frame.NewOk (str "secure")) with
        | mk s1 b => cases b <;> simp

theorem runWait_passwd_transfer (mac : auth.Hash → List Nat → List Nat → List Nat)
    (link : config.Link) (sels : List Select) : ∀ (s : Session), s.Link = some link →
    (runWait mac sels .waitForPasswd s).next = some .transferStart →
    ∃ mid p rest, sels = received mid ++ .readFrames (some (.PasswdCmd p)) true :: rest ∧
      (∀ g ∈ mid, isInformational g = true) ∧
      specAccepts mac s.Challenge link.Password p ∧
      (checkPasswd mac s p).next = some .transferStart := by
  induction sels with
  | nil => intro s _ h; simp [runWait] at h
  | cons sel sels ih =>
    intro s hlink h
    rw [runWait_cons_passwd] at h
    by_cases hc : (waitForPasswd mac sel s).err = none ∧ (waitForPasswd mac sel s).next.isSome
    · rw [if_pos hc] at h
      obtain ⟨hctx, f, rfl⟩ := waitForPasswd_goes_on mac sel s hc
      rw [waitForPasswd_frame mac s f hctx] at h hc
      cases f with
      | PasswdCmd p =>
        rcases checkPasswd_cases mac s link p hctx hlink with ⟨h1, h2, h3, hk⟩ | ⟨-, t, e, he, -⟩
        · exact ⟨[], p, sels, rfl, by simp, ⟨h1, h2, h3⟩, by rw [hk]⟩
        · simp only at hc
          rw [he] at hc
          simp at hc
      | NullCmd t =>
        obtain ⟨mid, p, rest, e, hm, ha⟩ := ih s hlink (by simpa using h)
        refine ⟨.NullCmd t :: mid, p, rest, by simp [received, e], ?_, ha⟩
        intro g hg
        rcases List.mem_cons.1 hg with rfl | hg
        · rfl
        · exact hm g hg
      | OptCmd t =>
        obtain ⟨mid, p, rest, e, hm, ha⟩ := ih s hlink (by simpa using h)
        refine ⟨.OptCmd t :: mid, p, rest, by simp [received, e], ?_, ha⟩
        intro g hg
        rcases List.mem_cons.1 hg with rfl | hg
        · rfl
        · exact hm g hg
      | _ => simp at hc
    · rw [if_neg hc] at h
      exfalso
      apply hc
      rcases sel with _ | ⟨_ | f, ok⟩
      · simp [waitForPasswd, End] at h
      · simp [waitForPasswd, End] at h
      · by_cases hctx : s.ctxDone = true
        · simp [waitForPasswd, End, hctx] at h
        · cases ok
          · simp [waitForPasswd, End] at h
          · have hctx2 : s.ctxDone = false := by simpa using hctx
            rw [waitForPasswd_frame mac s f hctx2] at h ⊢
            cases f with
            | PasswdCmd p =>
              simp only at h ⊢
              exact ⟨checkPasswd_next_err mac s p (by rw [h]; simp), by rw [h]; rfl⟩
            | _ => simp at h

theorem runWait_address_transfer (mac : auth.Hash → List Nat → List Nat → List Nat)
    (sels : List Select) : ∀ (s : Session),
    (runWait mac sels .waitForAddress s).next = some .transferStart →
    ∃ pre addrs link mid p rest,
      sels = received pre ++ .readFrames (some (.AddressCmd addrs)) true ::
        (received mid ++ .readFrames (some (.PasswdCmd p)) true :: rest) ∧
      (∀ g ∈ pre, isInformational g = true) ∧ (∀ g ∈ mid, isInformational g = true) ∧
      findLink s.Config addrs = some link ∧
      specAccepts mac s.Challenge link.Password p ∧
      (checkPasswd mac { s with RemoteAddrs := addrs, Link := some link } p).next
        = some .transferStart := by
  induction sels with
  | nil => intro s h; simp [runWait] at h
  | cons sel sels ih =>
    intro s h
    rw [runWait_cons_addr] at h
    by_cases hc : (waitForAddress sel s).err = none ∧ (waitForAddress sel s).next.isSome
    · rw [if_pos hc] at h
      obtain ⟨hctx, f, rfl⟩ := waitForAddress_goes_on sel s hc
      rw [waitForAddress_frame s f hctx] at h hc
      cases f with
      | AddressCmd addrs =>
        cases hl : findLink s.Config addrs with
        | none => simp [hl] at hc
        | some link =>
          simp only [hl, Option.getD_some] at h
          obtain ⟨mid, p, rest, e, hm, ha⟩ :=
            runWait_passwd_transfer mac link sels _ rfl h
          exact ⟨[], addrs, link, mid, p, rest, by simp [received, e], by simp, hm, hl, ha⟩
      | NullCmd t =>
        obtain ⟨pre, addrs, link, mid, p, rest, e, hp, hm, hl, ha⟩ := ih s (by simpa using h)
        refine ⟨.NullCmd t :: pre, addrs, link, mid, p, rest, by simp [received, e], ?_, hm, hl,
          ha⟩
        intro g hg
        rcases List.mem_cons.1 hg with rfl | hg
        · rfl
        · exact hp g hg
      | OptCmd t =>
        obtain ⟨pre, addrs, link, mid, p, rest, e, hp, hm, hl, ha⟩ := ih s (by simpa using h)
        refine ⟨.OptCmd t :: pre, addrs, link, mid, p, rest, by simp [received, e], ?_, hm, hl,
          ha⟩
        intro g hg
        rcases List.mem_cons.1 hg with rfl | hg
        · rfl
        · exact hp g hg
      | _ => simp at hc
    · rw [if_neg hc] at h
      exfalso
      rcases sel with _ | ⟨_ | f, ok⟩
      · simp [waitForAddress, End] at h
      · simp [waitForAddress, End] at h
      · by_cases hctx : s.ctxDone = true
        · simp [waitForAddress, End, hctx] at h
        · cases ok
          · simp [waitForAddress, End] at h
          · have hctx2 : s.ctxDone = false := by simpa using hctx
            rw [waitForAddress_frame s f hctx2] at h
            cases f with
            | AddressCmd addrs =>
              cases hl : findLink s.Config addrs <;> simp [hl] at h
            | _ => simp at h

theorem Run_eq (mac : auth.Hash → List Nat → List Nat → List Nat) (challenge now : List Nat)
    (sels : List Select) (s : Session) :
    Run mac challenge now sels s =
      if s.ctxDone = true then
        { s := { s with Challenge := challenge }, next := none,
          err := some .sendingInitialFrames }
      else
        runWait mac sels .waitForAddress
          { s with
            Challenge := challenge
            writeFrames := s.writeFrames ++
              [some (frame.NewChallenge (str "MD5") (auth.ChallengeToString challenge)),
                some (frame.NewNull (str "SYS " ++ s.Config.System)),
                some (frame.NewNull (str "ZYZ " ++ s.Config.Admin)),
                some (frame.NewNull (str "LOC " ++ s.Config.Location)),
                some (frame.NewNull (str "VER ginko/0.0.1/OpenBSD/x86_64 binkp/1.0")),
                some (frame.NewNull (str "TIME " ++ now)),
                some (frame.NewAddress s.Config.Addresses), none] } := by
  by_cases hc : s.ctxDone = true
  · rw [if_pos hc]
    unfold Run start
    simp only
    rw [WriteSyncFrames_cancelled { s with Challenge := challenge } hc]
    rfl
  · rw [if_neg hc]
    have hc2 : s.ctxDone = false := by simpa using hc
    unfold Run start
    simp only
    rw [WriteSyncFrames_live { s with Challenge := challenge } hc2]
    simp

theorem runWait_address_rejects (mac : auth.Hash → List Nat → List Nat → List Nat)
    (f : frame.Frame) (rest : List Select) (hf : isInformational f = false)
    (ha : isAddress f = false) (pre : List frame.Frame) :
    (∀ g ∈ pre, isInformational g = true) → ∀ (s : Session),
    (runWait mac (received pre ++ .readFrames (some f) true :: rest) .waitForAddress s).next
        = none ∧
      (runWait mac (received pre ++ .readFrames (some f) true :: rest) .waitForAddress s).err
        ≠ none := by
  induction pre with
  | nil =>
    intro _ s
    simp only [received, List.map_nil, List.nil_append]
    rw [runWait_cons_addr]
    by_cases hctx : s.ctxDone = true
    · simp [waitForAddress, End, hctx]
    · have hctx2 : s.ctxDone = false := by simpa using hctx
      rw [waitForAddress_frame s f hctx2]
      cases f <;> simp_all [isInformational, isAddress]
  | cons g pre ih =>
    intro hp s
    have hg : isInformational g = true := hp g (List.mem_cons_self _ _)
    have ih2 := ih (fun x hx => hp x (List.mem_cons_of_mem _ hx)) s
    simp only [received, List.map_cons, List.cons_append]
    rw [runWait_cons_addr]
    by_cases hctx : s.ctxDone = true
    · simp [waitForAddress, End, hctx]
    · have hctx2 : s.ctxDone = false := by simpa using hctx
      rw [waitForAddress_frame s g hctx2]
      cases g with
      | NullCmd t => simpa [received] using ih2
      | OptCmd t => simpa [received] using ih2
      | _ => simp [isInformational] at hg

theorem start_live (challenge now : List Nat) (s : Session) (hc : s.ctxDone = false) :
    start challenge now s =
      { s := { s with
            Challenge := challenge
            writeFrames := s.writeFrames ++
              [some (frame.NewChallenge (str "MD5") (auth.ChallengeToString challenge)),
                some (frame.NewNull (str "SYS " ++ s.Config.System)),
                some (frame.NewNull (str "ZYZ " ++ s.Config.Admin)),
                some (frame.NewNull (str "LOC " ++ s.Config.Location)),
                some (frame.NewNull (str "VER ginko/0.0.1/OpenBSD/x86_64 binkp/1.0")),
                some (frame.NewNull (str "TIME " ++ now)),
                some (frame.NewAddress s.Config.Addresses), none] },
        next := some .waitForAddress, err := none } := by
  unfold start
  simp only
  rw [WriteSyncFrames_live { s with Challenge := challenge } hc]
  simp

/-- C17: in every run of the listener from `start`, whatever the `select`s
deliver, `transfer.Start` is reached only if the peer's frames were: NUL and
OPT frames only, then an ADR frame one of whose addresses has a configured
link, then NUL and OPT frames only, then a PWD frame that `checkPasswd`
accepts in the session as it then is (the CRAM response is valid for the
challenge of `start` and the password of that link); and when, after NUL and
OPT frames only, a frame arrives that is neither NUL, OPT nor ADR (PWD, FILE,
Data, OK, EOB, GOT, GET, SKIP, ERR, BSY), the run ends with an error and no
next state. -/
theorem Run_transfer_only_after_ADR_then_PWD
    (mac : auth.Hash → List Nat → List Nat → List Nat) (challenge now : List Nat)
    (s0 : Session) :
    (∀ sels, (Run mac challenge now sels s0).next = some .transferStart →
      ∃ pre addrs link mid p rest,
        sels = received pre ++ .readFrames (some (.AddressCmd addrs)) true ::
          (received mid ++ .readFrames (some (.PasswdCmd p)) true :: rest) ∧
        (∀ g ∈ pre, isInformational g = true) ∧ (∀ g ∈ mid, isInformational g = true) ∧
        findLink s0.Config addrs = some link ∧
        specAccepts mac challenge link.Password p ∧
        (checkPasswd mac
          { (start challenge now s0).s with RemoteAddrs := addrs, Link := some link } p).next
          = some .transferStart) ∧
    (∀ pre f rest, (∀ g ∈ pre, isInformational g = true) → isInformational f = false →
      isAddress f = false →
      (Run mac challenge now (received pre ++ .readFrames (some f) true :: rest) s0).next
          = none ∧
        (Run mac challenge now (received pre ++ .readFrames (some f) true :: rest) s0).err
          ≠ none) := by
  constructor
  · intro sels h
    rw [Run_eq] at h
    by_cases hc : s0.ctxDone = true
    · simp [hc] at h
    · rw [if_neg hc] at h
      have hc2 : s0.ctxDone = false := by simpa using hc
      rw [start_live challenge now s0 hc2]
      exact runWait_address_transfer mac sels _ h
  · intro pre f rest hp hf ha
    rw [Run_eq]
    by_cases hc : s0.ctxDone = true
    · simp [hc]
    · rw [if_neg hc]
      exact runWait_address_rejects mac f rest hf ha pre hp _

theorem Run_transfer_only_after_ADR_then_PWD_witness :
    (∃ pre addrs link mid p rest,
        [Select.readFrames (some (.NullCmd (str "SYS a"))) true,
          .readFrames (some (.AddressCmd [⟨21, 1, 100, 0, str "fsxnet"⟩])) true,
          .readFrames (some (.PasswdCmd (str "CRAM-MD5-ab"))) true] =
          received pre ++ .readFrames (some (.AddressCmd addrs)) true ::
            (received mid ++ .readFrames (some (.PasswdCmd p)) true :: rest) ∧
        (∀ g ∈ pre, isInformational g = true) ∧ (∀ g ∈ mid, isInformational g = true) ∧
        findLink (NewSession ⟨[], [], [], [], fun a =>
            if a = ⟨21, 1, 100, 0, str "fsxnet"⟩ then some ⟨a, str "pw"⟩ else none⟩).Config
          addrs = some link ∧
        specAccepts (fun _ _ _ => [171]) [1, 2] link.Password p ∧
        (checkPasswd (fun _ _ _ => [171])
          { (start [1, 2] (str "12:00:00") (NewSession ⟨[], [], [], [], fun a =>
              if a = ⟨21, 1, 100, 0, str "fsxnet"⟩ then some ⟨a, str "pw"⟩ else none⟩)).s with
            RemoteAddrs := addrs, Link := some link } p).next = some .transferStart) ∧
    ((Run (fun _ _ _ => [171]) [1, 2] (str "12:00:00")
        (received [.NullCmd (str "SYS a")] ++
          .readFrames (some (.PasswdCmd (str "CRAM-MD5-ab"))) true :: [])
        (NewSession ⟨[], [], [], [], fun a =>
          if a = ⟨21, 1, 100, 0, str "fsxnet"⟩ then some ⟨a, str "pw"⟩ else none⟩)).next
        = none ∧
      (Run (fun _ _ _ => [171]) [1, 2] (str "12:00:00")
        (received [.NullCmd (str "SYS a")] ++
          .readFrames (some (.PasswdCmd (str "CRAM-MD5-ab"))) true :: [])
        (NewSession ⟨[], [], [], [], fun a =>
          if a = ⟨21, 1, 100, 0, str "fsxnet"⟩ then some ⟨a, str "pw"⟩ else none⟩)).err
        ≠ none) :=
  ⟨(Run_transfer_only_after_ADR_then_PWD (fun _ _ _ => [171]) [1, 2] (str "12:00:00")
      (NewSession ⟨[], [], [], [], fun a =>
        if a = ⟨21, 1, 100, 0, str "fsxnet"⟩ then some ⟨a, str "pw"⟩ else none⟩)).1 _
      (by decide),
    (Run_transfer_only_after_ADR_then_PWD (fun _ _ _ => [171]) [1, 2] (str "12:00:00")
      (NewSession ⟨[], [], [], [], fun a =>
        if a = ⟨21, 1, 100, 0, str "fsxnet"⟩ then some ⟨a, str "pw"⟩ else none⟩)).2
      [.NullCmd (str "SYS a")] (.PasswdCmd (str "CRAM-MD5-ab")) []
      (by decide) rfl rfl⟩

end receiver

/-! ## The CRAM exchange between the listener and the dialer -/

theorem getLast_ne_zero (l : List Nat) (h : ∀ b ∈ l, b ≠ 0) : l.getLast? ≠ some 0 :=
  fun e => h 0 (List.mem_of_getLast?_eq_some e) rfl

/-- The text `CRAM-MD5-` followed by a hex string: its bytes are printable
and it splits on `-` into three fields. -/
theorem cram_text (src : List Nat) (h : ∀ b ∈ src, b < 256) :
    (∀ b ∈ str "CRAM-MD5-" ++ EncodeToString src, isAsciiSpace b = false ∧ b < 128 ∧ b ≠ 0) ∧
    Split (str "CRAM-MD5-" ++ EncodeToString src) 45 =
      [str "CRAM", str "MD5", EncodeToString src] ∧
    HasPrefix (str "CRAM-MD5-" ++ EncodeToString src) (str "CRAM-") = true ∧
    str "CRAM-MD5-" ++ EncodeToString src ≠ str "-" ∧
    tokenOk (str "CRAM-MD5-" ++ EncodeToString src) = true := by
  have hhex := EncodeToString_bytes src h
  have hb : ∀ b ∈ str "CRAM-MD5-" ++ EncodeToString src,
      isAsciiSpace b = false ∧ b < 128 ∧ b ≠ 0 := by
    intro b hb
    rcases List.mem_append.1 hb with hb | hb
    · have hd : ∀ x ∈ str "CRAM-MD5-", isAsciiSpace x = false ∧ x < 128 ∧ x ≠ 0 := by decide
      exact hd b hb
    · have := hhex b hb
      refine ⟨?_, by omega, by omega⟩
      simp [isAsciiSpace]; omega
  have h45 : 45 ∉ EncodeToString src := fun hm => by have := hhex 45 hm; omega
  have hsplit : Split (str "CRAM-MD5-" ++ EncodeToString src) 45 =
      [str "CRAM", str "MD5", EncodeToString src] := by
    have e : str "CRAM-MD5-" ++ EncodeToString src =
        str "CRAM" ++ 45 :: (str "MD5" ++ 45 :: EncodeToString src) := by
      simp [str]
    rw [e, Split_append _ _ _ (by decide), Split_append _ _ _ (by decide),
      Split_not_mem _ _ h45]
  have hpre : HasPrefix (str "CRAM-MD5-" ++ EncodeToString src) (str "CRAM-") = true :=
    (HasPrefix_iff _ _).2 ⟨str "MD5-" ++ EncodeToString src, by simp [str]⟩
  have hne : str "CRAM-MD5-" ++ EncodeToString src ≠ str "-" := by
    intro e
    have := congrArg List.length e
    simp [str] at this
  refine ⟨hb, hsplit, hpre, hne, ?_⟩
  rw [tokenOk_iff]
  refine ⟨by simp [str], ?_⟩
  have := containsSpace_plain_append (str "CRAM-MD5-" ++ EncodeToString src) []
    (fun b hb2 => ⟨(hb b hb2).1, (hb b hb2).2.1⟩)
  rw [List.append_nil] at this
  rw [this]
  rfl

namespace frame

/-- An OPT frame with one option that is a token without a NUL byte is read
back as it was written. -/
theorem Read_WriteBytes_opt_token (tok rest : List Nat) (htok : tokenOk tok = true)
    (hz : ∀ b ∈ tok, b ≠ 0) (hlen : tok.length ≤ 32000) :
    (WriteBytes (.OptCmd [tok]) []).1 = none ∧
    Read ((WriteBytes (.OptCmd [tok]) []).2 ++ rest) = (.ok (.OptCmd [tok]), rest) := by
  have hb := cmdBuffer_opt [tok]
  have hu : unwords [str "OPT", tok] = str "OPT" ++ 32 :: tok := rfl
  have hl : (unwords (str "OPT" :: [tok])).length + 1 ≤ 32767 := by
    rw [hu]; simp [str]; omega
  obtain ⟨e1, e2⟩ := Read_WriteBytes_cmd _ (by simp) _ _ rest hb hl
  refine ⟨e1, ?_⟩
  rw [e2, decodeFrame_cmd _ _ _ _ (by omega), if_pos rfl]
  have hlast : (unwords (str "OPT" :: [tok])).getLast? ≠ some 0 := by
    apply getLast_ne_zero
    intro b hb2
    rw [hu] at hb2
    rcases List.mem_append.1 hb2 with h | h
    · have hd : ∀ x ∈ str "OPT", x ≠ 0 := by decide
      exact hd b h
    · rcases List.mem_cons.1 h with rfl | h
      · decide
      · exact hz b h
  rw [decodeNullCmd_opt [tok] (by simp) (by simpa using htok) hlast]

/-- A PWD frame whose text is a token without a NUL byte is read back as it
was written. -/
theorem Read_WriteBytes_passwd_token (tok rest : List Nat) (htok : tokenOk tok = true)
    (hz : ∀ b ∈ tok, b ≠ 0) (hlen : tok.length ≤ 32000) :
    (WriteBytes (.PasswdCmd tok) []).1 = none ∧
    Read ((WriteBytes (.PasswdCmd tok) []).2 ++ rest) = (.ok (.PasswdCmd tok), rest) := by
  have hb : cmdBuffer (.PasswdCmd tok) = 0 :: 0 :: CmdPWD :: tok := rfl
  obtain ⟨e1, e2⟩ := Read_WriteBytes_cmd _ (by simp) _ _ rest hb (by omega)
  refine ⟨e1, ?_⟩
  have hd : dataToString tok = tok :=
    dataToString_unwords [tok] (by simpa using htok) (getLast_ne_zero _ hz)
  rw [e2, decodeFrame_cmd _ _ _ _ (by omega), if_neg (by decide), if_neg (by decide),
    if_pos rfl, hd]

end frame

namespace sender

open session

theorem saveChallenge_CRAM_MD5 (C : List Nat) (s : Session) (hC : ∀ b ∈ C, b < 256) :
    saveChallenge (str "CRAM-MD5-" ++ EncodeToString C) s =
      { s := { s with HashStr := str "MD5", Challenge := C }, next := some .senderWaitForAddress,
        err := none } := by
  obtain ⟨-, hsplit, -, -, -⟩ := cram_text C hC
  unfold saveChallenge
  simp only [hsplit]
  simp [auth.DecodeChallenge, DecodeString_EncodeToString C hC]

theorem sendResponse_MD5 (mac : auth.Hash → List Nat → List Nat → List Nat) (s : Session)
    (link : config.Link) (hctx : s.ctxDone = false) (hh : s.HashStr = str "MD5")
    (hlink : s.Link = some link) :
    sendResponse mac s =
      { s := { s with writeFrames := s.writeFrames ++
            [some (.PasswdCmd
              (str "CRAM-MD5-" ++ EncodeToString (mac .md5 link.Password s.Challenge))), none] },
        next := some .waitForOk, err := none } := by
  have hg : auth.GenerateResponse mac s.HashStr s.Challenge link.Password =
      some (EncodeToString (mac .md5 link.Password s.Challenge)) := by
    have hn : auth.hashNew (str "MD5") = some .md5 := by decide
    simp [auth.GenerateResponse, hh, hn]
  have e : str "CRAM-" ++ s.HashStr ++ str "-" ++
      EncodeToString (mac .md5 link.Password s.Challenge) =
      str "CRAM-MD5-" ++ EncodeToString (mac .md5 link.Password s.Challenge) := by
    rw [hh]; simp [str]
  unfold sendResponse
  simp only [hlink, hg]
  rw [e, WriteSyncFrame_live _ _ hctx]
  simp [frame.NewPassword, hlink]

/-- C18: for a 16-byte challenge C and a password P, with an HMAC-MD5 of 16
bytes and live contexts: the OPT frame `NewChallenge("MD5",
ChallengeToString(C))` of the listener is written without error and read back
unchanged; the dialer's `senderWaitForAddress` (through `findChallenge` and
`saveChallenge`) then sets `HashStr` to `MD5` and `Challenge` to C and waits
on; a dialer session with that hash name and challenge and a link of password
P writes in `sendResponse` the PWD frame `CRAM-MD5-` followed by the hex of
the HMAC and a flush; that frame is written without error and read back
unchanged; and the listener's `checkPasswd`, with challenge C and a link of
password P, accepts its text and goes on to `transfer.Start`. -/
theorem CRAM_MD5_exchange_accepted (mac : auth.Hash → List Nat → List Nat → List Nat)
    (C P rest : List Nat) (sd sd2 sl : Session) (linkD linkL : config.Link)
    (hC : C.length = 16) (hCb : ∀ b ∈ C, b < 256)
    (hmac : ∀ b ∈ mac .md5 P C, b < 256) (hlen : (mac .md5 P C).length = 16)
    (hd : sd.ctxDone = false)
    (hd2 : sd2.ctxDone = false)
    (hdh : sd2.HashStr =
      (senderWaitForAddress (.readFrames (some
        (frame.NewChallenge (str "MD5") (auth.ChallengeToString C))) true) sd).s.HashStr)
    (hdc : sd2.Challenge =
      (senderWaitForAddress (.readFrames (some
        (frame.NewChallenge (str "MD5") (auth.ChallengeToString C))) true) sd).s.Challenge)
    (hdl : sd2.Link = some linkD) (hdp : linkD.Password = P)
    (hl : sl.ctxDone = false) (hlc : sl.Challenge = C)
    (hll : sl.Link = some linkL) (hlp : linkL.Password = P) :
    (frame.WriteBytes (frame.NewChallenge (str "MD5") (auth.ChallengeToString C)) []).1 = none ∧
    frame.Read
        ((frame.WriteBytes (frame.NewChallenge (str "MD5") (auth.ChallengeToString C)) []).2
          ++ rest) =
      (.ok (frame.NewChallenge (str "MD5") (auth.ChallengeToString C)), rest) ∧
    senderWaitForAddress (.readFrames (some
        (frame.NewChallenge (str "MD5") (auth.ChallengeToString C))) true) sd =
      { s := { sd with HashStr := str "MD5", Challenge := C },
        next := some .senderWaitForAddress, err := none } ∧
    sendResponse mac sd2 =
      { s := { sd2 with writeFrames := sd2.writeFrames ++
            [some (frame.NewPassword (str "CRAM-MD5-" ++ EncodeToString (mac .md5 P C))),
              none] },
        next := some .waitForOk, err := none } ∧
    (frame.WriteBytes
      (frame.NewPassword (str "CRAM-MD5-" ++ EncodeToString (mac .md5 P C))) []).1 = none ∧
    frame.Read
        ((frame.WriteBytes
          (frame.NewPassword (str "CRAM-MD5-" ++ EncodeToString (mac .md5 P C))) []).2
          ++ rest) =
      (.ok (.PasswdCmd (str "CRAM-MD5-" ++ EncodeToString (mac .md5 P C))), rest) ∧
    (receiver.checkPasswd mac sl (str "CRAM-MD5-" ++ EncodeToString (mac .md5 P C))).next
      = some .transferStart ∧
    (receiver.checkPasswd mac sl (str "CRAM-MD5-" ++ EncodeToString (mac .md5 P C))).err
      = none := by
  have hopt : frame.NewChallenge (str "MD5") (auth.ChallengeToString C) =
      .OptCmd [str "CRAM-MD5-" ++ EncodeToString C] := by
    simp [frame.NewChallenge, auth.ChallengeToString, str]
  obtain ⟨hb1, hs1, hp1, -, ht1⟩ := cram_text C hCb
  obtain ⟨hb2, hs2, hp2, hn2, ht2⟩ := cram_text (mac .md5 P C) hmac
  have hl1 : (str "CRAM-MD5-" ++ EncodeToString C).length ≤ 32000 := by
    rw [List.length_append, EncodeToString_length, hC]; simp [str]
  have hl2 : (str "CRAM-MD5-" ++ EncodeToString (mac .md5 P C)).length ≤ 32000 := by
    rw [List.length_append, EncodeToString_length, hlen]; simp [str]
  have hwait : senderWaitForAddress (.readFrames (some
        (frame.NewChallenge (str "MD5") (auth.ChallengeToString C))) true) sd =
      { s := { sd with HashStr := str "MD5", Challenge := C },
        next := some .senderWaitForAddress, err := none } := by
    have e1 : senderWaitForAddress (.readFrames (some
          (.OptCmd [str "CRAM-MD5-" ++ EncodeToString C])) true) sd =
        findChallenge sd [str "CRAM-MD5-" ++ EncodeToString C] := by
      simp [senderWaitForAddress, hd]
    have e2 : findChallenge sd [str "CRAM-MD5-" ++ EncodeToString C] =
        saveChallenge (str "CRAM-MD5-" ++ EncodeToString C) sd := by
      simp [findChallenge, hp1]
    rw [hopt, e1, e2]
    exact saveChallenge_CRAM_MD5 C sd hCb
  rw [hwait] at hdh hdc
  simp only at hdh hdc
  obtain ⟨w1, r1⟩ := frame.Read_WriteBytes_opt_token _ rest ht1 (fun b hb => (hb1 b hb).2.2) hl1
  obtain ⟨w2, r2⟩ :=
    frame.Read_WriteBytes_passwd_token _ rest ht2 (fun b hb => (hb2 b hb).2.2) hl2
  have hsend := sendResponse_MD5 mac sd2 linkD hd2 hdh hdl
  have hm : mac .md5 linkD.Password sd2.Challenge = mac .md5 P C := by rw [hdp, hdc]
  rw [hm] at hsend
  have hv : auth.ValidateResponse mac (str "MD5") sl.Challenge
      (EncodeToString (mac .md5 P C)) linkL.Password = true := by
    have hn : auth.hashNew (str "MD5") = some .md5 := by decide
    simp [auth.ValidateResponse, hn, hlc, hlp, DecodeString_EncodeToString _ hmac]
  have hchk := receiver.checkPasswd_fields mac sl linkL _ _ _ _ hl hll hn2 hp2 hs2
  rw [if_pos hv] at hchk
  rw [hopt]
  refine ⟨w1, r1, ?_, hsend, w2, r2, ?_, ?_⟩
  · rw [← hopt]; exact hwait
  · rw [hchk]
  · rw [hchk]

theorem CRAM_MD5_exchange_accepted_witness :
    senderWaitForAddress (.readFrames (some
        (frame.NewChallenge (str "MD5")
          (auth.ChallengeToString [0, 1, 2, 3, 4, 5, 6, 7, 8, 9, 10, 11, 12, 13, 14, 255])))
        true) (NewSession ⟨[], [], [], [], fun _ => none⟩) =
      { s := { NewSession ⟨[], [], [], [], fun _ => none⟩ with
          HashStr := str "MD5",
          Challenge := [0, 1, 2, 3, 4, 5, 6, 7, 8, 9, 10, 11, 12, 13, 14, 255] },
        next := some .senderWaitForAddress, err := none } :=
  (CRAM_MD5_exchange_accepted (fun _ _ _ => List.replicate 16 171)
    [0, 1, 2, 3, 4, 5, 6, 7, 8, 9, 10, 11, 12, 13, 14, 255] (str "pw") [0, 1, 65]
    (NewSession ⟨[], [], [], [], fun _ => none⟩)
    { NewSession ⟨[], [], [], [], fun _ => none⟩ with
      Challenge := [0, 1, 2, 3, 4, 5, 6, 7, 8, 9, 10, 11, 12, 13, 14, 255],
      Link := some ⟨⟨21, 1, 100, 0, str "fsxnet"⟩, str "pw"⟩ }
    { NewSession ⟨[], [], [], [], fun _ => none⟩ with
      Challenge := [0, 1, 2, 3, 4, 5, 6, 7, 8, 9, 10, 11, 12, 13, 14, 255],
      Link := some ⟨⟨21, 1, 200, 0, str "fsxnet"⟩, str "pw"⟩ }
    ⟨⟨21, 1, 100, 0, str "fsxnet"⟩, str "pw"⟩ ⟨⟨21, 1, 200, 0, str "fsxnet"⟩, str "pw"⟩
    rfl (by decide) (by decide) rfl rfl rfl (by decide) (by decide) rfl rfl rfl rfl rfl rfl).2.2.1

end sender

namespace frame

/-! ## NUL and OPT frames, and the stripped text of a command -/

theorem Fields_OPT (rest : List Nat) :
    Fields (str "OPT " ++ rest) = str "OPT" :: Fields rest := by
  have e : str "OPT " ++ rest = 79 :: 80 :: 84 :: 32 :: rest := rfl
  rw [e]
  unfold Fields
  rw [fieldsGo, if_pos (spaceLen_plain 79 _ (by decide) (by decide))]
  rw [List.nil_append, fieldsGo, if_pos (spaceLen_plain 80 _ (by decide) (by decide))]
  rw [fieldsGo, if_pos (spaceLen_plain 84 _ (by decide) (by decide))]
  have h32 : spaceLen (32 :: rest) = 1 := by simp [spaceLen, isAsciiSpace]
  rw [fieldsGo, if_neg (by rw [h32]; decide), h32]
  rfl

/-- What `decodeNullCmd` returns: never an error. -/
theorem decodeNullCmd_eq (data : List Nat) :
    decodeNullCmd data =
      .ok (if HasPrefix (dataToString data) (str "OPT ") = true then
        .OptCmd ((Fields (dataToString data)).drop 1)
      else .NullCmd (dataToString data)) := by
  unfold decodeNullCmd
  simp only
  by_cases h : HasPrefix (dataToString data) (str "OPT ") = true
  · rw [if_pos h, if_pos h]
    obtain ⟨rest, e⟩ := (HasPrefix_iff _ _).1 h
    rw [e, Fields_OPT]
    rfl
  · rw [if_neg h, if_neg h]

/-- C29: for every command frame with opcode 0 whose payload is in the reader,
`Read` returns no error: when the stripped text begins with `OPT ` it returns
the `OptCmd` whose options are the white-space separated fields of the text
after the first one, in order; otherwise the `NullCmd` holding the stripped
text. -/
theorem Read_null_cmd (h0 h1 : Nat) (data rest : List Nat)
    (hcmd : 128 ≤ h0) (hL : headerLength (h0, h1) = data.length + 1) :
    Read (h0 :: h1 :: CmdNUL :: (data ++ rest)) =
      (.ok (if HasPrefix (dataToString data) (str "OPT ") = true then
          .OptCmd ((Fields (dataToString data)).drop 1)
        else .NullCmd (dataToString data)), rest) := by
  rw [Read_full _ _ _ (by omega) (by rw [hL]; simp), hL, List.take_succ_cons,
    decodeFrame_cmd _ _ _ _ hcmd, if_pos rfl]
  simp [decodeNullCmd_eq]

theorem Read_null_cmd_witness :
    Read (0x80 :: 16 :: CmdNUL :: (str " OPT CRAM  x \x00\x00" ++ [7, 7])) =
      (.ok (if HasPrefix (dataToString (str " OPT CRAM  x \x00\x00")) (str "OPT ") = true then
          .OptCmd ((Fields (dataToString (str " OPT CRAM  x \x00\x00"))).drop 1)
        else .NullCmd (dataToString (str " OPT CRAM  x \x00\x00"))), [7, 7]) :=
  Read_null_cmd 0x80 16 (str " OPT CRAM  x \x00\x00") [7, 7] (by decide) (by decide)

end frame

/-! ## The stripped text: what `dataToString` guarantees -/

theorem spaceLen_prefix (p q : List Nat) (h : spaceLen (p ++ q) = 0) : spaceLen p = 0 := by
  rcases p with _ | ⟨a, _ | ⟨b, _ | ⟨c, p⟩⟩⟩
  · rfl
  · by_cases ha : isAsciiSpace a = true
    · simp [spaceLen, ha] at h
    · simp [spaceLen, ha]
  · by_cases ha : isAsciiSpace a = true
    · simp [spaceLen, ha] at h
    · by_cases hb : isSpace2 a b = true
      · simp [spaceLen, ha, hb] at h
      · simp [spaceLen, ha, hb]
  · simpa [spaceLen] using h

theorem spaceLenRev_prefix (p q : List Nat) (h : spaceLenRev (p ++ q) = 0) :
    spaceLenRev p = 0 := by
  rcases p with _ | ⟨a, _ | ⟨b, _ | ⟨c, p⟩⟩⟩
  · rfl
  · by_cases ha : isAsciiSpace a = true
    · simp [spaceLenRev, ha] at h
    · simp [spaceLenRev, ha]
  · by_cases ha : isAsciiSpace a = true
    · simp [spaceLenRev, ha] at h
    · by_cases hb : isSpace2 b a = true
      · simp [spaceLenRev, ha, hb] at h
      · simp [spaceLenRev, ha, hb]
  · simpa [spaceLenRev] using h

theorem spaceLen_le_length (s : List Nat) : spaceLen s ≤ s.length := by
  rcases s with _ | ⟨a, _ | ⟨b, _ | ⟨c, p⟩⟩⟩ <;> simp [spaceLen] <;> split_ifs <;> simp

theorem trimLeftSpace_eq_drop (fuel : Nat) : ∀ s : List Nat,
    ∃ k, trimLeftSpace fuel s = s.drop k := by
  induction fuel with
  | zero => intro s; exact ⟨0, rfl⟩
  | succ f ih =>
    intro s
    by_cases h : spaceLen s = 0
    · exact ⟨0, by simp [trimLeftSpace, h]⟩
    · obtain ⟨k, hk⟩ := ih (s.drop (spaceLen s))
      exact ⟨spaceLen s + k, by simp [trimLeftSpace, h, hk, Nat.add_comm]⟩

theorem trimRevSpace_eq_drop (fuel : Nat) : ∀ r : List Nat,
    ∃ k, trimRevSpace fuel r = r.drop k := by
  induction fuel with
  | zero => intro s; exact ⟨0, rfl⟩
  | succ f ih =>
    intro s
    by_cases h : spaceLenRev s = 0
    · exact ⟨0, by simp [trimRevSpace, h]⟩
    · obtain ⟨k, hk⟩ := ih (s.drop (spaceLenRev s))
      exact ⟨spaceLenRev s + k, by simp [trimRevSpace, h, hk, Nat.add_comm]⟩

theorem trimLeftSpace_spaceLen (fuel : Nat) : ∀ s : List Nat, s.length ≤ fuel →
    spaceLen (trimLeftSpace fuel s) = 0 := by
  induction fuel with
  | zero =>
    intro s h
    have : s = [] := List.length_eq_zero.1 (by omega)
    subst this
    rfl
  | succ f ih =>
    intro s h
    by_cases h0 : spaceLen s = 0
    · simp [trimLeftSpace, h0]
    · simp only [trimLeftSpace, h0, if_false]
      apply ih
      rw [List.length_drop]
      omega

theorem trimRevSpace_spaceLenRev (fuel : Nat) : ∀ r : List Nat, r.length ≤ fuel →
    spaceLenRev (trimRevSpace fuel r) = 0 := by
  induction fuel with
  | zero =>
    intro s h
    have : s = [] := List.length_eq_zero.1 (by omega)
    subst this
    rfl
  | succ f ih =>
    intro s h
    by_cases h0 : spaceLenRev s = 0
    · simp [trimRevSpace, h0]
    · simp only [trimRevSpace, h0, if_false]
      apply ih
      rw [List.length_drop]
      omega

/-- The reverse of what is left of `r` after some elements are dropped is a
prefix of the reverse of `r`. -/
theorem reverse_drop_prefix (r : List Nat) (k : Nat) :
    r.reverse = (r.drop k).reverse ++ (r.take k).reverse := by
  rw [← List.reverse_append, List.take_append_drop]

/-- `strings.TrimSpace` leaves no white space at either end. -/
theorem TrimSpace_trimmed (s : List Nat) :
    spaceLen (TrimSpace s) = 0 ∧ spaceLenRev (TrimSpace s).reverse = 0 := by
  unfold TrimSpace
  simp only [List.reverse_reverse]
  refine ⟨?_, trimRevSpace_spaceLenRev _ _ (by simp)⟩
  have hl := trimLeftSpace_spaceLen s.length s (le_refl _)
  obtain ⟨k, hk⟩ := trimRevSpace_eq_drop (trimLeftSpace s.length s).length
    (trimLeftSpace s.length s).reverse
  rw [hk]
  have := reverse_drop_prefix (trimLeftSpace s.length s).reverse k
  rw [List.reverse_reverse] at this
  rw [this] at hl
  exact spaceLen_prefix _ _ hl

/-- A string without white space at either end is left as it is. -/
theorem TrimSpace_of_trimmed (s : List Nat) (h1 : spaceLen s = 0)
    (h2 : spaceLenRev s.reverse = 0) : TrimSpace s = s := by
  unfold TrimSpace
  simp only
  rw [trimLeftSpace_id _ _ h1, trimRevSpace_id _ _ h2, List.reverse_reverse]

theorem TrimSpace_length_le (s : List Nat) : (TrimSpace s).length ≤ s.length := by
  unfold TrimSpace
  simp only [List.length_reverse]
  obtain ⟨k, hk⟩ := trimRevSpace_eq_drop (trimLeftSpace s.length s).length
    (trimLeftSpace s.length s).reverse
  obtain ⟨j, hj⟩ := trimLeftSpace_eq_drop s.length s
  rw [hk, List.length_drop, List.length_reverse, hj, List.length_drop]
  omega

theorem TrimRightNul_getLast (s : List Nat) : (TrimRightNul s).getLast? ≠ some 0 := by
  unfold TrimRightNul
  rw [List.getLast?_reverse]
  intro h
  have := List.head?_dropWhile_not (fun b => b == 0) s.reverse
  rw [h] at this
  simp at this

theorem TrimRightNul_length_lt (s : List Nat) (h : s.getLast? = some 0) :
    (TrimRightNul s).length < s.length := by
  unfold TrimRightNul
  rw [List.length_reverse]
  have hr : s.reverse.head? = some 0 := by rw [List.head?_reverse]; exact h
  rcases hs : s.reverse with _ | ⟨c, r⟩
  · rw [hs] at hr; simp at hr
  · rw [hs] at hr
    have hc : c = 0 := by simpa using hr
    subst hc
    have hlen : s.length = r.length + 1 := by
      have := congrArg List.length hs
      simpa using this
    rw [List.dropWhile_cons_of_pos (by simp), hlen]
    exact Nat.lt_succ_of_le (List.dropWhile_sublist _).length_le

namespace frame

/-- C30 (amended): for every command payload the text produced by
`dataToString` has no white space at its start and none at its end; applying
`dataToString` to it changes nothing exactly when it does not end in a NUL
byte; and it does not end in a NUL byte when the payload, its NUL bytes at
the end removed, does not end in white space. -/
theorem dataToString_trimmed (data : List Nat) :
    spaceLen (dataToString data) = 0 ∧
    spaceLenRev (dataToString data).reverse = 0 ∧
    (dataToString (dataToString data) = dataToString data ↔
      (dataToString data).getLast? ≠ some 0) ∧
    (spaceLenRev (TrimRightNul data).reverse = 0 →
      (dataToString data).getLast? ≠ some 0) := by
  obtain ⟨h1, h2⟩ := TrimSpace_trimmed (TrimRightNul data)
  refine ⟨h1, h2, ⟨?_, ?_⟩, ?_⟩
  · intro hid hlast
    have hlt := TrimRightNul_length_lt _ hlast
    have hle := TrimSpace_length_le (TrimRightNul (dataToString data))
    have := congrArg List.length hid
    unfold dataToString at this hlt hle
    omega
  · intro hlast
    show TrimSpace (TrimRightNul (dataToString data)) = dataToString data
    rw [TrimRightNul_id _ hlast]
    exact TrimSpace_of_trimmed _ h1 h2
  · intro hsp
    unfold dataToString TrimSpace
    simp only
    obtain ⟨k, hk⟩ := trimLeftSpace_eq_drop (TrimRightNul data).length (TrimRightNul data)
    have hrev : spaceLenRev (trimLeftSpace (TrimRightNul data).length (TrimRightNul data)).reverse
        = 0 := by
      rw [hk]
      have e : (TrimRightNul data).reverse =
          (List.drop k (TrimRightNul data)).reverse ++ (List.take k (TrimRightNul data)).reverse :=
        reverse_drop_prefix _ k
      rw [e] at hsp
      exact spaceLenRev_prefix _ _ hsp
    rw [trimRevSpace_id _ _ hrev, List.reverse_reverse, hk]
    intro hlast
    have hm : (TrimRightNul data).getLast? = some 0 := by
      rw [List.getLast?_drop] at hlast
      split at hlast
      · simp at hlast
      · exact hlast
    exact TrimRightNul_getLast data hm

/-- C30 (as stated, refuted): the payload `a`, NUL, space is stripped to `a`,
NUL, which ends in a NUL byte, and stripping that again gives `a`. -/
theorem dataToString_not_idempotent :
    dataToString [97, 0, 32] = [97, 0] ∧
    dataToString (dataToString [97, 0, 32]) = [97] ∧
    dataToString (dataToString [97, 0, 32]) ≠ dataToString [97, 0, 32] := by
  decide

/-- C27 (evaluation of the code): the FILE frame with CRC 0x10 and no options
is written with the CRC in decimal, `foo.txt 1234 100 2 16`, and read back
with CRC 0x16; with CRC 0xdeadf00d the decimal text 3735941133 is no 32-bit
hexadecimal number and is read back as an option flag with CRC 0. -/
theorem FileCmd_CRC_written_in_decimal :
    (WriteBytes (.FileCmd (str "foo.txt") 1234 100 2 0x10 []) []).2 =
      [0x80, 22, CmdFILE] ++ str "foo.txt 1234 100 2 16" ∧
    Read (WriteBytes (.FileCmd (str "foo.txt") 1234 100 2 0x10 []) []).2 =
      (.ok (.FileCmd (str "foo.txt") 1234 100 2 0x16 []), []) ∧
    Read (WriteBytes (.FileCmd (str "foo.txt") 1234 100 2 0xdeadf00d []) []).2 =
      (.ok (.FileCmd (str "foo.txt") 1234 100 2 0 [str "3735941133"]), []) := by
  decide

/-- C28 (evaluation of the code): the FILE frame with CRC 0 and the option
flag BZ2 is written without a space in front of the flag,
`foo.txt 1234 100 2BZ2`, and `Read` of these bytes fails on the offset;
the payload of the test `TestReadFileCmdExtraOpt`, with the space, is read
as the frame that was written. -/
theorem FileCmd_first_flag_glued_to_offset :
    (WriteBytes (.FileCmd (str "foo.txt") 1234 100 2 0 [str "BZ2"]) []).2 =
      [0x80, 22, CmdFILE] ++ str "foo.txt 1234 100 2BZ2" ∧
    Read (WriteBytes (.FileCmd (str "foo.txt") 1234 100 2 0 [str "BZ2"]) []).2 =
      (.error (.fileDecode .offset), []) ∧
    Read ([0x80, 23, CmdFILE] ++ str "foo.txt 1234 100 2 BZ2") =
      (.ok (.FileCmd (str "foo.txt") 1234 100 2 0 [str "BZ2"]), []) := by
  decide

end frame

namespace spool

/-! ## The spool: what the file operations do to each file -/

theorem set_apply (fs : Files) (dir name : List Nat) (f : Option File) (d n : List Nat) :
    fs.set dir name f d n = if d = dir ∧ n = name then f else fs d n := rfl

theorem osRemove_apply (fs : Files) (dir name d n : List Nat) :
    (osRemove fs dir name).1 d n = if d = dir ∧ n = name then none else fs d n := by
  unfold osRemove
  cases h : fs dir name with
  | none =>
    by_cases hd : d = dir ∧ n = name
    · rw [if_pos hd, hd.1, hd.2]; exact h
    · rw [if_neg hd]
  | some f => rfl

theorem osRemove_err (fs : Files) (dir name : List Nat) :
    (osRemove fs dir name).2 = if (fs dir name).isSome then none else some .notExist := by
  unfold osRemove
  cases h : fs dir name <;> rfl

theorem osLink_apply (fs : Files) (sd sn td tn d n : List Nat) :
    (osLink fs sd sn td tn).1 d n =
      if d = td ∧ n = tn ∧ fs td tn = none then fs sd sn else fs d n := by
  unfold osLink
  cases h : fs sd sn with
  | none =>
    by_cases hd : d = td ∧ n = tn ∧ fs td tn = none
    · rw [if_pos hd, hd.1, hd.2.1]; exact hd.2.2
    · rw [if_neg hd]
  | some f =>
    cases h2 : fs td tn with
    | none => simp [set_apply]
    | some g => simp

theorem osRename_apply (fs : Files) (sd sn td tn d n : List Nat) :
    (osRename fs sd sn td tn).1 d n =
      if fs sd sn = none then fs d n
      else if d = td ∧ n = tn then fs sd sn
      else if d = sd ∧ n = sn then none
      else fs d n := by
  unfold osRename
  cases h : fs sd sn with
  | none => simp
  | some f => simp [set_apply]

theorem osRename_err (fs : Files) (sd sn td tn : List Nat) :
    (osRename fs sd sn td tn).2 = if (fs sd sn).isSome then none else some .notExist := by
  unfold osRename
  cases h : fs sd sn <;> rfl

theorem openMutex_apply (fs : Files) (dir d n : List Nat) :
    openMutex fs dir d n =
      if d = dir ∧ n = str "Mutex" ∧ fs dir (str "Mutex") = none then some (.data [])
      else fs d n := by
  unfold openMutex
  cases h : fs dir (str "Mutex") with
  | none => simp [set_apply]
  | some f => simp

/-- What `ReadQueue` makes of the file it finds. -/
theorem ReadQueue_snd (fs : Files) (dir name : List Nat) :
    (ReadQueue fs dir name).2 =
      match fs dir name with
      | none => .ok []
      | some (.data []) => .ok []
      | some (.data (_ :: _)) => .error .unmarshal
      | some (.queue q) => .ok q := by
  unfold ReadQueue
  rcases h : fs dir name with _ | (_ | ⟨_, _⟩) | q <;> rfl

theorem ReadQueue_apply (fs : Files) (dir name d n : List Nat) :
    (ReadQueue fs dir name).1 d n =
      if d = dir ∧ n = name ∧ fs dir name = none then some (.data []) else fs d n := by
  unfold ReadQueue
  rcases h : fs dir name with _ | (_ | ⟨_, _⟩) | q <;> simp [set_apply]

/-- `SaveQueue` with a new name for its temporary file succeeds. -/
theorem SaveQueue_fresh (fs : Files) (uniq dir name : List Nat) (queue : List SpoolKey)
    (hfresh : fs (str "tmp") (uniq ++ str ".Queue") = none) :
    (SaveQueue fs uniq dir name queue).2 = none ∧
    ∀ d n, (SaveQueue fs uniq dir name queue).1 d n =
      if d = dir ∧ n = name then some (.queue queue)
      else if d = str "tmp" ∧ n = uniq ++ str ".Queue" then none
      else fs d n := by
  constructor
  · simp [SaveQueue, createExcl, osRename, hfresh, set_apply]
  · intro d n
    simp only [SaveQueue, createExcl, osRename, hfresh, set_apply, and_self, if_true]
    by_cases h1 : d = dir ∧ n = name
    · simp [h1]
    · by_cases h2 : d = str "tmp" ∧ n = uniq ++ str ".Queue"
      · simp [h1, h2]
      · simp [h1, h2]

end spool

namespace spool

/-! ## The spool: publishing, and publishing again after a crash -/

/-- The result of `ReadQueue` depends on the file read only. -/
theorem ReadQueue_snd_congr (fs fs2 : Files) (dir name : List Nat)
    (h : fs2 dir name = fs dir name) : (ReadQueue fs2 dir name).2 = (ReadQueue fs dir name).2 := by
  rw [ReadQueue_snd, ReadQueue_snd, h]

/-- `Publish` of a key whose payload is in `tmp`, with a readable queue and a
new name for the temporary queue file: it succeeds, and what every file is
afterwards. -/
theorem Publish_ok (fs : Files) (uniq : List Nat) (k : SpoolKey) (f : File)
    (q : List SpoolKey)
    (htmp : fs (str "tmp") k.Name = some f)
    (hq : (ReadQueue fs (str "new") (str "Queue")).2 = .ok q)
    (hfresh : fs (str "tmp") (uniq ++ str ".Queue") = none)
    (hk1 : k.Name ≠ str "Queue") (hk2 : k.Name ≠ str "Mutex")
    (hk3 : k.Name ≠ uniq ++ str ".Queue") :
    (Publish fs uniq k).2 = none ∧
    ∀ d n, (Publish fs uniq k).1 d n =
      if d = str "new" ∧ n = str "Queue" then some (.queue (q ++ [k]))
      else if d = str "tmp" ∧ n = uniq ++ str ".Queue" then none
      else if d = str "tmp" ∧ n = k.Name then none
      else if d = str "new" ∧ n = k.Name then some f
      else if d = str "new" ∧ n = str "Mutex" ∧ fs (str "new") (str "Mutex") = none then
        some (.data [])
      else fs d n := by
  have htn : str "tmp" ≠ str "new" := by decide
  have hmq : str "Mutex" ≠ str "Queue" := by decide
  -- the files before the queue is read
  have h3 : ∀ d n, openMutex (osLink (osRemove fs (str "new") k.Name).1 (str "tmp") k.Name
      (str "new") k.Name).1 (str "new") d n =
      if d = str "new" ∧ n = k.Name then some f
      else if d = str "new" ∧ n = str "Mutex" ∧ fs (str "new") (str "Mutex") = none then
        some (.data [])
      else fs d n := by
    intro d n
    simp only [openMutex_apply, osLink_apply, osRemove_apply]
    split_ifs <;> simp_all
  generalize hfs3 : openMutex (osLink (osRemove fs (str "new") k.Name).1 (str "tmp") k.Name
      (str "new") k.Name).1 (str "new") = fs3 at h3
  have hread : (ReadQueue fs3 (str "new") (str "Queue")).2 = .ok q := by
    rw [ReadQueue_snd_congr fs fs3 _ _ (by rw [h3]; simp [Ne.symm hk1, Ne.symm hmq]), hq]
  have h4 : ∀ d n, (ReadQueue fs3 (str "new") (str "Queue")).1 d n =
      if d = str "new" ∧ n = str "Queue" ∧ fs (str "new") (str "Queue") = none then
        some (.data [])
      else fs3 d n := by
    intro d n
    rw [ReadQueue_apply, h3 (str "new") (str "Queue")]
    simp [Ne.symm hk1, Ne.symm hmq]
  have hfresh4 : (ReadQueue fs3 (str "new") (str "Queue")).1 (str "tmp") (uniq ++ str ".Queue")
      = none := by
    rw [h4, h3]; simp [htn, hfresh]
  obtain ⟨s1, s2⟩ := SaveQueue_fresh _ uniq (str "new") (str "Queue") (q ++ [k]) hfresh4
  have h5tmp : (SaveQueue (ReadQueue fs3 (str "new") (str "Queue")).1 uniq (str "new")
      (str "Queue") (q ++ [k])).1 (str "tmp") k.Name = some f := by
    rw [s2, h4, h3]; simp [htn, hk3, htmp]
  unfold Publish
  simp only [hfs3]
  rcases hr : ReadQueue fs3 (str "new") (str "Queue") with ⟨fs4, r4⟩
  rw [hr] at hread h4 s1 s2 h5tmp
  simp only at hread h4 s1 s2 h5tmp
  subst hread
  simp only
  rcases hs : SaveQueue fs4 uniq (str "new") (str "Queue") (q ++ [k]) with ⟨fs5, e5⟩
  rw [hs] at s1 s2 h5tmp
  simp only at s1 s2 h5tmp
  subst s1
  simp only
  have he : (osRemove fs5 (str "tmp") k.Name).2 = none := by
    rw [osRemove_err, h5tmp]; rfl
  rcases ho : osRemove fs5 (str "tmp") k.Name with ⟨fs6, e6⟩
  rw [ho] at he
  simp only at he
  subst he
  simp only
  refine ⟨trivial, ?_⟩
  intro d n
  have : fs6 = (osRemove fs5 (str "tmp") k.Name).1 := by rw [ho]
  rw [this, osRemove_apply, s2, h4, h3]
  clear this ho hs hr s2 h4 h3 h5tmp hfresh4 hfs3
  split_ifs <;> simp_all

/-- The files once `Publish` has removed the old link, linked the payload
into `new` and opened the mutex. -/
theorem publish_linked_apply (fs : Files) (k : SpoolKey) (f : File)
    (htmp : fs (str "tmp") k.Name = some f) (hk2 : k.Name ≠ str "Mutex") (d n : List Nat) :
    openMutex (osLink (osRemove fs (str "new") k.Name).1 (str "tmp") k.Name
      (str "new") k.Name).1 (str "new") d n =
      if d = str "new" ∧ n = k.Name then some f
      else if d = str "new" ∧ n = str "Mutex" ∧ fs (str "new") (str "Mutex") = none then
        some (.data [])
      else fs d n := by
  have htn : str "tmp" ≠ str "new" := by decide
  simp only [openMutex_apply, osLink_apply, osRemove_apply]
  split_ifs <;> simp_all

theorem listed_of_ReadQueue (fs : Files) (dir name : List Nat) (q : List SpoolKey)
    (h : (ReadQueue fs dir name).2 = .ok q) : listed fs dir name = q := by
  rw [ReadQueue_snd] at h
  unfold listed
  rcases hf : fs dir name with _ | (_ | ⟨_, _⟩) | q2 <;> rw [hf] at h <;> simp_all

theorem publishCrash_0 (fs : Files) (u : List Nat) (k : SpoolKey) : publishCrash 0 fs u k = fs := rfl
theorem publishCrash_1 (fs : Files) (u : List Nat) (k : SpoolKey) :
    publishCrash 1 fs u k = (osRemove fs (str "new") k.Name).1 := rfl
theorem publishCrash_2 (fs : Files) (u : List Nat) (k : SpoolKey) :
    publishCrash 2 fs u k = (osLink (osRemove fs (str "new") k.Name).1 (str "tmp") k.Name (str "new") k.Name).1 := rfl
theorem publishCrash_3 (fs : Files) (u : List Nat) (k : SpoolKey) :
    publishCrash 3 fs u k = openMutex (osLink (osRemove fs (str "new") k.Name).1 (str "tmp") k.Name (str "new") k.Name).1 (str "new") := rfl
theorem publishCrash_late (m : Nat) (fs : Files) (uniq : List Nat) (spoolKey : SpoolKey) :
    publishCrash (m + 4) fs uniq spoolKey =
    match ReadQueue (openMutex (osLink (osRemove fs (str "new") spoolKey.Name).1 (str "tmp") spoolKey.Name (str "new") spoolKey.Name).1 (str "new")) (str "new") (str "Queue") with
    | (fs4, .error _) => fs4
    | (fs4, .ok queue) =>
      if m = 0 then fs4 else
      match createExcl fs4 (str "tmp") (uniq ++ str ".Queue") (.queue (queue ++ [spoolKey])) with
      | (fs5, some _) => fs5
      | (fs5, none) =>
        if m = 1 then fs5 else
        match osRename fs5 (str "tmp") (uniq ++ str ".Queue") (str "new") (str "Queue") with
        | (fs6, some _) => (osRemove fs6 (str "tmp") (uniq ++ str ".Queue")).1
        | (fs6, none) => if m = 2 then fs6 else (osRemove fs6 (str "tmp") spoolKey.Name).1 := rfl

/-- What every file is after a crash of `Publish` that came before the removal
of the payload from `tmp`. -/
theorem publishCrash_apply (fs : Files) (uniq : List Nat) (k : SpoolKey) (f : File)
    (q : List SpoolKey) (n : Nat) (hn : n ≤ 6)
    (htmp : fs (str "tmp") k.Name = some f)
    (hq : (ReadQueue fs (str "new") (str "Queue")).2 = .ok q)
    (hfresh : fs (str "tmp") (uniq ++ str ".Queue") = none)
    (hk1 : k.Name ≠ str "Queue") (hk2 : k.Name ≠ str "Mutex") (d nm : List Nat) :
    publishCrash n fs uniq k d nm =
      if d = str "new" then
        if nm = str "Queue" then
          if 6 ≤ n then some (.queue (q ++ [k]))
          else if 4 ≤ n ∧ fs (str "new") (str "Queue") = none then some (.data [])
          else fs (str "new") (str "Queue")
        else if nm = str "Mutex" then
          if 3 ≤ n ∧ fs (str "new") (str "Mutex") = none then some (.data [])
          else fs (str "new") (str "Mutex")
        else if nm = k.Name then
          if 2 ≤ n then some f else if 1 ≤ n then none else fs (str "new") k.Name
        else fs (str "new") nm
      else if d = str "tmp" ∧ nm = uniq ++ str ".Queue" then
        if n = 5 then some (.queue (q ++ [k])) else none
      else fs d nm := by
  have htn : str "tmp" ≠ str "new" := by decide
  have hmq : str "Mutex" ≠ str "Queue" := by decide
  have h3 := publish_linked_apply fs k f htmp hk2
  generalize hfs3 : openMutex (osLink (osRemove fs (str "new") k.Name).1 (str "tmp") k.Name
    (str "new") k.Name).1 (str "new") = fs3 at h3
  have hread : (ReadQueue fs3 (str "new") (str "Queue")).2 = .ok q := by
    rw [ReadQueue_snd_congr fs fs3 _ _ (by rw [h3]; simp [Ne.symm hk1, Ne.symm hmq]), hq]
  have h4 : ∀ d n, (ReadQueue fs3 (str "new") (str "Queue")).1 d n =
      if d = str "new" ∧ n = str "Queue" ∧ fs (str "new") (str "Queue") = none then
        some (.data [])
      else fs3 d n := by
    intro d n
    rw [ReadQueue_apply, h3 (str "new") (str "Queue")]
    simp [Ne.symm hk1, Ne.symm hmq]
  have hf4 : (ReadQueue fs3 (str "new") (str "Queue")).1 (str "tmp") (uniq ++ str ".Queue")
      = none := by
    rw [h4, h3]; simp [htn, hfresh]
  have e4 := publishCrash_late 0 fs uniq k
  have e5 := publishCrash_late 1 fs uniq k
  have e6 := publishCrash_late 2 fs uniq k
  rw [hfs3] at e4 e5 e6
  rcases hr : ReadQueue fs3 (str "new") (str "Queue") with ⟨fs4, r4⟩
  rw [hr] at hread h4 hf4 e4 e5 e6
  simp only at hread h4 hf4
  subst hread
  simp only [createExcl, hf4, osRename, set_apply, if_true, and_self] at e4 e5 e6
  norm_num at e4 e5 e6
  have c0 : publishCrash 0 fs uniq k d nm = fs d nm := by rw [publishCrash_0]
  have c1 : publishCrash 1 fs uniq k d nm =
      if d = str "new" ∧ nm = k.Name then none else fs d nm := by
    rw [publishCrash_1, osRemove_apply]
  have c2 : publishCrash 2 fs uniq k d nm =
      if d = str "new" ∧ nm = k.Name then some f else fs d nm := by
    rw [publishCrash_2]
    simp only [osLink_apply, osRemove_apply]
    by_cases h : d = str "new" ∧ nm = k.Name
    · simp [h, htn, htmp]
    · rw [if_neg h, if_neg (fun x => h ⟨x.1, x.2.1⟩), if_neg h]
  have c3 : publishCrash 3 fs uniq k d nm = fs3 d nm := by rw [publishCrash_3, hfs3]
  have c4 : publishCrash 4 fs uniq k d nm = fs4 d nm := by rw [e4]
  have c5 : publishCrash 5 fs uniq k d nm =
      if d = str "tmp" ∧ nm = uniq ++ str ".Queue" then some (.queue (q ++ [k]))
      else fs4 d nm := by
    rw [e5, set_apply]
  have c6 : publishCrash 6 fs uniq k d nm =
      if d = str "new" ∧ nm = str "Queue" then some (.queue (q ++ [k]))
      else if d = str "tmp" ∧ nm = uniq ++ str ".Queue" then none
      else fs4 d nm := by
    rw [e6]
    simp only [set_apply]
    by_cases h : d = str "new" ∧ nm = str "Queue"
    · simp [h]
    · by_cases h2 : d = str "tmp" ∧ nm = uniq ++ str ".Queue"
      · simp [h, h2]
      · simp [h, h2]
  have g3 := h3 d nm
  have g4 := h4 d nm
  clear e4 e5 e6 h3 h4 hr hfs3
  have hnt : str "new" ≠ str "tmp" := by decide
  by_cases hd : d = str "new"
  · subst hd
    by_cases h1 : nm = str "Queue"
    · subst h1
      interval_cases n <;>
        simp_all [Ne.symm hk1, Ne.symm hmq]
    · by_cases h2 : nm = str "Mutex"
      · subst h2
        interval_cases n <;> simp_all [Ne.symm hk2]
      · by_cases h5 : nm = k.Name
        · subst h5
          interval_cases n <;> simp_all
        · interval_cases n <;> simp_all
  · by_cases ht : d = str "tmp" ∧ nm = uniq ++ str ".Queue"
    · obtain ⟨rfl, rfl⟩ := ht
      interval_cases n <;> simp_all
    · rw [if_neg hd, if_neg ht]
      rw [if_neg (fun x => hd x.1)] at c1 c2 g4 c6
      rw [if_neg (fun x => hd x.1), if_neg (fun x => hd x.1)] at g3
      rw [if_neg ht] at c5 c6
      rw [g3] at g4
      rw [g4] at c4 c5 c6
      rw [g3] at c3
      interval_cases n
      · exact c0
      · exact c1
      · exact c2
      · exact c3
      · exact c4
      · exact c5
      · exact c6

/-- `Publish` run again after a crash of `Publish` that came before the
payload was removed from `tmp`: it succeeds, and what the files of `new`, of
`cur` and the payload in `tmp` are afterwards. -/
theorem Publish_after_crash (fs : Files) (u1 u2 : List Nat) (k : SpoolKey) (f : File)
    (q : List SpoolKey) (n : Nat) (hn : n ≤ 6)
    (htmp : fs (str "tmp") k.Name = some f)
    (hq : (ReadQueue fs (str "new") (str "Queue")).2 = .ok q)
    (hf1 : fs (str "tmp") (u1 ++ str ".Queue") = none)
    (hf2 : fs (str "tmp") (u2 ++ str ".Queue") = none) (hu : u1 ≠ u2)
    (hk1 : k.Name ≠ str "Queue") (hk2 : k.Name ≠ str "Mutex")
    (hk3 : k.Name ≠ u1 ++ str ".Queue") (hk4 : k.Name ≠ u2 ++ str ".Queue") :
    (Publish (publishCrash n fs u1 k) u2 k).2 = none ∧
    (Publish (publishCrash n fs u1 k) u2 k).1 (str "new") k.Name = some f ∧
    (Publish (publishCrash n fs u1 k) u2 k).1 (str "tmp") k.Name = none ∧
    (Publish (publishCrash n fs u1 k) u2 k).1 (str "new") (str "Queue") =
      some (.queue (q ++ (if n ≤ 5 then [k] else [k, k]))) ∧
    (∀ nm, (Publish (publishCrash n fs u1 k) u2 k).1 (str "cur") nm = fs (str "cur") nm) ∧
    (∀ nm, (fs (str "new") nm).isSome = true →
      ((Publish (publishCrash n fs u1 k) u2 k).1 (str "new") nm).isSome = true) := by
  have htn : str "tmp" ≠ str "new" := by decide
  have hct : str "cur" ≠ str "tmp" := by decide
  have hcn : str "cur" ≠ str "new" := by decide
  have hmq : str "Mutex" ≠ str "Queue" := by decide
  have hc := publishCrash_apply fs u1 k f q n hn htmp hq hf1 hk1 hk2
  have huq : u2 ++ str ".Queue" ≠ u1 ++ str ".Queue" := by
    intro h; exact hu (List.append_cancel_right h).symm
  have ctmp : publishCrash n fs u1 k (str "tmp") k.Name = some f := by
    rw [hc]; simp [htn, hk3, htmp]
  have cfresh : publishCrash n fs u1 k (str "tmp") (u2 ++ str ".Queue") = none := by
    rw [hc]; simp [htn, huq, hf2]
  have cq : (ReadQueue (publishCrash n fs u1 k) (str "new") (str "Queue")).2 =
      .ok (if n ≤ 5 then q else q ++ [k]) := by
    rw [ReadQueue_snd, hc]
    rw [ReadQueue_snd] at hq
    clear hc
    simp only [if_true]
    by_cases h6 : 6 ≤ n
    · rw [if_pos h6, if_neg (show ¬ n ≤ 5 by omega)]
    · rw [if_neg h6, if_pos (show n ≤ 5 by omega)]
      rcases hfq : fs (str "new") (str "Queue") with _ | (_ | ⟨_, _⟩) | q2
      · rw [hfq] at hq
        simp only [Except.ok.injEq] at hq
        subst hq
        by_cases h4 : 4 ≤ n
        · simp [h4]
        · simp [h4]
      · rw [hfq] at hq
        simp only [Except.ok.injEq] at hq
        subst hq
        simp
      · rw [hfq] at hq
        simp at hq
      · rw [hfq] at hq
        simp only [Except.ok.injEq] at hq
        subst hq
        simp
  obtain ⟨p1, p2⟩ := Publish_ok (publishCrash n fs u1 k) u2 k f _ ctmp cq cfresh hk1 hk2 hk4
  have hnt : str "new" ≠ str "tmp" := by decide
  refine ⟨p1, ?_, ?_, ?_, ?_, ?_⟩
  · rw [p2]; simp [hk1, htn, hnt]
  · rw [p2]; simp [htn, hnt, hk4]
  · rw [p2]
    by_cases h5 : n ≤ 5
    · simp [h5]
    · simp [h5]
  · intro nm
    rw [p2]
    simp [hc, hcn, hct]
  · intro nm hsome
    rw [p2]
    by_cases h1 : nm = str "Queue"
    · simp [h1]
    · by_cases h2 : nm = k.Name
      · simp [h1, h2, htn, hnt, hk1]
      · by_cases h3 : nm = str "Mutex"
        · subst h3
          simp only [hmq, and_false, if_false, hnt, false_and, Ne.symm hk2, true_and]
          split_ifs with h
          · rfl
          · cases hx : publishCrash n fs u1 k (str "new") (str "Mutex") with
            | none => exact absurd hx h
            | some v => rfl
        · simp only [h1, h2, h3, and_false, false_and, if_false, hnt]
          rw [hc]
          simp [h1, h2, h3, hsome]

theorem payloadPresent_mono (fs fs2 : Files) (e : SpoolKey)
    (hcur : ∀ nm, fs2 (str "cur") nm = fs (str "cur") nm)
    (hnew : ∀ nm, (fs (str "new") nm).isSome = true → (fs2 (str "new") nm).isSome = true)
    (h : payloadPresent fs e = true) : payloadPresent fs2 e = true := by
  unfold payloadPresent at h ⊢
  rw [hcur]
  rw [Bool.or_eq_true] at h ⊢
  rcases h with h | h
  · exact Or.inl (hnew _ h)
  · exact Or.inr h

theorem listed_congr (fs fs2 : Files) (dir name : List Nat) (h : fs2 dir name = fs dir name) :
    listed fs2 dir name = listed fs dir name := by
  unfold listed; rw [h]

/-- A crash after the seventh file operation of `Publish` leaves what
`Publish` leaves. -/
theorem publishCrash_completed (fs : Files) (uniq : List Nat) (k : SpoolKey) :
    publishCrash 7 fs uniq k = (Publish fs uniq k).1 := by
  rw [show (7 : Nat) = 3 + 4 from rfl, publishCrash_late]
  unfold Publish SaveQueue
  simp only
  rcases ReadQueue (openMutex (osLink (osRemove fs (str "new") k.Name).1 (str "tmp") k.Name
    (str "new") k.Name).1 (str "new")) (str "new") (str "Queue") with ⟨fs4, _ | queue⟩
  · rfl
  · simp only [show ¬ (3 = 0) by decide, show ¬ (3 = 1) by decide, show ¬ (3 = 2) by decide,
      if_false]
    rcases createExcl fs4 (str "tmp") (uniq ++ str ".Queue") (.queue (queue ++ [k]))
      with ⟨fs5, _ | e5⟩
    · simp only
      rcases osRename fs5 (str "tmp") (uniq ++ str ".Queue") (str "new") (str "Queue")
        with ⟨fs6, _ | e6⟩
      · simp only
        rcases osRemove fs6 (str "tmp") k.Name with ⟨fs7, _ | e7⟩ <;> rfl
      · rfl
    · rfl

/-- C23 (amended): in a spool where the payload of k is in `tmp`, the queue
`new/Queue` is readable and the names drawn for the temporary queue files are
new, `Publish(k)` run again after a crash of `Publish(k)` that came after any
number of its file operations short of the last (the removal of the payload
from `tmp`) succeeds: the payload is in `new` and no longer in `tmp`,
`new/Queue` is the queue of before followed by k once when the crash came
before the queue file was replaced and by k twice when it came after, and, if
no queue listed a key without payload before, none does afterwards. -/
theorem Publish_rerun_after_crash (fs : Files) (u1 u2 : List Nat) (k : SpoolKey) (f : File)
    (q : List SpoolKey) (n : Nat) (hn : n ≤ 6)
    (htmp : fs (str "tmp") k.Name = some f)
    (hq : (ReadQueue fs (str "new") (str "Queue")).2 = .ok q)
    (hf1 : fs (str "tmp") (u1 ++ str ".Queue") = none)
    (hf2 : fs (str "tmp") (u2 ++ str ".Queue") = none) (hu : u1 ≠ u2)
    (hk1 : k.Name ≠ str "Queue") (hk2 : k.Name ≠ str "Mutex")
    (hk3 : k.Name ≠ u1 ++ str ".Queue") (hk4 : k.Name ≠ u2 ++ str ".Queue")
    (hnd : noDangling fs) :
    (Publish (publishCrash n fs u1 k) u2 k).2 = none ∧
    (Publish (publishCrash n fs u1 k) u2 k).1 (str "new") k.Name = some f ∧
    (Publish (publishCrash n fs u1 k) u2 k).1 (str "tmp") k.Name = none ∧
    (Publish (publishCrash n fs u1 k) u2 k).1 (str "new") (str "Queue") =
      some (.queue (q ++ (if n ≤ 5 then [k] else [k, k]))) ∧
    (listed (Publish (publishCrash n fs u1 k) u2 k).1 (str "new") (str "Queue")).count k =
      q.count k + (if n ≤ 5 then 1 else 2) ∧
    noDangling (Publish (publishCrash n fs u1 k) u2 k).1 := by
  obtain ⟨r1, r2, r3, r4, r5, r6⟩ :=
    Publish_after_crash fs u1 u2 k f q n hn htmp hq hf1 hf2 hu hk1 hk2 hk3 hk4
  have hl : listed (Publish (publishCrash n fs u1 k) u2 k).1 (str "new") (str "Queue") =
      q ++ (if n ≤ 5 then [k] else [k, k]) := by
    unfold listed; rw [r4]
  refine ⟨r1, r2, r3, r4, ?_, ?_⟩
  · rw [hl, List.count_append]
    by_cases h5 : n ≤ 5
    · simp [h5]
    · simp [h5]
  · intro e he
    have hpres : payloadPresent fs e = true ∨ e = k := by
      rcases he with he | he | he | he
      · rw [hl] at he
        rcases List.mem_append.1 he with he | he
        · left
          apply hnd
          left
          rw [listed_of_ReadQueue fs _ _ q hq]
          exact he
        · right
          by_cases h5 : n ≤ 5
          · simpa [h5] using he
          · simpa [h5] using he
      · left
        rw [listed_congr fs _ _ _ (r5 _)] at he
        exact hnd e (Or.inr (Or.inl he))
      · left
        rw [listed_congr fs _ _ _ (r5 _)] at he
        exact hnd e (Or.inr (Or.inr (Or.inl he)))
      · left
        rw [listed_congr fs _ _ _ (r5 _)] at he
        exact hnd e (Or.inr (Or.inr (Or.inr he)))
    rcases hpres with hp | rfl
    · exact payloadPresent_mono fs _ e r5 r6 hp
    · unfold payloadPresent
      rw [r2]
      rfl

theorem Publish_rerun_after_crash_witness :
    (Publish (publishCrash 5
        (fun d n => if d = str "tmp" ∧ n = str "a" then some (.data [1]) else none)
        (str "u1") ⟨str "a", 0, ⟨str "f", 1, 0⟩⟩) (str "u2")
        ⟨str "a", 0, ⟨str "f", 1, 0⟩⟩).2 = none ∧
    (Publish (publishCrash 5
        (fun d n => if d = str "tmp" ∧ n = str "a" then some (.data [1]) else none)
        (str "u1") ⟨str "a", 0, ⟨str "f", 1, 0⟩⟩) (str "u2")
        ⟨str "a", 0, ⟨str "f", 1, 0⟩⟩).1 (str "new") (str "Queue") =
      some (.queue ([] ++ (if 5 ≤ 5 then [⟨str "a", 0, ⟨str "f", 1, 0⟩⟩]
        else [⟨str "a", 0, ⟨str "f", 1, 0⟩⟩, ⟨str "a", 0, ⟨str "f", 1, 0⟩⟩]))) :=
  have h := Publish_rerun_after_crash
    (fun d n => if d = str "tmp" ∧ n = str "a" then some (.data [1]) else none)
    (str "u1") (str "u2") ⟨str "a", 0, ⟨str "f", 1, 0⟩⟩ (.data [1]) [] 5
    (by decide) (by decide) (by decide) (by decide) (by decide) (by decide) (by decide)
    (by decide) (by decide) (by decide)
    (fun e he => by simp [listed] at he)
  ⟨h.1, h.2.2.2.1⟩

/-- C23 (as stated, refuted): with the payload `a` in `tmp` of an otherwise
empty spool, `Publish` run again after a crash that came between the
replacement of `new/Queue` and the removal of the payload from `tmp` lists the
key twice; and run again after `Publish` had completed it removes the payload
from `new`, lists the key twice and fails. -/
theorem Publish_rerun_not_idempotent :
    listed (Publish (publishCrash 6
        (fun d n => if d = str "tmp" ∧ n = str "a" then some (.data [1]) else none)
        (str "u1") ⟨str "a", 0, ⟨str "f", 1, 0⟩⟩) (str "u2")
        ⟨str "a", 0, ⟨str "f", 1, 0⟩⟩).1 (str "new") (str "Queue") =
      [⟨str "a", 0, ⟨str "f", 1, 0⟩⟩, ⟨str "a", 0, ⟨str "f", 1, 0⟩⟩] ∧
    (Publish (fun d n => if d = str "tmp" ∧ n = str "a" then some (.data [1]) else none)
      (str "u1") ⟨str "a", 0, ⟨str "f", 1, 0⟩⟩).2 = none ∧
    (Publish (fun d n => if d = str "tmp" ∧ n = str "a" then some (.data [1]) else none)
      (str "u1") ⟨str "a", 0, ⟨str "f", 1, 0⟩⟩).1 (str "new") (str "a") = some (.data [1]) ∧
    (Publish (Publish
        (fun d n => if d = str "tmp" ∧ n = str "a" then some (.data [1]) else none)
        (str "u1") ⟨str "a", 0, ⟨str "f", 1, 0⟩⟩).1 (str "u2")
        ⟨str "a", 0, ⟨str "f", 1, 0⟩⟩).2 = some .notExist ∧
    (Publish (Publish
        (fun d n => if d = str "tmp" ∧ n = str "a" then some (.data [1]) else none)
        (str "u1") ⟨str "a", 0, ⟨str "f", 1, 0⟩⟩).1 (str "u2")
        ⟨str "a", 0, ⟨str "f", 1, 0⟩⟩).1 (str "new") (str "a") = none ∧
    listed (Publish (Publish
        (fun d n => if d = str "tmp" ∧ n = str "a" then some (.data [1]) else none)
        (str "u1") ⟨str "a", 0, ⟨str "f", 1, 0⟩⟩).1 (str "u2")
        ⟨str "a", 0, ⟨str "f", 1, 0⟩⟩).1 (str "new") (str "Queue") =
      [⟨str "a", 0, ⟨str "f", 1, 0⟩⟩, ⟨str "a", 0, ⟨str "f", 1, 0⟩⟩] ∧
    payloadPresent (Publish (Publish
        (fun d n => if d = str "tmp" ∧ n = str "a" then some (.data [1]) else none)
        (str "u1") ⟨str "a", 0, ⟨str "f", 1, 0⟩⟩).1 (str "u2")
        ⟨str "a", 0, ⟨str "f", 1, 0⟩⟩).1 ⟨str "a", 0, ⟨str "f", 1, 0⟩⟩ = false := by
  decide

end spool

namespace spool

/-! ## Taking over the published queue -/

theorem moveEntries_cons (fs : Files) (queue : List SpoolKey) (e : SpoolKey)
    (inc : List SpoolKey) :
    moveEntries fs queue (e :: inc) =
      if (fs (str "new") e.Name).isSome then
        moveEntries (osRename fs (str "new") e.Name (str "cur") e.Name).1 (queue ++ [e]) inc
      else moveEntries fs queue inc := by
  rw [moveEntries]
  unfold osRename
  cases h : fs (str "new") e.Name <;> simp

/-- The loop of `ConcatQueues` touches the files of `new` and `cur` only. -/
theorem moveEntries_other (inc : List SpoolKey) : ∀ (fs : Files) (queue : List SpoolKey)
    (d nm : List Nat), d ≠ str "new" → d ≠ str "cur" →
    (moveEntries fs queue inc).1 d nm = fs d nm := by
  induction inc with
  | nil => intro fs queue d nm _ _; rfl
  | cons e inc ih =>
    intro fs queue d nm h1 h2
    rw [moveEntries_cons]
    split_ifs with h
    · rw [ih _ _ d nm h1 h2, osRename_apply]
      simp [h1, h2]
    · exact ih _ _ d nm h1 h2

/-- The entries that the loop of `ConcatQueues` appends are entries of the
incoming queue, in their order, whose payload was in `new`. -/
theorem moveEntries_appended (inc : List SpoolKey) : ∀ (fs : Files) (queue : List SpoolKey),
    ∃ app, (moveEntries fs queue inc).2 = queue ++ app ∧ app.Sublist inc ∧
      ∀ e ∈ app, (fs (str "new") e.Name).isSome = true := by
  induction inc with
  | nil => intro fs queue; exact ⟨[], by simp [moveEntries], List.Sublist.refl _, by simp⟩
  | cons e inc ih =>
    intro fs queue
    rw [moveEntries_cons]
    split_ifs with h
    · obtain ⟨app, h1, h2, h3⟩ :=
        ih (osRename fs (str "new") e.Name (str "cur") e.Name).1 (queue ++ [e])
      refine ⟨e :: app, by rw [h1]; simp, h2.cons₂ e, ?_⟩
      intro x hx
      rcases List.mem_cons.1 hx with rfl | hx
      · exact h
      · have := h3 x hx
        rw [osRename_apply] at this
        have hcn : str "new" ≠ str "cur" := by decide
        split_ifs at this with a b c
        · exact this
        · exact absurd b.1 hcn
        · simp at this
        · exact this
    · obtain ⟨app, h1, h2, h3⟩ := ih fs queue
      exact ⟨app, h1, h2.cons e, h3⟩

/-- When the payloads of the incoming entries are all in `new`, under names
that differ from one another, the loop of `ConcatQueues` appends every entry
and moves every payload to `cur`. -/
theorem moveEntries_all (inc : List SpoolKey) : ∀ (fs : Files) (queue : List SpoolKey),
    (inc.map (fun e => e.Name)).Nodup →
    (∀ e ∈ inc, (fs (str "new") e.Name).isSome = true) →
    (moveEntries fs queue inc).2 = queue ++ inc ∧
    ∀ d nm, (moveEntries fs queue inc).1 d nm =
      if d = str "cur" ∧ nm ∈ inc.map (fun e => e.Name) then fs (str "new") nm
      else if d = str "new" ∧ nm ∈ inc.map (fun e => e.Name) then none
      else fs d nm := by
  have hcn : str "new" ≠ str "cur" := by decide
  induction inc with
  | nil => intro fs queue _ _; simp [moveEntries]
  | cons e inc ih =>
    intro fs queue hnd hp
    rw [List.map_cons, List.nodup_cons] at hnd
    have he := hp e (List.mem_cons_self _ _)
    have hne : fs (str "new") e.Name ≠ none := by
      intro h; rw [h] at he; simp at he
    rw [moveEntries_cons, if_pos he]
    have hp2 : ∀ x ∈ inc, ((osRename fs (str "new") e.Name (str "cur") e.Name).1 (str "new")
        x.Name).isSome = true := by
      intro x hx
      have hxe : x.Name ≠ e.Name := by
        intro h
        apply hnd.1
        rw [← h]
        exact List.mem_map_of_mem _ hx
      rw [osRename_apply]
      simp [hne, hcn, hxe, hp x (List.mem_cons_of_mem _ hx)]
    obtain ⟨h1, h2⟩ :=
      ih (osRename fs (str "new") e.Name (str "cur") e.Name).1 (queue ++ [e]) hnd.2 hp2
    refine ⟨by rw [h1]; simp, ?_⟩
    intro d nm
    rw [h2]
    simp only [osRename_apply, if_neg hne, List.map_cons, List.mem_cons]
    by_cases hm : nm ∈ List.map (fun e => e.Name) inc
    · have hnme : nm ≠ e.Name := fun h => hnd.1 (h ▸ hm)
      simp [hm, hnme, hcn]
    · by_cases hnme : nm = e.Name
      · subst hnme
        simp [hm, hcn, Ne.symm hcn]
      · simp [hm, hnme]

/-- `ConsumeAndConcatQueues("new", "Queue", "cur", "Queue")` on a spool whose
`new/Queue` is a queue, whose `cur/Queue` is readable and with a new name for
the temporary queue file: it succeeds; `fs2` are the files when the loop over
the incoming entries begins, and every file afterwards is given from what the
loop leaves. -/
theorem ConsumeAndConcatQueues_ok (fs : Files) (uniq : List Nat) (inc old : List SpoolKey)
    (hinc : fs (str "new") (str "Queue") = some (.queue inc))
    (hold : (ReadQueue fs (str "cur") (str "Queue")).2 = .ok old)
    (hfresh : fs (str "tmp") (uniq ++ str ".Queue") = none) :
    ∃ fs2 : Files,
      (∀ d nm, fs2 d nm =
        if d = str "cur" ∧ nm = str "Incoming" then some (.queue inc)
        else if d = str "new" ∧ nm = str "Queue" then none
        else if d = str "cur" ∧ nm = str "Queue" ∧ fs (str "cur") (str "Queue") = none then
          some (.data [])
        else if d = str "new" ∧ nm = str "Mutex" ∧ fs (str "new") (str "Mutex") = none then
          some (.data [])
        else fs d nm) ∧
      (ConsumeAndConcatQueues fs uniq (str "new") (str "Queue") (str "cur") (str "Queue")).2
        = none ∧
      ∀ d nm,
        (ConsumeAndConcatQueues fs uniq (str "new") (str "Queue") (str "cur") (str "Queue")).1
            d nm =
          if d = str "cur" ∧ nm = str "Queue" then some (.queue (moveEntries fs2 old inc).2)
          else if d = str "cur" ∧ nm = str "Staging" then none
          else if d = str "cur" ∧ nm = str "Incoming" then none
          else if d = str "tmp" ∧ nm = uniq ++ str ".Queue" then none
          else (moveEntries fs2 old inc).1 d nm := by
  have hcn : str "cur" ≠ str "new" := by decide
  have hnc : str "new" ≠ str "cur" := by decide
  have htn : str "tmp" ≠ str "new" := by decide
  have htc : str "tmp" ≠ str "cur" := by decide
  have hct : str "cur" ≠ str "tmp" := by decide
  have hmq : str "Mutex" ≠ str "Queue" := by decide
  have hqi : str "Queue" ≠ str "Incoming" := by decide
  have hsi : str "Staging" ≠ str "Incoming" := by decide
  have hsq : str "Staging" ≠ str "Queue" := by decide
  -- the files after `Consume`
  have hm : openMutex fs (str "new") (str "new") (str "Queue") = some (.queue inc) := by
    rw [openMutex_apply]; simp [Ne.symm hmq, hinc]
  have h1 : ∀ d nm, (osRename (openMutex fs (str "new")) (str "new") (str "Queue") (str "cur")
      (str "Incoming")).1 d nm =
      if d = str "cur" ∧ nm = str "Incoming" then some (.queue inc)
      else if d = str "new" ∧ nm = str "Queue" then none
      else if d = str "new" ∧ nm = str "Mutex" ∧ fs (str "new") (str "Mutex") = none then
        some (.data [])
      else fs d nm := by
    intro d nm
    rw [osRename_apply, hm, openMutex_apply]
    simp
  have e1 : (osRename (openMutex fs (str "new")) (str "new") (str "Queue") (str "cur")
      (str "Incoming")).2 = none := by
    rw [osRename_err, hm]; rfl
  generalize hg1 : osRename (openMutex fs (str "new")) (str "new") (str "Queue") (str "cur")
      (str "Incoming") = r1 at h1 e1
  obtain ⟨fs1, er1⟩ := r1
  simp only at h1 e1
  subst e1
  -- the old queue is read
  have hold1 : (ReadQueue fs1 (str "cur") (str "Queue")).2 = .ok old := by
    rw [ReadQueue_snd_congr fs fs1 _ _ (by rw [h1]; simp [hqi, hcn]), hold]
  have h2 : ∀ d nm, (ReadQueue fs1 (str "cur") (str "Queue")).1 d nm =
      if d = str "cur" ∧ nm = str "Queue" ∧ fs (str "cur") (str "Queue") = none then
        some (.data [])
      else fs1 d nm := by
    intro d nm
    rw [ReadQueue_apply, h1 (str "cur") (str "Queue")]
    simp [hqi, hcn]
  generalize hg2 : ReadQueue fs1 (str "cur") (str "Queue") = r2 at hold1 h2
  obtain ⟨fs2a, q2⟩ := r2
  simp only at hold1 h2
  subst hold1
  -- the incoming queue is read
  have hi2 : fs2a (str "cur") (str "Incoming") = some (.queue inc) := by
    rw [h2, h1]; simp [Ne.symm hqi]
  have hinc2 : (ReadQueue fs2a (str "cur") (str "Incoming")).2 = .ok inc := by
    rw [ReadQueue_snd, hi2]
  have h3 : ∀ d nm, (ReadQueue fs2a (str "cur") (str "Incoming")).1 d nm = fs2a d nm := by
    intro d nm
    rw [ReadQueue_apply, hi2]
    simp
  generalize hg3 : ReadQueue fs2a (str "cur") (str "Incoming") = r3 at hinc2 h3
  obtain ⟨fs2, q3⟩ := r3
  simp only at hinc2 h3
  subst hinc2
  have hfs2 : ∀ d nm, fs2 d nm =
      if d = str "cur" ∧ nm = str "Incoming" then some (.queue inc)
      else if d = str "new" ∧ nm = str "Queue" then none
      else if d = str "cur" ∧ nm = str "Queue" ∧ fs (str "cur") (str "Queue") = none then
        some (.data [])
      else if d = str "new" ∧ nm = str "Mutex" ∧ fs (str "new") (str "Mutex") = none then
        some (.data [])
      else fs d nm := by
    intro d nm
    rw [h3, h2, h1]
    clear h3 h2 h1 hg1 hg2 hg3 hi2
    split_ifs <;> simp_all
  refine ⟨fs2, hfs2, ?_⟩
  -- the combined queue is saved and put in place
  have hft : (moveEntries fs2 old inc).1 (str "tmp") (uniq ++ str ".Queue") = none := by
    rw [moveEntries_other inc fs2 old _ _ htn htc, hfs2]
    simp [htc, htn, hfresh]
  obtain ⟨s1, s2⟩ := SaveQueue_fresh _ uniq (str "cur") (str "Staging")
    (moveEntries fs2 old inc).2 hft
  generalize hg4 : SaveQueue (moveEntries fs2 old inc).1 uniq (str "cur") (str "Staging")
    (moveEntries fs2 old inc).2 = r4 at s1 s2
  obtain ⟨fs4, e4⟩ := r4
  simp only at s1 s2
  subst s1
  have hst : (osRemove fs4 (str "cur") (str "Incoming")).1 (str "cur") (str "Staging") =
      some (.queue (moveEntries fs2 old inc).2) := by
    rw [osRemove_apply, s2]; simp [hsi]
  have e5 : (osRename (osRemove fs4 (str "cur") (str "Incoming")).1 (str "cur") (str "Staging")
      (str "cur") (str "Queue")).2 = none := by
    rw [osRename_err, hst]; rfl
  have h5 : ∀ d nm, (osRename (osRemove fs4 (str "cur") (str "Incoming")).1 (str "cur")
      (str "Staging") (str "cur") (str "Queue")).1 d nm =
      if d = str "cur" ∧ nm = str "Queue" then some (.queue (moveEntries fs2 old inc).2)
      else if d = str "cur" ∧ nm = str "Staging" then none
      else if d = str "cur" ∧ nm = str "Incoming" then none
      else if d = str "tmp" ∧ nm = uniq ++ str ".Queue" then none
      else (moveEntries fs2 old inc).1 d nm := by
    intro d nm
    rw [osRename_apply, hst, osRemove_apply, s2]
    clear s2 hst hfs2 h3 h2 h1 hg1 hg2 hg3 hg4 hi2 e5
    split_ifs <;> simp_all
  generalize hg5 : osRename (osRemove fs4 (str "cur") (str "Incoming")).1 (str "cur")
      (str "Staging") (str "cur") (str "Queue") = r5 at e5 h5
  obtain ⟨fs6, e6⟩ := r5
  simp only at e5 h5
  subst e5
  have hres : ConsumeAndConcatQueues fs uniq (str "new") (str "Queue") (str "cur") (str "Queue")
      = (fs6, none) := by
    unfold ConsumeAndConcatQueues Consume
    simp only [hg1]
    unfold ConcatQueues
    simp only [hg2, hg3, hg4, hg5]
  rw [hres]
  exact ⟨rfl, h5⟩

/-- Successive calls of `Publish` for keys with payloads in `tmp` under names
that differ from one another, from the reserved names and from the names of
the temporary queue files: all succeed, the queue grows by the keys in their
order, and every payload is moved from `tmp` to `new`. -/
theorem publishAll_ok (pubs : List (List Nat × SpoolKey)) : ∀ (fs : Files) (q : List SpoolKey),
    (pubs.map (fun p => p.2.Name)).Nodup →
    (∀ p ∈ pubs, (fs (str "tmp") p.2.Name).isSome = true) →
    (∀ p ∈ pubs, fs (str "tmp") (p.1 ++ str ".Queue") = none) →
    (∀ p ∈ pubs, p.2.Name ≠ str "Queue" ∧ p.2.Name ≠ str "Mutex") →
    (∀ p ∈ pubs, ∀ p2 ∈ pubs, p.2.Name ≠ p2.1 ++ str ".Queue") →
    (ReadQueue fs (str "new") (str "Queue")).2 = .ok q →
    (publishAll fs pubs).2 = none ∧
    (pubs ≠ [] → (publishAll fs pubs).1 (str "new") (str "Queue") =
      some (.queue (q ++ pubs.map (fun p => p.2)))) ∧
    (∀ nm, nm ∈ pubs.map (fun p => p.2.Name) →
      (publishAll fs pubs).1 (str "new") nm = fs (str "tmp") nm ∧
      (publishAll fs pubs).1 (str "tmp") nm = none) ∧
    (∀ d nm, d ≠ str "new" → d ≠ str "tmp" → (publishAll fs pubs).1 d nm = fs d nm) ∧
    (∀ nm, fs (str "tmp") nm = none → (publishAll fs pubs).1 (str "tmp") nm = none) ∧
    (∀ nm, nm ∉ pubs.map (fun p => p.2.Name) → nm ≠ str "Queue" → nm ≠ str "Mutex" →
      (publishAll fs pubs).1 (str "new") nm = fs (str "new") nm) := by
  have htn : str "tmp" ≠ str "new" := by decide
  have hnt : str "new" ≠ str "tmp" := by decide
  induction pubs with
  | nil =>
    intro fs q _ _ _ _ _ _
    simp [publishAll]
  | cons p pubs ih =>
    intro fs q hnd htmp hfresh hres hresu hq
    obtain ⟨u, k⟩ := p
    rw [List.map_cons, List.nodup_cons] at hnd
    have hk := hres (u, k) (List.mem_cons_self _ _)
    obtain ⟨f, hf⟩ : ∃ f, fs (str "tmp") k.Name = some f :=
      Option.isSome_iff_exists.1 (htmp (u, k) (List.mem_cons_self _ _))
    obtain ⟨p1, p2⟩ := Publish_ok fs u k f q hf hq
      (hfresh (u, k) (List.mem_cons_self _ _)) hk.1 hk.2
      (hresu (u, k) (List.mem_cons_self _ _) (u, k) (List.mem_cons_self _ _))
    generalize hg : Publish fs u k = r at p1 p2
    obtain ⟨fs1, e1⟩ := r
    simp only at p1 p2
    subst p1
    have hne : ∀ x ∈ pubs, x.2.Name ≠ k.Name := by
      intro x hx h
      exact hnd.1 (h ▸ List.mem_map_of_mem (fun p => p.2.Name) hx)
    have hq1 : (ReadQueue fs1 (str "new") (str "Queue")).2 = .ok (q ++ [k]) := by
      rw [ReadQueue_snd, p2]; simp
    obtain ⟨i1, i2, i3, i4, i5, i6⟩ := ih fs1 (q ++ [k]) hnd.2
      (by
        intro x hx
        rw [p2]
        simp [htn, hne x hx,
          hresu x (List.mem_cons_of_mem _ hx) (u, k) (List.mem_cons_self _ _),
          htmp x (List.mem_cons_of_mem _ hx)])
      (by
        intro x hx
        rw [p2]
        simp only [htn, false_and, if_false, true_and]
        split_ifs
        · rfl
        · rfl
        · exact hfresh x (List.mem_cons_of_mem _ hx))
      (fun x hx => hres x (List.mem_cons_of_mem _ hx))
      (fun x hx y hy => hresu x (List.mem_cons_of_mem _ hx) y (List.mem_cons_of_mem _ hy))
      hq1
    have hpa : publishAll fs ((u, k) :: pubs) = publishAll fs1 pubs := by
      rw [publishAll, hg]
    rw [hpa]
    refine ⟨i1, ?_, ?_, ?_, ?_, ?_⟩
    · intro _
      by_cases hp : pubs = []
      · subst hp
        simp [publishAll, p2]
      · rw [i2 hp]; simp
    · intro nm hnm
      rw [List.map_cons, List.mem_cons] at hnm
      rcases hnm with rfl | hnm
      · constructor
        · rw [i6 _ hnd.1 hk.1 hk.2, p2, hf]
          simp [hk.1, hnt]
        · apply i5
          rw [p2]
          simp [htn]
      · obtain ⟨a, b⟩ := i3 nm hnm
        refine ⟨?_, b⟩
        rw [a, p2]
        obtain ⟨x, hx, rfl⟩ := List.mem_map.1 hnm
        simp [htn, hne x hx,
          hresu x (List.mem_cons_of_mem _ hx) (u, k) (List.mem_cons_self _ _)]
    · intro d nm h1 h2
      rw [i4 d nm h1 h2, p2]
      simp [h1, h2]
    · intro nm h
      apply i5
      rw [p2]
      simp only [htn, false_and, if_false, true_and]
      split_ifs
      · rfl
      · rfl
      · exact h
    · intro nm h1 h2 h3
      rw [List.map_cons, List.mem_cons, not_or] at h1
      rw [i6 nm h1.2 h2 h3, p2]
      simp [h2, h3, hnt, h1.1]

/-- C24: in a spool whose `new/Queue` is missing or empty and whose
`cur/Queue` is readable, for every non-empty list of keys with payloads in
`tmp` under names that differ from one another (and from the names of the
control files and of the temporary queue files, which are new): publishing
them in order and then calling `ConsumeAndConcatQueues("new", "Queue", "cur",
"Queue")` succeeds and leaves `cur/Queue` equal to the previous `cur/Queue`
followed by the keys in publish order, every payload in `cur` and no longer in
`new` or `tmp`, and `new/Queue` and `cur/Incoming` absent.  And whatever the
spool, the entries that `ConsumeAndConcatQueues` appends to `cur/Queue` are
entries of the incoming queue, in their order, whose payload could be moved:
an entry whose payload is absent from `new` is left out. -/
theorem publish_then_consume (fs : Files) (pubs : List (List Nat × SpoolKey))
    (uniq : List Nat) (old : List SpoolKey)
    (hne : pubs ≠ [])
    (hnd : (pubs.map (fun p => p.2.Name)).Nodup)
    (htmp : ∀ p ∈ pubs, (fs (str "tmp") p.2.Name).isSome = true)
    (hfresh : ∀ p ∈ pubs, fs (str "tmp") (p.1 ++ str ".Queue") = none)
    (hfreshu : fs (str "tmp") (uniq ++ str ".Queue") = none)
    (hres : ∀ p ∈ pubs, p.2.Name ≠ str "Queue" ∧ p.2.Name ≠ str "Mutex" ∧
      p.2.Name ≠ str "Incoming" ∧ p.2.Name ≠ str "Staging" ∧
      p.2.Name ≠ uniq ++ str ".Queue")
    (hresu : ∀ p ∈ pubs, ∀ p2 ∈ pubs, p.2.Name ≠ p2.1 ++ str ".Queue")
    (hnew : (ReadQueue fs (str "new") (str "Queue")).2 = .ok [])
    (hold : (ReadQueue fs (str "cur") (str "Queue")).2 = .ok old) :
    (publishAll fs pubs).2 = none ∧
    (ConsumeAndConcatQueues (publishAll fs pubs).1 uniq (str "new") (str "Queue") (str "cur")
      (str "Queue")).2 = none ∧
    (ConsumeAndConcatQueues (publishAll fs pubs).1 uniq (str "new") (str "Queue") (str "cur")
      (str "Queue")).1 (str "cur") (str "Queue") =
        some (.queue (old ++ pubs.map (fun p => p.2))) ∧
    (∀ p ∈ pubs,
      (ConsumeAndConcatQueues (publishAll fs pubs).1 uniq (str "new") (str "Queue") (str "cur")
        (str "Queue")).1 (str "cur") p.2.Name = fs (str "tmp") p.2.Name ∧
      (ConsumeAndConcatQueues (publishAll fs pubs).1 uniq (str "new") (str "Queue") (str "cur")
        (str "Queue")).1 (str "new") p.2.Name = none ∧
      (ConsumeAndConcatQueues (publishAll fs pubs).1 uniq (str "new") (str "Queue") (str "cur")
        (str "Queue")).1 (str "tmp") p.2.Name = none) ∧
    (ConsumeAndConcatQueues (publishAll fs pubs).1 uniq (str "new") (str "Queue") (str "cur")
      (str "Queue")).1 (str "new") (str "Queue") = none ∧
    (ConsumeAndConcatQueues (publishAll fs pubs).1 uniq (str "new") (str "Queue") (str "cur")
      (str "Queue")).1 (str "cur") (str "Incoming") = none ∧
    (∀ (g : Files) (u : List Nat) (inc old2 : List SpoolKey),
      g (str "new") (str "Queue") = some (.queue inc) →
      (ReadQueue g (str "cur") (str "Queue")).2 = .ok old2 →
      g (str "tmp") (u ++ str ".Queue") = none →
      ∃ app,
        (ConsumeAndConcatQueues g u (str "new") (str "Queue") (str "cur") (str "Queue")).1
          (str "cur") (str "Queue") = some (.queue (old2 ++ app)) ∧
        app.Sublist inc ∧
        ∀ e ∈ app, (g (str "new") e.Name).isSome = true ∨ e.Name = str "Mutex") := by
  have hcn : str "cur" ≠ str "new" := by decide
  have hnc : str "new" ≠ str "cur" := by decide
  have htn : str "tmp" ≠ str "new" := by decide
  have hnt : str "new" ≠ str "tmp" := by decide
  have htc : str "tmp" ≠ str "cur" := by decide
  have hct : str "cur" ≠ str "tmp" := by decide
  have hqi : str "Queue" ≠ str "Incoming" := by decide
  have hqs : str "Queue" ≠ str "Staging" := by decide
  obtain ⟨a1, a2, a3, a4, a5, a6⟩ := publishAll_ok pubs fs [] hnd htmp hfresh
    (fun p hp => ⟨(hres p hp).1, (hres p hp).2.1⟩) hresu hnew
  have a2 := a2 hne
  rw [List.nil_append] at a2
  generalize publishAll fs pubs = r at a1 a2 a3 a4 a5 a6
  obtain ⟨g, eg⟩ := r
  simp only at a1 a2 a3 a4 a5 a6
  subst a1
  have hold1 : (ReadQueue g (str "cur") (str "Queue")).2 = .ok old := by
    rw [ReadQueue_snd_congr fs g _ _ (a4 _ _ hcn hct), hold]
  obtain ⟨fs2, b1, b2, b3⟩ := ConsumeAndConcatQueues_ok g uniq _ old a2 hold1 (a5 _ hfreshu)
  have hnames : ∀ p ∈ pubs, p.2.Name ∈ List.map (fun e : SpoolKey => e.Name)
      (List.map (fun p : List Nat × SpoolKey => p.2) pubs) := by
    intro p hp
    exact List.mem_map_of_mem _ (List.mem_map_of_mem _ hp)
  have hnd2 : (List.map (fun e : SpoolKey => e.Name)
      (List.map (fun p : List Nat × SpoolKey => p.2) pubs)).Nodup := by
    rw [List.map_map]; exact hnd
  have hpres : ∀ e ∈ List.map (fun p : List Nat × SpoolKey => p.2) pubs,
      (fs2 (str "new") e.Name).isSome = true := by
    intro e he
    obtain ⟨p, hp, rfl⟩ := List.mem_map.1 he
    rw [b1]
    simp [hnc, (hres p hp).1, (hres p hp).2.1,
      (a3 _ (List.mem_map_of_mem (fun p => p.2.Name) hp)).1, htmp p hp]
  obtain ⟨m1, m2⟩ := moveEntries_all _ fs2 old hnd2 hpres
  refine ⟨rfl, b2, ?_, ?_, ?_, ?_, ?_⟩
  · rw [b3]; simp [m1]
  · intro p hp
    obtain ⟨r1, r2, r3, r4, r5⟩ := hres p hp
    have hin := hnames p hp
    refine ⟨?_, ?_, ?_⟩
    · rw [b3, if_neg (fun h => r1 h.2), if_neg (fun h => r4 h.2), if_neg (fun h => r3 h.2),
        if_neg (fun h => hct h.1), m2, if_pos ⟨rfl, hin⟩, b1, if_neg (fun h => hnc h.1),
        if_neg (fun h => r1 h.2), if_neg (fun h => hnc h.1), if_neg (fun h => r2 h.2.1)]
      exact (a3 _ (List.mem_map_of_mem (fun p => p.2.Name) hp)).1
    · rw [b3, if_neg (fun h => hnc h.1), if_neg (fun h => hnc h.1), if_neg (fun h => hnc h.1),
        if_neg (fun h => hnt h.1), m2, if_neg (fun h => hnc h.1), if_pos ⟨rfl, hin⟩]
    · rw [b3, if_neg (fun h => htc h.1), if_neg (fun h => htc h.1), if_neg (fun h => htc h.1),
        if_neg (fun h => r5 h.2), m2, if_neg (fun h => htc h.1), if_neg (fun h => htn h.1), b1,
        if_neg (fun h => htc h.1), if_neg (fun h => htn h.1), if_neg (fun h => htc h.1),
        if_neg (fun h => htn h.1)]
      exact (a3 _ (List.mem_map_of_mem (fun p => p.2.Name) hp)).2
  · have hq : str "Queue" ∉ List.map (fun e : SpoolKey => e.Name)
        (List.map (fun p : List Nat × SpoolKey => p.2) pubs) := by
      intro h
      obtain ⟨e, he, hn⟩ := List.mem_map.1 h
      obtain ⟨p, hp, rfl⟩ := List.mem_map.1 he
      exact (hres p hp).1 hn
    rw [b3, if_neg (fun h => hnc h.1), if_neg (fun h => hnc h.1), if_neg (fun h => hnc h.1),
      if_neg (fun h => hnt h.1), m2, if_neg (fun h => hnc h.1), if_neg (fun h => hq h.2), b1,
      if_neg (fun h => hnc h.1), if_pos ⟨rfl, rfl⟩]
  · rw [b3]; simp [Ne.symm hqi]
  · intro g2 u inc old2 hinc hold2 hfr
    obtain ⟨fs3, c1, -, c3⟩ := ConsumeAndConcatQueues_ok g2 u inc old2 hinc hold2 hfr
    obtain ⟨app, d1, d2, d3⟩ := moveEntries_appended inc fs3 old2
    refine ⟨app, by rw [c3]; simp [d1], d2, ?_⟩
    intro e he
    have := d3 e he
    rw [c1] at this
    simp only [hnc, false_and, if_false, true_and] at this
    by_cases hm : e.Name = str "Mutex"
    · exact Or.inr hm
    · left
      by_cases hq : e.Name = str "Queue"
      · simp [hq] at this
      · simpa [hq, hm] using this

theorem publish_then_consume_witness :
    (ConsumeAndConcatQueues (publishAll
        (fun d n => if d = str "tmp" ∧ n = str "a" then some (.data [1])
          else if d = str "tmp" ∧ n = str "b" then some (.data [2]) else none)
        [(str "u1", ⟨str "a", 0, ⟨str "f", 1, 0⟩⟩), (str "u2", ⟨str "b", 0, ⟨str "g", 1, 0⟩⟩)]).1
      (str "u3") (str "new") (str "Queue") (str "cur") (str "Queue")).1 (str "cur") (str "Queue") =
      some (.queue ([] ++ List.map (fun p => p.2)
        [(str "u1", (⟨str "a", 0, ⟨str "f", 1, 0⟩⟩ : SpoolKey)),
          (str "u2", ⟨str "b", 0, ⟨str "g", 1, 0⟩⟩)])) :=
  (publish_then_consume
    (fun d n => if d = str "tmp" ∧ n = str "a" then some (.data [1])
      else if d = str "tmp" ∧ n = str "b" then some (.data [2]) else none)
    [(str "u1", ⟨str "a", 0, ⟨str "f", 1, 0⟩⟩), (str "u2", ⟨str "b", 0, ⟨str "g", 1, 0⟩⟩)]
    (str "u3") [] (by decide) (by decide) (by decide) (by decide) (by decide) (by decide)
    (by decide) (by decide) (by decide)).2.2.1

/-- C25 (evaluation of the code): the key `a` is published and
`ConsumeAndConcatQueues` is interrupted right after `Consume` has renamed
`new/Queue` to `cur/Incoming`, which lists `a`.  A later call without new
publications returns no error and leaves `cur/Incoming` as it is and
`cur/Queue` without `a`.  After the publication of the key `b`, a later call
succeeds, replaces `cur/Incoming` by the new queue and ends with `cur/Queue`
listing `b` only: no queue of the spool lists `a`. -/
theorem interrupted_Incoming_is_lost :
    let s0 : Files := fun d n =>
      if d = str "tmp" ∧ n = str "a" then some (.data [1])
      else if d = str "tmp" ∧ n = str "b" then some (.data [2]) else none
    let a : SpoolKey := ⟨str "a", 0, ⟨str "f", 1, 0⟩⟩
    let b : SpoolKey := ⟨str "b", 0, ⟨str "g", 1, 0⟩⟩
    let interrupted := (Consume (Publish s0 (str "u0") a).1 (str "new") (str "Queue")
      (str "cur") (str "Incoming")).1
    let later := ConsumeAndConcatQueues interrupted (str "u1") (str "new") (str "Queue")
      (str "cur") (str "Queue")
    let published := Publish interrupted (str "u1") b
    let later2 := ConsumeAndConcatQueues published.1 (str "u2") (str "new") (str "Queue")
      (str "cur") (str "Queue")
    listed interrupted (str "cur") (str "Incoming") = [a] ∧
    listed interrupted (str "cur") (str "Queue") = [] ∧
    later.2 = none ∧
    listed later.1 (str "cur") (str "Queue") = [] ∧
    listed later.1 (str "cur") (str "Incoming") = [a] ∧
    published.2 = none ∧
    later2.2 = none ∧
    listed later2.1 (str "cur") (str "Queue") = [b] ∧
    later2.1 (str "cur") (str "Incoming") = none ∧
    later2.1 (str "cur") (str "Staging") = none ∧
    later2.1 (str "new") (str "Queue") = none := by
  decide

end spool

namespace transfer

open session

/-! ## The receiver: GOT after publication -/

theorem WriteSyncFrame_cancelled (s : Session) (f : frame.Frame) (h : s.ctxDone = true) :
    s.WriteSyncFrame f = (s, false) := by
  simp [Session.WriteSyncFrame, Session.WriteFrame, h]

/-- An ERR command leaves what was written to the peer as it was. -/
theorem SendErrorCmd_writeFrames (s : Session) (text : List Nat) :
    (s.SendErrorCmd text).1.writeFrames = s.writeFrames := by
  unfold Session.SendErrorCmd
  split_ifs <;> rfl

/-- A descriptor that has its spool key does not panic in `publish`. -/
theorem publish_no_panic (d : xferDescr) (key : spool.SpoolKey) (hkey : d.spoolKey = some key)
    (syncOk closeOk : Bool) (fs : spool.Files) (uniq : List Nat) :
    (d.publish syncOk closeOk fs uniq).2 ≠ some .panic := by
  unfold xferDescr.publish xferDescr.abort
  simp only [hkey]
  split_ifs
  · simp
  · simp
  · rcases spool.Publish fs uniq key with ⟨fs1, _ | e⟩ <;> simp

/-- C21: in the state `gotFile`, with a request in progress that has its
spool key (as `fileRecvRequested` leaves it).  Whatever the context: when
publishing fails nothing is written to the peer, no GOT in particular, and
the receiver ends with an error; so anything written means that the file was
published.  With a live context: the GOT frame of the file (and a flush) is
written, and the receiver goes on to `waitForFile`, if and only if
publishing succeeded; and when publishing fails an ERR frame is sent on the
urgent channel. -/
theorem gotFile_GOT_iff_published (syncOk closeOk : Bool) (uniq : List Nat)
    (s : recvrSession) (descr : xferDescr) (key : spool.SpoolKey)
    (hreq : s.request = some descr) (hkey : descr.spoolKey = some key) :
    ((descr.publish syncOk closeOk s.files uniq).2 ≠ none →
      (gotFile syncOk closeOk uniq s).s.session.writeFrames = s.session.writeFrames ∧
      (gotFile syncOk closeOk uniq s).next = none ∧
      (gotFile syncOk closeOk uniq s).err = some .internalServerError) ∧
    ((gotFile syncOk closeOk uniq s).s.session.writeFrames ≠ s.session.writeFrames →
      (descr.publish syncOk closeOk s.files uniq).2 = none) ∧
    (gotFile syncOk closeOk uniq s).s.files = (descr.publish syncOk closeOk s.files uniq).1 ∧
    (s.session.ctxDone = false →
      (((gotFile syncOk closeOk uniq s).s.session.writeFrames =
          s.session.writeFrames ++
            [some (.GotCmd descr.FileKey.FileName descr.FileKey.Size descr.FileKey.TimeStamp),
              none] ∧
          (gotFile syncOk closeOk uniq s).next = some .waitForFile ∧
          (gotFile syncOk closeOk uniq s).err = none) ↔
        (descr.publish syncOk closeOk s.files uniq).2 = none) ∧
      ((descr.publish syncOk closeOk s.files uniq).2 ≠ none →
        (gotFile syncOk closeOk uniq s).s.session.urgentErr =
          s.session.urgentErr ++ [.ErrorCmd (str "internal server error")])) := by
  have hnp := publish_no_panic descr key hkey syncOk closeOk s.files uniq
  rcases hp : descr.publish syncOk closeOk s.files uniq with ⟨fs, _ | e⟩
  · -- published
    have hlive : s.session.ctxDone = false → gotFile syncOk closeOk uniq s =
        { s :=
            { session :=
                { s.session with
                  writeFrames := s.session.writeFrames ++
                    [some (frame.NewGot descr.FileKey.FileName descr.FileKey.Size
                      descr.FileKey.TimeStamp), none] }
              request := none
              files := fs }
          next := some .waitForFile
          err := none } := by
      intro hc
      unfold gotFile
      simp only [hreq, hp]
      rw [WriteSyncFrame_live _ _ hc]
    have hdead : s.session.ctxDone = true → gotFile syncOk closeOk uniq s =
        recvEnd { session := s.session, request := none, files := fs } (some .writingGOT) := by
      intro hc
      unfold gotFile
      simp only [hreq, hp]
      rw [WriteSyncFrame_cancelled _ _ hc]
    refine ⟨fun h => absurd rfl h, fun _ => rfl, ?_, ?_⟩
    · by_cases hc : s.session.ctxDone = true
      · rw [hdead hc]; rfl
      · rw [hlive (by simpa using hc)]
    · intro hc
      rw [hlive hc]
      exact ⟨⟨fun _ => rfl, fun _ => ⟨rfl, rfl, rfl⟩⟩, fun h => absurd rfl h⟩
  · -- not published
    have hg : gotFile syncOk closeOk uniq s =
        recvError { s with request := none, files := fs } := by
      rw [hp] at hnp
      unfold gotFile
      simp only [hreq, hp]
      cases e <;> first | rfl | exact absurd rfl hnp
    have hw : (gotFile syncOk closeOk uniq s).s.session.writeFrames = s.session.writeFrames := by
      rw [hg]
      exact SendErrorCmd_writeFrames _ _
    refine ⟨fun _ => ⟨hw, by rw [hg]; rfl, by rw [hg]; rfl⟩, fun h => absurd hw h,
      by rw [hg]; rfl, ?_⟩
    intro hc
    refine ⟨⟨fun h => ?_, fun h => by simp at h⟩, fun _ => ?_⟩
    · rw [hw] at h
      have := congrArg List.length h.1
      simp at this
    · rw [hg]
      unfold recvError recvEnd
      simp only
      rw [SendErrorCmd_live _ _ hc]

theorem gotFile_GOT_iff_published_witness :
    (gotFile true true (str "u")
        { session := NewSession ⟨[], [], [], [], fun _ => none⟩
          request := some
            { FileKey := ⟨str "f", 1, 0⟩, offset := 1,
              spoolKey := some ⟨str "k", 0, ⟨str "f", 1, 0⟩⟩, spoolFile := true }
          files := fun d n => if d = str "tmp" ∧ n = str "k" then some (.data [7])
            else none }).s.session.writeFrames =
      [some (.GotCmd (str "f") 1 0), none] ∧
    (gotFile true true (str "u")
        { session := NewSession ⟨[], [], [], [], fun _ => none⟩
          request := some
            { FileKey := ⟨str "f", 1, 0⟩, offset := 1,
              spoolKey := some ⟨str "k", 0, ⟨str "f", 1, 0⟩⟩, spoolFile := true }
          files := fun d n => if d = str "tmp" ∧ n = str "k" then some (.data [7])
            else none }).s.files (str "new") (str "k") = some (.data [7]) :=
  have h := gotFile_GOT_iff_published true true (str "u")
    { session := NewSession ⟨[], [], [], [], fun _ => none⟩
      request := some
        { FileKey := ⟨str "f", 1, 0⟩, offset := 1,
          spoolKey := some ⟨str "k", 0, ⟨str "f", 1, 0⟩⟩, spoolFile := true }
      files := fun d n => if d = str "tmp" ∧ n = str "k" then some (.data [7])
        else none }
    { FileKey := ⟨str "f", 1, 0⟩, offset := 1,
      spoolKey := some ⟨str "k", 0, ⟨str "f", 1, 0⟩⟩, spoolFile := true }
    ⟨str "k", 0, ⟨str "f", 1, 0⟩⟩ rfl rfl
  ⟨((h.2.2.2 rfl).1.2 (by decide)).1,
    (congrFun (congrFun h.2.2.1 (str "new")) (str "k")).trans (by decide)⟩

end transfer

namespace transfer

open session

/-! ## The transmitter: the queue that is saved at the end -/

/-- The status that a frame gives to the file `key`, from the status `st`. -/
theorem specStatus_cons (key : spool.FileKey) (f : frame.Frame) (evs : List frame.Frame)
    (st : queueStatus) :
    (f :: evs).foldl
        (fun st f => if makeKeyFromQueueingFrame f = some key then statusOf f else st) st =
      evs.foldl (fun st f => if makeKeyFromQueueingFrame f = some key then statusOf f else st)
        (if makeKeyFromQueueingFrame f = some key then statusOf f else st) := rfl

theorem removeFromActive_ok (key : spool.FileKey) (active : List xferDescr)
    (h : ∀ d ∈ active, d.spoolKey.isSome = true) :
    ∃ newActive, removeFromActive key active = some newActive ∧
      ∀ d ∈ newActive, d.spoolKey.isSome = true := by
  induction active with
  | nil => exact ⟨[], rfl, by simp⟩
  | cons entry active ih =>
    obtain ⟨na, h1, h2⟩ := ih (fun d hd => h d (List.mem_cons_of_mem _ hd))
    have he := h entry (List.mem_cons_self _ _)
    obtain ⟨k, hk⟩ := Option.isSome_iff_exists.1 he
    rw [removeFromActive, hk, h1]
    simp only
    split_ifs
    · exact ⟨na, rfl, h2⟩
    · refine ⟨entry :: na, rfl, ?_⟩
      intro d hd
      rcases List.mem_cons.1 hd with rfl | hd
      · exact he
      · exact h2 d hd

/-- One frame of the channel: the transmitter does not panic on a GET, GOT or
SKIP frame; the queue is left as it is, the status of the file named becomes
that of the frame, and the files of `tmp` are left as they are. -/
theorem queueing_step (s : xmitrSession) (f : frame.Frame)
    (hact : ∀ d ∈ s.active, d.spoolKey.isSome = true)
    (hf : (makeKeyFromQueueingFrame f).isSome = true) :
    ∃ s2, s.queueing f = some s2 ∧ s2.queue = s.queue ∧
      (∀ d ∈ s2.active, d.spoolKey.isSome = true) ∧
      (∀ key, (s2.lookup key).map (fun e => e.status) =
        (s.lookup key).map (fun e =>
          if makeKeyFromQueueingFrame f = some key then statusOf f else e.status)) ∧
      (∀ nm, s2.files (str "tmp") nm = s.files (str "tmp") nm) := by
  have htc : str "tmp" ≠ str "cur" := by decide
  have hlook : ∀ (k : spool.FileKey) (e : queueEntry) (st : queueStatus),
      s.lookup k = some e → ∀ key,
      (setEntry s.lookup k { e with status := st } key).map (fun e => e.status) =
        (s.lookup key).map (fun e => if some k = some key then st else e.status) := by
    intro k e st hk key
    unfold setEntry
    by_cases h : key = k
    · subst h; simp [hk]
    · have h2 : ¬ (some k = some key) := fun x => h (Option.some.inj x).symm
      simp only [h, if_false, h2]
  cases f with
  | GetCmd name size ts off =>
    simp only [xmitrSession.queueing, makeKeyFromQueueingFrame, xmitrSession.get]
    cases hl : s.lookup (spool.NewFileKey name size ts) with
    | none =>
      refine ⟨s, rfl, rfl, hact, ?_, fun _ => rfl⟩
      intro key
      by_cases h : key = spool.NewFileKey name size ts
      · subst h; simp [hl]
      · have h2 : ¬ (some (spool.NewFileKey name size ts) = some key) :=
          fun x => h (Option.some.inj x).symm
        simp [h2]
    | some e =>
      obtain ⟨na, h1, h2⟩ := removeFromActive_ok (spool.NewFileKey name size ts) s.active hact
      simp only [h1]
      refine ⟨_, rfl, rfl, ?_, ?_, fun _ => rfl⟩
      · intro d hd
        rcases List.mem_append.1 hd with hd | hd
        · exact h2 d hd
        · rw [List.mem_singleton] at hd; subst hd; rfl
      · intro key
        exact hlook _ e _ hl key
  | GotCmd name size ts =>
    simp only [xmitrSession.queueing, makeKeyFromQueueingFrame, xmitrSession.got]
    cases hl : s.lookup (spool.NewFileKey name size ts) with
    | none =>
      refine ⟨s, rfl, rfl, hact, ?_, fun _ => rfl⟩
      intro key
      by_cases h : key = spool.NewFileKey name size ts
      · subst h; simp [hl]
      · have h2 : ¬ (some (spool.NewFileKey name size ts) = some key) :=
          fun x => h (Option.some.inj x).symm
        simp [h2]
    | some e =>
      obtain ⟨na, h1, h2⟩ := removeFromActive_ok (spool.NewFileKey name size ts) s.active hact
      simp only [h1]
      refine ⟨_, rfl, rfl, h2, ?_, ?_⟩
      · intro key
        exact hlook _ e _ hl key
      · intro nm
        simp only [spool.Remove]
        rw [spool.osRemove_apply]
        simp [htc]
  | SkipCmd name size ts =>
    simp only [xmitrSession.queueing, makeKeyFromQueueingFrame, xmitrSession.skip]
    cases hl : s.lookup (spool.NewFileKey name size ts) with
    | none =>
      refine ⟨s, rfl, rfl, hact, ?_, fun _ => rfl⟩
      intro key
      by_cases h : key = spool.NewFileKey name size ts
      · subst h; simp [hl]
      · have h2 : ¬ (some (spool.NewFileKey name size ts) = some key) :=
          fun x => h (Option.some.inj x).symm
        simp [h2]
    | some e =>
      obtain ⟨na, h1, h2⟩ := removeFromActive_ok (spool.NewFileKey name size ts) s.active hact
      simp only [h1]
      refine ⟨_, rfl, rfl, h2, ?_, fun _ => rfl⟩
      intro key
      exact hlook _ e _ hl key
  | _ => simp [makeKeyFromQueueingFrame] at hf

/-- The frames of the channel, one after the other. -/
theorem queueingAll_status (evs : List frame.Frame) : ∀ (s : xmitrSession),
    (∀ d ∈ s.active, d.spoolKey.isSome = true) →
    (∀ f ∈ evs, (makeKeyFromQueueingFrame f).isSome = true) →
    ∃ s2, s.queueingAll evs = some s2 ∧ s2.queue = s.queue ∧
      (∀ key, (s2.lookup key).map (fun e => e.status) =
        (s.lookup key).map (fun e => evs.foldl
          (fun st f => if makeKeyFromQueueingFrame f = some key then statusOf f else st)
          e.status)) ∧
      (∀ nm, s2.files (str "tmp") nm = s.files (str "tmp") nm) := by
  induction evs with
  | nil =>
    intro s _ _
    exact ⟨s, rfl, rfl, fun key => by cases s.lookup key <;> rfl, fun _ => rfl⟩
  | cons f evs ih =>
    intro s hact hf
    obtain ⟨s1, a1, a2, a3, a4, a5⟩ :=
      queueing_step s f hact (hf f (List.mem_cons_self _ _))
    obtain ⟨s2, b1, b2, b3, b4⟩ := ih s1 a3 (fun g hg => hf g (List.mem_cons_of_mem _ hg))
    refine ⟨s2, ?_, b2.trans a2, ?_, fun nm => (b4 nm).trans (a5 nm)⟩
    · rw [xmitrSession.queueingAll, a1]
      exact b1
    · intro key
      rw [b3 key]
      have := a4 key
      cases h1 : s1.lookup key with
      | none =>
        rw [h1] at this
        cases h0 : s.lookup key with
        | none => rfl
        | some e0 => rw [h0] at this; simp at this
      | some e1 =>
        rw [h1] at this
        cases h0 : s.lookup key with
        | none => rw [h0] at this; simp at this
        | some e0 =>
          rw [h0] at this
          simp only [Option.map_some', Option.some.injEq] at this ⊢
          rw [this]
          rfl

/-- The loop of `loadQueue` keeps an entry of the lookup table that is
pending. -/
theorem loadEntries_keeps (queue : List spool.SpoolKey) : ∀ (s : xmitrSession)
    (key : spool.FileKey),
    (∃ e, s.lookup key = some e ∧ e.status = .queuePending) →
    ∃ e, (loadEntries queue s).lookup key = some e ∧ e.status = .queuePending := by
  induction queue with
  | nil => intro s key h; exact h
  | cons entry queue ih =>
    intro s key h
    rw [loadEntries]
    apply ih
    simp only [setEntry]
    by_cases hk : key = entry.ToFileKey
    · exact ⟨_, by rw [if_pos hk], rfl⟩
    · rw [if_neg hk]; exact h

/-- What `loadQueue` leaves after its loop: the queue read, a pending entry of
the lookup table for every file of the queue, descriptors with spool keys, and
the same files. -/
theorem loadEntries_ok (queue : List spool.SpoolKey) : ∀ (s : xmitrSession),
    (loadEntries queue s).queue = s.queue ++ queue ∧
    (∀ v ∈ queue, ∃ e, (loadEntries queue s).lookup v.FileKey = some e ∧
      e.status = .queuePending) ∧
    ((∀ d ∈ s.active, d.spoolKey.isSome = true) →
      ∀ d ∈ (loadEntries queue s).active, d.spoolKey.isSome = true) ∧
    (loadEntries queue s).files = s.files ∧
    (loadEntries queue s).session = s.session := by
  induction queue with
  | nil => intro s; simp [loadEntries]
  | cons entry queue ih =>
    intro s
    rw [loadEntries]
    obtain ⟨h1, h2, h3, h4, h5⟩ := ih
      { s with
        queue := s.queue ++ [entry]
        lookup := setEntry s.lookup entry.ToFileKey { spoolKey := entry, status := .queuePending }
        active := s.active ++ [xferDescrFromSpoolKey entry 0] }
    refine ⟨by rw [h1]; simp, ?_, ?_, h4, h5⟩
    · intro v hv
      rcases List.mem_cons.1 hv with rfl | hv
      · apply loadEntries_keeps
        exact ⟨{ spoolKey := v, status := .queuePending },
          by simp [setEntry, spool.SpoolKey.ToFileKey], rfl⟩
      · exact h2 v hv
    · intro hact
      apply h3
      intro d hd
      rcases List.mem_append.1 hd with hd | hd
      · exact hact d hd
      · rw [List.mem_singleton] at hd; subst hd; rfl

/-- What `put` saves, with the test on the status written without a case
distinction. -/
theorem put_eq (s : xmitrSession) (uniq : List Nat) :
    s.put uniq =
      ({ s with files := (spool.SaveQueue s.files uniq (str "cur") (str "Queue")
          (s.queue.filter (fun v =>
            ((s.lookup v.FileKey).map (fun e => e.status != .queueDone)).getD false))).1 },
        (spool.SaveQueue s.files uniq (str "cur") (str "Queue")
          (s.queue.filter (fun v =>
            ((s.lookup v.FileKey).map (fun e => e.status != .queueDone)).getD false))).2) := by
  have e : ∀ P Q : spool.SpoolKey → Bool, (∀ v, P v = Q v) →
      s.queue.filter P = s.queue.filter Q := fun P Q h => by rw [funext h]
  unfold xmitrSession.put
  simp only
  rw [e _ (fun v => ((s.lookup v.FileKey).map (fun e => e.status != .queueDone)).getD false)
    (fun v => by beta_reduce; cases s.lookup v.FileKey <;> rfl)]

/-- C22: when `loadQueue` succeeds, the loaded queue is what `cur/Queue` holds
once the published queue is taken over; and for every sequence of GET, GOT
and SKIP frames handled after it (the transmitter does not panic on them), the
queue that `xmitEnd` saves as `cur/Queue`, the name of its temporary file
being new, is the residual queue of the specification: the entries of the
loaded queue, in their order, whose file is not done after these frames.  It
is a sublist of the loaded queue that keeps every entry whose file is pending
or skipped. -/
theorem xmitEnd_saves_residual (files : spool.Files) (sess : Session) (u1 u2 : List Nat)
    (s1 : xmitrSession) (evs : List frame.Frame)
    (hload : (makeXmitrSession files sess).loadQueue u1 = (s1, none))
    (hevs : ∀ f ∈ evs, (makeKeyFromQueueingFrame f).isSome = true)
    (hfresh : s1.files (str "tmp") (u2 ++ str ".Queue") = none) :
    (spool.ReadQueue (spool.ConsumeAndConcatQueues files u1 (str "new") (str "Queue")
      (str "cur") (str "Queue")).1 (str "cur") (str "Queue")).2 = .ok s1.queue ∧
    ∃ s2, s1.queueingAll evs = some s2 ∧
      (xmitEnd u2 s2).files (str "cur") (str "Queue") =
        some (.queue (specResidual s1.queue evs)) ∧
      (specResidual s1.queue evs).Sublist s1.queue ∧
      (∀ v ∈ s1.queue, specStatus v.FileKey evs ≠ .queueDone →
        v ∈ specResidual s1.queue evs) ∧
      (∀ v ∈ specResidual s1.queue evs, specStatus v.FileKey evs ≠ .queueDone) := by
  -- what `loadQueue` returned
  unfold xmitrSession.loadQueue at hload
  rcases hc : spool.ConsumeAndConcatQueues (makeXmitrSession files sess).files u1 (str "new")
    (str "Queue") (str "cur") (str "Queue") with ⟨fs1, _ | e1⟩
  swap
  · rw [hc] at hload
    simp at hload
  rw [hc] at hload
  simp only at hload
  rcases hr : spool.ReadQueue fs1 (str "cur") (str "Queue") with ⟨fs2, e2 | queue⟩
  · rw [hr] at hload
    simp at hload
  rw [hr] at hload
  simp only [Prod.mk.injEq, and_true] at hload
  obtain ⟨l1, l2, l3, l4, -⟩ := loadEntries_ok queue
    { makeXmitrSession files sess with
      files := fs2, pending := queue.length, queue := [], active := [] }
  rw [hload] at l1 l2 l3 l4
  simp only [List.nil_append] at l1
  have hfiles : (makeXmitrSession files sess).files = files := rfl
  rw [hfiles] at hc
  refine ⟨by rw [hc, hr, l1], ?_⟩
  obtain ⟨s2, q1, q2, q3, q4⟩ := queueingAll_status evs s1 (l3 (by simp)) hevs
  refine ⟨s2, q1, ?_, ?_, ?_, ?_⟩
  · have hf2 : s2.files (str "tmp") (u2 ++ str ".Queue") = none := by rw [q4, hfresh]
    have hfilter : s2.queue.filter (fun v =>
        ((s2.lookup v.FileKey).map (fun e => e.status != .queueDone)).getD false) =
          specResidual s1.queue evs := by
      rw [q2]
      unfold specResidual
      apply List.filter_congr
      intro v hv
      obtain ⟨e, he1, he2⟩ := l2 v (by rw [← l1]; exact hv)
      have := q3 v.FileKey
      rw [he1] at this
      simp only [Option.map_some', he2] at this
      cases h2 : s2.lookup v.FileKey with
      | none => rw [h2] at this; simp at this
      | some e2 =>
        rw [h2] at this
        simp only [Option.map_some', Option.some.injEq] at this
        simp only [Option.map_some', Option.getD_some, this]
        rfl
    obtain ⟨-, s⟩ := spool.SaveQueue_fresh s2.files u2 (str "cur") (str "Queue")
      (specResidual s1.queue evs) hf2
    unfold xmitEnd
    rw [put_eq]
    simp only [hfilter]
    rw [s]
    simp
  · exact List.filter_sublist _
  · intro v hv hs
    unfold specResidual
    rw [List.mem_filter]
    exact ⟨hv, by simpa using hs⟩
  · intro v hv
    unfold specResidual at hv
    rw [List.mem_filter] at hv
    simpa using hv.2

theorem xmitEnd_saves_residual_witness :
    ∃ s2,
      ((makeXmitrSession
          (fun d n => if d = str "cur" ∧ n = str "Queue" then
              some (.queue [⟨str "a", 0, ⟨str "f", 1, 0⟩⟩, ⟨str "b", 0, ⟨str "g", 2, 0⟩⟩,
                ⟨str "c", 0, ⟨str "h", 3, 0⟩⟩])
            else none)
          (NewSession ⟨[], [], [], [], fun _ => none⟩)).loadQueue (str "u1")).1.queueingAll
          [.GotCmd (str "f") 1 0, .SkipCmd (str "g") 2 0, .GotCmd (str "h") 3 0,
            .GetCmd (str "h") 3 0 0] = some s2 ∧
      (xmitEnd (str "u2") s2).files (str "cur") (str "Queue") =
        some (.queue (specResidual
          ((makeXmitrSession
            (fun d n => if d = str "cur" ∧ n = str "Queue" then
                some (.queue [⟨str "a", 0, ⟨str "f", 1, 0⟩⟩, ⟨str "b", 0, ⟨str "g", 2, 0⟩⟩,
                  ⟨str "c", 0, ⟨str "h", 3, 0⟩⟩])
              else none)
            (NewSession ⟨[], [], [], [], fun _ => none⟩)).loadQueue (str "u1")).1.queue
          [.GotCmd (str "f") 1 0, .SkipCmd (str "g") 2 0, .GotCmd (str "h") 3 0,
            .GetCmd (str "h") 3 0 0])) :=
  have h := xmitEnd_saves_residual
    (fun d n => if d = str "cur" ∧ n = str "Queue" then
        some (.queue [⟨str "a", 0, ⟨str "f", 1, 0⟩⟩, ⟨str "b", 0, ⟨str "g", 2, 0⟩⟩,
          ⟨str "c", 0, ⟨str "h", 3, 0⟩⟩])
      else none)
    (NewSession ⟨[], [], [], [], fun _ => none⟩) (str "u1") (str "u2")
    ((makeXmitrSession
      (fun d n => if d = str "cur" ∧ n = str "Queue" then
          some (.queue [⟨str "a", 0, ⟨str "f", 1, 0⟩⟩, ⟨str "b", 0, ⟨str "g", 2, 0⟩⟩,
            ⟨str "c", 0, ⟨str "h", 3, 0⟩⟩])
        else none)
      (NewSession ⟨[], [], [], [], fun _ => none⟩)).loadQueue (str "u1")).1
    [.GotCmd (str "f") 1 0, .SkipCmd (str "g") 2 0, .GotCmd (str "h") 3 0,
      .GetCmd (str "h") 3 0 0]
    (Prod.ext rfl (by decide)) (by decide) (by decide)
  let ⟨s2, h1, h2, _⟩ := h.2
  ⟨s2, h1, h2⟩

end transfer

namespace frame

/-! ## The file key through a FILE and a GOT frame -/

/-- A command that `WriteBytes` encodes has a payload that fits in a frame. -/
theorem WriteBytes_cmd_fits (F : Frame) (hF : ∀ d, F ≠ .Data d)
    (h : (WriteBytes F []).1 = none) : (cmdBuffer F).length - 2 ≤ 32767 := by
  rw [(payload_cmd_length F hF).1] at h
  unfold copyCmdOut encodeCmdHeader MaxFrameSize at h
  by_contra hgt
  rw [if_pos (by omega)] at h
  simp at h

/-- A FILE frame without CRC and flags that is encoded is read back as it was
written. -/
theorem Read_WriteBytes_file (name : List Nat) (size ts off : Int) (rest : List Nat)
    (hn : tokenOk name = true) (h1 : InInt64 size) (h2 : InInt64 ts) (h3 : InInt64 off)
    (henc : (WriteBytes (.FileCmd name size ts off 0 []) []).1 = none) :
    Read ((WriteBytes (.FileCmd name size ts off 0 []) []).2 ++ rest) =
      (.ok (.FileCmd name size ts off 0 []), rest) := by
  have hb := cmdBuffer_file name size ts off
  have hfit := WriteBytes_cmd_fits _ (by simp) henc
  have hl : (unwords [name, formatInt size, formatInt ts, formatInt off]).length + 1
      ≤ 32767 := by
    rw [hb] at hfit
    simpa using hfit
  obtain ⟨-, e2⟩ := Read_WriteBytes_cmd _ (by simp) _ _ rest hb hl
  rw [e2, decodeFrame_cmd _ _ _ _ (by omega), if_neg (by decide), if_neg (by decide),
    if_neg (by decide), if_pos rfl, decodeFileCmd_unwords name size ts off hn h1 h2 h3]

/-- A GOT frame that fits in a frame is written and read back as it was
written. -/
theorem Read_WriteBytes_got (name : List Nat) (size ts : Int) (rest : List Nat)
    (hn : tokenOk name = true) (h1 : InInt64 size) (h2 : InInt64 ts)
    (hl : (unwords [name, formatInt size, formatInt ts]).length + 1 ≤ 32767) :
    (WriteBytes (.GotCmd name size ts) []).1 = none ∧
    Read ((WriteBytes (.GotCmd name size ts) []).2 ++ rest) =
      (.ok (.GotCmd name size ts), rest) := by
  have hb := cmdBuffer_got name size ts
  obtain ⟨e1, e2⟩ := Read_WriteBytes_cmd _ (by simp) _ _ rest hb hl
  refine ⟨e1, ?_⟩
  rw [e2, decodeFrame_cmd _ _ _ _ (by omega), if_neg (by decide), if_neg (by decide),
    if_neg (by decide), if_neg (by decide), if_neg (by decide), if_neg (by decide),
    if_pos rfl, decodeGotCmd_unwords name size ts hn h1 h2]

end frame

namespace transfer

/-- C26: for every descriptor of the transmitter whose file key k has a
non-empty name without white space (size, time stamp and offset being 64-bit
integers) and whose FILE frame `fileCmd` is encoded by `WriteBytes`: `Read`
of the bytes written returns a FILE frame from which `NewXferDescr` makes a
descriptor with file key k and the same offset; and the GOT frame that the
receiver builds from that descriptor is encoded and read back as a frame that
`makeKeyFromQueueingFrame` maps to k. -/
theorem FileKey_through_FILE_and_GOT (d0 : xferDescr) (rest rest2 : List Nat)
    (hname : tokenOk d0.FileKey.FileName = true)
    (hs : InInt64 d0.FileKey.Size) (ht : InInt64 d0.FileKey.TimeStamp) (ho : InInt64 d0.offset)
    (henc : (frame.WriteBytes d0.fileCmd []).1 = none) :
    ∃ f d g,
      frame.Read ((frame.WriteBytes d0.fileCmd []).2 ++ rest) = (.ok f, rest) ∧
      NewXferDescr f = some d ∧ d.FileKey = d0.FileKey ∧ d.offset = d0.offset ∧
      (frame.WriteBytes
        (frame.NewGot d.FileKey.FileName d.FileKey.Size d.FileKey.TimeStamp) []).1 = none ∧
      frame.Read ((frame.WriteBytes
        (frame.NewGot d.FileKey.FileName d.FileKey.Size d.FileKey.TimeStamp) []).2 ++ rest2) =
        (.ok g, rest2) ∧
      makeKeyFromQueueingFrame g = some d0.FileKey := by
  have hfile := frame.Read_WriteBytes_file _ _ _ _ rest hname hs ht ho henc
  have hfit := frame.WriteBytes_cmd_fits _ (by simp [xferDescr.fileCmd, frame.NewFileCmd]) henc
  have hl : (unwords [d0.FileKey.FileName, formatInt d0.FileKey.Size,
      formatInt d0.FileKey.TimeStamp]).length + 1 ≤ 32767 := by
    have hb := frame.cmdBuffer_file d0.FileKey.FileName d0.FileKey.Size d0.FileKey.TimeStamp
      d0.offset
    unfold xferDescr.fileCmd frame.NewFileCmd at hfit
    rw [hb] at hfit
    simp [unwords] at hfit ⊢
    omega
  obtain ⟨g1, g2⟩ := frame.Read_WriteBytes_got _ _ _ rest2 hname hs ht hl
  exact ⟨_, _, _, hfile, rfl, rfl, rfl, g1, g2, rfl⟩

theorem FileKey_through_FILE_and_GOT_witness :
    ∃ f d g,
      frame.Read ((frame.WriteBytes
        (xferDescr.fileCmd ⟨⟨str "foo.txt", 1234, 100⟩, 2, none, false⟩) []).2 ++ [7]) =
          (.ok f, [7]) ∧
      NewXferDescr f = some d ∧
      d.FileKey = (xferDescr.mk ⟨str "foo.txt", 1234, 100⟩ 2 none false).FileKey ∧
      d.offset = (xferDescr.mk ⟨str "foo.txt", 1234, 100⟩ 2 none false).offset ∧
      (frame.WriteBytes
        (frame.NewGot d.FileKey.FileName d.FileKey.Size d.FileKey.TimeStamp) []).1 = none ∧
      frame.Read ((frame.WriteBytes
        (frame.NewGot d.FileKey.FileName d.FileKey.Size d.FileKey.TimeStamp) []).2 ++ [8]) =
        (.ok g, [8]) ∧
      makeKeyFromQueueingFrame g =
        some (xferDescr.mk ⟨str "foo.txt", 1234, 100⟩ 2 none false).FileKey :=
  FileKey_through_FILE_and_GOT ⟨⟨str "foo.txt", 1234, 100⟩, 2, none, false⟩ [7] [8]
    (by decide) (by decide) (by decide) (by decide) (by decide)

end transfer

namespace frame

/-! ## The log text of a password -/

/-- C40: for any two passwords that do not begin with `CRAM-` the text of
`PasswdCmd.String` is the same, `PWD: (password)`; and for a password that
begins with `CRAM-` it is `PWD: ` followed by the password. -/
theorem PasswdCmd_String_hides_cleartext (p q : List Nat)
    (hp : HasPrefix p (str "CRAM-") = false) (hq : HasPrefix q (str "CRAM-") = false) :
    PasswdCmd.String p = str "PWD: (password)" ∧
    PasswdCmd.String p = PasswdCmd.String q ∧
    (∀ c, HasPrefix c (str "CRAM-") = true → PasswdCmd.String c = str "PWD: " ++ c) := by
  refine ⟨?_, ?_, ?_⟩
  · unfold PasswdCmd.String
    rw [hp]
    rfl
  · unfold PasswdCmd.String
    rw [hp, hq]
    rfl
  · intro c hc
    unfold PasswdCmd.String
    rw [if_pos hc]

theorem PasswdCmd_String_hides_cleartext_witness :
    PasswdCmd.String (str "THISISNOTMYPASSWORD") = str "PWD: (password)" ∧
    PasswdCmd.String (str "THISISNOTMYPASSWORD") = PasswdCmd.String (str "secret") ∧
    (∀ c, HasPrefix c (str "CRAM-") = true → PasswdCmd.String c = str "PWD: " ++ c) :=
  PasswdCmd_String_hides_cleartext (str "THISISNOTMYPASSWORD") (str "secret")
    (by decide) (by decide)

end frame

/-! ## Unique names -/

/-- Two texts that end in the same byte `c` followed by runs without `c` have
the same runs. -/
theorem last_run_eq (c : Nat) (a1 a2 d1 d2 : List Nat) (h1 : c ∉ d1) (h2 : c ∉ d2)
    (h : a1 ++ c :: d1 = a2 ++ c :: d2) : d1 = d2 := by
  induction a1 generalizing a2 with
  | nil =>
    cases a2 with
    | nil => simpa using h
    | cons x a2 =>
      simp only [List.nil_append, List.cons_append, List.cons.injEq] at h
      exact absurd (h.2 ▸ (by simp : c ∈ a2 ++ c :: d2)) h1
  | cons y a1 ih =>
    cases a2 with
    | nil =>
      simp only [List.nil_append, List.cons_append, List.cons.injEq] at h
      exact absurd (h.2 ▸ (by simp : c ∈ a1 ++ c :: d1)) h2
    | cons x a2 =>
      simp only [List.cons_append, List.cons.injEq] at h
      exact ih a2 h.2

/-- The decimal rendering of a natural number tells the number. -/
theorem formatNat_injective (m n : Nat) (h : formatNat m = formatNat n) : m = n := by
  have h1 := parseDigits_formatNat m
  rw [h, parseDigits_formatNat] at h1
  exact (Option.some.inj h1).symm

namespace spool

/-- C39: for a fixed process (the same pid, host name and start sequence
number), two names built by `uniqueName` with different sequence numbers are
different, whatever the clock and the random text give in the two calls. -/
theorem uniqueName_differs (pid : Int) (hostname : List Nat) (startSeqNo : Nat)
    (seq1 seq2 : Nat) (r1 r2 : List Nat) (unix1 unixNano1 unix2 unixNano2 : Int)
    (h : seq1 ≠ seq2) :
    uniqueName pid hostname startSeqNo seq1 r1 unix1 unixNano1 ≠
      uniqueName pid hostname startSeqNo seq2 r2 unix2 unixNano2 := by
  intro e
  unfold uniqueName at e
  have e1 := List.append_cancel_right e
  have e2 := List.append_cancel_right e1
  rw [List.append_assoc _ (str "Q")] at e2
  rw [List.append_assoc _ (str "Q")] at e2
  have hd : ∀ n, 81 ∉ formatNat n := by
    intro n hn
    have := formatNat_digits n 81 hn
    omega
  have e3 := last_run_eq 81 _ _ (formatNat seq1) (formatNat seq2) (hd seq1) (hd seq2) e2
  exact h (formatNat_injective _ _ e3)

theorem uniqueName_differs_witness :
    uniqueName 4242 (str "host.example") 7 0 (str "00ff") 1700000000 1700000000123456789 ≠
      uniqueName 4242 (str "host.example") 7 1 (str "00ff") 1700000000 1700000000123456789 :=
  uniqueName_differs 4242 (str "host.example") 7 0 1 (str "00ff") (str "00ff")
    1700000000 1700000000123456789 1700000000 1700000000123456789 (by decide)

end spool

namespace frame

/-! ## `Read` never fails at run time -/

theorem parseAddrs_no_panic (l : List (List Nat)) : parseAddrs l ≠ .error .panic := by
  induction l with
  | nil => simp [parseAddrs]
  | cons a l ih =>
    unfold parseAddrs
    rcases ftn.ParseAddress a with ⟨addr, _ | e⟩
    · simp only
      cases h : parseAddrs l with
      | error err =>
        simp only
        intro e2
        rw [h] at ih
        exact ih (by rw [Except.error.inj e2])
      | ok addrs => simp
    · simp

theorem decodeAddressCmd_no_panic (data : List Nat) : decodeAddressCmd data ≠ .error .panic := by
  unfold decodeAddressCmd
  simp only
  cases h : parseAddrs (Fields (dataToString data)) with
  | error err =>
    simp only
    intro e2
    exact parseAddrs_no_panic _ (by rw [h, Except.error.inj e2])
  | ok addrs => simp

theorem decodeFileCmd_no_panic (data : List Nat) : decodeFileCmd data ≠ .error .panic := by
  rw [decodeFileCmd_eq]
  split
  · cases ParseInt _ <;> simp only
    · simp
    · cases ParseInt _ <;> simp only
      · simp
      · cases ParseInt _ <;> simp
  · simp

theorem decodeGotCmd_no_panic (data : List Nat) : decodeGotCmd data ≠ .error .panic := by
  unfold decodeGotCmd
  cases decodeFileIDParams data with
  | error err => simp
  | ok v => obtain ⟨a, b, c⟩ := v; simp

theorem decodeFrame_no_panic (h0 h1 : Nat) (data : List Nat) (hd : data ≠ []) :
    decodeFrame (h0, h1) data ≠ .error .panic := by
  by_cases h : h0 < 128
  · rw [decodeFrame_data h0 h1 data h]
    exact fun e => by cases e
  · cases data with
    | nil => exact absurd rfl hd
    | cons op data =>
      rw [decodeFrame_cmd h0 h1 op data (by omega)]
      by_cases c0 : op = CmdNUL
      · rw [if_pos c0, decodeNullCmd_eq]
        exact fun e => by cases e
      rw [if_neg c0]
      by_cases c1 : op = CmdADR
      · rw [if_pos c1]
        exact decodeAddressCmd_no_panic data
      rw [if_neg c1]
      by_cases c2 : op = CmdPWD
      · rw [if_pos c2]
        exact fun e => by cases e
      rw [if_neg c2]
      by_cases c3 : op = CmdFILE
      · rw [if_pos c3]
        exact decodeFileCmd_no_panic data
      rw [if_neg c3]
      by_cases c4 : op = CmdOK
      · rw [if_pos c4]
        exact fun e => by cases e
      rw [if_neg c4]
      by_cases c5 : op = CmdEOB
      · rw [if_pos c5]
        exact fun e => by cases e
      rw [if_neg c5]
      by_cases c6 : op = CmdGOT
      · rw [if_pos c6]
        exact decodeGotCmd_no_panic data
      rw [if_neg c6]
      by_cases c7 : op = CmdERR
      · rw [if_pos c7]
        exact fun e => by cases e
      rw [if_neg c7]
      by_cases c8 : op = CmdBSY
      · rw [if_pos c8]
        exact fun e => by cases e
      rw [if_neg c8]
      by_cases c9 : op = CmdGET
      · rw [if_pos c9]
        exact fun e => by cases e
      rw [if_neg c9]
      by_cases c10 : op = CmdSKIP
      · rw [if_pos c10]
        exact fun e => by cases e
      rw [if_neg c10]
      exact fun e => by cases e

/-- The four positional fields of FILE are accepted only when there are four
of them. -/
theorem decodeFileTransferParamFields_length (fields : List (List Nat))
    (v : List Nat × Int × Int × Int) (h : decodeFileTransferParamFields fields = .ok v) :
    fields.length = 4 := by
  unfold decodeFileTransferParamFields at h
  by_contra hne
  rw [if_pos hne] at h
  cases h

/-- C31: for every byte stream `Read` returns a frame or an error and never
fails at run time (the model returns `panic` where the Go code would).  A
stream that ends within the two header bytes, or within the L payload bytes
announced by the header, yields the error of the short read.  And the three
accesses are in range: `data[0]` in `decodeFrame` (the payload read is not
empty), `Fields(text)[1:]` in `decodeNullCmd` (a text with the prefix `OPT `
has a field) and `fields[4:]` in `decodeFileParams` (the positional fields are
decoded only when there are at least four fields). -/
theorem Read_never_panics (reader : List Nat) :
    (Read reader).1 ≠ .error .panic ∧
    ((∃ f, (Read reader).1 = .ok f) ∨ (∃ e, (Read reader).1 = .error e ∧ e ≠ .panic)) ∧
    (reader.length < 2 →
      Read reader = (.error (if reader = [] then .EOF else .ErrUnexpectedEOF), [])) ∧
    (∀ h0 h1 rest, reader = h0 :: h1 :: rest → rest.length < headerLength (h0, h1) →
      Read reader = (.error (if rest = [] then .EOF else .ErrUnexpectedEOF), [])) ∧
    (∀ h0 h1 rest data rest2, reader = h0 :: h1 :: rest → headerLength (h0, h1) ≠ 0 →
      ReadFull rest (headerLength (h0, h1)) = (.ok data, rest2) → data ≠ []) ∧
    (∀ data, HasPrefix (dataToString data) (str "OPT ") = true →
      1 ≤ (Fields (dataToString data)).length) ∧
    (∀ data v,
      decodeFileTransferParamFields ((Fields (dataToString data)).take
        (min 4 (Fields (dataToString data)).length)) = .ok v →
      4 ≤ (Fields (dataToString data)).length) := by
  have hdata : ∀ (rest : List Nat) (n : Nat) (data rest2 : List Nat), n ≠ 0 →
      ReadFull rest n = (.ok data, rest2) → data ≠ [] := by
    intro rest n data rest2 hn h
    by_cases hlen : n ≤ rest.length
    · rw [ReadFull_ok _ _ hn hlen] at h
      simp only [Prod.mk.injEq, Except.ok.injEq] at h
      rw [← h.1]
      intro e
      have := congrArg List.length e
      rw [List.length_take] at this
      simp only [List.length_nil] at this
      omega
    · rw [ReadFull_short _ _ (by omega)] at h
      simp at h
  have hshort : reader.length < 2 →
      Read reader = (.error (if reader = [] then .EOF else .ErrUnexpectedEOF), []) := by
    intro h
    unfold Read
    rw [ReadFull_short _ _ h]
  have hnp : (Read reader).1 ≠ .error .panic := by
    by_cases h2 : reader.length < 2
    · rw [hshort h2]
      split_ifs <;> simp
    · obtain ⟨h0, h1, rest, rfl⟩ : ∃ h0 h1 rest, reader = h0 :: h1 :: rest := by
        match reader, h2 with
        | h0 :: h1 :: rest, _ => exact ⟨h0, h1, rest, rfl⟩
        | [_], h2 => simp at h2
        | [], h2 => simp at h2
      rw [Read_cons]
      split_ifs with hL
      · simp
      · cases hr : ReadFull rest (headerLength (h0, h1)) with
        | mk r rest2 =>
          cases r with
          | error err =>
            simp only
            by_cases hlen : headerLength (h0, h1) ≤ rest.length
            · rw [ReadFull_ok _ _ hL hlen] at hr
              simp at hr
            · rw [ReadFull_short _ _ (by omega)] at hr
              simp only [Prod.mk.injEq, Except.error.injEq] at hr
              rw [← hr.1]
              split_ifs <;> exact fun e => by cases e
          | ok data =>
            simp only
            exact decodeFrame_no_panic _ _ _ (hdata _ _ _ _ hL hr)
  refine ⟨hnp, ?_, hshort, ?_, ?_, ?_, ?_⟩
  · cases h : (Read reader).1 with
    | ok f => exact Or.inl ⟨f, rfl⟩
    | error e =>
      refine Or.inr ⟨e, rfl, ?_⟩
      intro he
      rw [h, he] at hnp
      exact hnp rfl
  · rintro h0 h1 rest rfl hlen
    exact Read_short h0 h1 rest hlen
  · rintro h0 h1 rest data rest2 - hL h
    exact hdata _ _ _ _ hL h
  · intro data h
    obtain ⟨rest, e⟩ := (HasPrefix_iff _ _).1 h
    rw [e, Fields_OPT]
    simp
  · intro data v h
    have := decodeFileTransferParamFields_length _ v h
    rw [List.length_take] at this
    omega

end frame

/-! ## The receiver: data frames -/

theorem wrapInt64_eq (i : Int) (h : InInt64 i) : wrapInt64 i = i := by
  obtain ⟨h1, h2⟩ := h
  unfold wrapInt64
  rw [Int.emod_eq_of_lt (by omega) (by omega)]
  omega

namespace spool

/-- A write into a file of bytes at an offset that is no less than 0, ending
within the largest file. -/
theorem osWriteAt_data (fs : Files) (dir name data content : List Nat) (off : Int)
    (h0 : 0 ≤ off) (h1 : off + data.length < 2 ^ 63) (hf : fs dir name = some (.data content)) :
    osWriteAt fs dir name data off true =
      (fs.set dir name (some (.data (writeAt content data off.toNat))), true) := by
  unfold osWriteAt
  rw [if_neg (by simp; omega), hf]

/-- What was written is in the file, whole, where it was written. -/
theorem writeAt_read (content data : List Nat) (off : Nat) :
    ((writeAt content data off).drop off).take data.length = data := by
  unfold writeAt
  by_cases hd : data = []
  · subst hd; simp
  · rw [if_neg hd]
    have hl : (content.take off ++ List.replicate (off - content.length) 0).length = off := by
      simp only [List.length_append, List.length_take, List.length_replicate]
      omega
    rw [List.append_assoc (content.take off ++ List.replicate (off - content.length) 0),
      List.drop_append_of_le_length (by omega), List.drop_of_length_le (by omega),
      List.nil_append, List.take_append_of_le_length (le_refl _), List.take_length]

end spool

namespace transfer

open session

/-- With a live context a data frame from the channel goes to
`recvDataFrame`. -/
theorem recvFileData_data (tmpName : Option (List Nat)) (now : Int) (diskOk : Bool)
    (s : recvrSession) (data : List Nat) (hc : s.session.ctxDone = false) :
    recvFileData tmpName now diskOk (.readFrames (some (.Data data)) true) s =
      recvDataFrame diskOk s data := by
  unfold recvFileData
  simp [hc]

/-- One data frame whose write succeeds. -/
theorem recvDataFrame_ok (s : recvrSession) (descr : xferDescr) (key : spool.SpoolKey)
    (content data : List Nat)
    (hreq : s.request = some descr) (hfile : descr.spoolFile = true)
    (hkey : descr.spoolKey = some key)
    (hf : s.files (str "tmp") key.Name = some (.data content))
    (h0 : 0 ≤ descr.offset) (h1 : descr.offset + data.length < 2 ^ 63) :
    recvDataFrame true s data =
      { s := { s with
          files := s.files.set (str "tmp") key.Name
            (some (.data (spool.writeAt content data descr.offset.toNat)))
          request := some { descr with offset := descr.offset + data.length } }
        next := if descr.FileKey.Size ≤ descr.offset + data.length then some .gotFile
          else some .recvFileData
        err := none } := by
  unfold recvDataFrame
  simp only [hreq, hfile, hkey]
  rw [spool.osWriteAt_data _ _ _ _ content _ h0 h1 hf]
  have hw : wrapInt64 (descr.offset + data.length) = descr.offset + data.length :=
    wrapInt64_eq _ ⟨by omega, h1⟩
  simp only [xferDescr.incrOffset, xferDescr.xferComplete, hw, Bool.not_true, Bool.false_eq_true,
    if_false, ge_iff_le]
  by_cases hs : descr.FileKey.Size ≤ descr.offset + data.length
  · simp [hs, hkey, hfile]
  · simp [hs, hkey, hfile]

theorem totalLength_cons (data : List Nat) (frames : List (List Nat)) :
    totalLength (data :: frames) = data.length + totalLength frames := by
  simp [totalLength]

/-- Frames written behind the end of a file are appended to it. -/
theorem specWritten_append (frames : List (List Nat)) : ∀ (c : List Nat) (off : Nat),
    c.length = off → specWritten c off frames = c ++ frames.flatten := by
  induction frames with
  | nil => intro c off _; simp [specWritten]
  | cons d rest ih =>
    intro c off hc
    have hw : spool.writeAt c d off = c ++ d := by
      unfold spool.writeAt
      by_cases hd : d = []
      · simp [hd]
      · rw [if_neg hd, ← hc]
        simp
    rw [specWritten, hw, ih _ _ (by simp [hc])]
    simp

/-- Frames written into a new file from the offset `off`: the file holds `off`
zero bytes and the frames behind them. -/
theorem specWritten_new (frames : List (List Nat)) (off : Nat) :
    specWritten [] off frames =
      if frames.flatten = [] then [] else List.replicate off 0 ++ frames.flatten := by
  induction frames with
  | nil => simp [specWritten]
  | cons d rest ih =>
    by_cases hd : d = []
    · subst hd
      rw [specWritten]
      simpa [spool.writeAt] using ih
    · have hw : spool.writeAt [] d off = List.replicate off 0 ++ d := by
        unfold spool.writeAt
        rw [if_neg hd]
        simp
      rw [specWritten, hw, specWritten_append _ _ _ (by simp)]
      simp [hd]

/-- The data frames of a file, one after the other: the run of `recvData`
while every frame but the last leaves the offset below the size. -/
theorem recvData_run (tmpName : Option (List Nat)) (now : Int) :
    ∀ (frames : List (List Nat)) (s : recvrSession) (descr : xferDescr) (key : spool.SpoolKey)
      (content : List Nat),
    s.session.ctxDone = false → s.request = some descr → descr.spoolFile = true →
    descr.spoolKey = some key → s.files (str "tmp") key.Name = some (.data content) →
    0 ≤ descr.offset → descr.offset + totalLength frames < 2 ^ 63 →
    (∀ k, 1 ≤ k → k < frames.length →
      descr.offset + totalLength (frames.take k) < descr.FileKey.Size) →
    (recvData tmpName now true frames s).err = none ∧
    (recvData tmpName now true frames s).next =
      (if frames ≠ [] ∧ descr.FileKey.Size ≤ descr.offset + totalLength frames then
        some .gotFile else some .recvFileData) ∧
    (recvData tmpName now true frames s).s.request =
      some { descr with offset := descr.offset + totalLength frames } ∧
    (recvData tmpName now true frames s).s.files (str "tmp") key.Name =
      some (.data (specWritten content descr.offset.toNat frames)) ∧
    (recvData tmpName now true frames s).s.session = s.session := by
  intro frames
  induction frames with
  | nil =>
    intro s descr key content hc hreq hfile hkey hf h0 h1 hfirst
    simp [recvData, totalLength, specWritten, hreq, hf]
  | cons d rest ih =>
    intro s descr key content hc hreq hfile hkey hf h0 h1 hfirst
    rw [totalLength_cons] at h1
    have hd1 : descr.offset + d.length < 2 ^ 63 := by push_cast at h1; omega
    have hstep := recvDataFrame_ok s descr key content d hreq hfile hkey hf h0 hd1
    unfold recvData
    rw [recvFileData_data _ _ _ _ _ hc, hstep]
    by_cases hrest : rest = []
    · subst hrest
      by_cases hs : descr.FileKey.Size ≤ descr.offset + d.length
      · simp [hs, totalLength, specWritten, spool.set_apply]
      · simp [hs, totalLength, specWritten, spool.set_apply, recvData]
    · have hlt : descr.offset + d.length < descr.FileKey.Size := by
        have := hfirst 1 (le_refl 1) (by
          cases rest with
          | nil => exact absurd rfl hrest
          | cons _ _ => simp)
        simpa [totalLength] using this
      rw [if_neg (by omega)]
      simp only
      have hih := ih
        { s with
          files := s.files.set (str "tmp") key.Name
            (some (.data (spool.writeAt content d descr.offset.toNat)))
          request := some { descr with offset := descr.offset + d.length } }
        { descr with offset := descr.offset + d.length } key
        (spool.writeAt content d descr.offset.toNat) hc rfl hfile hkey
        (by show spool.Files.set _ _ _ _ _ _ = _; rw [spool.set_apply]; simp) (by show 0 ≤ descr.offset + d.length; omega)
        (by show descr.offset + d.length + totalLength rest < 2 ^ 63; push_cast at h1; omega)
        (by
          intro k hk1 hk2
          have := hfirst (k + 1) (by omega) (by simp; omega)
          rw [List.take_succ_cons, totalLength_cons] at this
          show descr.offset + d.length + totalLength (rest.take k) < descr.FileKey.Size
          push_cast at this
          omega)
      obtain ⟨i1, i2, i3, i4, i5⟩ := hih
      have hto : (descr.offset + d.length).toNat = descr.offset.toNat + d.length := by omega
      refine ⟨i1, ?_, ?_, ?_, i5⟩
      · rw [i2, totalLength_cons]
        simp only [hrest, ne_eq, not_false_eq_true, true_and, reduceCtorEq]
        push_cast
        rw [Int.add_assoc]
      · rw [i3, totalLength_cons]
        push_cast
        simp [Int.add_assoc]
      · rw [i4, specWritten]
        simp only [hto]

end transfer

namespace transfer
open session

/-- A FILE command received in `waitForFile`, with a live context, a link and
a new name for the temporary file. -/
theorem waitForFile_FILE (s0 : recvrSession) (l : config.Link) (tmp : List Nat) (now : Int)
    (name : List Nat) (size ts o : Int) (crc : Nat) (opts : List (List Nat))
    (hc : s0.session.ctxDone = false) (hl : s0.session.Link = some l)
    (hnew : s0.files (str "tmp") tmp = none) :
    waitForFile (some tmp) now (.readFrames (some (.FileCmd name size ts o crc opts)) true) s0 =
      { s := { s0 with
          files := s0.files.set (str "tmp") tmp (some (.data []))
          request := some
            { FileKey := ⟨name, size, ts⟩, offset := o,
              spoolKey := some ⟨tmp, now, ⟨name, size, ts⟩⟩, spoolFile := true } }
        next := some .recvFileData
        err := none } := by
  unfold waitForFile
  simp only [hc, Bool.false_or, Bool.not_true, Bool.false_eq_true, if_false, NewXferDescr]
  unfold fileRecvRequested
  simp only [hasFile, Bool.false_eq_true, if_false, hl, spool.TempFileFor, hnew,
    spool.NewFileKey]

/-- C32: a FILE command with the offset o and the size s is received (with a
live context, a link, and a new temporary file), and then data frames whose
writes succeed: the disk takes the bytes, o is not negative and the bytes end
within the largest file.  While no frame but the last brings the offset to s,
the receiver writes the i-th frame at the offset o plus the lengths of the
frames before it, so that the file holds o zero bytes and then the frames in
order, the last one in full even where it goes beyond s; and after the last
frame the receiver is in `gotFile` if the offset has reached s, and still in
`recvFileData` if not. -/
theorem recvData_writes_at_offsets (s0 : recvrSession) (l : config.Link) (tmp : List Nat)
    (now : Int) (name : List Nat) (size ts o : Int) (crc : Nat) (opts : List (List Nat))
    (frames : List (List Nat))
    (hc : s0.session.ctxDone = false) (hl : s0.session.Link = some l)
    (hnew : s0.files (str "tmp") tmp = none)
    (ho : 0 ≤ o) (hmax : o + totalLength frames < 2 ^ 63)
    (hfirst : ∀ k, k < frames.length → 1 ≤ k → o + totalLength (frames.take k) < size) :
    ∃ s1,
      waitForFile (some tmp) now (.readFrames (some (.FileCmd name size ts o crc opts)) true) s0 =
        { s := s1, next := some .recvFileData, err := none } ∧
      s1.files (str "tmp") tmp = some (.data []) ∧
      (recvData (some tmp) now true frames s1).err = none ∧
      (recvData (some tmp) now true frames s1).next =
        (if frames ≠ [] ∧ size ≤ o + totalLength frames then some .gotFile
          else some .recvFileData) ∧
      (recvData (some tmp) now true frames s1).s.request =
        some { FileKey := ⟨name, size, ts⟩, offset := o + totalLength frames,
               spoolKey := some ⟨tmp, now, ⟨name, size, ts⟩⟩, spoolFile := true } ∧
      (recvData (some tmp) now true frames s1).s.files (str "tmp") tmp =
        some (.data (specWritten [] o.toNat frames)) ∧
      specWritten [] o.toNat frames =
        (if frames.flatten = [] then [] else List.replicate o.toNat 0 ++ frames.flatten) := by
  refine ⟨_, waitForFile_FILE s0 l tmp now name size ts o crc opts hc hl hnew, ?_, ?_⟩
  · show spool.Files.set _ _ _ _ _ _ = _
    rw [spool.set_apply]
    simp
  · obtain ⟨r1, r2, r3, r4, -⟩ := recvData_run (some tmp) now frames
      { s0 with
        files := s0.files.set (str "tmp") tmp (some (.data []))
        request := some
          { FileKey := ⟨name, size, ts⟩, offset := o,
            spoolKey := some ⟨tmp, now, ⟨name, size, ts⟩⟩, spoolFile := true } }
      { FileKey := ⟨name, size, ts⟩, offset := o,
        spoolKey := some ⟨tmp, now, ⟨name, size, ts⟩⟩, spoolFile := true }
      ⟨tmp, now, ⟨name, size, ts⟩⟩ [] hc rfl rfl rfl
      (by show spool.Files.set _ _ _ _ _ _ = _; rw [spool.set_apply]; simp) ho hmax
      (fun k h1 h2 => hfirst k h2 h1)
    exact ⟨r1, r2, r3, r4, specWritten_new frames o.toNat⟩

theorem recvData_writes_at_offsets_witness :
    ∃ s1,
      waitForFile (some (str "t")) 7
          (.readFrames (some (.FileCmd (str "f") 5 100 1 0 [])) true)
          { session := { NewSession ⟨[], [], [], [], fun _ => none⟩ with
              Link := some ⟨⟨1, 2, 3, 0, []⟩, str "pw"⟩ }
            request := none
            files := fun _ _ => none } =
        { s := s1, next := some .recvFileData, err := none } ∧
      s1.files (str "tmp") (str "t") = some (.data []) ∧
      (recvData (some (str "t")) 7 true [[1, 2], [3, 4, 5]] s1).err = none ∧
      (recvData (some (str "t")) 7 true [[1, 2], [3, 4, 5]] s1).next =
        (if [[1, 2], [3, 4, 5]] ≠ [] ∧ (5 : Int) ≤ 1 + totalLength [[1, 2], [3, 4, 5]] then
          some .gotFile else some .recvFileData) ∧
      (recvData (some (str "t")) 7 true [[1, 2], [3, 4, 5]] s1).s.request =
        some { FileKey := ⟨str "f", 5, 100⟩, offset := 1 + totalLength [[1, 2], [3, 4, 5]],
               spoolKey := some ⟨str "t", 7, ⟨str "f", 5, 100⟩⟩, spoolFile := true } ∧
      (recvData (some (str "t")) 7 true [[1, 2], [3, 4, 5]] s1).s.files (str "tmp") (str "t") =
        some (.data (specWritten [] (1 : Int).toNat [[1, 2], [3, 4, 5]])) ∧
      specWritten [] (1 : Int).toNat [[1, 2], [3, 4, 5]] =
        (if [[1, 2], [3, 4, 5]].flatten = [] then []
          else List.replicate (1 : Int).toNat 0 ++ [[1, 2], [3, 4, 5]].flatten) :=
  recvData_writes_at_offsets
    { session := { NewSession ⟨[], [], [], [], fun _ => none⟩ with
        Link := some ⟨⟨1, 2, 3, 0, []⟩, str "pw"⟩ }
      request := none
      files := fun _ _ => none }
    ⟨⟨1, 2, 3, 0, []⟩, str "pw"⟩ (str "t") 7 (str "f") 5 100 1 0 [] [[1, 2], [3, 4, 5]]
    rfl rfl rfl (by decide) (by decide) (by decide)

end transfer

namespace transfer
open session

/-! ## The transmitter: the loop of `xmitSend` -/

/-- A change made through `request` is seen through `request`, and touches
neither the files nor the session. -/
theorem updateRequest_descr (s : xmitrSession) (d : xferDescr) (f : xferDescr → xferDescr)
    (h : s.requestDescr = some d) :
    (s.updateRequest f).requestDescr = some (f d) ∧ (s.updateRequest f).files = s.files ∧
    (s.updateRequest f).session = s.session := by
  unfold xmitrSession.requestDescr at h
  unfold xmitrSession.updateRequest xmitrSession.requestDescr
  cases hr : s.request with
  | nil => rw [hr] at h; cases h
  | left d0 =>
    rw [hr] at h
    simp only [Option.some.injEq] at h
    simp [h]
  | head =>
    rw [hr] at h
    cases ha : s.active with
    | nil => rw [ha] at h; cases h
    | cons d0 rest =>
      rw [ha] at h
      simp only [List.head?_cons, Option.some.injEq] at h
      simp [hr, h]

/-- One turn of the loop with nothing ready: the next bytes of the file go
into a data frame. -/
theorem sendLoop_default (s : xmitrSession) (d : xferDescr)
    (key : spool.SpoolKey) (content : List Nat)
    (hreq : s.requestDescr = some d) (hinc : d.xferComplete = false)
    (hopen : d.spoolFile = true) (hkey : d.spoolKey = some key)
    (hf : s.files (str "cur") key.Name = some (.data content)) :
    ∃ s1, (∀ rest, sendLoop (.default :: rest) s = sendLoop rest s1) ∧
      s1.requestDescr = some (d.incrOffset
        ((content.drop d.offset.toNat).take frame.MaxFrameSize).length) ∧
      s1.files = s.files ∧
      s1.session = (s.session.WriteFrame
        (.Data ((content.drop d.offset.toNat).take frame.MaxFrameSize))).1 := by
  obtain ⟨u1, u2, u3⟩ := updateRequest_descr s d
    (fun d1 => d1.incrOffset ((content.drop d.offset.toNat).take frame.MaxFrameSize).length) hreq
  have hdone : sendLoopDone s = none := by
    unfold sendLoopDone
    rw [hreq]
    simp [hinc]
  have hturn : sendTurn .default s = .goesOn
      { (s.updateRequest (fun d1 => d1.incrOffset
          ((content.drop d.offset.toNat).take frame.MaxFrameSize).length)) with
        session := (s.session.WriteFrame
          (.Data ((content.drop d.offset.toNat).take frame.MaxFrameSize))).1 } := by
    unfold sendTurn
    simp only [hreq, xferDescr.reader, hopen, hkey, hf, frame.ReadDataFrameFrom,
      frame.Frame.Length, u3]
  refine ⟨{ (s.updateRequest (fun d1 => d1.incrOffset
        ((content.drop d.offset.toNat).take frame.MaxFrameSize).length)) with
      session := (s.session.WriteFrame
        (.Data ((content.drop d.offset.toNat).take frame.MaxFrameSize))).1 }, ?_, u1, u2, rfl⟩
  intro rest
  rw [sendLoop, hdone]
  simp only [hturn]

/-- The loop is left at once when the request is complete: the writer is
flushed. -/
theorem sendLoop_complete (evs : List XmitrSelect) (s : xmitrSession) (d : xferDescr)
    (hreq : s.requestDescr = some d) (hc : d.xferComplete = true) :
    sendLoop evs s = .returned
      { s := { s with session := s.session.FlushWriter.1 }, next := some .xmitSendNextRequest,
        err := none } evs := by
  have hdone : sendLoopDone s = some
      { s := { s with session := s.session.FlushWriter.1 }, next := some .xmitSendNextRequest,
        err := none } := by
    unfold sendLoopDone
    rw [hreq]
    simp [hc]
  cases evs with
  | nil => rw [sendLoop, hdone]
  | cons sel rest => rw [sendLoop, hdone]

theorem WriteFrame_live (s : Session) (f : frame.Frame) (h : s.ctxDone = false) :
    s.WriteFrame f = ({ s with writeFrames := s.writeFrames ++ [some f] }, true) := by
  simp [Session.WriteFrame, h]

theorem FlushWriter_live (s : Session) (h : s.ctxDone = false) :
    s.FlushWriter = ({ s with writeFrames := s.writeFrames ++ [none] }, true) := by
  simp [Session.FlushWriter, h]

/-- The loop of `xmitSend` on a file that holds as many bytes as its size says,
with nothing received and a live context: it sends the bytes from the offset
on in data frames and is left once the offset has reached the size. -/
theorem sendLoop_sends_file : ∀ (n : Nat) (s : xmitrSession) (d : xferDescr)
    (key : spool.SpoolKey) (content : List Nat),
    s.requestDescr = some d → d.spoolFile = true → d.spoolKey = some key →
    s.files (str "cur") key.Name = some (.data content) → s.session.ctxDone = false →
    0 ≤ d.offset → d.FileKey.Size ≤ content.length → content.length < 2 ^ 63 →
    (d.FileKey.Size - d.offset).toNat ≤ n →
    ∃ frames s1,
      (∀ f ∈ frames, 1 ≤ f.length ∧ f.length ≤ 32767) ∧
      frames.length ≤ n ∧
      frames.flatten = (content.drop d.offset.toNat).take (totalLength frames) ∧
      d.FileKey.Size ≤ d.offset + totalLength frames ∧
      (∀ k, k < frames.length → d.offset + totalLength (frames.take k) < d.FileKey.Size) ∧
      (∀ rest, sendLoop (List.replicate frames.length .default ++ rest) s =
        .returned { s := s1, next := some .xmitSendNextRequest, err := none } rest) ∧
      s1.session.writeFrames =
        s.session.writeFrames ++ frames.map (fun f => some (.Data f)) ++ [none] ∧
      s1.requestDescr = some { d with offset := d.offset + totalLength frames } := by
  intro n
  induction n with
  | zero =>
    intro s d key content hreq hopen hkey hf hlive h0 hsize hmax hn
    have hc : d.xferComplete = true := by
      unfold xferDescr.xferComplete
      simp only [ge_iff_le, decide_eq_true_eq]
      omega
    refine ⟨[], { s with session := s.session.FlushWriter.1 }, by simp, by simp,
      by simp [totalLength], by simp [totalLength]; omega, by simp, ?_, ?_, ?_⟩
    · intro rest
      exact sendLoop_complete _ s d hreq hc
    · rw [FlushWriter_live _ hlive]
      simp
    · show s.requestDescr = _
      rw [hreq]
      simp [totalLength]
  | succ m ih =>
    intro s d key content hreq hopen hkey hf hlive h0 hsize hmax hn
    by_cases hc : d.FileKey.Size ≤ d.offset
    · have hc2 : d.xferComplete = true := by
        unfold xferDescr.xferComplete
        simp only [ge_iff_le, decide_eq_true_eq]
        exact hc
      refine ⟨[], { s with session := s.session.FlushWriter.1 }, by simp, by simp,
        by simp [totalLength], by simp [totalLength]; omega, by simp, ?_, ?_, ?_⟩
      · intro rest
        exact sendLoop_complete _ s d hreq hc2
      · rw [FlushWriter_live _ hlive]
        simp
      · show s.requestDescr = _
        rw [hreq]
        simp [totalLength]
    · have hinc : d.xferComplete = false := by
        unfold xferDescr.xferComplete
        simp only [ge_iff_le, decide_eq_false_iff_not]
        exact hc
      have hlen : ((content.drop d.offset.toNat).take frame.MaxFrameSize).length =
          min 32767 (content.length - d.offset.toNat) := by
        simp [frame.MaxFrameSize]
      have hpos : 1 ≤ ((content.drop d.offset.toNat).take frame.MaxFrameSize).length := by
        rw [hlen]; omega
      have hle : ((content.drop d.offset.toNat).take frame.MaxFrameSize).length ≤ 32767 := by
        rw [hlen]; omega
      have hin : d.offset.toNat +
          ((content.drop d.offset.toNat).take frame.MaxFrameSize).length ≤ content.length := by
        rw [hlen]; omega
      have hck : List.take ((content.drop d.offset.toNat).take frame.MaxFrameSize).length
          (content.drop d.offset.toNat) =
          (content.drop d.offset.toNat).take frame.MaxFrameSize := by
        rw [List.length_take, List.take_eq_take]
        simp
      obtain ⟨s1, e1, q1, f1, w1⟩ := sendLoop_default s d key content hreq hinc hopen hkey hf
      generalize hchunk : (content.drop d.offset.toNat).take frame.MaxFrameSize = chunk
        at hlen hpos hle hin q1 w1 hck
      have hoff : d.incrOffset chunk.length = { d with offset := d.offset + chunk.length } := by
        unfold xferDescr.incrOffset
        rw [wrapInt64_eq _ ⟨by omega, by omega⟩]
      rw [hoff] at q1
      have hs1 : s1.session = { s.session with writeFrames := s.session.writeFrames ++
          [some (.Data chunk)] } := by
        rw [w1, WriteFrame_live _ _ hlive]
      obtain ⟨frames, s2, a1, a2, a3, a4, a5, a6, a7, a8⟩ := ih s1
        { d with offset := d.offset + chunk.length } key content q1 hopen hkey
        (by rw [f1]; exact hf) (by rw [hs1]; exact hlive)
        (by show 0 ≤ d.offset + chunk.length; omega) hsize hmax
        (by show (d.FileKey.Size - (d.offset + chunk.length)).toNat ≤ m; omega)
      have hto : (d.offset + chunk.length).toNat = d.offset.toNat + chunk.length := by omega
      refine ⟨chunk :: frames, s2, ?_, ?_, ?_, ?_, ?_, ?_, ?_, ?_⟩
      · intro f hf2
        rcases List.mem_cons.1 hf2 with rfl | hf2
        · exact ⟨hpos, hle⟩
        · exact a1 f hf2
      · simp; omega
      · rw [List.flatten_cons, a3, totalLength_cons, List.take_add]
        congr 1
        · exact hck.symm
        · show List.take _ (List.drop (d.offset + chunk.length).toNat content) = _
          rw [hto, List.drop_drop]
      · rw [totalLength_cons]
        have : d.FileKey.Size ≤ d.offset + chunk.length + totalLength frames := a4
        push_cast
        omega
      · intro k hk
        cases k with
        | zero => simp [totalLength]; omega
        | succ k =>
          have := a5 k (by simpa using hk)
          rw [List.take_succ_cons, totalLength_cons]
          have h2 : d.offset + chunk.length + totalLength (frames.take k) < d.FileKey.Size := this
          push_cast
          omega
      · intro rest
        rw [List.length_cons, List.replicate_succ, List.cons_append, e1, a6]
      · rw [a7, hs1]
        simp
      · rw [a8, totalLength_cons]
        push_cast
        simp [Int.add_assoc]

/-- The loop of `xmitSend` on a file that ends before the size is reached:
once the offset is at the end of the file every turn sends an empty data frame
and leaves the offset where it is. -/
theorem sendLoop_at_end_of_file : ∀ (n : Nat) (s : xmitrSession) (d : xferDescr)
    (key : spool.SpoolKey) (content : List Nat),
    s.requestDescr = some d → d.spoolFile = true → d.spoolKey = some key →
    s.files (str "cur") key.Name = some (.data content) → s.session.ctxDone = false →
    0 ≤ d.offset → d.offset < 2 ^ 63 → content.length ≤ d.offset.toNat →
    d.offset < d.FileKey.Size →
    ∃ s1, sendLoop (List.replicate n .default) s = .running s1 ∧
      s1.session.writeFrames = s.session.writeFrames ++ List.replicate n (some (.Data [])) ∧
      s1.requestDescr = some d := by
  intro n
  induction n with
  | zero =>
    intro s d key content hreq hopen hkey hf hlive h0 hmax hend hlt
    refine ⟨s, ?_, by simp, hreq⟩
    have hdone : sendLoopDone s = none := by
      unfold sendLoopDone
      rw [hreq]
      simp only [xferDescr.xferComplete, ge_iff_le, decide_eq_true_eq]
      rw [if_neg (by omega)]
    rw [List.replicate_zero, sendLoop, hdone]
  | succ m ih =>
    intro s d key content hreq hopen hkey hf hlive h0 hmax hend hlt
    have hinc : d.xferComplete = false := by
      unfold xferDescr.xferComplete
      simp only [ge_iff_le, decide_eq_false_iff_not]
      omega
    obtain ⟨s1, e1, q1, f1, w1⟩ := sendLoop_default s d key content hreq hinc hopen hkey hf
    have hnil : (content.drop d.offset.toNat).take frame.MaxFrameSize = [] := by
      rw [List.drop_of_length_le hend]
      rfl
    rw [hnil] at q1 w1
    have hoff : d.incrOffset ([] : List Nat).length = d := by
      unfold xferDescr.incrOffset
      simp only [List.length_nil, Nat.cast_zero, Int.add_zero]
      rw [wrapInt64_eq _ ⟨by omega, hmax⟩]
    rw [hoff] at q1
    have hs1 : s1.session = { s.session with writeFrames := s.session.writeFrames ++
        [some (.Data [])] } := by
      rw [w1, WriteFrame_live _ _ hlive]
    obtain ⟨s2, b1, b2, b3⟩ := ih s1 d key content q1 hopen hkey (by rw [f1]; exact hf)
      (by rw [hs1]; exact hlive) h0 hmax hend hlt
    refine ⟨s2, ?_, ?_, b3⟩
    · rw [List.replicate_succ, e1, b1]
    · rw [b2, hs1, List.replicate_succ]
      simp

/-- C38 (amended): the loop of `xmitSend` for a request whose spool file is
open, holds at least as many bytes as the size says (and fewer than 2^63),
with an offset that is not negative, when neither GET, GOT nor SKIP arrives
and the context is live, so that every write succeeds.  The loop ends: after
finitely many turns, at most size - offset, `xmitSend` flushes the writer and
goes to `xmitSendNextRequest`.  Every turn produced a data frame of 1 to 32767
bytes, the frames are the bytes of the file from the offset on, the offset has
moved on by their lengths and has reached the size, and it was below the size
before every frame. -/
theorem sendLoop_terminates (s : xmitrSession) (d : xferDescr) (key : spool.SpoolKey)
    (content : List Nat)
    (hreq : s.requestDescr = some d) (hopen : d.spoolFile = true)
    (hkey : d.spoolKey = some key)
    (hf : s.files (str "cur") key.Name = some (.data content))
    (hlive : s.session.ctxDone = false) (h0 : 0 ≤ d.offset)
    (hsize : d.FileKey.Size ≤ content.length) (hmax : content.length < 2 ^ 63) :
    ∃ frames s1,
      (∀ f ∈ frames, 1 ≤ f.length ∧ f.length ≤ 32767) ∧
      frames.length ≤ (d.FileKey.Size - d.offset).toNat ∧
      frames.flatten = (content.drop d.offset.toNat).take (totalLength frames) ∧
      d.FileKey.Size ≤ d.offset + totalLength frames ∧
      (∀ k, k < frames.length → d.offset + totalLength (frames.take k) < d.FileKey.Size) ∧
      (∀ rest, sendLoop (List.replicate frames.length .default ++ rest) s =
        .returned { s := s1, next := some .xmitSendNextRequest, err := none } rest) ∧
      s1.session.writeFrames =
        s.session.writeFrames ++ frames.map (fun f => some (.Data f)) ++ [none] ∧
      s1.requestDescr = some { d with offset := d.offset + totalLength frames } :=
  sendLoop_sends_file _ s d key content hreq hopen hkey hf hlive h0 hsize hmax (le_refl _)

theorem sendLoop_terminates_witness :
    ∃ frames s1,
      (∀ f ∈ frames, 1 ≤ f.length ∧ f.length ≤ 32767) ∧
      frames.length ≤ ((3 : Int) - 0).toNat ∧
      frames.flatten = (([1, 2, 3] : List Nat).drop (0 : Int).toNat).take (totalLength frames) ∧
      (3 : Int) ≤ 0 + totalLength frames ∧
      (∀ k, k < frames.length → (0 : Int) + totalLength (frames.take k) < 3) ∧
      (∀ rest, sendLoop (List.replicate frames.length .default ++ rest)
          { session := NewSession ⟨[], [], [], [], fun _ => none⟩
            files := fun d n =>
              if d = str "cur" ∧ n = str "a" then some (.data [1, 2, 3]) else none
            lookup := fun _ => none
            queue := []
            active := []
            pending := 1
            request := .left
              { FileKey := ⟨str "f", 3, 0⟩, offset := 0,
                spoolKey := some ⟨str "a", 0, ⟨str "f", 3, 0⟩⟩, spoolFile := true } } =
        .returned { s := s1, next := some .xmitSendNextRequest, err := none } rest) ∧
      s1.session.writeFrames =
        ([] : List (Option frame.Frame)) ++ frames.map (fun f => some (.Data f)) ++ [none] ∧
      s1.requestDescr = some
        { FileKey := ⟨str "f", 3, 0⟩, offset := 0 + totalLength frames,
          spoolKey := some ⟨str "a", 0, ⟨str "f", 3, 0⟩⟩, spoolFile := true } :=
  sendLoop_terminates
    { session := NewSession ⟨[], [], [], [], fun _ => none⟩
      files := fun d n => if d = str "cur" ∧ n = str "a" then some (.data [1, 2, 3]) else none
      lookup := fun _ => none
      queue := []
      active := []
      pending := 1
      request := .left
        { FileKey := ⟨str "f", 3, 0⟩, offset := 0,
          spoolKey := some ⟨str "a", 0, ⟨str "f", 3, 0⟩⟩, spoolFile := true } }
    { FileKey := ⟨str "f", 3, 0⟩, offset := 0,
      spoolKey := some ⟨str "a", 0, ⟨str "f", 3, 0⟩⟩, spoolFile := true }
    ⟨str "a", 0, ⟨str "f", 3, 0⟩⟩ [1, 2, 3] rfl rfl rfl (by decide) rfl (by decide) (by decide)
    (by decide)

/-- C38 (as stated, refuted): the spool file holds 3 bytes and the size of the
file key says 5.  With nothing received and a live context the loop of
`xmitSend` is still running after 3 turns, having sent the 3 bytes in a first
data frame and two empty data frames with the offset left at 3; and so it goes
on: however many turns the loop is given, it is still running, with one more
empty data frame for every turn. -/
theorem sendLoop_never_ends_on_short_file :
    (∃ s1,
      sendLoop [.default, .default, .default]
          { session := NewSession ⟨[], [], [], [], fun _ => none⟩
            files := fun d n =>
              if d = str "cur" ∧ n = str "a" then some (.data [1, 2, 3]) else none
            lookup := fun _ => none
            queue := []
            active := []
            pending := 1
            request := .left
              { FileKey := ⟨str "f", 5, 0⟩, offset := 0,
                spoolKey := some ⟨str "a", 0, ⟨str "f", 5, 0⟩⟩, spoolFile := true } } =
        .running s1 ∧
      s1.session.writeFrames = [some (.Data [1, 2, 3]), some (.Data []), some (.Data [])] ∧
      s1.requestDescr = some
        { FileKey := ⟨str "f", 5, 0⟩, offset := 3,
          spoolKey := some ⟨str "a", 0, ⟨str "f", 5, 0⟩⟩, spoolFile := true }) ∧
    (∀ n, ∃ s1,
      sendLoop (List.replicate (n + 1) .default)
          { session := NewSession ⟨[], [], [], [], fun _ => none⟩
            files := fun d n =>
              if d = str "cur" ∧ n = str "a" then some (.data [1, 2, 3]) else none
            lookup := fun _ => none
            queue := []
            active := []
            pending := 1
            request := .left
              { FileKey := ⟨str "f", 5, 0⟩, offset := 0,
                spoolKey := some ⟨str "a", 0, ⟨str "f", 5, 0⟩⟩, spoolFile := true } } =
        .running s1 ∧
      s1.session.writeFrames =
        some (.Data [1, 2, 3]) :: List.replicate n (some (.Data [])) ∧
      s1.requestDescr = some
        { FileKey := ⟨str "f", 5, 0⟩, offset := 3,
          spoolKey := some ⟨str "a", 0, ⟨str "f", 5, 0⟩⟩, spoolFile := true }) := by
  have hall : ∀ n, ∃ s1,
      sendLoop (List.replicate (n + 1) .default)
          { session := NewSession ⟨[], [], [], [], fun _ => none⟩
            files := fun d n =>
              if d = str "cur" ∧ n = str "a" then some (.data [1, 2, 3]) else none
            lookup := fun _ => none
            queue := []
            active := []
            pending := 1
            request := .left
              { FileKey := ⟨str "f", 5, 0⟩, offset := 0,
                spoolKey := some ⟨str "a", 0, ⟨str "f", 5, 0⟩⟩, spoolFile := true } } =
        .running s1 ∧
      s1.session.writeFrames =
        some (.Data [1, 2, 3]) :: List.replicate n (some (.Data [])) ∧
      s1.requestDescr = some
        { FileKey := ⟨str "f", 5, 0⟩, offset := 3,
          spoolKey := some ⟨str "a", 0, ⟨str "f", 5, 0⟩⟩, spoolFile := true } := by
    intro n
    obtain ⟨s1, e1, q1, f1, w1⟩ := sendLoop_default
      { session := NewSession ⟨[], [], [], [], fun _ => none⟩
        files := fun d n => if d = str "cur" ∧ n = str "a" then some (.data [1, 2, 3]) else none
        lookup := fun _ => none
        queue := []
        active := []
        pending := 1
        request := .left
          { FileKey := ⟨str "f", 5, 0⟩, offset := 0,
            spoolKey := some ⟨str "a", 0, ⟨str "f", 5, 0⟩⟩, spoolFile := true } }
      { FileKey := ⟨str "f", 5, 0⟩, offset := 0,
        spoolKey := some ⟨str "a", 0, ⟨str "f", 5, 0⟩⟩, spoolFile := true }
      ⟨str "a", 0, ⟨str "f", 5, 0⟩⟩ [1, 2, 3] rfl (by decide) rfl rfl (by decide)
    have hq : s1.requestDescr = some
        { FileKey := ⟨str "f", 5, 0⟩, offset := 3,
          spoolKey := some ⟨str "a", 0, ⟨str "f", 5, 0⟩⟩, spoolFile := true } := by
      rw [q1]
      decide
    obtain ⟨s2, b1, b2, b3⟩ := sendLoop_at_end_of_file n s1 _ ⟨str "a", 0, ⟨str "f", 5, 0⟩⟩
      [1, 2, 3] hq rfl rfl (by rw [f1]; decide) (by rw [w1]; rfl) (by decide) (by decide)
      (by decide) (by decide)
    refine ⟨s2, ?_, ?_, b3⟩
    · rw [List.replicate_succ, e1, b1]
    · rw [b2, w1]
      rfl
  exact ⟨hall 2, hall⟩

end transfer

namespace transfer
open session

/-! ## The receiver and the transmitter on particular inputs -/

/-- C33 (evaluation of the code): the FILE command of a file of size 0 is
received at the offset 0.  The receiver creates the temporary file and goes to
`recvFileData`, though the transfer is complete: it waits for a data frame and
writes no GOT.  The command EOB that follows is answered with ERR "Invalid
received frame" and ends the receiver with an error; a FILE command that
follows makes the receiver remove the temporary file and start the new file.
In neither case is the file published or a GOT written.  The transmitter for
its part sends the FILE frame of a file of size 0 and no data frame. -/
theorem zero_length_file_is_not_received :
    let s0 : recvrSession :=
      { session := { NewSession ⟨[], [], [], [], fun _ => none⟩ with
          Link := some ⟨⟨1, 2, 3, 0, []⟩, str "pw"⟩ }
        request := none
        files := fun _ _ => none }
    let r0 := waitForFile (some (str "t1")) 7
      (.readFrames (some (.FileCmd (str "f") 0 100 0 0 [])) true) s0
    let rEOB := recvFileData (some (str "t2")) 8 true (.readFrames (some .EOBCmd) true) r0.s
    let rFILE := recvFileData (some (str "t2")) 8 true
      (.readFrames (some (.FileCmd (str "g") 1 100 0 0 [])) true) r0.s
    let out : spool.Files := fun d n =>
      if d = str "cur" ∧ n = str "Queue" then some (.queue [⟨str "a", 0, ⟨str "f", 0, 100⟩⟩])
      else if d = str "cur" ∧ n = str "a" then some (.data [])
      else none
    (r0.next = some .recvFileData ∧ r0.err = none ∧
      r0.s.request.map (fun d => d.xferComplete) = some true ∧
      r0.s.files (str "tmp") (str "t1") = some (.data []) ∧
      r0.s.session.writeFrames = []) ∧
    (rEOB.next = none ∧ rEOB.err = some (.weirdFrame .EOBCmd) ∧
      rEOB.s.session.urgentErr = [.ErrorCmd (str "Invalid received frame")] ∧
      rEOB.s.session.writeFrames = [] ∧
      rEOB.s.files (str "new") (str "t1") = none) ∧
    (rFILE.next = some .recvFileData ∧ rFILE.err = none ∧
      rFILE.s.request.map (fun d => d.FileKey) = some ⟨str "g", 1, 100⟩ ∧
      rFILE.s.session.writeFrames = [] ∧
      rFILE.s.files (str "tmp") (str "t1") = none ∧
      rFILE.s.files (str "new") (str "t1") = none) ∧
    (runXmitr (str "u1") (str "u2") 4 .startXmitr []
        (makeXmitrSession out (NewSession ⟨[], [], [], [], fun _ => none⟩))).map
      (fun r => (r.s.session.writeFrames, r.next)) =
      some ([some (.FileCmd (str "f") 0 100 0 0 []), none], some .xmitWaitForRequest) := by
  decide!

/-- C34 (evaluation of the code): the transmitter has written the FILE frame
of the file `f` (from the offset 0) when the peer sends the GET frame with the
payload `f 3 0 1`, which names `f` and asks for the offset 1.  `Read` delivers
the frame without its fields and the router passes it on to `XmitrFrames`; the
key made of it is in no queue entry, so `get` changes nothing and the loop of
`xmitSend` goes on.  The request stays the descriptor of `f` at the offset 0:
the file is sent to its end, as it is when no GET arrives, and no FILE frame of
`f` from the offset 1 is written, whether `f` is alone in `active` or the file
`g` is behind it. -/
theorem received_GET_of_current_file_is_ignored :
    let one : spool.Files := fun d n =>
      if d = str "cur" ∧ n = str "Queue" then some (.queue [⟨str "a", 0, ⟨str "f", 3, 0⟩⟩])
      else if d = str "cur" ∧ n = str "a" then some (.data [1, 2, 3])
      else none
    let two : spool.Files := fun d n =>
      if d = str "cur" ∧ n = str "Queue" then
        some (.queue [⟨str "a", 0, ⟨str "f", 3, 0⟩⟩, ⟨str "b", 0, ⟨str "g", 2, 0⟩⟩])
      else if d = str "cur" ∧ n = str "a" then some (.data [1, 2, 3])
      else if d = str "cur" ∧ n = str "b" then some (.data [4, 5])
      else none
    let s0 : Session := NewSession ⟨[], [], [], [], fun _ => none⟩
    let received : List frame.Frame :=
      ((frame.Read ([0x80, 8, 9] ++ str "f 3 0 1")).1.toOption.map
        (fun f => (router (.readFrames (some f) true) s0).s.XmitrFrames)).getD []
    let evs : List XmitrSelect := received.map (fun f => .xmitrFrames (some f) true)
    (frame.decodeGetCmd (str "f 3 0 1") = .ok (.GetCmd (str "f") 3 0 1) ∧
      makeKeyFromQueueingFrame (.GetCmd (str "f") 3 0 1) = some ⟨str "f", 3, 0⟩) ∧
    (received = [.GetCmd [] 0 frame.zeroTime 0] ∧
      makeKeyFromQueueingFrame (.GetCmd [] 0 frame.zeroTime 0) = some ⟨[], 0, frame.zeroTime⟩) ∧
    (runXmitr (str "u1") (str "u2") 9 .startXmitr (evs ++ [.default])
        (makeXmitrSession one s0)).map
      (fun r => (r.s.session.writeFrames, r.next, r.err)) =
      some ([some (.FileCmd (str "f") 3 0 0 0 []), some (.Data [1, 2, 3]), none],
        some .xmitWaitForRequest, none) ∧
    (runXmitr (str "u1") (str "u2") 9 .startXmitr (evs ++ [.default])
        (makeXmitrSession one s0)).map
      (fun r => (r.s.active, r.s.pending)) = some ([], 1) ∧
    (runXmitr (str "u1") (str "u2") 9 .startXmitr [.default]
        (makeXmitrSession one s0)).map
      (fun r => (r.s.session.writeFrames, r.next, r.err)) =
      some ([some (.FileCmd (str "f") 3 0 0 0 []), some (.Data [1, 2, 3]), none],
        some .xmitWaitForRequest, none) ∧
    (runXmitr (str "u1") (str "u2") 9 .startXmitr (evs ++ [.default, .default])
        (makeXmitrSession two s0)).map
      (fun r => (r.s.session.writeFrames, r.next, r.err)) =
      some ([some (.FileCmd (str "f") 3 0 0 0 []), some (.Data [1, 2, 3]), none,
          some (.FileCmd (str "g") 2 0 0 0 []), some (.Data [4, 5]), none],
        some .xmitWaitForRequest, none) := by
  intro one two s0 received evs
  refine ⟨?_, ?_, ?_, ?_, ?_, ?_⟩
  all_goals
    revert one two s0 received evs
    decide!

/-- Evaluation of `get` on a GET frame that carries its fields, put on
`XmitrFrames` as it is (`Read` delivers no such frame: `decodeFrame` returns
the zero value of `GetCmd`).  The transmitter has written the FILE frame of the
file `f` (from the offset 0) when the GET of `f` from the offset 1 is taken
from the channel.  With `f` the only file of the queue the new descriptor is
put into `active` and dropped again when the request is finished: the
transmitter waits, and has written no FILE frame from the offset 1.  With the
file `g` behind `f` in `active`, the request becomes the descriptor of `g`,
which is not open: the loop goes on, the read fails and the transmitter ends
with the error, `g` dropped and no further frame written. -/
theorem get_puts_the_new_descriptor_last :
    let one : spool.Files := fun d n =>
      if d = str "cur" ∧ n = str "Queue" then some (.queue [⟨str "a", 0, ⟨str "f", 3, 0⟩⟩])
      else if d = str "cur" ∧ n = str "a" then some (.data [1, 2, 3])
      else none
    let two : spool.Files := fun d n =>
      if d = str "cur" ∧ n = str "Queue" then
        some (.queue [⟨str "a", 0, ⟨str "f", 3, 0⟩⟩, ⟨str "b", 0, ⟨str "g", 2, 0⟩⟩])
      else if d = str "cur" ∧ n = str "a" then some (.data [1, 2, 3])
      else if d = str "cur" ∧ n = str "b" then some (.data [4, 5])
      else none
    (runXmitr (str "u1") (str "u2") 9 .startXmitr
        [.xmitrFrames (some (.GetCmd (str "f") 3 0 1)) true, .default, .default]
        (makeXmitrSession one (NewSession ⟨[], [], [], [], fun _ => none⟩))).map
      (fun r => (r.s.session.writeFrames, r.next, r.err)) =
      some ([some (.FileCmd (str "f") 3 0 0 0 [])], some .xmitWaitForRequest, none) ∧
    (runXmitr (str "u1") (str "u2") 9 .startXmitr
        [.xmitrFrames (some (.GetCmd (str "f") 3 0 1)) true, .default, .default]
        (makeXmitrSession one (NewSession ⟨[], [], [], [], fun _ => none⟩))).map
      (fun r => (r.s.active, r.s.pending)) = some ([], 1) ∧
    (runXmitr (str "u1") (str "u2") 9 .startXmitr
        [.xmitrFrames (some (.GetCmd (str "f") 3 0 1)) true, .default, .default]
        (makeXmitrSession two (NewSession ⟨[], [], [], [], fun _ => none⟩))).map
      (fun r => (r.s.session.writeFrames, r.next, r.err)) =
      some ([some (.FileCmd (str "f") 3 0 0 0 [])], some .xmitEnd, some .readError) ∧
    (runXmitr (str "u1") (str "u2") 9 .startXmitr
        [.xmitrFrames (some (.GetCmd (str "f") 3 0 1)) true, .default, .default]
        (makeXmitrSession two (NewSession ⟨[], [], [], [], fun _ => none⟩))).map
      (fun r => r.s.active) =
      some [xferDescrFromSpoolKey ⟨str "a", 0, ⟨str "f", 3, 0⟩⟩ 1] := by
  decide!

/-- C35 (evaluation of the code): the queue of the files `f` and `g` is
loaded: `pending` is 2, as many as there are pending files.  After GOT of `f`
twice `pending` is 0 while `g` is pending, and `xmitSendNextRequest` ends the
transmitter; after GOT of `f` three times `pending` is -1; and after SKIP then
GET of `f` both files are pending and `pending` is 1. -/
theorem pending_is_not_the_number_of_pending_files :
    let two : spool.Files := fun d n =>
      if d = str "cur" ∧ n = str "Queue" then
        some (.queue [⟨str "a", 0, ⟨str "f", 3, 0⟩⟩, ⟨str "b", 0, ⟨str "g", 2, 0⟩⟩])
      else if d = str "cur" ∧ n = str "a" then some (.data [1, 2, 3])
      else if d = str "cur" ∧ n = str "b" then some (.data [4, 5])
      else none
    let s1 := (startXmitr (str "u1")
      (makeXmitrSession two (NewSession ⟨[], [], [], [], fun _ => none⟩))).s
    (s1.pending = 2 ∧ pendingFiles s1 = 2) ∧
    (s1.queueingAll [.GotCmd (str "f") 3 0, .GotCmd (str "f") 3 0]).map
      (fun s => (s.pending, pendingFiles s, (s.lookup ⟨str "g", 2, 0⟩).map (fun e => e.status),
        (xmitSendNextRequest s).next)) =
      some (0, 1, some .queuePending, some .xmitEnd) ∧
    (s1.queueingAll [.GotCmd (str "f") 3 0, .GotCmd (str "f") 3 0, .GotCmd (str "f") 3 0]).map
      (fun s => (s.pending, pendingFiles s)) = some (-1, 1) ∧
    (s1.queueingAll [.SkipCmd (str "f") 3 0, .GetCmd (str "f") 3 0 0]).map
      (fun s => (s.pending, pendingFiles s)) = some (1, 2) := by
  decide!

/-- C36 (evaluation of the code): the files `f`, `g` and `h` are active and
the transmitter has written the FILE frame of `f` when the GOT of `f` arrives.
`got` takes the descriptor of `f` out of `active`, and `xmitFinishRequest`
then drops the head of what is left, the descriptor of `g`: when `xmitSend`
returns only the descriptor of `h` is active, though `g` is pending and no
GOT or SKIP named it.  The transmitter goes on with `h` and then waits: `g` is
not sent. -/
theorem GOT_of_current_file_drops_the_next_descriptor :
    let three : spool.Files := fun d n =>
      if d = str "cur" ∧ n = str "Queue" then
        some (.queue [⟨str "a", 0, ⟨str "f", 3, 0⟩⟩, ⟨str "b", 0, ⟨str "g", 2, 0⟩⟩,
          ⟨str "c", 0, ⟨str "h", 1, 0⟩⟩])
      else if d = str "cur" ∧ n = str "a" then some (.data [1, 2, 3])
      else if d = str "cur" ∧ n = str "b" then some (.data [4, 5])
      else if d = str "cur" ∧ n = str "c" then some (.data [6])
      else none
    (runXmitr (str "u1") (str "u2") 2 .startXmitr
        [.xmitrFrames (some (.GotCmd (str "f") 3 0)) true, .default, .default]
        (makeXmitrSession three (NewSession ⟨[], [], [], [], fun _ => none⟩))).map
      (fun r => (r.next, r.s.active)) =
      some (some .xmitSend,
        [xferDescrFromSpoolKey ⟨str "a", 0, ⟨str "f", 3, 0⟩⟩ 0,
          xferDescrFromSpoolKey ⟨str "b", 0, ⟨str "g", 2, 0⟩⟩ 0,
          xferDescrFromSpoolKey ⟨str "c", 0, ⟨str "h", 1, 0⟩⟩ 0]) ∧
    (runXmitr (str "u1") (str "u2") 3 .startXmitr
        [.xmitrFrames (some (.GotCmd (str "f") 3 0)) true, .default, .default]
        (makeXmitrSession three (NewSession ⟨[], [], [], [], fun _ => none⟩))).map
      (fun r => (r.next, r.err, r.s.active,
        (r.s.lookup ⟨str "g", 2, 0⟩).map (fun e => e.status))) =
      some (some .xmitSendNextRequest, none,
        [xferDescrFromSpoolKey ⟨str "c", 0, ⟨str "h", 1, 0⟩⟩ 0], some .queuePending) ∧
    (runXmitr (str "u1") (str "u2") 9 .startXmitr
        [.xmitrFrames (some (.GotCmd (str "f") 3 0)) true, .default, .default]
        (makeXmitrSession three (NewSession ⟨[], [], [], [], fun _ => none⟩))).map
      (fun r => (r.s.session.writeFrames, r.next, r.s.active, r.s.pending)) =
      some ([some (.FileCmd (str "f") 3 0 0 0 []), some (.FileCmd (str "h") 1 0 0 0 []),
          some (.Data [6]), none],
        some .xmitWaitForRequest, [], 2) := by
  decide!

/-- C37 (evaluation of the code): after GOT or SKIP `xmitWaitForRequest` goes
to `xmitSend` with the request of before.  With the one file `f` sent and the
SKIP of `f` received, `f` is skipped and `active` is empty when `xmitSend` is
entered, and `xmitSend` writes a second FILE frame of `f`, from the offset 3.
With the files `f` and `g` sent and the GOT of `f` received, `active` is empty
and `xmitSend` writes a second FILE frame of `g`, from the offset 2. -/
theorem FILE_frame_for_a_request_that_is_not_active :
    let one : spool.Files := fun d n =>
      if d = str "cur" ∧ n = str "Queue" then some (.queue [⟨str "a", 0, ⟨str "f", 3, 0⟩⟩])
      else if d = str "cur" ∧ n = str "a" then some (.data [1, 2, 3])
      else none
    let two : spool.Files := fun d n =>
      if d = str "cur" ∧ n = str "Queue" then
        some (.queue [⟨str "a", 0, ⟨str "f", 3, 0⟩⟩, ⟨str "b", 0, ⟨str "g", 2, 0⟩⟩])
      else if d = str "cur" ∧ n = str "a" then some (.data [1, 2, 3])
      else if d = str "cur" ∧ n = str "b" then some (.data [4, 5])
      else none
    (runXmitr (str "u1") (str "u2") 5 .startXmitr
        [.default, .xmitrFrames (some (.SkipCmd (str "f") 3 0)) true]
        (makeXmitrSession one (NewSession ⟨[], [], [], [], fun _ => none⟩))).map
      (fun r => (r.next, r.s.active, (r.s.lookup ⟨str "f", 3, 0⟩).map (fun e => e.status))) =
      some (some .xmitSend, [], some .queueSkipped) ∧
    (runXmitr (str "u1") (str "u2") 5 .startXmitr
        [.default, .xmitrFrames (some (.SkipCmd (str "f") 3 0)) true]
        (makeXmitrSession one (NewSession ⟨[], [], [], [], fun _ => none⟩))).map
      (fun r => r.s.session.writeFrames) =
      some [some (.FileCmd (str "f") 3 0 0 0 []), some (.Data [1, 2, 3]), none] ∧
    (runXmitr (str "u1") (str "u2") 6 .startXmitr
        [.default, .xmitrFrames (some (.SkipCmd (str "f") 3 0)) true]
        (makeXmitrSession one (NewSession ⟨[], [], [], [], fun _ => none⟩))).map
      (fun r => (r.s.session.writeFrames, r.next)) =
      some ([some (.FileCmd (str "f") 3 0 0 0 []), some (.Data [1, 2, 3]), none,
          some (.FileCmd (str "f") 3 0 3 0 []), none],
        some .xmitSendNextRequest) ∧
    (runXmitr (str "u1") (str "u2") 7 .startXmitr
        [.default, .default, .xmitrFrames (some (.GotCmd (str "f") 3 0)) true]
        (makeXmitrSession two (NewSession ⟨[], [], [], [], fun _ => none⟩))).map
      (fun r => (r.s.session.writeFrames, r.next, r.s.active)) =
      some ([some (.FileCmd (str "f") 3 0 0 0 []), some (.Data [1, 2, 3]), none,
          some (.FileCmd (str "g") 2 0 0 0 []), some (.Data [4, 5]), none],
        some .xmitSend, []) ∧
    (runXmitr (str "u1") (str "u2") 8 .startXmitr
        [.default, .default, .xmitrFrames (some (.GotCmd (str "f") 3 0)) true]
        (makeXmitrSession two (NewSession ⟨[], [], [], [], fun _ => none⟩))).map
      (fun r => (r.s.session.writeFrames, r.next)) =
      some ([some (.FileCmd (str "f") 3 0 0 0 []), some (.Data [1, 2, 3]), none,
          some (.FileCmd (str "g") 2 0 0 0 []), some (.Data [4, 5]), none,
          some (.FileCmd (str "g") 2 0 2 0 []), none],
        some .xmitSendNextRequest) := by
  decide!

end transfer

end Ginko
